import Mathlib

/-! delta3d audio manager: a shallow embedding

The development follows `src/delta3d/src/dtAudio/audiomanager.cpp` (the manager) and
`src/delta3d/src/audiomanager.cpp` (the `Sound` / `SoundObj` object, the `CLAMP` helper).

* Heap objects (`Sound*`) are natural-number identities into `AudioManager.sounds`;
  a null pointer is `none`.
* `std::queue` and `std::vector` are lists, front of the queue first.
* `std::map` is a function into `Option`; for the buffer map, where the code tells an
  absent key from a key holding a null pointer, the value is `Option (Option BufferData)`.
* OpenAL is an explicit state `OpenAL`; every error check that steers control flow
  consumes one answer of an error oracle, so results hold for any pattern of driver errors
  unless a theorem assumes otherwise.
* `float` values are the rationals extended by the two infinities and NaN: the code only
  compares and stores them.
-/

namespace Delta3D

/-! ## Floating point values, as far as comparison is concerned -/

/-- An IEEE value: NaN, an infinity, or a finite number. -/
inductive ALfloat where
  | nan
  | ninf
  | fin (q : ℚ)
  | pinf
deriving DecidableEq

/-- The C comparison `a < b`; every comparison with NaN is false. -/
def ALfloat.lt : ALfloat → ALfloat → Bool
  | .fin a, .fin b => decide (a < b)
  | .ninf, .fin _ => true
  | .ninf, .pinf => true
  | .fin _, .pinf => true
  | _, _ => false

/-- The helper `T MIN(T a, T b) { return (a<b)?a:b; }`. -/
def MIN (a b : ALfloat) : ALfloat := if a.lt b then a else b

/-- The helper `T MAX(T a, T b) { return (a>b)?a:b; }`. -/
def MAX (a b : ALfloat) : ALfloat := if b.lt a then a else b

/-- The helper `T CLAMP(T x, T l, T h) { return MAX(MIN(x,h),l); }`. -/
def CLAMP (x l h : ALfloat) : ALfloat := MAX (MIN x h) l

/-- The literal `0.000001f` of `Sound::SetPitch`: the single precision number nearest to
`10^-6`, which is `8796093 * 2^-43` (bit pattern `0x358637BD`) and lies below `10^-6`. -/
def pitchFloor : ℚ := 8796093 / 8796093022208

/-- A three component vector (`sgVec3` / `osg::Vec3`). -/
structure Vec3 where
  x : ALfloat
  y : ALfloat
  z : ALfloat
deriving DecidableEq

/-! ## Sound commands and the sound object -/

/-- The enumeration `Sound::Command`. -/
inductive Command where
  | NONE | LOAD | UNLOAD | PLAY | PAUSE | STOP | REWIND | LOOP | UNLOOP | QUEUE
  | GAIN | PITCH | POSITION | DIRECTION | VELOCITY | ABS | REL
  | MIN_DIST | MAX_DIST | ROL_FACT | MIN_GAIN | MAX_GAIN
deriving DecidableEq

/-- Numeric value of an enumerator (`NONE = 0L`, then counting up). -/
def Command.toNat : Command → Nat
  | .NONE => 0 | .LOAD => 1 | .UNLOAD => 2 | .PLAY => 3 | .PAUSE => 4 | .STOP => 5
  | .REWIND => 6 | .LOOP => 7 | .UNLOOP => 8 | .QUEUE => 9 | .GAIN => 10 | .PITCH => 11
  | .POSITION => 12 | .DIRECTION => 13 | .VELOCITY => 14 | .ABS => 15 | .REL => 16
  | .MIN_DIST => 17 | .MAX_DIST => 18 | .ROL_FACT => 19 | .MIN_GAIN => 20 | .MAX_GAIN => 21

/-- The macro `#define BIT(a) (1L<<a)`. -/
def BIT (a : Nat) : Nat := 2 ^ a

/-- Modelled from the spec: the declaration of the newer `dtAudio::Sound` is not part of the
sources, so the object is the `Sound` / `SoundObj` pair of `audiomanager.h` (file name, gain,
pitch, position, direction, velocity, command queue, buffer, source, state bits) extended by
what the manager reads and writes through accessors: the "has hardware voice" flag
(`IsInitialized` / `SetInitialized`) and the attenuation parameters. The three `hears` flags
record the `AddSender` / `RemoveSender` subscriptions of `dtCore::Base`. -/
structure Sound where
  mFilename : String
  mGain : ALfloat
  mPitch : ALfloat
  mPos : Vec3
  mDir : Vec3
  mVelo : Vec3
  mCommand : List Command
  mBuffer : Nat
  mSource : Nat
  mState : Nat
  mIsInitialized : Bool
  mMinDist : ALfloat
  mMaxDist : ALfloat
  mRolloff : ALfloat
  mMinGain : ALfloat
  mMaxGain : ALfloat
  /-- the manager has this sound as a sender (`AudioManager::AddSender(snd)`) -/
  heardByManager : Bool
  /-- this sound has the manager as a sender (`snd->AddSender(this)`) -/
  hearsManager : Bool
  /-- this sound has the system as a sender -/
  hearsSystem : Bool

/-- The constructors `Sound::Sound` and `SoundObj::SoundObj`: empty file name, gain and pitch
`1.0f`, direction `(0,1,0)`, no buffer, no source, state `BIT(STOP)`. -/
def Sound.new : Sound where
  mFilename := ""
  mGain := .fin 1
  mPitch := .fin 1
  mPos := ⟨.fin 0, .fin 0, .fin 0⟩
  mDir := ⟨.fin 0, .fin 1, .fin 0⟩
  mVelo := ⟨.fin 0, .fin 0, .fin 0⟩
  mCommand := []
  mBuffer := 0
  mSource := 0
  mState := BIT Command.STOP.toNat
  mIsInitialized := false
  mMinDist := .fin 1
  mMaxDist := .pinf
  mRolloff := .fin 1
  mMinGain := .fin 0
  mMaxGain := .fin 1
  heardByManager := false
  hearsManager := false
  hearsSystem := false

namespace Sound

/-- The accessor `GetGain`. -/
def GetGain (s : Sound) : ALfloat := s.mGain

/-- The accessor `GetPitch`. -/
def GetPitch (s : Sound) : ALfloat := s.mPitch

/-- The accessor `GetFilename`. -/
def GetFilename (s : Sound) : String := s.mFilename

/-- The function `SoundObj::SetState`: `mState |= BIT(flag)`. -/
def SetState (flag : Command) (s : Sound) : Sound :=
  { s with mState := s.mState ||| BIT flag.toNat }

/-- The function `SoundObj::ResetState`: `mState &= ~BIT(flag)` on a 32 bit word. -/
def ResetState (flag : Command) (s : Sound) : Sound :=
  { s with mState := s.mState &&& ((2 ^ 32 - 1) ^^^ BIT flag.toNat) }

/-- The test `mState & BIT(flag)`. -/
def GetState (flag : Command) (s : Sound) : Bool := s.mState.testBit flag.toNat

/-- The query `SoundObj::IsPlaying`. -/
def IsPlaying (s : Sound) : Bool := s.GetState .PLAY

/-- The query `SoundObj::IsPaused`. -/
def IsPaused (s : Sound) : Bool := s.GetState .PAUSE

/-- The query `SoundObj::IsStopped`. -/
def IsStopped (s : Sound) : Bool := s.GetState .STOP

/-- The query `SoundObj::IsLooping`. -/
def IsLooping (s : Sound) : Bool := s.GetState .LOOP

/-- The query `SoundObj::IsListenerRelative`: `mState & BIT(POSITION)`. -/
def IsListenerRelative (s : Sound) : Bool := s.GetState .POSITION

/-- The function `SoundObj::Command(const char*)` / `EnqueueCommand`: push on the FIFO. -/
def EnqueueCommand (c : Command) (s : Sound) : Sound :=
  { s with mCommand := s.mCommand ++ [c] }

/-- The function `SoundObj::Command()` / `DequeueCommand`: `NULL` on an empty FIFO, else the
front element, which is popped. -/
def DequeueCommand (s : Sound) : Option Command × Sound :=
  match s.mCommand with
  | [] => (none, s)
  | c :: rest => (some c, { s with mCommand := rest })

/-- The function `SoundObj::Clear`: file name, buffer, source and the command FIFO are reset
(the callbacks and the parent link are not part of the model); no other member is assigned. -/
def Clear (s : Sound) : Sound :=
  { s with mFilename := "", mBuffer := 0, mSource := 0, mCommand := [] }

/-- The message handler `SoundObj::OnMessage` for a message of the manager that names this
sound in `userData`. -/
def OnMessage (c : Command) (s : Sound) : Sound :=
  match c with
  | .PLAY => ((s.SetState .PLAY).ResetState .PAUSE).ResetState .STOP
  | .PAUSE => ((s.ResetState .PLAY).SetState .PAUSE).ResetState .STOP
  | .STOP => ((s.ResetState .PLAY).ResetState .PAUSE).SetState .STOP
  | .LOOP => s.SetState .LOOP
  | .UNLOOP => s.ResetState .LOOP
  | .REL => s.SetState .POSITION
  | .ABS => s.ResetState .POSITION
  | _ => s

end Sound

/-! ## The OpenAL driver -/

/-- The playback state OpenAL reports for a source (`AL_SOURCE_STATE`). -/
inductive SourceState where
  | INITIAL | PLAYING | PAUSED | STOPPED
deriving DecidableEq

/-- The scalar source attributes the manager writes with `alSourcef`. -/
inductive SourceParam where
  | GAIN | PITCH | REFERENCE_DISTANCE | MAX_DISTANCE | ROLLOFF_FACTOR | MIN_GAIN | MAX_GAIN
deriving DecidableEq

/-- The vector source attributes the manager writes with `alSource3f`. -/
inductive SourceVec where
  | POSITION | DIRECTION | VELOCITY
deriving DecidableEq

/-- What the outside world answers during one run: the audio driver's fixed facts and the
file collaborators. None of it is changed by the manager.
* `isSource` is `alIsSource`;
* `genSources n` are the names `alGenSources` writes for a request of `n` sources;
* `errors k` tells whether the `k`-th error check that steers control flow reports an error;
* `find` is `dtCore::FindFileInPathList` (empty string: not found);
* `loads` tells whether `alutLoadMemoryFromFile` returns data for a resolved file name, and
  `channels` how many channels that data has;
* `extensionPresent`, `procEAXSet`, `procEAXGet` answer the EAX queries of `ConfigEAX`. -/
structure Driver where
  isSource : Nat → Bool
  genSources : Nat → List Nat
  errors : Nat → Bool
  find : String → String
  loads : String → Bool
  channels : String → Nat
  extensionPresent : Bool
  procEAXSet : Option Nat
  procEAXGet : Option Nat

/-- The mutable state of the OpenAL context. -/
structure OpenAL where
  /-- valid buffer names (`alIsBuffer`) -/
  buffers : List Nat
  /-- the next name `alGenBuffers` hands out -/
  nextBuffer : Nat
  /-- the attribute `AL_CHANNELS` of a buffer -/
  bufferChannels : Nat → Nat
  sourceState : Nat → SourceState
  sourceBuffer : Nat → Nat
  sourceLooping : Nat → Bool
  sourceRelative : Nat → Bool
  sourceParam : Nat → SourceParam → ALfloat
  sourceVec : Nat → SourceVec → Vec3
  distanceModel : Nat
  /-- number of steering error checks made so far -/
  checks : Nat

namespace OpenAL

/-- One steering call of `CheckForError`: the answer of the oracle, and the advanced count. -/
def CheckForError (d : Driver) (al : OpenAL) : Bool × OpenAL :=
  (d.errors al.checks, { al with checks := al.checks + 1 })

/-- The query `alIsBuffer`. -/
def alIsBuffer (al : OpenAL) (b : Nat) : Bool := decide (b ∈ al.buffers)

/-- The call `alSourcePlay`: a valid source becomes PLAYING. -/
def alSourcePlay (d : Driver) (src : Nat) (al : OpenAL) : OpenAL :=
  if d.isSource src then
    { al with sourceState := Function.update al.sourceState src .PLAYING }
  else al

/-- The call `alSourcePause`: a PLAYING source becomes PAUSED, any other is left alone. -/
def alSourcePause (d : Driver) (src : Nat) (al : OpenAL) : OpenAL :=
  if d.isSource src && decide (al.sourceState src = .PLAYING) then
    { al with sourceState := Function.update al.sourceState src .PAUSED }
  else al

/-- The call `alSourceStop`: a PLAYING or PAUSED source becomes STOPPED; on an INITIAL or
STOPPED source it is a legal no-op. -/
def alSourceStop (d : Driver) (src : Nat) (al : OpenAL) : OpenAL :=
  if d.isSource src && decide (al.sourceState src ≠ .INITIAL) then
    { al with sourceState := Function.update al.sourceState src .STOPPED }
  else al

/-- The call `alSourceRewind`: a valid source becomes INITIAL. -/
def alSourceRewind (d : Driver) (src : Nat) (al : OpenAL) : OpenAL :=
  if d.isSource src then
    { al with sourceState := Function.update al.sourceState src .INITIAL }
  else al

/-- The call `alSourcei(src, AL_BUFFER, buf)` once it has succeeded. -/
def setBuffer (src buf : Nat) (al : OpenAL) : OpenAL :=
  { al with sourceBuffer := Function.update al.sourceBuffer src buf }

/-- The call `alSourcei(src, AL_LOOPING, flag)`. -/
def setLooping (d : Driver) (src : Nat) (flag : Bool) (al : OpenAL) : OpenAL :=
  if d.isSource src then
    { al with sourceLooping := Function.update al.sourceLooping src flag }
  else al

/-- The call `alSourcei(src, AL_SOURCE_RELATIVE, flag)`. -/
def setRelative (d : Driver) (src : Nat) (flag : Bool) (al : OpenAL) : OpenAL :=
  if d.isSource src then
    { al with sourceRelative := Function.update al.sourceRelative src flag }
  else al

/-- The call `alSourcef(src, param, value)`. -/
def setParam (d : Driver) (src : Nat) (p : SourceParam) (v : ALfloat) (al : OpenAL) : OpenAL :=
  if d.isSource src then
    { al with sourceParam :=
        Function.update al.sourceParam src (Function.update (al.sourceParam src) p v) }
  else al

/-- The call `alSource3f(src, param, x, y, z)`. -/
def setVec (d : Driver) (src : Nat) (p : SourceVec) (v : Vec3) (al : OpenAL) : OpenAL :=
  if d.isSource src then
    { al with sourceVec :=
        Function.update al.sourceVec src (Function.update (al.sourceVec src) p v) }
  else al

/-- The call `alGenBuffers(1, &buf)` once it has succeeded: a new valid name. -/
def alGenBuffers (al : OpenAL) : Nat × OpenAL :=
  (al.nextBuffer, { al with buffers := al.nextBuffer :: al.buffers,
                            nextBuffer := al.nextBuffer + 1 })

/-- The call `alBufferData` once it has succeeded, as far as the channel count goes. -/
def alBufferData (buf channels : Nat) (al : OpenAL) : OpenAL :=
  { al with bufferChannels := Function.update al.bufferChannels buf channels }

/-- The call `alDeleteBuffers(1, &buf)`; the driver refuses (and reports an error to the next
check) when the oracle says so, for instance while a source still plays the buffer. -/
def alDeleteBuffers (d : Driver) (buf : Nat) (al : OpenAL) : OpenAL :=
  if d.errors al.checks then { al with checks := al.checks + 1 }
  else { al with buffers := al.buffers.filter (fun b => b != buf), checks := al.checks + 1 }

/-- The hardware runs a PLAYING source to its end: it becomes STOPPED. -/
def finish (src : Nat) (al : OpenAL) : OpenAL :=
  if al.sourceState src = .PLAYING then
    { al with sourceState := Function.update al.sourceState src .STOPPED }
  else al

end OpenAL

/-! ## The manager -/

/-- The record `AudioManager::BufferData`; `use` is an `unsigned int`. -/
structure BufferData where
  buf : Nat
  file : String
  loop : Bool
  use : Nat
deriving DecidableEq

/-- Modelled from the spec: the enumeration `SoundState` of the newer `audiomanager.h` is not
part of the sources; its enumerators are the three states the pause snapshot records, in the
order in which `OnMessage` tests them. -/
inductive SoundState where
  | PAUSED | PLAYING | STOPPED
deriving DecidableEq

/-- The configuration record `AudioConfigData`. -/
structure AudioConfigData where
  numSources : Nat
  eax : Bool
  distancemodel : Nat

/-- The OpenAL constant `AL_NONE`. -/
def AL_NONE : Nat := 0

/-- The OpenAL constant `AL_INVERSE_DISTANCE`. -/
def AL_INVERSE_DISTANCE : Nat := 0xD001

/-- The OpenAL constant `AL_INVERSE_DISTANCE_CLAMPED`. -/
def AL_INVERSE_DISTANCE_CLAMPED : Nat := 0xD002

/-- The data members of `AudioManager`, the `Sound` objects it points to, and the OpenAL
context it drives. -/
structure AudioManager where
  al : OpenAL
  /-- the `Sound` objects, by identity -/
  sounds : Nat → Sound
  /-- identity of the object the next `new Sound()` creates -/
  nextSound : Nat
  mEAXSet : Option Nat
  mEAXGet : Option Nat
  mNumSources : Nat
  /-- the array `mSource`, `none` for `NULL` -/
  mSource : Option (List Nat)
  mSourceMap : Nat → Option Nat
  mAvailable : List Nat
  mPlayQueue : List Nat
  mPauseQueue : List Nat
  mStopQueue : List Nat
  mRewindQueue : List Nat
  mActiveList : List Nat
  mBufferMap : String → Option (Option BufferData)
  mSoundCommand : List Nat
  mSoundRecycle : List Nat
  mSoundList : List Nat
  mSoundStateMap : Nat → Option SoundState

namespace AudioManager

/-- The state the constructor `AudioManager::AudioManager` leaves: no source array, every
container empty, no `Sound` object created yet. -/
def init (al : OpenAL) : AudioManager where
  al := al
  sounds := fun _ => Sound.new
  nextSound := 0
  mEAXSet := none
  mEAXGet := none
  mNumSources := 0
  mSource := none
  mSourceMap := fun _ => none
  mAvailable := []
  mPlayQueue := []
  mPauseQueue := []
  mStopQueue := []
  mRewindQueue := []
  mActiveList := []
  mBufferMap := fun _ => none
  mSoundCommand := []
  mSoundRecycle := []
  mSoundList := []
  mSoundStateMap := fun _ => none

/-- Apply a member function of `Sound` to the object `h`. -/
def setSound (h : Nat) (f : Sound → Sound) (st : AudioManager) : AudioManager :=
  { st with sounds := Function.update st.sounds h (f (st.sounds h)) }

/-- One steering `CheckForError` call. -/
def check (d : Driver) (st : AudioManager) : Bool × AudioManager :=
  (d.errors st.al.checks, { st with al := (st.al.CheckForError d).2 })

/-- The call `SendMessage(Sound::kCommand[c], snd)` of the manager: it reaches the sound
objects that added the manager as a sender, and `SoundObj::OnMessage` of every object other
than `snd` ignores it. -/
def SendMessage (c : Command) (h : Nat) (st : AudioManager) : AudioManager :=
  if (st.sounds h).hearsManager then st.setSound h (Sound.OnMessage c) else st

/-- The sound-command branch of `AudioManager::OnMessage` (lines 405-498): the command is
appended to the sound's own FIFO and the sound to the manager's queue. `NONE` and `QUEUE` are
not among the tested names. -/
def OnMessage (c : Command) (h : Nat) (st : AudioManager) : AudioManager :=
  if c = .NONE ∨ c = .QUEUE then st
  else { st.setSound h (Sound.EnqueueCommand c) with mSoundCommand := st.mSoundCommand ++ [h] }

/-- The function `AudioManager::SetupSource` (lines 2019-2041). -/
def SetupSource (h : Nat) (st : AudioManager) : Bool × AudioManager :=
  match st.mAvailable with
  | src :: rest =>
    (true, { st with
      mAvailable := rest
      sounds := Function.update st.sounds h
        { st.sounds h with mSource := src, mIsInitialized := true }
      mSourceMap := Function.update st.mSourceMap src (some h) })
  | [] => (false, st)

/-- The function `AudioManager::FreeSource` (lines 2044-2071); `none` is the null pointer. -/
def FreeSource (d : Driver) (snd : Option Nat) (st : AudioManager) : AudioManager :=
  match snd with
  | none => st
  | some h =>
    if (st.sounds h).mIsInitialized = false then st
    else
      let src := (st.sounds h).mSource
      let st1 := st.setSound h (fun s => { s with mIsInitialized := false })
      if d.isSource src = false then st1
      else
        { st1 with
          al := OpenAL.setBuffer src 0 (OpenAL.setLooping d src false
                  (OpenAL.alSourceRewind d src (OpenAL.alSourceStop d src st1.al)))
          mSourceMap := Function.update st1.mSourceMap src none
          mAvailable := st1.mAvailable ++ [src] }

/-- The expression `mBufferMap[file]` used as an rvalue: an absent key is inserted with a
null pointer. -/
def touchBuffer (file : String) (st : AudioManager) : AudioManager :=
  match st.mBufferMap file with
  | none => { st with mBufferMap := Function.update st.mBufferMap file (some none) }
  | some _ => st

/-- The pointer `mBufferMap[file]` reads once the key is there (`none`: null). -/
def bufferAt (file : String) (st : AudioManager) : Option BufferData :=
  (st.mBufferMap file).join

/-- The function `AudioManager::LoadFile` (lines 599-712), ALUT 1.x branch. -/
def LoadFile (d : Driver) (file : String) (st : AudioManager) : Bool × AudioManager :=
  if file = "" then (false, st)
  else
    let filename := d.find file
    if filename = "" then (false, st)
    else
      let st1 := st.touchBuffer file
      match st1.bufferAt file with
      | some _ => (false, st1)
      | none =>
        -- alGenBuffers(1L, &bd->buf), checked
        let (genErr, st2) := st1.check d
        if genErr then (false, st2)
        else
          let (buf, al3) := st2.al.alGenBuffers
          let st3 := { st2 with al := al3 }
          if d.loads filename = false then
            (false, { st3 with al := st3.al.alDeleteBuffers d buf })
          else
            -- alBufferData(bd->buf, ...), checked
            let (upErr, st4) := st3.check d
            if upErr then (false, { st4 with al := st4.al.alDeleteBuffers d buf })
            else
              (true, { st4 with
                al := st4.al.alBufferData buf (d.channels filename)
                mBufferMap := Function.update st4.mBufferMap file
                  (some (some { buf := buf, file := file, loop := false, use := 0 })) })

/-- The function `AudioManager::UnloadFile` (lines 715-752). -/
def UnloadFile (d : Driver) (file : String) (st : AudioManager) : Bool × AudioManager :=
  if file = "" then (false, st)
  else
    match st.mBufferMap file with
    | none => (false, st)
    | some none => (false, { st with mBufferMap := Function.update st.mBufferMap file none })
    | some (some bd) =>
      if bd.use ≠ 0 then (false, st)
      else
        (true, { st with
          al := st.al.alDeleteBuffers d bd.buf
          mBufferMap := Function.update st.mBufferMap file none })

/-- The function `AudioManager::LoadSound` (lines 1362-1382); `bd->use++` on an
`unsigned int`. -/
def LoadSound (d : Driver) (h : Nat) (st : AudioManager) : AudioManager :=
  let file := (st.sounds h).GetFilename
  let st1 := (st.LoadFile d file).2
  let st2 := st1.touchBuffer file
  match st2.bufferAt file with
  | none => st2
  | some bd =>
    { st2 with
      mBufferMap := Function.update st2.mBufferMap file
        (some (some { bd with use := (bd.use + 1) % 2 ^ 32 }))
      sounds := Function.update st2.sounds h { st2.sounds h with mBuffer := bd.buf } }

/-- The function `AudioManager::UnloadSound` (lines 1385-1437); `bd->use--` on an
`unsigned int`. -/
def UnloadSound (d : Driver) (h : Nat) (st : AudioManager) : AudioManager :=
  let file := (st.sounds h).GetFilename
  let st1 := st.setSound h (fun s => { s with mBuffer := 0 })
  let st2 := st1.touchBuffer file
  match st2.bufferAt file with
  | none => st2
  | some bd =>
    let use := (bd.use + (2 ^ 32 - 1)) % 2 ^ 32
    let st3 := { st2 with
      mBufferMap := Function.update st2.mBufferMap file (some (some { bd with use := use })) }
    let st4 :=
      if use = 0 then
        if d.isSource (st3.sounds h).mSource && (st3.sounds h).mIsInitialized then
          st3.FreeSource d (some h)
        else st3
      else st3
    (st4.UnloadFile d file).2

/-- One of the five blocks at the end of `PlaySound` (lines 1562-1600): when the flag is
pending or the source is new, the flag is cleared and the value is written to the source. -/
def applyPending (d : Driver) (flag : Command) (p : SourceParam) (value : Sound → ALfloat)
    (h src : Nat) (isNew : Bool) (st : AudioManager) : AudioManager :=
  if (st.sounds h).GetState flag || isNew then
    let st1 := st.setSound h (Sound.ResetState flag)
    { st1 with al := st1.al.setParam d src p (value (st1.sounds h)) }
  else st

/-- Lines 1514-1560 of `PlaySound`: looping flag, relative flag (with position and direction
for a listener-relative sound), gain and pitch of the sound are written to the source. -/
def writeAttributes (d : Driver) (src : Nat) (s : Sound) (al : OpenAL) : OpenAL :=
  let al1 := al.setLooping d src s.IsLooping
  let al2 :=
    if s.IsListenerRelative then
      OpenAL.setVec d src .DIRECTION s.mDir
        (OpenAL.setVec d src .POSITION s.mPos (al1.setRelative d src true))
    else al1.setRelative d src false
  OpenAL.setParam d src .PITCH s.mPitch (al2.setParam d src .GAIN s.mGain)

/-- Lines 1514-1607 of `PlaySound`: the attributes of the sound are written to the source
and, for a new source, the sound subscribes to the manager and the system and the source is
put on the play queue. -/
def playSettings (d : Driver) (h src : Nat) (isNew : Bool) (st : AudioManager) :
    AudioManager :=
  let st1 := { st with al := writeAttributes d src (st.sounds h) st.al }
  let st2 := applyPending d .MIN_DIST .REFERENCE_DISTANCE Sound.mMinDist h src isNew st1
  let st3 := applyPending d .MAX_DIST .MAX_DISTANCE Sound.mMaxDist h src isNew st2
  let st4 := applyPending d .ROL_FACT .ROLLOFF_FACTOR Sound.mRolloff h src isNew st3
  let st5 := applyPending d .MIN_GAIN .MIN_GAIN Sound.mMinGain h src isNew st4
  let st6 := applyPending d .MAX_GAIN .MAX_GAIN Sound.mMaxGain h src isNew st5
  if isNew then
    { st6.setSound h (fun s => { s with hearsManager := true, hearsSystem := true }) with
      mPlayQueue := st6.mPlayQueue ++ [(st6.sounds h).mSource] }
  else st6

/-- Lines 1507-1512 of `PlaySound`: the buffer is bound to the source; on an error the
function returns, otherwise the settings follow. -/
def playBind (d : Driver) (h src : Nat) (isNew : Bool) (st : AudioManager) : AudioManager :=
  let (bindErr, st1) := st.check d
  if bindErr then st1
  else playSettings d h src isNew { st1 with al := st1.al.setBuffer src (st1.sounds h).mBuffer }

/-- The function `AudioManager::PlaySound` (lines 1442-1608). -/
def PlaySound (d : Driver) (h : Nat) (st : AudioManager) : AudioManager :=
  if st.al.alIsBuffer (st.sounds h).mBuffer = false then st
  else if (st.sounds h).mIsInitialized = false then
    match st.SetupSource h with
    | (false, _) => st
    | (true, st1) => playBind d h (st1.sounds h).mSource true st1
  else
    let src := (st.sounds h).mSource
    let (stateErr, st1) := st.check d
    if stateErr then st1
    else
      match st1.al.sourceState src with
      | .PAUSED => { st1 with mPauseQueue := st1.mPauseQueue ++ [src] }
      | .PLAYING => st1
      | _ => playBind d h src false st1

/-- The function `AudioManager::PauseSound` (lines 1611-1622). -/
def PauseSound (h : Nat) (st : AudioManager) : AudioManager :=
  if (st.sounds h).mIsInitialized = false then st
  else { st with mPauseQueue := st.mPauseQueue ++ [(st.sounds h).mSource] }

/-- The guard `alIsSource(src) == AL_FALSE || !snd->IsInitialized()` shared by the
per-sound operations. -/
def notPlaying (d : Driver) (h : Nat) (st : AudioManager) : Bool :=
  d.isSource (st.sounds h).mSource = false || (st.sounds h).mIsInitialized = false

/-- The function `AudioManager::StopSound` (lines 1625-1637). -/
def StopSound (d : Driver) (h : Nat) (st : AudioManager) : AudioManager :=
  if st.notPlaying d h then st
  else { st with mStopQueue := st.mStopQueue ++ [(st.sounds h).mSource] }

/-- The function `AudioManager::RewindSound` (lines 1640-1652). -/
def RewindSound (d : Driver) (h : Nat) (st : AudioManager) : AudioManager :=
  if st.notPlaying d h then st
  else { st with mRewindQueue := st.mRewindQueue ++ [(st.sounds h).mSource] }

/-- The shape shared by the operations that write one attribute to a playing source: the
write, the steering error check, and on success the message to the sound. -/
def writeChecked (d : Driver) (h : Nat) (write : OpenAL → OpenAL) (msg : Option Command)
    (st : AudioManager) : AudioManager :=
  let st1 := { st with al := write st.al }
  let (err, st2) := st1.check d
  if err then st2
  else
    match msg with
    | some c => st2.SendMessage c h
    | none => st2

/-- The function `AudioManager::SetLoop` (lines 1655-1675). -/
def SetLoop (d : Driver) (h : Nat) (st : AudioManager) : AudioManager :=
  if st.notPlaying d h then st.setSound h (Sound.SetState .LOOP)
  else writeChecked d h (OpenAL.setLooping d (st.sounds h).mSource true) (some .LOOP) st

/-- The function `AudioManager::ResetLoop` (lines 1678-1698). -/
def ResetLoop (d : Driver) (h : Nat) (st : AudioManager) : AudioManager :=
  if st.notPlaying d h then st.setSound h (Sound.ResetState .LOOP)
  else writeChecked d h (OpenAL.setLooping d (st.sounds h).mSource false) (some .UNLOOP) st

/-- The function `AudioManager::SetRelative` (lines 1701-1757). -/
def SetRelative (d : Driver) (h : Nat) (st : AudioManager) : AudioManager :=
  let flagOnly := st.setSound h (fun s => (s.SetState .REL).ResetState .ABS)
  if (st.sounds h).IsListenerRelative then st
  else if st.al.alIsBuffer (st.sounds h).mBuffer = false then flagOnly
  else if st.al.bufferChannels (st.sounds h).mBuffer = 2 then flagOnly
  else if st.notPlaying d h then flagOnly
  else writeChecked d h (OpenAL.setRelative d (st.sounds h).mSource true) (some .REL) st

/-- The function `AudioManager::SetAbsolute` (lines 1760-1782). -/
def SetAbsolute (d : Driver) (h : Nat) (st : AudioManager) : AudioManager :=
  if st.notPlaying d h then st.setSound h (fun s => (s.SetState .ABS).ResetState .REL)
  else writeChecked d h (OpenAL.setRelative d (st.sounds h).mSource false) (some .ABS) st

/-- The function `AudioManager::SetGain` (lines 1785-1803). -/
def SetGain (d : Driver) (h : Nat) (st : AudioManager) : AudioManager :=
  if st.notPlaying d h then st
  else writeChecked d h
    (OpenAL.setParam d (st.sounds h).mSource .GAIN (st.sounds h).GetGain) (some .GAIN) st

/-- The function `AudioManager::SetPitch` (lines 1806-1824). -/
def SetPitch (d : Driver) (h : Nat) (st : AudioManager) : AudioManager :=
  if st.notPlaying d h then st
  else writeChecked d h
    (OpenAL.setParam d (st.sounds h).mSource .PITCH (st.sounds h).GetPitch) (some .PITCH) st

/-- The function `AudioManager::SetPosition` (lines 1827-1848). -/
def SetPosition (d : Driver) (h : Nat) (st : AudioManager) : AudioManager :=
  if st.notPlaying d h then st
  else writeChecked d h
    (OpenAL.setVec d (st.sounds h).mSource .POSITION (st.sounds h).mPos) (some .POSITION) st

/-- The function `AudioManager::SetDirection` (lines 1851-1871). -/
def SetDirection (d : Driver) (h : Nat) (st : AudioManager) : AudioManager :=
  if st.notPlaying d h then st
  else writeChecked d h
    (OpenAL.setVec d (st.sounds h).mSource .DIRECTION (st.sounds h).mDir) (some .DIRECTION) st

/-- The function `AudioManager::SetVelocity` (lines 1874-1895). -/
def SetVelocity (d : Driver) (h : Nat) (st : AudioManager) : AudioManager :=
  if st.notPlaying d h then st
  else writeChecked d h
    (OpenAL.setVec d (st.sounds h).mSource .VELOCITY (st.sounds h).mVelo) (some .VELOCITY) st

/-- The function `AudioManager::SetReferenceDistance` (lines 1898-1920). -/
def SetReferenceDistance (d : Driver) (h : Nat) (st : AudioManager) : AudioManager :=
  if st.notPlaying d h then st.setSound h (Sound.SetState .MIN_DIST)
  else writeChecked d h
    (OpenAL.setParam d (st.sounds h).mSource .REFERENCE_DISTANCE (st.sounds h).mMinDist) none st

/-- The function `AudioManager::SetMaximumDistance` (lines 1923-1946); the flag set for a
sound that is not playing is `Sound::MIN_DIST`, as in the source. -/
def SetMaximumDistance (d : Driver) (h : Nat) (st : AudioManager) : AudioManager :=
  if st.notPlaying d h then st.setSound h (Sound.SetState .MIN_DIST)
  else writeChecked d h
    (OpenAL.setParam d (st.sounds h).mSource .MAX_DISTANCE (st.sounds h).mMaxDist) none st

/-- The function `AudioManager::SetRolloff` (lines 1949-1966). -/
def SetRolloff (d : Driver) (h : Nat) (st : AudioManager) : AudioManager :=
  if st.notPlaying d h then st.setSound h (Sound.SetState .ROL_FACT)
  else writeChecked d h
    (OpenAL.setParam d (st.sounds h).mSource .ROLLOFF_FACTOR (st.sounds h).mRolloff) none st

/-- The comparison `a <= b` of two float values. -/
def fle (a b : ALfloat) : Bool := a.lt b || (decide (a = b) && decide (a ≠ .nan))

/-- The function `AudioManager::SetMinimumGain` (lines 1969-1991). -/
def SetMinimumGain (d : Driver) (h : Nat) (st : AudioManager) : AudioManager :=
  if st.notPlaying d h then st.setSound h (Sound.SetState .MIN_GAIN)
  else if fle (st.sounds h).mMinGain (st.sounds h).mMaxGain then
    writeChecked d h
      (OpenAL.setParam d (st.sounds h).mSource .MIN_GAIN (st.sounds h).mMinGain) none st
  else st

/-- The function `AudioManager::SetMaximumGain` (lines 1994-2016). -/
def SetMaximumGain (d : Driver) (h : Nat) (st : AudioManager) : AudioManager :=
  if st.notPlaying d h then st.setSound h (Sound.SetState .MAX_GAIN)
  else if fle (st.sounds h).mMinGain (st.sounds h).mMaxGain then
    writeChecked d h
      (OpenAL.setParam d (st.sounds h).mSource .MAX_GAIN (st.sounds h).mMaxGain) none st
  else st

/-- The body of the loop of `AudioManager::PreFrame` for one entry of the command queue
(lines 773-913): the oldest command of the sound is taken and its handler is called; a null
command, `NONE` and `QUEUE` match no test. -/
def dispatch (d : Driver) (h : Nat) (st : AudioManager) : AudioManager :=
  let cmd := (st.sounds h).DequeueCommand.1
  let st1 := st.setSound h (fun s => s.DequeueCommand.2)
  match cmd with
  | some .POSITION => st1.SetPosition d h
  | some .DIRECTION => st1.SetDirection d h
  | some .VELOCITY => st1.SetVelocity d h
  | some .PLAY => st1.PlaySound d h
  | some .STOP => st1.StopSound d h
  | some .PAUSE => st1.PauseSound h
  | some .LOAD => st1.LoadSound d h
  | some .UNLOAD => st1.UnloadSound d h
  | some .LOOP => st1.SetLoop d h
  | some .UNLOOP => st1.ResetLoop d h
  | some .GAIN => st1.SetGain d h
  | some .PITCH => st1.SetPitch d h
  | some .REWIND => st1.RewindSound d h
  | some .REL => st1.SetRelative d h
  | some .ABS => st1.SetAbsolute d h
  | some .MIN_DIST => st1.SetReferenceDistance d h
  | some .MAX_DIST => st1.SetMaximumDistance d h
  | some .MIN_GAIN => st1.SetMinimumGain d h
  | some .MAX_GAIN => st1.SetMaximumGain d h
  | some .ROL_FACT => st1.SetRolloff d h
  | _ => st1

/-- The loop `while (mSoundCommand.size())` of `PreFrame`, over the entries still queued. -/
def preFrameLoop (d : Driver) : List Nat → AudioManager → AudioManager
  | [], st => st
  | h :: rest, st => preFrameLoop d rest (dispatch d h { st with mSoundCommand := rest })

/-- The function `AudioManager::PreFrame` (lines 758-916). -/
def PreFrame (d : Driver) (st : AudioManager) : AudioManager :=
  preFrameLoop d st.mSoundCommand st

/-- The optional notification `snd = mSourceMap[src]; if (snd.get()) SendMessage(c, snd)`. -/
def notify (c : Command) (src : Nat) (st : AudioManager) : AudioManager :=
  match st.mSourceMap src with
  | some h => st.SendMessage c h
  | none => st

/-- The first loop of `Frame` (lines 929-937): every source of the stop queue is stopped. -/
def frameStops (d : Driver) (st : AudioManager) : AudioManager :=
  { st with
    al := st.mStopQueue.foldl (fun al src => OpenAL.alSourceStop d src al) st.al
    mStopQueue := [] }

/-- The second loop of `Frame` (lines 942-950): the play queue moves to the active list. -/
def framePlays (st : AudioManager) : AudioManager :=
  { st with mActiveList := st.mActiveList ++ st.mPlayQueue, mPlayQueue := [] }

/-- The scan of the active list in `Frame` (lines 955-1002), from position `i` on; `stk` is
the stack of positions saved for removal, top first. -/
def frameScan (d : Driver) : List Nat → Nat → List Nat → AudioManager → List Nat × AudioManager
  | [], _, stk, st => (stk, st)
  | src :: rest, i, stk, st =>
    let (err, st1) := st.check d
    if err then frameScan d rest (i + 1) stk st1
    else
      match st1.al.sourceState src with
      | .INITIAL =>
        frameScan d rest (i + 1) stk
          (notify .PLAY src { st1 with al := st1.al.alSourcePlay d src })
      | .STOPPED => frameScan d rest (i + 1) (i :: stk) (notify .STOP src st1)
      | _ => frameScan d rest (i + 1) stk st1

/-- One request of the pause queue in `Frame` (lines 1008-1047). -/
def framePauseOne (d : Driver) (src : Nat) (st : AudioManager) : AudioManager :=
  let (err, st1) := st.check d
  if err then st1
  else
    match st1.al.sourceState src with
    | .PLAYING => notify .PAUSE src { st1 with al := st1.al.alSourcePause d src }
    | .PAUSED => notify .PLAY src { st1 with al := st1.al.alSourcePlay d src }
    | _ => st1

/-- The pause loop of `Frame` (lines 1006-1048). -/
def framePauses (d : Driver) (st : AudioManager) : AudioManager :=
  st.mPauseQueue.foldl (fun acc src => framePauseOne d src acc) { st with mPauseQueue := [] }

/-- The rewind loop of `Frame` (lines 1052-1067). -/
def frameRewinds (d : Driver) (st : AudioManager) : AudioManager :=
  st.mRewindQueue.foldl
    (fun acc src => notify .REWIND src { acc with al := acc.al.alSourceRewind d src })
    { st with mRewindQueue := [] }

/-- The last loop of `Frame` (lines 1072-1080): the saved positions are popped, the source at
each goes to the stop queue and is erased from the active list. -/
def frameErase : List Nat → AudioManager → AudioManager
  | [], st => st
  | i :: stk, st =>
    frameErase stk { st with
      mStopQueue := st.mStopQueue ++ (st.mActiveList.get? i).toList
      mActiveList := st.mActiveList.eraseIdx i }

/-- The function `AudioManager::Frame` (lines 919-1081). -/
def Frame (d : Driver) (st : AudioManager) : AudioManager :=
  let st1 := framePlays (frameStops d st)
  let (stk, st2) := frameScan d st1.mActiveList 0 [] st1
  frameErase stk (frameRewinds d (framePauses d st2))

/-- The body of the loop of `PostFrame` for one source (lines 1094-1104). -/
def postFrameOne (d : Driver) (src : Nat) (st : AudioManager) : AudioManager :=
  match st.mSourceMap src with
  | some h =>
    FreeSource d (some h)
      (st.setSound h (fun s => { s with hearsManager := false, hearsSystem := false }))
  | none => st

/-- The function `AudioManager::PostFrame` (lines 1084-1107). -/
def PostFrame (d : Driver) (st : AudioManager) : AudioManager :=
  st.mStopQueue.foldl (fun acc src => postFrameOne d src acc) { st with mStopQueue := [] }

/-- The function `AudioManager::NewSound` (lines 504-536): the handle and the new state. -/
def NewSound (st : AudioManager) : Nat × AudioManager :=
  match st.mSoundRecycle with
  | h :: rest =>
    (h, { st with
      sounds := Function.update st.sounds h { (st.sounds h).Clear with heardByManager := true }
      mSoundRecycle := rest
      mSoundList := st.mSoundList ++ [h] })
  | [] =>
    (st.nextSound, { st with
      sounds := Function.update st.sounds st.nextSound { Sound.new with heardByManager := true }
      nextSound := st.nextSound + 1
      mSoundList := st.mSoundList ++ [st.nextSound] })

/-- The function `AudioManager::FreeSound` (lines 539-574); `none` is the null pointer. -/
def FreeSound (d : Driver) (sound : Option Nat) (st : AudioManager) : AudioManager :=
  match sound with
  | none => st
  | some h =>
    let st1 := { st with mSoundList := st.mSoundList.erase h }
    let st2 := st1.setSound h
      (fun s => { s with hearsManager := false, hearsSystem := false, heardByManager := false })
    let st3 := (st2.FreeSource d (some h)).UnloadSound d h
    { st3.setSound h Sound.Clear with mSoundRecycle := st3.mSoundRecycle ++ [h] }

/-- The function `AudioManager::Configured` (lines 1248-1251). -/
def Configured (st : AudioManager) : Bool := st.mSource.isSome

/-- The loop of `ConfigSources` (lines 1281-1289): sources are pushed on the available queue
until one is not a valid source. -/
def pushSources (d : Driver) : List Nat → AudioManager → Bool × AudioManager
  | [], st => (true, st)
  | src :: rest, st =>
    if d.isSource src = false then (false, st)
    else pushSources d rest { st with mAvailable := st.mAvailable ++ [src] }

/-- The function `AudioManager::ConfigSources` (lines 1254-1292). -/
def ConfigSources (d : Driver) (num : Nat) (st : AudioManager) : Bool × AudioManager :=
  if num = 0 then (false, st)
  else
    let st1 := { st with mNumSources := num }
    -- alGenSources(mNumSources, mSource), checked
    let (genErr, st2) := st1.check d
    if genErr then (false, { st2 with mSource := none })
    else pushSources d (d.genSources num) { st2 with mSource := some (d.genSources num) }

/-- The function `AudioManager::ConfigEAX` (lines 1297-1357). -/
def ConfigEAX (d : Driver) (eax : Bool) (st : AudioManager) : Bool × AudioManager :=
  if eax = false then (false, st)
  else if d.extensionPresent = false then (false, st)
  else
    let st1 := { st with mEAXSet := d.procEAXSet }
    if st1.mEAXSet = none then (false, st1)
    else
      let st2 := { st1 with mEAXGet := d.procEAXGet }
      if st2.mEAXGet = none then (false, { st2 with mEAXSet := none })
      else (true, st2)

/-- The `switch` on `data.distancemodel` in `Config` (lines 282-296). -/
def setDistanceModel (data : AudioConfigData) (st : AudioManager) : AudioManager :=
  let model :=
    if data.distancemodel = AL_NONE then AL_NONE
    else if data.distancemodel = AL_INVERSE_DISTANCE_CLAMPED then AL_INVERSE_DISTANCE_CLAMPED
    else AL_INVERSE_DISTANCE
  { st with al := { st.al with distanceModel := model } }

/-- The function `AudioManager::Config` (lines 272-311). -/
def Config (d : Driver) (data : AudioConfigData) (st : AudioManager) : AudioManager :=
  if st.mSource.isSome then st
  else
    match (st.setDistanceModel data).ConfigSources d data.numSources with
    | (false, st2) => st2
    | (true, st2) => (st2.ConfigEAX d data.eax).2

/-- The snapshot of one sound at PAUSE_START (lines 362-377): `insert` keeps an entry that
is already there. -/
def pauseStartOne (h : Nat) (st : AudioManager) : AudioManager :=
  let s := st.sounds h
  let entry : Option SoundState :=
    if s.IsPaused then some .PAUSED
    else if s.IsPlaying then some .PLAYING
    else if s.IsStopped then some .STOPPED
    else none
  let st1 :=
    match st.mSoundStateMap h, entry with
    | none, some e => { st with mSoundStateMap := Function.update st.mSoundStateMap h (some e) }
    | _, _ => st
  st1.PauseSound h

/-- The expression `mSoundStateMap[sob]` used as an rvalue: a sound without an entry gets a
value-initialised one, the first enumerator. -/
def touchState (h : Nat) (st : AudioManager) : AudioManager :=
  match st.mSoundStateMap h with
  | none => { st with mSoundStateMap := Function.update st.mSoundStateMap h (some .PAUSED) }
  | some _ => st

/-- The restore of one sound at PAUSE_END (lines 386-401). -/
def pauseEndOne (d : Driver) (h : Nat) (st : AudioManager) : AudioManager :=
  let st1 := st.touchState h
  match st1.mSoundStateMap h with
  | some .PAUSED => st1.PauseSound h
  | some .PLAYING => st1.PlaySound d h
  | some .STOPPED => st1.StopSound d h
  | none => st1

/-- The messages of `dtCore::System` that `AudioManager::OnMessage` tests for. -/
inductive SystemMessage where
  | PRE_FRAME | FRAME | POST_FRAME | PAUSE | PAUSE_START | PAUSE_END
deriving DecidableEq

/-- The system-message branch of `AudioManager::OnMessage` (lines 321-404). -/
def OnSystemMessage (d : Driver) (m : SystemMessage) (st : AudioManager) : AudioManager :=
  match m with
  | .PRE_FRAME => st.PreFrame d
  | .FRAME => st.Frame d
  | .POST_FRAME => st.PostFrame d
  | .PAUSE => ((st.PreFrame d).Frame d).PostFrame d
  | .PAUSE_START =>
    st.mSoundList.foldl (fun acc h => pauseStartOne h acc)
      { st with mSoundStateMap := fun _ => none }
  | .PAUSE_END => st.mSoundList.foldl (fun acc h => pauseEndOne d h acc) st

end AudioManager

namespace Sound

/-- The call `SendMessage(kCommand[c], this)` of a sound: it reaches the manager when the
manager has the sound as a sender. -/
def SendMessage (c : Command) (h : Nat) (st : AudioManager) : AudioManager :=
  if (st.sounds h).heardByManager then st.OnMessage c h else st

/-- The member `Sound::SetGain`: `mGain = CLAMP(gain, 0.0f, 1.0f)`, then the GAIN message. -/
def SetGain (h : Nat) (gain : ALfloat) (st : AudioManager) : AudioManager :=
  Sound.SendMessage .GAIN h
    (st.setSound h (fun s => { s with mGain := CLAMP gain (.fin 0) (.fin 1) }))

/-- The member `Sound::SetPitch`: `mPitch = CLAMP(pitch, 0.000001f, 2.0f)`, then the PITCH
message. -/
def SetPitch (h : Nat) (pitch : ALfloat) (st : AudioManager) : AudioManager :=
  Sound.SendMessage .PITCH h
    (st.setSound h (fun s => { s with mPitch := CLAMP pitch (.fin pitchFloor) (.fin 2) }))

/-- The member `Sound::LoadFile`: the file name is stored, then the LOAD message. -/
def LoadFile (h : Nat) (file : String) (st : AudioManager) : AudioManager :=
  Sound.SendMessage .LOAD h (st.setSound h (fun s => { s with mFilename := file }))

/-- The member `Sound::SetPosition`. -/
def SetPosition (h : Nat) (v : Vec3) (st : AudioManager) : AudioManager :=
  Sound.SendMessage .POSITION h (st.setSound h (fun s => { s with mPos := v }))

/-- The member `Sound::SetDirection`. -/
def SetDirection (h : Nat) (v : Vec3) (st : AudioManager) : AudioManager :=
  Sound.SendMessage .DIRECTION h (st.setSound h (fun s => { s with mDir := v }))

/-- The member `Sound::SetVelocity`. -/
def SetVelocity (h : Nat) (v : Vec3) (st : AudioManager) : AudioManager :=
  Sound.SendMessage .VELOCITY h (st.setSound h (fun s => { s with mVelo := v }))

end Sound

/-! ## Runs of the manager -/

/-- What a client, the frame driver and the hardware can do to a manager.
* `config`, `newSound`, `freeSound`, `loadFile`, `unloadFile` are the public members;
* `system` is a message of `dtCore::System`;
* `command` is a member of `Sound` that only sends its message (`Play`, `Pause`, `Stop`,
  `Rewind`, `UnloadFile`, `SetLooping`, `ListenerRelative`, the attenuation setters);
* `setGain` to `setVelocity` are the members of `Sound` that store a value first;
* `finish` is the hardware running a source to the end of its buffer;
* the last seven are the private members named. -/
inductive Action where
  | config (data : AudioConfigData)
  | newSound
  | freeSound (h : Nat)
  | loadFile (file : String)
  | unloadFile (file : String)
  | system (m : AudioManager.SystemMessage)
  | command (h : Nat) (c : Command)
  | setGain (h : Nat) (gain : ALfloat)
  | setPitch (h : Nat) (pitch : ALfloat)
  | soundLoadFile (h : Nat) (file : String)
  | setPosition (h : Nat) (v : Vec3)
  | setDirection (h : Nat) (v : Vec3)
  | setVelocity (h : Nat) (v : Vec3)
  | finish (src : Nat)
  | playSound (h : Nat)
  | pauseSound (h : Nat)
  | stopSound (h : Nat)
  | rewindSound (h : Nat)
  | loadSound (h : Nat)
  | unloadSound (h : Nat)
  | freeSource (h : Nat)

/-- One action: the call of the function on the given arguments, whatever the handle is. -/
def step (d : Driver) (a : Action) (st : AudioManager) : AudioManager :=
  match a with
  | .config data => st.Config d data
  | .newSound => st.NewSound.2
  | .freeSound h => st.FreeSound d (some h)
  | .loadFile file => (st.LoadFile d file).2
  | .unloadFile file => (st.UnloadFile d file).2
  | .system m => st.OnSystemMessage d m
  | .command h c => Sound.SendMessage c h st
  | .setGain h gain => Sound.SetGain h gain st
  | .setPitch h pitch => Sound.SetPitch h pitch st
  | .soundLoadFile h file => Sound.LoadFile h file st
  | .setPosition h v => Sound.SetPosition h v st
  | .setDirection h v => Sound.SetDirection h v st
  | .setVelocity h v => Sound.SetVelocity h v st
  | .finish src => { st with al := st.al.finish src }
  | .playSound h => st.PlaySound d h
  | .pauseSound h => st.PauseSound h
  | .stopSound h => st.StopSound d h
  | .rewindSound h => st.RewindSound d h
  | .loadSound h => st.LoadSound d h
  | .unloadSound h => st.UnloadSound d h
  | .freeSource h => st.FreeSource d (some h)

/-- A sequence of actions, first to last. -/
def run (d : Driver) (acts : List Action) (st : AudioManager) : AudioManager :=
  acts.foldl (fun acc a => step d a acc) st

/-- The calling convention of the handles: `FreeSound` is given a sound of the sound list (a
handle `NewSound` returned that has not been freed since), and so is the private member
`PlaySound`, which the manager calls for sounds that sent it a command or that are in the
sound list. Every other action is unconstrained. -/
def Action.onLive (a : Action) (st : AudioManager) : Bool :=
  match a with
  | .freeSound h => decide (h ∈ st.mSoundList)
  | .playSound h => decide (h ∈ st.mSoundList)
  | _ => true

/-- Every action of the sequence, run from `st`, keeps to the calling convention in the state
in which it is taken. -/
def legal (d : Driver) : List Action → AudioManager → Bool
  | [], _ => true
  | a :: rest, st => a.onLive st && legal d rest (step d a st)

/-! ## Concrete worlds for examples -/

/-- A context right after `alutInit`: no buffer, every source name in its INITIAL state. -/
def freshAL : OpenAL where
  buffers := []
  nextBuffer := 1
  bufferChannels := fun _ => 1
  sourceState := fun _ => .INITIAL
  sourceBuffer := fun _ => 0
  sourceLooping := fun _ => false
  sourceRelative := fun _ => false
  sourceParam := fun _ _ => .fin 1
  sourceVec := fun _ _ => ⟨.fin 0, .fin 0, .fin 0⟩
  distanceModel := AL_INVERSE_DISTANCE
  checks := 0

/-- A driver without errors: source names are `1, 2, ...`, every file is found under its own
name and decodes to mono data, EAX is absent. -/
def quietDriver : Driver where
  isSource := fun s => decide (1 ≤ s)
  genSources := fun n => (List.range n).map (fun i => i + 1)
  errors := fun _ => false
  find := fun file => file
  loads := fun _ => true
  channels := fun _ => 1
  extensionPresent := false
  procEAXSet := none
  procEAXGet := none

/-- The quiet driver, except that no file decodes (`alutLoadMemoryFromFile` returns null). -/
def undecodableDriver : Driver := { quietDriver with loads := fun _ => false }

/-- A manager whose cache holds a null entry for `a.wav` and nothing else. -/
def nullEntryManager : AudioManager :=
  { AudioManager.init freshAL with
    mBufferMap := Function.update (fun _ => none) "a.wav" (some none) }

/-! ## The binding state and its invariant -/

/-- The part of a manager that decides which sound holds which source: per sound the
"has hardware voice" flag, the source, the command FIFO and the manager's subscription; the
source map, the available queue, the sound list, the recycle queue, the allocation count and
the source array. -/
@[ext]
structure Core where
  bound : Nat → Bool
  source : Nat → Nat
  pending : Nat → List Command
  heard : Nat → Bool
  map : Nat → Option Nat
  avail : List Nat
  live : List Nat
  recycle : List Nat
  next : Nat
  array : Option (List Nat)

/-- The binding state of a manager. -/
def AudioManager.core (st : AudioManager) : Core where
  bound := fun h => (st.sounds h).mIsInitialized
  source := fun h => (st.sounds h).mSource
  pending := fun h => (st.sounds h).mCommand
  heard := fun h => (st.sounds h).heardByManager
  map := st.mSourceMap
  avail := st.mAvailable
  live := st.mSoundList
  recycle := st.mSoundRecycle
  next := st.nextSound
  array := st.mSource

/-- The invariant of the binding state.
* the available queue holds valid sources, each once, none of them in the source map;
* the source map and the flags of the sounds describe the same relation;
* a sound with a source is in the sound list; a sound outside the list has no pending command
  and is not listened to;
* the sound list and the recycle queue are duplicate free, disjoint, and below the
  allocation count;
* before a source array exists no source is available or bound. -/
structure Core.Inv (d : Driver) (c : Core) : Prop where
  avail_nodup : c.avail.Nodup
  avail_free : ∀ s ∈ c.avail, d.isSource s = true ∧ c.map s = none
  map_bound : ∀ s h, c.map s = some h →
    c.bound h = true ∧ c.source h = s ∧ d.isSource s = true
  bound_map : ∀ h, c.bound h = true → c.map (c.source h) = some h
  bound_live : ∀ h, c.bound h = true → h ∈ c.live
  dead_idle : ∀ h, h ∉ c.live → c.pending h = [] ∧ c.heard h = false
  recycle_dead : ∀ h ∈ c.recycle, h ∉ c.live
  live_lt : ∀ h ∈ c.live, h < c.next
  recycle_lt : ∀ h ∈ c.recycle, h < c.next
  live_nodup : c.live.Nodup
  recycle_nodup : c.recycle.Nodup
  unconfigured : c.array = none → c.avail = [] ∧ ∀ s, c.map s = none

/-- The source array is `pool`, and its sources are exactly the available and the bound
ones. -/
def Core.Pool (pool : List Nat) (c : Core) : Prop :=
  c.array = some pool ∧ ∀ s, s ∈ pool ↔ (s ∈ c.avail ∨ (c.map s).isSome = true)

/-- The end of `FreeSound` as seen by the binding state: the sound is cleared, no longer
listened to, taken from the sound list and put on the recycle queue. -/
def AudioManager.retire (h : Nat) (st : AudioManager) : AudioManager :=
  { st.setSound h (fun s => { s.Clear with heardByManager := false }) with
    mSoundList := st.mSoundList.erase h
    mSoundRecycle := st.mSoundRecycle ++ [h] }

/-- The elementary changes of the binding state; each constructor allows any change of the
rest of the manager. -/
inductive CoreStep (d : Driver) : AudioManager → AudioManager → Prop
  | same {a b : AudioManager} : b.core = a.core → CoreStep d a b
  | setup {a b : AudioManager} (h : Nat) : h ∈ a.mSoundList →
      (a.sounds h).mIsInitialized = false →
      b.core = (a.SetupSource h).2.core → CoreStep d a b
  | free {a b : AudioManager} (h : Nat) :
      b.core = (a.FreeSource d (some h)).core → CoreStep d a b
  | enqueue {a b : AudioManager} (h : Nat) (c : Command) :
      (a.sounds h).heardByManager = true →
      b.core = (a.setSound h (Sound.EnqueueCommand c)).core → CoreStep d a b
  | dequeue {a b : AudioManager} (h : Nat) :
      b.core = (a.setSound h (fun s => s.DequeueCommand.2)).core → CoreStep d a b
  | create {a b : AudioManager} : b.core = a.NewSound.2.core → CoreStep d a b
  | retire {a b : AudioManager} (h : Nat) : h ∈ a.mSoundList →
      (a.sounds h).mIsInitialized = false →
      b.core = (a.retire h).core → CoreStep d a b

/-- Finitely many elementary changes in a row. -/
def Path (d : Driver) : AudioManager → AudioManager → Prop :=
  Relation.ReflTransGen (CoreStep d)

/-- The driver hands out pairwise distinct source names, as many as requested. -/
def Driver.FreshNames (d : Driver) : Prop :=
  ∀ n, (d.genSources n).Nodup ∧ (d.genSources n).length = n

/-- The sources of the array `mSource` that the source map binds to a sound. -/
def AudioManager.boundSources (st : AudioManager) : List Nat :=
  (st.mSource.getD []).filter (fun s => (st.mSourceMap s).isSome)

/-- The effect of `FreeSource` on the binding state. -/
def Core.free (d : Driver) (h : Nat) (c : Core) : Core :=
  if c.bound h = false then c
  else if d.isSource (c.source h) = false then
    { c with bound := Function.update c.bound h false }
  else
    { c with
      bound := Function.update c.bound h false
      map := Function.update c.map (c.source h) none
      avail := c.avail ++ [c.source h] }

/-- The effect of the first lines of `FreeSound` on the binding state: the sound leaves the
sound list and is no longer listened to. -/
def Core.drop (h : Nat) (c : Core) : Core :=
  { c with live := c.live.erase h, heard := Function.update c.heard h false }

/-- The effect of the last lines of `FreeSound` on the binding state: `Clear` and the push
on the recycle queue. -/
def Core.clear (h : Nat) (c : Core) : Core :=
  { c with
    source := Function.update c.source h 0
    pending := Function.update c.pending h []
    recycle := c.recycle ++ [h] }

/-- A configuration request for a pool of two sources, no EAX, inverse distance model. -/
def twoSources : AudioConfigData where
  numSources := 2
  eax := false
  distancemodel := AL_INVERSE_DISTANCE

/-- A session: a pool of two sources is configured, `a.wav` is loaded, three sounds are
created, given the file and told to play, and one tick (pre-frame, frame, post-frame) runs;
then the first sound is freed. -/
def session : List Action :=
  [.config twoSources, .loadFile "a.wav", .newSound, .newSound, .newSound,
   .soundLoadFile 0 "a.wav", .soundLoadFile 1 "a.wav", .soundLoadFile 2 "a.wav",
   .command 0 .PLAY, .command 1 .PLAY, .command 2 .PLAY,
   .system .PRE_FRAME, .system .FRAME, .system .POST_FRAME, .freeSound 0]

/-- The manager `y` differs from `x` at most in attributes of sources other than playback
state and buffer validity, and in members of the sound `h` other than its binding, its
command FIFO and its subscriptions. -/
structure Quiet (h : Nat) (x y : AudioManager) : Prop where
  core : y.core = x.core
  play : y.mPlayQueue = x.mPlayQueue
  pause : y.mPauseQueue = x.mPauseQueue
  stop : y.mStopQueue = x.mStopQueue
  rewind : y.mRewindQueue = x.mRewindQueue
  active : y.mActiveList = x.mActiveList
  commands : y.mSoundCommand = x.mSoundCommand
  state : y.al.sourceState = x.al.sourceState
  buffers : y.al.buffers = x.al.buffers
  checks : y.al.checks = x.al.checks
  others : ∀ k, k ≠ h → y.sounds k = x.sounds k
  hears : (y.sounds h).hearsManager = (x.sounds h).hearsManager
  buffer : (y.sounds h).mBuffer = (x.sounds h).mBuffer

/-- The manager `r` is `a` after the sound `h` has been given the source `src` from the front
of the available queue and the source has been put on the play queue. -/
structure Started (h src : Nat) (a r : AudioManager) : Prop where
  avail : src :: r.mAvailable = a.mAvailable
  map : r.mSourceMap = Function.update a.mSourceMap src (some h)
  play : r.mPlayQueue = a.mPlayQueue ++ [src]
  pause : r.mPauseQueue = a.mPauseQueue
  stop : r.mStopQueue = a.mStopQueue
  rewind : r.mRewindQueue = a.mRewindQueue
  active : r.mActiveList = a.mActiveList
  commands : r.mSoundCommand = a.mSoundCommand
  state : r.al.sourceState = a.al.sourceState
  buffers : r.al.buffers = a.al.buffers
  others : ∀ k, k ≠ h → r.sounds k = a.sounds k
  bound : (r.sounds h).mIsInitialized = true
  source : (r.sounds h).mSource = src
  hears : (r.sounds h).hearsManager = true
  pending : (r.sounds h).mCommand = (a.sounds h).mCommand

/-- The manager `r` is `a` after PLAY commands for the sounds `hs`, none of which had a
source, have been dispatched in this order: the first sounds have been given the sources of
the available queue, in order, the others are unchanged but for their consumed command. -/
structure Dealt (hs : List Nat) (a r : AudioManager) : Prop where
  avail : r.mAvailable = a.mAvailable.drop hs.length
  play : r.mPlayQueue = a.mPlayQueue ++ a.mAvailable.take hs.length
  pause : r.mPauseQueue = a.mPauseQueue
  stop : r.mStopQueue = a.mStopQueue
  rewind : r.mRewindQueue = a.mRewindQueue
  active : r.mActiveList = a.mActiveList
  state : r.al.sourceState = a.al.sourceState
  buffers : r.al.buffers = a.al.buffers
  served : ∀ i h s : Nat, hs[i]? = some h → a.mAvailable[i]? = some s →
    (r.sounds h).mIsInitialized = true ∧ (r.sounds h).mSource = s ∧
    (r.sounds h).hearsManager = true ∧ r.mSourceMap s = some h
  refused : ∀ i h : Nat, hs[i]? = some h → a.mAvailable.length ≤ i →
    r.sounds h = { a.sounds h with mCommand := [] }
  map : ∀ s, s ∉ a.mAvailable.take hs.length → r.mSourceMap s = a.mSourceMap s
  others : ∀ k, k ∉ hs → r.sounds k = a.sounds k

/-- The manager `y` is `x` after the scan of `Frame` has started the sources `l`: each of
them plays and the sound the source map binds it to is playing; nothing else of the source
states, the queues and the binding has changed. -/
structure Scanned (l : List Nat) (x y : AudioManager) : Prop where
  started : ∀ s ∈ l, y.al.sourceState s = .PLAYING ∧
    ∀ h, x.mSourceMap s = some h → (y.sounds h).IsPlaying = true
  state : ∀ s, s ∉ l → y.al.sourceState s = x.al.sourceState s
  core : y.core = x.core
  play : y.mPlayQueue = x.mPlayQueue
  pause : y.mPauseQueue = x.mPauseQueue
  stop : y.mStopQueue = x.mStopQueue
  rewind : y.mRewindQueue = x.mRewindQueue
  active : y.mActiveList = x.mActiveList
  playing : ∀ h, (x.sounds h).IsPlaying = true → (y.sounds h).IsPlaying = true
  hears : ∀ h, (y.sounds h).hearsManager = (x.sounds h).hearsManager
  others : ∀ h, (∀ s ∈ l, x.mSourceMap s ≠ some h) → y.sounds h = x.sounds h

/-- A manager with a pool of two sources in which three sounds, each holding the buffer of
`a.wav`, have just been told to play: the scenario "pool of 2, 3 sounds". -/
def threePlayRequests : AudioManager :=
  run quietDriver
    [.config twoSources, .loadFile "a.wav", .newSound, .newSound, .newSound,
     .soundLoadFile 0 "a.wav", .soundLoadFile 1 "a.wav", .soundLoadFile 2 "a.wav",
     .system .PRE_FRAME, .command 0 .PLAY, .command 1 .PLAY, .command 2 .PLAY]
    (AudioManager.init freshAL)

/-- The manager `st` with its command queue replaced by `q` and the command FIFO of every
sound `k` by `F k`; nothing else differs. -/
def AudioManager.withCommands (q : List Nat) (F : Nat → List Command) (st : AudioManager) :
    AudioManager :=
  { st with mSoundCommand := q, sounds := fun k => { st.sounds k with mCommand := F k } }

/-- The chain of tests of `PreFrame` on a command token (lines 775-913): the handler that is
called for it. `NONE` and `QUEUE` match no test. -/
def AudioManager.handle (d : Driver) (c : Command) (h : Nat) (st : AudioManager) :
    AudioManager :=
  match c with
  | .POSITION => st.SetPosition d h
  | .DIRECTION => st.SetDirection d h
  | .VELOCITY => st.SetVelocity d h
  | .PLAY => st.PlaySound d h
  | .STOP => st.StopSound d h
  | .PAUSE => st.PauseSound h
  | .LOAD => st.LoadSound d h
  | .UNLOAD => st.UnloadSound d h
  | .LOOP => st.SetLoop d h
  | .UNLOOP => st.ResetLoop d h
  | .GAIN => st.SetGain d h
  | .PITCH => st.SetPitch d h
  | .REWIND => st.RewindSound d h
  | .REL => st.SetRelative d h
  | .ABS => st.SetAbsolute d h
  | .MIN_DIST => st.SetReferenceDistance d h
  | .MAX_DIST => st.SetMaximumDistance d h
  | .MIN_GAIN => st.SetMinimumGain d h
  | .MAX_GAIN => st.SetMaximumGain d h
  | .ROL_FACT => st.SetRolloff d h
  | .NONE => st
  | .QUEUE => st

/-- The messages `msgs` (sound, command), received by `AudioManager::OnMessage` in this
order. -/
def AudioManager.receive (msgs : List (Nat × Command)) (st : AudioManager) : AudioManager :=
  msgs.foldl (fun acc m => acc.OnMessage m.2 m.1) st

/-- The messages of `msgs` that name a command `AudioManager::OnMessage` tests for. -/
def queued (msgs : List (Nat × Command)) : List (Nat × Command) :=
  msgs.filter (fun m => decide (¬ (m.2 = .NONE ∨ m.2 = .QUEUE)))

/-- The commands that `msgs` holds for the sound `k`, in order. -/
def commandsFor (k : Nat) (msgs : List (Nat × Command)) : List Command :=
  (msgs.filter (fun m => decide (m.1 = k))).map Prod.snd

/-- The manager `st` with its command queue replaced by `q`. -/
def AudioManager.setCommands (q : List Nat) (st : AudioManager) : AudioManager :=
  { st with mSoundCommand := q }

/-- A manager with a pool of two sources and three sounds that hold the buffer of `a.wav`:
the first plays on source 1, the second is paused on source 2, the third is stopped and has
no source. -/
def mixedSounds : AudioManager :=
  run quietDriver
    [.config twoSources, .loadFile "a.wav", .newSound, .newSound, .newSound,
     .soundLoadFile 0 "a.wav", .soundLoadFile 1 "a.wav", .soundLoadFile 2 "a.wav",
     .command 0 .PLAY, .command 1 .PLAY,
     .system .PRE_FRAME, .system .FRAME, .system .POST_FRAME,
     .command 1 .PAUSE,
     .system .PRE_FRAME, .system .FRAME, .system .POST_FRAME]
    (AudioManager.init freshAL)

/-- The manager `mixedSounds` after its playing sound has been sent two more commands. -/
def pendingSounds : AudioManager :=
  run quietDriver [.command 0 .GAIN, .command 0 .STOP] mixedSounds


/-- The positions, counted from `i`, of a list at which `q` holds, pushed on `stk` one after
the other: the stack the scan of `Frame` builds when `q` tells at which positions the source
is found stopped. -/
def marks (q : Nat → Bool) : List Nat → Nat → List Nat → List Nat
  | [], _, stk => stk
  | _ :: r, i, stk => marks q r (i + 1) (if q i then i :: stk else stk)

/-- The elements of a list at the positions, counted from `i`, at which `q` holds. -/
def pick (q : Nat → Bool) : List Nat → Nat → List Nat
  | [], _ => []
  | a :: r, i => if q i then a :: pick q r (i + 1) else pick q r (i + 1)

/-- One turn of the scan of `Frame` (lines 957-1001) in which the state query reports no
error: a source found INITIAL is started and its sound notified, for a source found STOPPED
its sound is notified. -/
def AudioManager.scanOne (d : Driver) (src : Nat) (st : AudioManager) : AudioManager :=
  let st1 := (st.check d).2
  match st1.al.sourceState src with
  | .INITIAL => AudioManager.notify .PLAY src { st1 with al := st1.al.alSourcePlay d src }
  | .STOPPED => AudioManager.notify .STOP src st1
  | _ => st1

/-- The state of `Frame` when its scan of the active list is done (line 1002), before the
pause and rewind requests are carried out. -/
def AudioManager.frameScanned (d : Driver) (st : AudioManager) : AudioManager :=
  (AudioManager.frameScan d (st.mActiveList ++ st.mPlayQueue) 0 []
    (AudioManager.framePlays (AudioManager.frameStops d st))).2

/-- A manager in the pre-frame phase of a tick with two sounds: the first has played on
source 1 until the hardware reached the end of the buffer, the second has just been given
source 2, which waits on the play queue. -/
def stoppedAndNew : AudioManager :=
  run quietDriver
    [.config twoSources, .newSound, .newSound,
     .soundLoadFile 0 "a.wav", .soundLoadFile 1 "a.wav", .command 0 .PLAY,
     .system .PRE_FRAME, .system .FRAME, .system .POST_FRAME, .finish 1,
     .command 1 .PLAY, .system .PRE_FRAME]
    (AudioManager.init freshAL)

/-- A driver whose `alGenSources` hands out a name that is not a valid source: for a
request of two sources the names are 1 and 0. -/
def staleNameDriver : Driver :=
  { quietDriver with genSources := fun n => (List.range n).map (fun i => 1 - i) }

/-- A driver whose `alGenSources` reports an error (at the first error check). -/
def failingDriver : Driver :=
  { quietDriver with errors := fun n => decide (n = 0) }

/-- A configuration request for five sources with EAX and the clamped distance model. -/
def fiveSources : AudioConfigData where
  numSources := 5
  eax := true
  distancemodel := AL_INVERSE_DISTANCE_CLAMPED

/-! ## Playback state of a sound, pending commands -/

/-- Exactly one of the three playback queries answers true. -/
def Sound.OneState (s : Sound) : Prop :=
  (s.IsPlaying = true ∧ s.IsPaused = false ∧ s.IsStopped = false) ∨
  (s.IsPlaying = false ∧ s.IsPaused = true ∧ s.IsStopped = false) ∨
  (s.IsPlaying = false ∧ s.IsPaused = false ∧ s.IsStopped = true)

instance (s : Sound) : Decidable s.OneState := by
  unfold Sound.OneState
  exact inferInstance

/-- The pending commands as the manager holds them: the queue of sounds with a command, and
the command FIFO of every sound. -/
def AudioManager.queues (st : AudioManager) : List Nat × (Nat → List Command) :=
  (st.mSoundCommand, fun k => (st.sounds k).mCommand)

/-- Every command in the FIFO of a sound has an entry of its own in the manager's queue: the
sound occurs in the queue at least as often as its FIFO is long. -/
def AudioManager.Backed (st : AudioManager) : Prop :=
  ∀ s, (st.sounds s).mCommand.length ≤ st.mSoundCommand.count s

/-- A manager with a pool of two sources in which a sound has been freed while it played on
source 1. -/
def freedWhilePlaying : AudioManager :=
  run quietDriver
    [.config twoSources, .newSound, .soundLoadFile 0 "a.wav", .command 0 .PLAY,
     .system .PRE_FRAME, .system .FRAME, .system .POST_FRAME, .freeSound 0]
    (AudioManager.init freshAL)

/-- A driver without errors whose source names start at 0, a name OpenAL can assign (see the
comment in `FreeSource`): every name is a valid source, and a request of `n` sources is
answered with `0, 1, ..., n - 1`. -/
def zeroNameDriver : Driver :=
  { quietDriver with isSource := fun _ => true, genSources := fun n => List.range n }

/-- A session in which the sound 0 is freed twice in a row: the recycle queue then holds it
twice, `NewSound` returns it, it is played, and `NewSound` returns it a second time and
clears it while it holds a source. -/
def twiceFreed : List Action :=
  [.config twoSources, .newSound, .freeSound 0, .freeSound 0, .newSound,
   .soundLoadFile 0 "a.wav", .command 0 .PLAY, .system .PRE_FRAME, .newSound]

/-- A session with the driver whose names start at 0: the sound 0 is freed twice in a row,
`NewSound` returns it, the sounds 1 and 0 are played (on the sources 0 and 1), `NewSound`
returns the sound 0 a second time and clears it, and both sounds are freed. -/
def twiceFreedZero : List Action :=
  [.config twoSources, .newSound, .newSound, .freeSound 0, .freeSound 0, .newSound,
   .soundLoadFile 1 "a.wav", .soundLoadFile 0 "a.wav", .command 1 .PLAY, .command 0 .PLAY,
   .system .PRE_FRAME, .newSound, .freeSound 0, .freeSound 1]

/-- The manager `freedWhilePlaying` after two more sounds have been created and played, so
that the active list holds source 1 twice, and the hardware has run source 1 to the end of
its buffer. -/
def trackedTwice : AudioManager :=
  run quietDriver
    [.newSound, .newSound, .soundLoadFile 0 "a.wav", .soundLoadFile 1 "a.wav",
     .command 0 .PLAY, .command 1 .PLAY, .system .PRE_FRAME, .system .FRAME, .finish 1]
    freedWhilePlaying

/-! ## Clamping of gain and pitch -/

theorem CLAMP_fin (x l h : ℚ) (hlh : l ≤ h) :
    CLAMP (.fin x) (.fin l) (.fin h) = .fin (max (min x h) l) := by
  unfold CLAMP MAX MIN
  by_cases h1 : x < h
  · by_cases h2 : l < x
    · simp [ALfloat.lt, h1, h2, min_eq_left h1.le, max_eq_left h2.le]
    · simp [ALfloat.lt, h1, h2, min_eq_left h1.le, max_eq_right (not_lt.mp h2)]
  · have h3 : h ≤ x := not_lt.mp h1
    by_cases h2 : l < h
    · simp [ALfloat.lt, h1, h2, min_eq_right h3, max_eq_left h2.le]
    · have : l = h := le_antisymm hlh (not_lt.mp h2)
      simp [ALfloat.lt, h1, h2, min_eq_right h3, this]

theorem CLAMP_range (g : ALfloat) (l h : ℚ) (hlh : l < h) :
    ∃ q : ℚ, CLAMP g (.fin l) (.fin h) = .fin q ∧ l ≤ q ∧ q ≤ h := by
  cases g with
  | nan => exact ⟨h, by simp [CLAMP, MAX, MIN, ALfloat.lt, hlh], hlh.le, le_refl _⟩
  | ninf => exact ⟨l, by simp [CLAMP, MAX, MIN, ALfloat.lt], le_refl _, hlh.le⟩
  | pinf => exact ⟨h, by simp [CLAMP, MAX, MIN, ALfloat.lt, hlh], hlh.le, le_refl _⟩
  | fin x =>
    refine ⟨max (min x h) l, CLAMP_fin x l h hlh.le, le_max_right _ _, ?_⟩
    exact max_le (min_le_right _ _) hlh.le

theorem Sound_SendMessage_mGain (c : Command) (h k : Nat) (st : AudioManager) :
    ((Sound.SendMessage c h st).sounds k).mGain = (st.sounds k).mGain := by
  unfold Sound.SendMessage AudioManager.OnMessage AudioManager.setSound Sound.EnqueueCommand
  by_cases hk : k = h
  · subst hk; split_ifs <;> simp
  · split_ifs <;> simp [Function.update_noteq hk]

theorem Sound_SendMessage_mPitch (c : Command) (h k : Nat) (st : AudioManager) :
    ((Sound.SendMessage c h st).sounds k).mPitch = (st.sounds k).mPitch := by
  unfold Sound.SendMessage AudioManager.OnMessage AudioManager.setSound Sound.EnqueueCommand
  by_cases hk : k = h
  · subst hk; split_ifs <;> simp
  · split_ifs <;> simp [Function.update_noteq hk]

theorem GetGain_SetGain (st : AudioManager) (h : Nat) (g : ALfloat) :
    ((Sound.SetGain h g st).sounds h).GetGain = CLAMP g (.fin 0) (.fin 1) := by
  simp [Sound.SetGain, Sound.GetGain, Sound_SendMessage_mGain, AudioManager.setSound]

theorem GetPitch_SetPitch (st : AudioManager) (h : Nat) (p : ALfloat) :
    ((Sound.SetPitch h p st).sounds h).GetPitch = CLAMP p (.fin pitchFloor) (.fin 2) := by
  simp [Sound.SetPitch, Sound.GetPitch, Sound_SendMessage_mPitch, AudioManager.setSound]

/-- C1: after `Sound::SetGain(g)` on any sound of any manager state, `GetGain` returns a
finite value in `[0, 1]` whatever `g` is (NaN and the infinities included); for a number `x`
it returns `max (min x 1) 0`, which is `x` itself for `0 ≤ x ≤ 1`, `0` for `x < 0` and `1`
for `x > 1`; `SetGain(5.0)` gives `1.0`. -/
theorem C1_SetGain_clamps (st : AudioManager) (h : Nat) (g : ALfloat) (x : ℚ) :
    (∃ q : ℚ, ((Sound.SetGain h g st).sounds h).GetGain = .fin q ∧ 0 ≤ q ∧ q ≤ 1) ∧
    ((Sound.SetGain h (.fin x) st).sounds h).GetGain = .fin (max (min x 1) 0) ∧
    ((Sound.SetGain h (.fin x) st).sounds h).GetGain
      = .fin (if x < 0 then 0 else if 1 < x then 1 else x) ∧
    ((Sound.SetGain h (.fin 5) st).sounds h).GetGain = .fin 1 := by
  refine ⟨?_, ?_, ?_, ?_⟩
  · rw [GetGain_SetGain]; exact CLAMP_range g 0 1 (by norm_num)
  · rw [GetGain_SetGain]; exact CLAMP_fin x 0 1 (by norm_num)
  · rw [GetGain_SetGain, CLAMP_fin x 0 1 (by norm_num)]
    congr 1
    split_ifs with h1 h2
    · rw [max_eq_right]; exact le_trans (min_le_left _ _) h1.le
    · rw [min_eq_right h2.le]; norm_num
    · rw [min_eq_left (not_lt.mp h2), max_eq_left (not_lt.mp h1)]
  · rw [GetGain_SetGain, CLAMP_fin 5 0 1 (by norm_num)]
    norm_num

/-- C2 (amended): after `Sound::SetPitch(p)` on any sound of any manager state, `GetPitch`
returns a finite value in `[0.000001f, 2.0]` whatever `p` is, where the lower bound is the
single precision literal of the source, `pitchFloor = 8796093 * 2^-43`, a number below
`0.000001`; for a number `x` it returns `max (min x 2.0) 0.000001f`, which is `x` itself
whenever `x` already lies in that range. -/
theorem C2_SetPitch_clamps (st : AudioManager) (h : Nat) (p : ALfloat) (x : ℚ) :
    (∃ q : ℚ, ((Sound.SetPitch h p st).sounds h).GetPitch = .fin q ∧
      pitchFloor ≤ q ∧ q ≤ 2) ∧
    ((Sound.SetPitch h (.fin x) st).sounds h).GetPitch = .fin (max (min x 2) pitchFloor) ∧
    ((Sound.SetPitch h (.fin x) st).sounds h).GetPitch
      = .fin (if x < pitchFloor then pitchFloor else if 2 < x then 2 else x) ∧
    (pitchFloor = 8796093 / 2 ^ 43 ∧ pitchFloor < 1 / 1000000) := by
  have hlt : pitchFloor < 2 := by norm_num [pitchFloor]
  refine ⟨?_, ?_, ?_, by norm_num [pitchFloor]⟩
  · rw [GetPitch_SetPitch]; exact CLAMP_range p pitchFloor 2 hlt
  · rw [GetPitch_SetPitch]; exact CLAMP_fin x pitchFloor 2 hlt.le
  · rw [GetPitch_SetPitch, CLAMP_fin x pitchFloor 2 hlt.le]
    congr 1
    split_ifs with h1 h2
    · rw [max_eq_right]; exact le_trans (min_le_left _ _) h1.le
    · rw [min_eq_right h2.le]; exact max_eq_left hlt.le
    · rw [min_eq_left (not_lt.mp h2), max_eq_left (not_lt.mp h1)]

/-! ## The buffer cache -/

theorem bufferAt_touchBuffer (file q : String) (st : AudioManager) :
    (st.touchBuffer file).bufferAt q = st.bufferAt q := by
  unfold AudioManager.touchBuffer AudioManager.bufferAt
  cases hm : st.mBufferMap file with
  | none =>
    by_cases hq : q = file
    · subst hq; simp [hm]
    · simp [Function.update_noteq hq]
  | some v => simp

theorem mBufferMap_touchBuffer_of_ne (file q : String) (st : AudioManager) (hq : q ≠ file) :
    (st.touchBuffer file).mBufferMap q = st.mBufferMap q := by
  unfold AudioManager.touchBuffer
  cases hm : st.mBufferMap file with
  | none => simp [Function.update_noteq hq]
  | some v => simp

theorem touchBuffer_of_bufferAt_some (file : String) (st : AudioManager) (bd : BufferData)
    (hbd : st.bufferAt file = some bd) : st.touchBuffer file = st := by
  unfold AudioManager.touchBuffer
  unfold AudioManager.bufferAt at hbd
  cases hm : st.mBufferMap file with
  | none => simp [hm] at hbd
  | some v => simp

/-- A second `LoadFile` of a cached path fails and changes nothing at all. -/
theorem LoadFile_cached (d : Driver) (p : String) (st : AudioManager) (bd : BufferData)
    (hbd : st.bufferAt p = some bd) : st.LoadFile d p = (false, st) := by
  unfold AudioManager.LoadFile
  by_cases h1 : p = ""
  · simp [h1]
  by_cases h2 : d.find p = ""
  · simp [h1, h2]
  simp only [h1, h2, if_false, touchBuffer_of_bufferAt_some p st bd hbd, hbd]

/-- C7: for a non-empty path `p` that resolves and decodes, with no driver error while the
buffer is generated and filled, `LoadFile(p)` on a cache that holds no buffer for `p` returns
true, leaves `p` cached with `use = 0` and every other entry as it was; a second
`LoadFile(p)` returns false and leaves the whole manager, the entry for `p` included,
unchanged. -/
theorem C7_LoadFile_once (d : Driver) (p : String) (st : AudioManager)
    (hp : p ≠ "") (hfind : d.find p ≠ "") (hloads : d.loads (d.find p) = true)
    (hgen : d.errors st.al.checks = false) (hup : d.errors (st.al.checks + 1) = false)
    (hfree : st.bufferAt p = none) :
    (st.LoadFile d p).1 = true ∧
    (∃ buf, (st.LoadFile d p).2.mBufferMap p
        = some (some { buf := buf, file := p, loop := false, use := 0 })) ∧
    (∀ q, q ≠ p → (st.LoadFile d p).2.mBufferMap q = st.mBufferMap q) ∧
    ((st.LoadFile d p).2.LoadFile d p).1 = false ∧
    ((st.LoadFile d p).2.LoadFile d p).2 = (st.LoadFile d p).2 := by
  have hfree' : (st.touchBuffer p).bufferAt p = none := by
    rw [bufferAt_touchBuffer]; exact hfree
  have hal : (st.touchBuffer p).al = st.al := by
    unfold AudioManager.touchBuffer; split <;> rfl
  have key : st.LoadFile d p = (true,
      { st.touchBuffer p with
        al := OpenAL.alBufferData st.al.nextBuffer (d.channels (d.find p))
          { (OpenAL.alGenBuffers { st.al with checks := st.al.checks + 1 }).2 with
            checks := st.al.checks + 2 }
        mBufferMap := Function.update (st.touchBuffer p).mBufferMap p
          (some (some { buf := st.al.nextBuffer, file := p, loop := false, use := 0 })) }) := by
    unfold AudioManager.LoadFile
    simp [hp, hfind, hloads, hfree', AudioManager.check, OpenAL.CheckForError, hal, hgen, hup,
      OpenAL.alGenBuffers]
  have hcached : (st.LoadFile d p).2.bufferAt p
      = some { buf := st.al.nextBuffer, file := p, loop := false, use := 0 } := by
    rw [key]; simp [AudioManager.bufferAt]
  refine ⟨by rw [key], ⟨st.al.nextBuffer, by rw [key]; simp⟩, ?_, ?_, ?_⟩
  · intro q hq
    rw [key]
    simp [Function.update_noteq hq, mBufferMap_touchBuffer_of_ne p q st hq]
  · rw [LoadFile_cached d p _ _ hcached]
  · rw [LoadFile_cached d p _ _ hcached]

/-- C7, at a concrete input: `a.wav` is loaded into the empty cache of a new manager. -/
theorem C7_LoadFile_once_witness :
    ((AudioManager.init freshAL).LoadFile quietDriver "a.wav").1 = true ∧
    (∃ buf, ((AudioManager.init freshAL).LoadFile quietDriver "a.wav").2.mBufferMap "a.wav"
        = some (some { buf := buf, file := "a.wav", loop := false, use := 0 })) ∧
    (∀ q, q ≠ "a.wav" →
      ((AudioManager.init freshAL).LoadFile quietDriver "a.wav").2.mBufferMap q
        = (AudioManager.init freshAL).mBufferMap q) ∧
    (((AudioManager.init freshAL).LoadFile quietDriver "a.wav").2.LoadFile
        quietDriver "a.wav").1 = false ∧
    (((AudioManager.init freshAL).LoadFile quietDriver "a.wav").2.LoadFile
        quietDriver "a.wav").2 = ((AudioManager.init freshAL).LoadFile quietDriver "a.wav").2 :=
  C7_LoadFile_once quietDriver "a.wav" (AudioManager.init freshAL) (by decide) (by decide)
    rfl rfl rfl rfl


/-- C8, refuted as stated: after a `LoadFile` whose decode failed, `a.wav` is not cached;
`UnloadFile("a.wav")` returns false, yet the buffer map is not what it was, because the
empty entry of `a.wav` has been erased. -/
theorem C8_UnloadFile_counterexample :
    ((AudioManager.init freshAL).LoadFile undecodableDriver "a.wav").2.bufferAt "a.wav" = none ∧
    (((AudioManager.init freshAL).LoadFile undecodableDriver "a.wav").2.UnloadFile
        undecodableDriver "a.wav").1 = false ∧
    (((AudioManager.init freshAL).LoadFile undecodableDriver "a.wav").2.UnloadFile
        undecodableDriver "a.wav").2.mBufferMap
      ≠ ((AudioManager.init freshAL).LoadFile undecodableDriver "a.wav").2.mBufferMap := by
  refine ⟨by decide, by decide, ?_⟩
  intro h
  have h2 := congrFun h "a.wav"
  revert h2
  decide

/-- C8, amended: in a manager whose cache holds no buffer under the empty path,
`UnloadFile(p)` returns true if and only if `p` is cached with `use = 0`; the buffer map
afterwards is the old one with the entry of `p` removed when the call returned true or when
`p` is a non-empty path with an empty (null) entry, and the old one unchanged in every other
case, that is, when `p` has no entry or its use count is greater than 0. -/
theorem C8_UnloadFile (d : Driver) (p : String) (st : AudioManager)
    (hroot : st.bufferAt "" = none) :
    ((st.UnloadFile d p).1 = true ↔ ∃ bd, st.bufferAt p = some bd ∧ bd.use = 0) ∧
    (st.UnloadFile d p).2.mBufferMap
      = (if (st.UnloadFile d p).1 = true ∨ (st.mBufferMap p = some none ∧ p ≠ "")
         then Function.update st.mBufferMap p none else st.mBufferMap) ∧
    ((st.mBufferMap p = none ∨ ∃ bd, st.bufferAt p = some bd ∧ 0 < bd.use) →
      st.UnloadFile d p = (false, st)) := by
  unfold AudioManager.UnloadFile
  by_cases hp : p = ""
  · subst hp
    unfold AudioManager.bufferAt at hroot ⊢
    cases hm : st.mBufferMap "" with
    | none => simp
    | some v =>
      cases v with
      | none => simp
      | some bd => simp [hm] at hroot
  · unfold AudioManager.bufferAt
    cases hm : st.mBufferMap p with
    | none => simp [hp]
    | some v =>
      cases v with
      | none => simp [hp]
      | some bd =>
        by_cases hu : bd.use = 0
        · simp [hp, hu]
        · simp [hp, hu]

/-- C8 amended, at a concrete input: `a.wav`, loaded once and not in use, is unloaded. -/
theorem C8_UnloadFile_witness :
    ((((AudioManager.init freshAL).LoadFile quietDriver "a.wav").2.UnloadFile
        quietDriver "a.wav").1 = true ↔
      ∃ bd, ((AudioManager.init freshAL).LoadFile quietDriver "a.wav").2.bufferAt "a.wav"
        = some bd ∧ bd.use = 0) ∧
    (((AudioManager.init freshAL).LoadFile quietDriver "a.wav").2.UnloadFile
        quietDriver "a.wav").2.mBufferMap
      = (if (((AudioManager.init freshAL).LoadFile quietDriver "a.wav").2.UnloadFile
              quietDriver "a.wav").1 = true ∨
            (((AudioManager.init freshAL).LoadFile quietDriver "a.wav").2.mBufferMap "a.wav"
              = some none ∧ "a.wav" ≠ "")
         then Function.update
           ((AudioManager.init freshAL).LoadFile quietDriver "a.wav").2.mBufferMap "a.wav" none
         else ((AudioManager.init freshAL).LoadFile quietDriver "a.wav").2.mBufferMap) ∧
    ((((AudioManager.init freshAL).LoadFile quietDriver "a.wav").2.mBufferMap "a.wav" = none ∨
        ∃ bd, ((AudioManager.init freshAL).LoadFile quietDriver "a.wav").2.bufferAt "a.wav"
          = some bd ∧ 0 < bd.use) →
      ((AudioManager.init freshAL).LoadFile quietDriver "a.wav").2.UnloadFile
        quietDriver "a.wav"
        = (false, ((AudioManager.init freshAL).LoadFile quietDriver "a.wav").2)) :=
  C8_UnloadFile quietDriver "a.wav" ((AudioManager.init freshAL).LoadFile quietDriver "a.wav").2
    (by decide)

/-- C9, evaluated at the failing input: in a new manager `a.wav` has no entry; `LoadFile` of
`a.wav`, which resolves but does not decode, returns false and leaves an empty (null) entry
for `a.wav` in the buffer map. -/
theorem C9_LoadFile_failure_leaves_entry :
    (AudioManager.init freshAL).mBufferMap "a.wav" = none ∧
    ((AudioManager.init freshAL).LoadFile undecodableDriver "a.wav").1 = false ∧
    ((AudioManager.init freshAL).LoadFile undecodableDriver "a.wav").2.mBufferMap "a.wav"
      = some none := by
  decide

/-- C6, evaluated at the failing input: `a.wav` is loaded through `LoadFile` (use count 0),
a new sound is given that file name and is freed before its LOAD command is dispatched;
`FreeSound` calls `UnloadSound`, which decrements the count 0, and the `unsigned int` wraps
to 4294967295. -/
theorem C6_UnloadSound_decrements_zero :
    (run quietDriver [.loadFile "a.wav", .newSound, .soundLoadFile 0 "a.wav"]
        (AudioManager.init freshAL)).bufferAt "a.wav"
      = some { buf := 1, file := "a.wav", loop := false, use := 0 } ∧
    (run quietDriver [.loadFile "a.wav", .newSound, .soundLoadFile 0 "a.wav", .freeSound 0]
        (AudioManager.init freshAL)).bufferAt "a.wav"
      = some { buf := 1, file := "a.wav", loop := false, use := 4294967295 } := by
  decide

/-- C10, evaluated at the failing input: a new sound is given gain 0.0 and the file name
`a.wav`, and is freed; the handle `NewSound` returns next is the same object, its file name
is empty and its command FIFO is empty, but its gain is still 0.0, not the default 1.0. -/
theorem C10_recycled_sound_keeps_gain :
    (run quietDriver [.newSound, .setGain 0 (.fin 0), .soundLoadFile 0 "a.wav",
        .freeSound 0] (AudioManager.init freshAL)).NewSound.1 = 0 ∧
    ((run quietDriver [.newSound, .setGain 0 (.fin 0), .soundLoadFile 0 "a.wav",
        .freeSound 0] (AudioManager.init freshAL)).NewSound.2.sounds 0).GetFilename = "" ∧
    ((run quietDriver [.newSound, .setGain 0 (.fin 0), .soundLoadFile 0 "a.wav",
        .freeSound 0] (AudioManager.init freshAL)).NewSound.2.sounds 0).mCommand = [] ∧
    ((run quietDriver [.newSound, .setGain 0 (.fin 0), .soundLoadFile 0 "a.wav",
        .freeSound 0] (AudioManager.init freshAL)).NewSound.2.sounds 0).GetGain
      = .fin 0 ∧
    (Sound.new).GetGain = .fin 1 := by
  refine ⟨by decide, by decide, by decide, ?_, rfl⟩
  decide

/-! ## Preservation of the binding invariant by the elementary changes -/

theorem Inv_init (d : Driver) (al : OpenAL) : (AudioManager.init al).core.Inv d := by
  constructor <;> simp [AudioManager.init, AudioManager.core, Sound.new]

theorem Inv_setup (d : Driver) (a : AudioManager) (h : Nat) (hl : h ∈ a.mSoundList)
    (hu : (a.sounds h).mIsInitialized = false) (inv : a.core.Inv d) :
    (a.SetupSource h).2.core.Inv d := by
  unfold AudioManager.SetupSource
  cases hav : a.mAvailable with
  | nil => simpa using inv
  | cons src rest =>
    have hnd : (src :: rest).Nodup := by simpa [AudioManager.core, hav] using inv.avail_nodup
    have hsrc : d.isSource src = true ∧ a.mSourceMap src = none :=
      inv.avail_free src (by simp [AudioManager.core, hav])
    have hcfg : a.mSource ≠ none := by
      intro hc
      have := (inv.unconfigured hc).1
      simp [AudioManager.core, hav] at this
    constructor
    · simpa [AudioManager.core] using (List.nodup_cons.mp hnd).2
    · intro s hs
      have hs' : s ∈ rest := by simpa [AudioManager.core] using hs
      have hne : s ≠ src := fun e => (List.nodup_cons.mp hnd).1 (e ▸ hs')
      have := inv.avail_free s (by simp [AudioManager.core, hav, hs'])
      simpa [AudioManager.core, Function.update_noteq hne] using this
    · intro s k hk
      by_cases hs : s = src
      · subst hs
        have : k = h := by simpa [AudioManager.core] using hk.symm
        subst this
        simp [AudioManager.core, hsrc.1]
      · have hk' : a.mSourceMap s = some k := by
          simpa [AudioManager.core, Function.update_noteq hs] using hk
        have old := inv.map_bound s k hk'
        have hkh : k ≠ h := by
          intro e; subst e
          have := old.1
          simp [AudioManager.core, hu] at this
        simpa [AudioManager.core, Function.update_noteq hkh] using old
    · intro k hk
      by_cases hkh : k = h
      · subst hkh; simp [AudioManager.core]
      · have hk' : (a.sounds k).mIsInitialized = true := by
          simpa [AudioManager.core, Function.update_noteq hkh] using hk
        have old := inv.bound_map k hk'
        have hne : (a.sounds k).mSource ≠ src := by
          intro e
          have : a.mSourceMap src = some k := by simpa [AudioManager.core, e] using old
          simp [hsrc.2] at this
        simpa [AudioManager.core, Function.update_noteq hkh, Function.update_noteq hne] using old
    · intro k hk
      by_cases hkh : k = h
      · subst hkh; simpa [AudioManager.core] using hl
      · have hk' : (a.sounds k).mIsInitialized = true := by
          simpa [AudioManager.core, Function.update_noteq hkh] using hk
        simpa [AudioManager.core] using inv.bound_live k hk'
    · intro k hk
      have hk' : k ∉ a.mSoundList := by simpa [AudioManager.core] using hk
      have hkh : k ≠ h := fun e => hk' (e ▸ hl)
      simpa [AudioManager.core, Function.update_noteq hkh] using inv.dead_idle k hk'
    · simpa [AudioManager.core] using inv.recycle_dead
    · simpa [AudioManager.core] using inv.live_lt
    · simpa [AudioManager.core] using inv.recycle_lt
    · simpa [AudioManager.core] using inv.live_nodup
    · simpa [AudioManager.core] using inv.recycle_nodup
    · intro hc
      exact absurd hc hcfg


theorem Inv_free (d : Driver) (a : AudioManager) (h : Nat) (inv : a.core.Inv d) :
    (a.FreeSource d (some h)).core.Inv d := by
  unfold AudioManager.FreeSource
  by_cases hu : (a.sounds h).mIsInitialized = false
  · simpa [hu] using inv
  have hb : (a.sounds h).mIsInitialized = true := by simpa using hu
  have hmap : a.mSourceMap (a.sounds h).mSource = some h := inv.bound_map h hb
  have hval : d.isSource (a.sounds h).mSource = true :=
    (inv.map_bound _ _ hmap).2.2
  have hcfg : a.mSource ≠ none := by
    intro hc
    have := (inv.unconfigured hc).2 (a.sounds h).mSource
    simp [AudioManager.core, hmap] at this
  have hnotin : (a.sounds h).mSource ∉ a.mAvailable := by
    intro hin
    have := (inv.avail_free _ hin).2
    simp [AudioManager.core, hmap] at this
  simp only [hu, if_false, AudioManager.setSound, Function.update_same, hval]
  constructor
  · have := inv.avail_nodup
    simp only [AudioManager.core] at this ⊢
    exact List.Nodup.append this (List.nodup_singleton _) (by simpa using hnotin)
  · intro s hs
    have hs' : s ∈ a.mAvailable ∨ s = (a.sounds h).mSource := by
      simpa [AudioManager.core] using hs
    rcases hs' with hs' | hs'
    · have hne : s ≠ (a.sounds h).mSource := fun e => hnotin (e ▸ hs')
      simpa [AudioManager.core, Function.update_noteq hne] using inv.avail_free s hs'
    · subst hs'; simp [AudioManager.core, hval]
  · intro s k hk
    by_cases hs : s = (a.sounds h).mSource
    · subst hs; simp [AudioManager.core] at hk
    · have hk' : a.mSourceMap s = some k := by
        simpa [AudioManager.core, Function.update_noteq hs] using hk
      have old := inv.map_bound s k hk'
      have hkh : k ≠ h := by
        intro e; subst e
        exact hs old.2.1.symm
      simpa [AudioManager.core, Function.update_noteq hkh] using old
  · intro k hk
    by_cases hkh : k = h
    · subst hkh; simp [AudioManager.core] at hk
    · have hk' : (a.sounds k).mIsInitialized = true := by
        simpa [AudioManager.core, Function.update_noteq hkh] using hk
      have old := inv.bound_map k hk'
      have hne : (a.sounds k).mSource ≠ (a.sounds h).mSource := by
        intro e
        have : a.mSourceMap (a.sounds h).mSource = some k := by
          simpa [AudioManager.core, e] using old
        rw [hmap] at this
        exact hkh (Option.some.inj this).symm
      simpa [AudioManager.core, Function.update_noteq hkh, Function.update_noteq hne] using old
  · intro k hk
    by_cases hkh : k = h
    · subst hkh; simp [AudioManager.core] at hk
    · have hk' : (a.sounds k).mIsInitialized = true := by
        simpa [AudioManager.core, Function.update_noteq hkh] using hk
      simpa [AudioManager.core] using inv.bound_live k hk'
  · intro k hk
    have hk' : k ∉ a.mSoundList := by simpa [AudioManager.core] using hk
    have old := inv.dead_idle k hk'
    by_cases hkh : k = h
    · subst hkh; simpa [AudioManager.core] using old
    · simpa [AudioManager.core, Function.update_noteq hkh] using old
  · simpa [AudioManager.core] using inv.recycle_dead
  · simpa [AudioManager.core] using inv.live_lt
  · simpa [AudioManager.core] using inv.recycle_lt
  · simpa [AudioManager.core] using inv.live_nodup
  · simpa [AudioManager.core] using inv.recycle_nodup
  · intro hc
    exact absurd hc hcfg

theorem Inv_enqueue (d : Driver) (a : AudioManager) (h : Nat) (c : Command)
    (hh : (a.sounds h).heardByManager = true) (inv : a.core.Inv d) :
    (a.setSound h (Sound.EnqueueCommand c)).core.Inv d := by
  have hlive : h ∈ a.mSoundList := by
    by_contra hd
    have := (inv.dead_idle h hd).2
    simp [AudioManager.core, hh] at this
  have hf : ∀ k, ((a.setSound h (Sound.EnqueueCommand c)).sounds k).mIsInitialized
        = (a.sounds k).mIsInitialized ∧
      ((a.setSound h (Sound.EnqueueCommand c)).sounds k).mSource = (a.sounds k).mSource ∧
      ((a.setSound h (Sound.EnqueueCommand c)).sounds k).heardByManager
        = (a.sounds k).heardByManager := by
    intro k
    by_cases hk : k = h
    · subst hk; simp [AudioManager.setSound, Sound.EnqueueCommand]
    · simp [AudioManager.setSound, Function.update_noteq hk]
  constructor
  · exact inv.avail_nodup
  · exact inv.avail_free
  · intro s k hk
    have := inv.map_bound s k hk
    simpa [AudioManager.core, hf k] using this
  · intro k hk
    have hk' : (a.sounds k).mIsInitialized = true := by
      simpa [AudioManager.core, hf k] using hk
    have := inv.bound_map k hk'
    simpa [AudioManager.core, hf k] using this
  · intro k hk
    have hk' : (a.sounds k).mIsInitialized = true := by
      simpa [AudioManager.core, hf k] using hk
    exact inv.bound_live k hk'
  · intro k hk
    have hk' : k ∉ a.mSoundList := hk
    have hkh : k ≠ h := fun e => hk' (e ▸ hlive)
    simpa [AudioManager.core, AudioManager.setSound, Function.update_noteq hkh]
      using inv.dead_idle k hk'
  · exact inv.recycle_dead
  · exact inv.live_lt
  · exact inv.recycle_lt
  · exact inv.live_nodup
  · exact inv.recycle_nodup
  · exact inv.unconfigured

theorem Inv_dequeue (d : Driver) (a : AudioManager) (h : Nat) (inv : a.core.Inv d) :
    (a.setSound h (fun s => s.DequeueCommand.2)).core.Inv d := by
  have hdq : ∀ s : Sound, s.DequeueCommand.2.mIsInitialized = s.mIsInitialized ∧
      s.DequeueCommand.2.mSource = s.mSource ∧
      s.DequeueCommand.2.heardByManager = s.heardByManager ∧
      (s.mCommand = [] → s.DequeueCommand.2.mCommand = []) := by
    intro s
    unfold Sound.DequeueCommand
    cases hs : s.mCommand <;> simp [hs]
  have hf : ∀ k, ((a.setSound h (fun s => s.DequeueCommand.2)).sounds k).mIsInitialized
        = (a.sounds k).mIsInitialized ∧
      ((a.setSound h (fun s => s.DequeueCommand.2)).sounds k).mSource = (a.sounds k).mSource ∧
      ((a.setSound h (fun s => s.DequeueCommand.2)).sounds k).heardByManager
        = (a.sounds k).heardByManager ∧
      ((a.sounds k).mCommand = [] →
        ((a.setSound h (fun s => s.DequeueCommand.2)).sounds k).mCommand = []) := by
    intro k
    by_cases hk : k = h
    · subst hk; simpa [AudioManager.setSound] using hdq (a.sounds k)
    · simp [AudioManager.setSound, Function.update_noteq hk]
  constructor
  · exact inv.avail_nodup
  · exact inv.avail_free
  · intro s k hk
    have := inv.map_bound s k hk
    simpa [AudioManager.core, hf k] using this
  · intro k hk
    have hk' : (a.sounds k).mIsInitialized = true := by
      simpa [AudioManager.core, hf k] using hk
    have := inv.bound_map k hk'
    simpa [AudioManager.core, hf k] using this
  · intro k hk
    have hk' : (a.sounds k).mIsInitialized = true := by
      simpa [AudioManager.core, hf k] using hk
    exact inv.bound_live k hk'
  · intro k hk
    have old := inv.dead_idle k hk
    refine ⟨(hf k).2.2.2 old.1, ?_⟩
    simpa [AudioManager.core, hf k] using old.2
  · exact inv.recycle_dead
  · exact inv.live_lt
  · exact inv.recycle_lt
  · exact inv.live_nodup
  · exact inv.recycle_nodup
  · exact inv.unconfigured


theorem Inv_create (d : Driver) (a : AudioManager) (inv : a.core.Inv d) :
    a.NewSound.2.core.Inv d := by
  unfold AudioManager.NewSound
  cases hrec : a.mSoundRecycle with
  | cons h rest =>
    have hnd : (h :: rest).Nodup := by simpa [AudioManager.core, hrec] using inv.recycle_nodup
    have hdead : h ∉ a.mSoundList :=
      inv.recycle_dead h (by simp [AudioManager.core, hrec])
    have hunb : (a.sounds h).mIsInitialized = false := by
      by_contra hb
      exact hdead (inv.bound_live h (by simpa [AudioManager.core] using hb))
    constructor
    · exact inv.avail_nodup
    · exact inv.avail_free
    · intro s k hk
      have old := inv.map_bound s k hk
      have hkh : k ≠ h := by
        intro e; subst e
        have := old.1
        simp [AudioManager.core, hunb] at this
      simpa [AudioManager.core, Function.update_noteq hkh] using old
    · intro k hk
      by_cases hkh : k = h
      · subst hkh; simp [AudioManager.core, Sound.Clear, hunb] at hk
      · have hk' : (a.sounds k).mIsInitialized = true := by
          simpa [AudioManager.core, Function.update_noteq hkh] using hk
        have old := inv.bound_map k hk'
        simpa [AudioManager.core, Function.update_noteq hkh] using old
    · intro k hk
      by_cases hkh : k = h
      · subst hkh; simp [AudioManager.core]
      · have hk' : (a.sounds k).mIsInitialized = true := by
          simpa [AudioManager.core, Function.update_noteq hkh] using hk
        have := inv.bound_live k hk'
        simp only [AudioManager.core] at this ⊢
        exact List.mem_append_left _ this
    · intro k hk
      have hk' : k ∉ a.mSoundList ∧ k ≠ h := by
        simpa [AudioManager.core, not_or] using hk
      simpa [AudioManager.core, Function.update_noteq hk'.2] using inv.dead_idle k hk'.1
    · intro k hk
      have hk' : k ∈ rest := hk
      have hkh : k ≠ h := fun e => (List.nodup_cons.mp hnd).1 (e ▸ hk')
      have := inv.recycle_dead k (by simp [AudioManager.core, hrec, hk'])
      simp only [AudioManager.core] at this ⊢
      simp [this, hkh]
    · intro k hk
      have hk' : k ∈ a.mSoundList ∨ k = h := by simpa [AudioManager.core] using hk
      rcases hk' with hk' | hk'
      · exact inv.live_lt k hk'
      · subst hk'; exact inv.recycle_lt k (by simp [AudioManager.core, hrec])
    · intro k hk
      have hk' : k ∈ rest := hk
      exact inv.recycle_lt k (by simp [AudioManager.core, hrec, hk'])
    · have := inv.live_nodup
      simp only [AudioManager.core] at this ⊢
      exact List.Nodup.append this (List.nodup_singleton _) (by simpa using hdead)
    · exact (List.nodup_cons.mp hnd).2
    · exact inv.unconfigured
  | nil =>
    have hdead : a.nextSound ∉ a.mSoundList := fun hin =>
      Nat.lt_irrefl _ (inv.live_lt _ hin)
    have hunb : (a.sounds a.nextSound).mIsInitialized = false := by
      by_contra hb
      exact hdead (inv.bound_live _ (by simpa [AudioManager.core] using hb))
    constructor
    · exact inv.avail_nodup
    · exact inv.avail_free
    · intro s k hk
      have old := inv.map_bound s k hk
      have hkh : k ≠ a.nextSound := by
        intro e; subst e
        have := old.1
        simp [AudioManager.core, hunb] at this
      simpa [AudioManager.core, Function.update_noteq hkh] using old
    · intro k hk
      by_cases hkh : k = a.nextSound
      · subst hkh; simp [AudioManager.core, Sound.new] at hk
      · have hk' : (a.sounds k).mIsInitialized = true := by
          simpa [AudioManager.core, Function.update_noteq hkh] using hk
        have old := inv.bound_map k hk'
        simpa [AudioManager.core, Function.update_noteq hkh] using old
    · intro k hk
      by_cases hkh : k = a.nextSound
      · subst hkh; simp [AudioManager.core]
      · have hk' : (a.sounds k).mIsInitialized = true := by
          simpa [AudioManager.core, Function.update_noteq hkh] using hk
        have := inv.bound_live k hk'
        simp only [AudioManager.core] at this ⊢
        exact List.mem_append_left _ this
    · intro k hk
      have hk' : k ∉ a.mSoundList ∧ k ≠ a.nextSound := by
        simpa [AudioManager.core, not_or] using hk
      simpa [AudioManager.core, Function.update_noteq hk'.2] using inv.dead_idle k hk'.1
    · intro k hk
      simp [AudioManager.core] at hk
    · intro k hk
      have hk' : k ∈ a.mSoundList ∨ k = a.nextSound := by simpa [AudioManager.core] using hk
      rcases hk' with hk' | hk'
      · exact Nat.lt_succ_of_lt (inv.live_lt k hk')
      · subst hk'; exact Nat.lt_succ_self _
    · intro k hk
      simp [AudioManager.core] at hk
    · have := inv.live_nodup
      simp only [AudioManager.core] at this ⊢
      exact List.Nodup.append this (List.nodup_singleton _) (by simpa using hdead)
    · simp [AudioManager.core]
    · exact inv.unconfigured

theorem Inv_retire (d : Driver) (a : AudioManager) (h : Nat) (hl : h ∈ a.mSoundList)
    (hu : (a.sounds h).mIsInitialized = false) (inv : a.core.Inv d) :
    (a.retire h).core.Inv d := by
  have hlnd : a.mSoundList.Nodup := inv.live_nodup
  have hnotrec : h ∉ a.mSoundRecycle := fun hin => inv.recycle_dead h hin hl
  have hgone : h ∉ a.mSoundList.erase h := fun hin => (List.Nodup.mem_erase_iff hlnd).mp hin |>.1 rfl
  constructor
  · exact inv.avail_nodup
  · exact inv.avail_free
  · intro s k hk
    have old := inv.map_bound s k hk
    have hkh : k ≠ h := by
      intro e; subst e
      have := old.1
      simp [AudioManager.core, hu] at this
    simpa [AudioManager.core, AudioManager.retire, AudioManager.setSound,
      Function.update_noteq hkh] using old
  · intro k hk
    by_cases hkh : k = h
    · subst hkh
      simp [AudioManager.core, AudioManager.retire, AudioManager.setSound, Sound.Clear, hu] at hk
    · have hk' : (a.sounds k).mIsInitialized = true := by
        simpa [AudioManager.core, AudioManager.retire, AudioManager.setSound,
          Function.update_noteq hkh] using hk
      have old := inv.bound_map k hk'
      simpa [AudioManager.core, AudioManager.retire, AudioManager.setSound,
        Function.update_noteq hkh] using old
  · intro k hk
    by_cases hkh : k = h
    · subst hkh
      simp [AudioManager.core, AudioManager.retire, AudioManager.setSound, Sound.Clear, hu] at hk
    · have hk' : (a.sounds k).mIsInitialized = true := by
        simpa [AudioManager.core, AudioManager.retire, AudioManager.setSound,
          Function.update_noteq hkh] using hk
      have := inv.bound_live k hk'
      simp only [AudioManager.core, AudioManager.retire, AudioManager.setSound] at this ⊢
      exact (List.mem_erase_of_ne hkh).mpr this
  · intro k hk
    by_cases hkh : k = h
    · subst hkh
      simp [AudioManager.core, AudioManager.retire, AudioManager.setSound, Sound.Clear]
    · have hk' : k ∉ a.mSoundList := by
        intro hin
        exact hk ((List.mem_erase_of_ne hkh).mpr hin)
      simpa [AudioManager.core, AudioManager.retire, AudioManager.setSound,
        Function.update_noteq hkh] using inv.dead_idle k hk'
  · intro k hk
    have hk' : k ∈ a.mSoundRecycle ∨ k = h := by
      simpa [AudioManager.core, AudioManager.retire, AudioManager.setSound] using hk
    rcases hk' with hk' | hk'
    · intro hin
      exact inv.recycle_dead k hk' (List.mem_of_mem_erase hin)
    · subst hk'; exact hgone
  · intro k hk
    exact inv.live_lt k (List.mem_of_mem_erase hk)
  · intro k hk
    have hk' : k ∈ a.mSoundRecycle ∨ k = h := by
      simpa [AudioManager.core, AudioManager.retire, AudioManager.setSound] using hk
    rcases hk' with hk' | hk'
    · exact inv.recycle_lt k hk'
    · subst hk'; exact inv.live_lt k hl
  · exact List.Nodup.erase h hlnd
  · have := inv.recycle_nodup
    simp only [AudioManager.core, AudioManager.retire, AudioManager.setSound] at this ⊢
    exact List.Nodup.append this (List.nodup_singleton _) (by simpa using hnotrec)
  · exact inv.unconfigured

/-- Every elementary change keeps the binding invariant. -/
theorem CoreStep_keeps_inv {d : Driver} {a b : AudioManager} (hs : CoreStep d a b)
    (inv : a.core.Inv d) : b.core.Inv d := by
  cases hs with
  | same e => rw [e]; exact inv
  | setup h hl hu e => rw [e]; exact Inv_setup d a h hl hu inv
  | free h e => rw [e]; exact Inv_free d a h inv
  | enqueue h c hh e => rw [e]; exact Inv_enqueue d a h c hh inv
  | dequeue h e => rw [e]; exact Inv_dequeue d a h inv
  | create e => rw [e]; exact Inv_create d a inv
  | retire h hl hu e => rw [e]; exact Inv_retire d a h hl hu inv

theorem Path_keeps_inv {d : Driver} {a b : AudioManager} (hp : Path d a b)
    (inv : a.core.Inv d) : b.core.Inv d := by
  induction hp with
  | refl => exact inv
  | tail _ hs ih => exact CoreStep_keeps_inv hs ih


/-! ## Operations that leave the binding state alone -/

theorem core_congr (a b : AudioManager)
    (hs : ∀ k, (b.sounds k).mIsInitialized = (a.sounds k).mIsInitialized ∧
      (b.sounds k).mSource = (a.sounds k).mSource ∧
      (b.sounds k).mCommand = (a.sounds k).mCommand ∧
      (b.sounds k).heardByManager = (a.sounds k).heardByManager)
    (hmap : b.mSourceMap = a.mSourceMap) (hav : b.mAvailable = a.mAvailable)
    (hlive : b.mSoundList = a.mSoundList) (hrec : b.mSoundRecycle = a.mSoundRecycle)
    (hnext : b.nextSound = a.nextSound) (hcfg : b.mSource = a.mSource) :
    b.core = a.core := by
  unfold AudioManager.core
  rw [hmap, hav, hlive, hrec, hnext, hcfg]
  congr 1
  · funext k; exact (hs k).1
  · funext k; exact (hs k).2.1
  · funext k; exact (hs k).2.2.1
  · funext k; exact (hs k).2.2.2

theorem core_setSound (a : AudioManager) (h : Nat) (f : Sound → Sound)
    (hf : ∀ s : Sound, (f s).mIsInitialized = s.mIsInitialized ∧ (f s).mSource = s.mSource ∧
      (f s).mCommand = s.mCommand ∧ (f s).heardByManager = s.heardByManager) :
    (a.setSound h f).core = a.core := by
  apply core_congr <;> try rfl
  intro k
  by_cases hk : k = h
  · subst hk; simpa [AudioManager.setSound] using hf (a.sounds k)
  · simp [AudioManager.setSound, Function.update_noteq hk]

theorem Sound_OnMessage_key (c : Command) (s : Sound) :
    (Sound.OnMessage c s).mIsInitialized = s.mIsInitialized ∧
    (Sound.OnMessage c s).mSource = s.mSource ∧
    (Sound.OnMessage c s).mCommand = s.mCommand ∧
    (Sound.OnMessage c s).heardByManager = s.heardByManager := by
  cases c <;> exact ⟨rfl, rfl, rfl, rfl⟩

theorem core_SendMessage (c : Command) (h : Nat) (a : AudioManager) :
    (a.SendMessage c h).core = a.core := by
  unfold AudioManager.SendMessage
  split
  · exact core_setSound a h _ (Sound_OnMessage_key c)
  · rfl

theorem core_notify (c : Command) (src : Nat) (a : AudioManager) :
    (AudioManager.notify c src a).core = a.core := by
  unfold AudioManager.notify
  split
  · exact core_SendMessage _ _ _
  · rfl

theorem core_writeChecked (d : Driver) (h : Nat) (w : OpenAL → OpenAL) (msg : Option Command)
    (a : AudioManager) : (AudioManager.writeChecked d h w msg a).core = a.core := by
  unfold AudioManager.writeChecked AudioManager.check
  simp only
  split
  · rfl
  · cases msg with
    | none => rfl
    | some c => exact core_SendMessage _ _ _

theorem core_touchBuffer (file : String) (a : AudioManager) :
    (a.touchBuffer file).core = a.core := by
  unfold AudioManager.touchBuffer
  split <;> rfl

theorem core_LoadFile (d : Driver) (file : String) (a : AudioManager) :
    (a.LoadFile d file).2.core = a.core := by
  unfold AudioManager.LoadFile AudioManager.check
  simp only
  repeat' split
  all_goals first | rfl | exact core_touchBuffer file a

theorem core_UnloadFile (d : Driver) (file : String) (a : AudioManager) :
    (a.UnloadFile d file).2.core = a.core := by
  unfold AudioManager.UnloadFile
  repeat' split
  all_goals rfl

theorem core_LoadSound (d : Driver) (h : Nat) (a : AudioManager) :
    (a.LoadSound d h).core = a.core := by
  unfold AudioManager.LoadSound
  simp only
  have h1 : ((a.LoadFile d (a.sounds h).GetFilename).2.touchBuffer
      (a.sounds h).GetFilename).core = a.core := by
    rw [core_touchBuffer, core_LoadFile]
  split
  · exact h1
  · rw [← h1]
    apply core_congr <;> try rfl
    intro k
    by_cases hk : k = h
    · subst hk; simp
    · simp [Function.update_noteq hk]


theorem core_applyPending (d : Driver) (flag : Command) (p : SourceParam)
    (value : Sound → ALfloat) (h src : Nat) (isNew : Bool) (a : AudioManager) :
    (AudioManager.applyPending d flag p value h src isNew a).core = a.core := by
  unfold AudioManager.applyPending
  split
  · exact core_setSound a h _ (fun _ => ⟨rfl, rfl, rfl, rfl⟩)
  · rfl

theorem core_playSettings (d : Driver) (h src : Nat) (isNew : Bool) (a : AudioManager) :
    (AudioManager.playSettings d h src isNew a).core = a.core := by
  unfold AudioManager.playSettings
  simp only
  have h5 : ∀ x : AudioManager, x.core = a.core →
      (AudioManager.applyPending d .MAX_GAIN .MAX_GAIN Sound.mMaxGain h src isNew
        (AudioManager.applyPending d .MIN_GAIN .MIN_GAIN Sound.mMinGain h src isNew
          (AudioManager.applyPending d .ROL_FACT .ROLLOFF_FACTOR Sound.mRolloff h src isNew
            (AudioManager.applyPending d .MAX_DIST .MAX_DISTANCE Sound.mMaxDist h src isNew
              (AudioManager.applyPending d .MIN_DIST .REFERENCE_DISTANCE Sound.mMinDist
                h src isNew x))))).core = a.core := by
    intro x hx
    rw [core_applyPending, core_applyPending, core_applyPending, core_applyPending,
      core_applyPending, hx]
  split
  · exact Eq.trans
      (core_setSound _ h (fun s => { s with hearsManager := true, hearsSystem := true })
        (fun _ => ⟨rfl, rfl, rfl, rfl⟩)) (h5 _ rfl)
  · exact h5 _ rfl

theorem core_playBind (d : Driver) (h src : Nat) (isNew : Bool) (a : AudioManager) :
    (AudioManager.playBind d h src isNew a).core = a.core := by
  unfold AudioManager.playBind AudioManager.check
  simp only
  split
  · rfl
  · rw [core_playSettings]; rfl

/-- The command `PlaySound` on a sound of the sound list changes the binding state by at most
one `SetupSource`. -/
theorem PlaySound_path (d : Driver) (h : Nat) (a : AudioManager) (hl : h ∈ a.mSoundList) :
    Path d a (a.PlaySound d h) := by
  unfold AudioManager.PlaySound
  split
  · exact Relation.ReflTransGen.refl
  · split
    · rename_i hu
      split
      · exact Relation.ReflTransGen.refl
      · rename_i st1 heq
        have e : st1 = (a.SetupSource h).2 := by rw [heq]
        refine Relation.ReflTransGen.single (CoreStep.setup h hl hu ?_)
        rw [core_playBind, e]
    · refine Relation.ReflTransGen.single (CoreStep.same ?_)
      unfold AudioManager.check
      simp only
      split
      · rfl
      · split
        · rfl
        · rfl
        · rw [core_playBind]; rfl

theorem core_PauseSound (h : Nat) (a : AudioManager) : (a.PauseSound h).core = a.core := by
  unfold AudioManager.PauseSound
  split <;> rfl

theorem core_StopSound (d : Driver) (h : Nat) (a : AudioManager) :
    (a.StopSound d h).core = a.core := by
  unfold AudioManager.StopSound
  split <;> rfl

theorem core_RewindSound (d : Driver) (h : Nat) (a : AudioManager) :
    (a.RewindSound d h).core = a.core := by
  unfold AudioManager.RewindSound
  split <;> rfl

theorem core_SetLoop (d : Driver) (h : Nat) (a : AudioManager) :
    (a.SetLoop d h).core = a.core := by
  unfold AudioManager.SetLoop
  split
  · exact core_setSound a h _ (fun _ => ⟨rfl, rfl, rfl, rfl⟩)
  · exact core_writeChecked _ _ _ _ _

theorem core_ResetLoop (d : Driver) (h : Nat) (a : AudioManager) :
    (a.ResetLoop d h).core = a.core := by
  unfold AudioManager.ResetLoop
  split
  · exact core_setSound a h _ (fun _ => ⟨rfl, rfl, rfl, rfl⟩)
  · exact core_writeChecked _ _ _ _ _

theorem core_SetRelative (d : Driver) (h : Nat) (a : AudioManager) :
    (a.SetRelative d h).core = a.core := by
  unfold AudioManager.SetRelative
  simp only
  have hflag : (a.setSound h (fun s => (s.SetState .REL).ResetState .ABS)).core = a.core :=
    core_setSound a h _ (fun _ => ⟨rfl, rfl, rfl, rfl⟩)
  repeat' split
  all_goals first | rfl | exact hflag | exact core_writeChecked _ _ _ _ _

theorem core_SetAbsolute (d : Driver) (h : Nat) (a : AudioManager) :
    (a.SetAbsolute d h).core = a.core := by
  unfold AudioManager.SetAbsolute
  split
  · exact core_setSound a h _ (fun _ => ⟨rfl, rfl, rfl, rfl⟩)
  · exact core_writeChecked _ _ _ _ _

theorem core_SetGain (d : Driver) (h : Nat) (a : AudioManager) :
    (a.SetGain d h).core = a.core := by
  unfold AudioManager.SetGain
  split
  · rfl
  · exact core_writeChecked _ _ _ _ _

theorem core_SetPitch (d : Driver) (h : Nat) (a : AudioManager) :
    (a.SetPitch d h).core = a.core := by
  unfold AudioManager.SetPitch
  split
  · rfl
  · exact core_writeChecked _ _ _ _ _

theorem core_SetPosition (d : Driver) (h : Nat) (a : AudioManager) :
    (a.SetPosition d h).core = a.core := by
  unfold AudioManager.SetPosition
  split
  · rfl
  · exact core_writeChecked _ _ _ _ _

theorem core_SetDirection (d : Driver) (h : Nat) (a : AudioManager) :
    (a.SetDirection d h).core = a.core := by
  unfold AudioManager.SetDirection
  split
  · rfl
  · exact core_writeChecked _ _ _ _ _

theorem core_SetVelocity (d : Driver) (h : Nat) (a : AudioManager) :
    (a.SetVelocity d h).core = a.core := by
  unfold AudioManager.SetVelocity
  split
  · rfl
  · exact core_writeChecked _ _ _ _ _

theorem core_SetReferenceDistance (d : Driver) (h : Nat) (a : AudioManager) :
    (a.SetReferenceDistance d h).core = a.core := by
  unfold AudioManager.SetReferenceDistance
  split
  · exact core_setSound a h _ (fun _ => ⟨rfl, rfl, rfl, rfl⟩)
  · exact core_writeChecked _ _ _ _ _

theorem core_SetMaximumDistance (d : Driver) (h : Nat) (a : AudioManager) :
    (a.SetMaximumDistance d h).core = a.core := by
  unfold AudioManager.SetMaximumDistance
  split
  · exact core_setSound a h _ (fun _ => ⟨rfl, rfl, rfl, rfl⟩)
  · exact core_writeChecked _ _ _ _ _

theorem core_SetRolloff (d : Driver) (h : Nat) (a : AudioManager) :
    (a.SetRolloff d h).core = a.core := by
  unfold AudioManager.SetRolloff
  split
  · exact core_setSound a h _ (fun _ => ⟨rfl, rfl, rfl, rfl⟩)
  · exact core_writeChecked _ _ _ _ _

theorem core_SetMinimumGain (d : Driver) (h : Nat) (a : AudioManager) :
    (a.SetMinimumGain d h).core = a.core := by
  unfold AudioManager.SetMinimumGain
  repeat' split
  all_goals first
    | rfl
    | exact core_setSound a h _ (fun _ => ⟨rfl, rfl, rfl, rfl⟩)
    | exact core_writeChecked _ _ _ _ _

theorem core_SetMaximumGain (d : Driver) (h : Nat) (a : AudioManager) :
    (a.SetMaximumGain d h).core = a.core := by
  unfold AudioManager.SetMaximumGain
  repeat' split
  all_goals first
    | rfl
    | exact core_setSound a h _ (fun _ => ⟨rfl, rfl, rfl, rfl⟩)
    | exact core_writeChecked _ _ _ _ _

theorem core_FreeSource (d : Driver) (h : Nat) (a : AudioManager) :
    (a.FreeSource d (some h)).core = Core.free d h a.core := by
  unfold AudioManager.FreeSource Core.free
  by_cases hu : (a.sounds h).mIsInitialized = false
  · simp [AudioManager.core, hu]
  · have hb : (a.sounds h).mIsInitialized = true := by simpa using hu
    have key : ∀ k, (Function.update a.sounds h
          { a.sounds h with mIsInitialized := false } k).mIsInitialized
          = Function.update (fun k => (a.sounds k).mIsInitialized) h false k ∧
        (Function.update a.sounds h { a.sounds h with mIsInitialized := false } k).mSource
          = (a.sounds k).mSource ∧
        (Function.update a.sounds h { a.sounds h with mIsInitialized := false } k).mCommand
          = (a.sounds k).mCommand ∧
        (Function.update a.sounds h { a.sounds h with mIsInitialized := false } k).heardByManager
          = (a.sounds k).heardByManager := by
      intro k
      by_cases hk : k = h
      · subst hk; simp
      · simp [Function.update_noteq hk]
    by_cases hv : d.isSource (a.sounds h).mSource = false
    · simp only [hu, if_false, AudioManager.setSound, hv, if_true, AudioManager.core]
      refine Core.ext ?_ ?_ ?_ ?_ rfl rfl rfl rfl rfl rfl
      · funext k; exact (key k).1
      · funext k; exact (key k).2.1
      · funext k; exact (key k).2.2.1
      · funext k; exact (key k).2.2.2
    · simp only [hu, if_false, AudioManager.setSound, hv, AudioManager.core]
      refine Core.ext ?_ ?_ ?_ ?_ rfl rfl rfl rfl rfl rfl
      · funext k; exact (key k).1
      · funext k; exact (key k).2.1
      · funext k; exact (key k).2.2.1
      · funext k; exact (key k).2.2.2

/-- The command `UnloadSound` changes the binding state by at most one `FreeSource`. -/
theorem UnloadSound_path (d : Driver) (h : Nat) (a : AudioManager) :
    Path d a (a.UnloadSound d h) := by
  unfold AudioManager.UnloadSound
  simp only
  have h1 : ((a.setSound h (fun s => { s with mBuffer := 0 })).touchBuffer
      (a.sounds h).GetFilename).core = a.core := by
    rw [core_touchBuffer]
    exact core_setSound a h _ (fun _ => ⟨rfl, rfl, rfl, rfl⟩)
  split
  · exact Relation.ReflTransGen.single (CoreStep.same h1)
  · rename_i bd hbd
    refine Relation.ReflTransGen.tail
      (Relation.ReflTransGen.single (CoreStep.same h1)) ?_
    split
    · split
      · refine CoreStep.free h ?_
        rw [core_UnloadFile, core_FreeSource, core_FreeSource]
        rfl
      · refine CoreStep.same ?_
        rw [core_UnloadFile]; rfl
    · refine CoreStep.same ?_
      rw [core_UnloadFile]; rfl


/-! ## The frame phases and the binding state -/

theorem Sound_pending_of_dequeue (s : Sound) (c : Command)
    (hc : s.DequeueCommand.1 = some c) : s.mCommand ≠ [] := by
  unfold Sound.DequeueCommand at hc
  intro hn
  simp [hn] at hc

/-- One entry of the command queue changes the binding state along a path. -/
theorem dispatch_path (d : Driver) (h : Nat) (a : AudioManager) (inv : a.core.Inv d) :
    Path d a (AudioManager.dispatch d h a) := by
  have hdq : CoreStep d a (a.setSound h (fun s => s.DequeueCommand.2)) :=
    CoreStep.dequeue h rfl
  have same : ∀ b : AudioManager, b.core = (a.setSound h (fun s => s.DequeueCommand.2)).core →
      Path d a b := fun b hb =>
    Relation.ReflTransGen.tail (Relation.ReflTransGen.single hdq) (CoreStep.same hb)
  unfold AudioManager.dispatch
  simp only
  cases hc : (a.sounds h).DequeueCommand.1 with
  | none => exact Relation.ReflTransGen.single hdq
  | some c =>
    have hlive : h ∈ a.mSoundList := by
      by_contra hd
      exact Sound_pending_of_dequeue _ _ hc (inv.dead_idle h hd).1
    cases c
    case PLAY =>
      exact Relation.ReflTransGen.trans (Relation.ReflTransGen.single hdq)
        (PlaySound_path d h _ hlive)
    case UNLOAD =>
      exact Relation.ReflTransGen.trans (Relation.ReflTransGen.single hdq)
        (UnloadSound_path d h _)
    case NONE => exact Relation.ReflTransGen.single hdq
    case QUEUE => exact Relation.ReflTransGen.single hdq
    case LOAD => exact same _ (core_LoadSound _ _ _)
    case PAUSE => exact same _ (core_PauseSound _ _)
    case STOP => exact same _ (core_StopSound _ _ _)
    case REWIND => exact same _ (core_RewindSound _ _ _)
    case LOOP => exact same _ (core_SetLoop _ _ _)
    case UNLOOP => exact same _ (core_ResetLoop _ _ _)
    case GAIN => exact same _ (core_SetGain _ _ _)
    case PITCH => exact same _ (core_SetPitch _ _ _)
    case POSITION => exact same _ (core_SetPosition _ _ _)
    case DIRECTION => exact same _ (core_SetDirection _ _ _)
    case VELOCITY => exact same _ (core_SetVelocity _ _ _)
    case ABS => exact same _ (core_SetAbsolute _ _ _)
    case REL => exact same _ (core_SetRelative _ _ _)
    case MIN_DIST => exact same _ (core_SetReferenceDistance _ _ _)
    case MAX_DIST => exact same _ (core_SetMaximumDistance _ _ _)
    case ROL_FACT => exact same _ (core_SetRolloff _ _ _)
    case MIN_GAIN => exact same _ (core_SetMinimumGain _ _ _)
    case MAX_GAIN => exact same _ (core_SetMaximumGain _ _ _)

theorem preFrameLoop_path (d : Driver) (q : List Nat) (a : AudioManager)
    (inv : a.core.Inv d) : Path d a (AudioManager.preFrameLoop d q a) := by
  induction q generalizing a with
  | nil => exact Relation.ReflTransGen.refl
  | cons h rest ih =>
    unfold AudioManager.preFrameLoop
    have p0 : Path d a { a with mSoundCommand := rest } :=
      Relation.ReflTransGen.single (CoreStep.same rfl)
    have p1 : Path d { a with mSoundCommand := rest }
        (AudioManager.dispatch d h { a with mSoundCommand := rest }) :=
      dispatch_path d h _ inv
    exact (p0.trans p1).trans (ih _ (Path_keeps_inv p1 inv))

theorem PreFrame_path (d : Driver) (a : AudioManager) (inv : a.core.Inv d) :
    Path d a (a.PreFrame d) :=
  preFrameLoop_path d _ a inv

theorem core_frameScan (d : Driver) (l : List Nat) (i : Nat) (stk : List Nat)
    (a : AudioManager) : (AudioManager.frameScan d l i stk a).2.core = a.core := by
  induction l generalizing i stk a with
  | nil => rfl
  | cons src rest ih =>
    unfold AudioManager.frameScan AudioManager.check
    simp only
    split
    · rw [ih]; rfl
    · split
      · rw [ih, core_notify]; rfl
      · rw [ih, core_notify]; rfl
      · rw [ih]; rfl

theorem core_foldl (f : AudioManager → Nat → AudioManager) (l : List Nat) (a : AudioManager)
    (hf : ∀ x s, (f x s).core = x.core) : (l.foldl f a).core = a.core := by
  induction l generalizing a with
  | nil => rfl
  | cons s rest ih => rw [List.foldl_cons, ih, hf]

theorem core_framePauseOne (d : Driver) (src : Nat) (a : AudioManager) :
    (AudioManager.framePauseOne d src a).core = a.core := by
  unfold AudioManager.framePauseOne AudioManager.check
  simp only
  split
  · rfl
  · split
    · rw [core_notify]; rfl
    · rw [core_notify]; rfl
    · rfl

theorem core_framePauses (d : Driver) (a : AudioManager) :
    (AudioManager.framePauses d a).core = a.core := by
  unfold AudioManager.framePauses
  rw [core_foldl _ _ _ (fun x s => core_framePauseOne d s x)]
  rfl

theorem core_frameRewinds (d : Driver) (a : AudioManager) :
    (AudioManager.frameRewinds d a).core = a.core := by
  unfold AudioManager.frameRewinds
  rw [core_foldl _ _ _ (fun x s => by rw [core_notify]; rfl)]
  rfl

theorem core_frameErase (stk : List Nat) (a : AudioManager) :
    (AudioManager.frameErase stk a).core = a.core := by
  induction stk generalizing a with
  | nil => rfl
  | cons i rest ih =>
    unfold AudioManager.frameErase
    rw [ih]; rfl

/-- The phase `Frame` leaves the binding state alone: the available queue, the source map
and the binding of every sound are what they were. -/
theorem core_Frame (d : Driver) (a : AudioManager) : (a.Frame d).core = a.core := by
  unfold AudioManager.Frame
  simp only
  rw [core_frameErase, core_frameRewinds, core_framePauses, core_frameScan]
  rfl

theorem postFrameOne_path (d : Driver) (src : Nat) (a : AudioManager) :
    Path d a (AudioManager.postFrameOne d src a) := by
  unfold AudioManager.postFrameOne
  split
  · rename_i h _
    have hs : (a.setSound h
        (fun s => { s with hearsManager := false, hearsSystem := false })).core = a.core :=
      core_setSound a h _ (fun _ => ⟨rfl, rfl, rfl, rfl⟩)
    exact Relation.ReflTransGen.tail (Relation.ReflTransGen.single (CoreStep.same hs))
      (CoreStep.free h rfl)
  · exact Relation.ReflTransGen.refl

theorem path_foldl (d : Driver) (f : AudioManager → Nat → AudioManager) (l : List Nat)
    (a : AudioManager) (inv : a.core.Inv d)
    (hf : ∀ x s, x.core.Inv d → Path d x (f x s)) : Path d a (l.foldl f a) := by
  induction l generalizing a with
  | nil => exact Relation.ReflTransGen.refl
  | cons s rest ih =>
    rw [List.foldl_cons]
    exact (hf a s inv).trans (ih _ (Path_keeps_inv (hf a s inv) inv))

theorem PostFrame_path (d : Driver) (a : AudioManager) (inv : a.core.Inv d) :
    Path d a (a.PostFrame d) := by
  unfold AudioManager.PostFrame
  have p0 : Path d a { a with mStopQueue := [] } :=
    Relation.ReflTransGen.single (CoreStep.same rfl)
  exact p0.trans (path_foldl d _ _ _ inv (fun x s _ => postFrameOne_path d s x))


/-! ## Creating and freeing sounds, configuration -/

theorem core_UnloadSound_unbound (d : Driver) (h : Nat) (a : AudioManager)
    (hu : (a.sounds h).mIsInitialized = false) : (a.UnloadSound d h).core = a.core := by
  unfold AudioManager.UnloadSound
  simp only
  have h1 : ((a.setSound h (fun s => { s with mBuffer := 0 })).touchBuffer
      (a.sounds h).GetFilename).core = a.core := by
    rw [core_touchBuffer]
    exact core_setSound a h _ (fun _ => ⟨rfl, rfl, rfl, rfl⟩)
  have h2 : (((a.setSound h (fun s => { s with mBuffer := 0 })).touchBuffer
      (a.sounds h).GetFilename).sounds h).mIsInitialized = false := by
    have := congrArg (fun c => c.bound h) h1
    simpa [AudioManager.core, hu] using this
  split
  · exact h1
  · rw [core_UnloadFile]
    split
    · split
      · rename_i hc
        simp [h2] at hc
      · exact h1
    · exact h1

theorem core_clear (h : Nat) (x : AudioManager) :
    ({ x.setSound h Sound.Clear with mSoundRecycle := x.mSoundRecycle ++ [h] } :
      AudioManager).core = Core.clear h x.core := by
  unfold Core.clear AudioManager.core AudioManager.setSound
  refine Core.ext ?_ ?_ ?_ ?_ rfl rfl rfl rfl rfl rfl
  all_goals
    funext k
    by_cases hk : k = h
    · subst hk; simp [Sound.Clear]
    · simp [Function.update_noteq hk]

theorem core_drop (h : Nat) (x : AudioManager) :
    (AudioManager.setSound h
      (fun s => { s with hearsManager := false, hearsSystem := false, heardByManager := false })
      { x with mSoundList := x.mSoundList.erase h }).core = Core.drop h x.core := by
  unfold Core.drop AudioManager.core AudioManager.setSound
  refine Core.ext ?_ ?_ ?_ ?_ rfl rfl rfl rfl rfl rfl
  all_goals
    funext k
    by_cases hk : k = h
    · subst hk; simp
    · simp [Function.update_noteq hk]

theorem core_retire (h : Nat) (x : AudioManager) :
    (x.retire h).core = Core.clear h (Core.drop h x.core) := by
  unfold Core.clear Core.drop AudioManager.core AudioManager.retire AudioManager.setSound
  refine Core.ext ?_ ?_ ?_ ?_ rfl rfl rfl rfl rfl rfl
  all_goals
    funext k
    by_cases hk : k = h
    · subst hk; simp [Sound.Clear]
    · simp [Function.update_noteq hk]

theorem Core_free_drop (d : Driver) (h : Nat) (c : Core) :
    Core.free d h (Core.drop h c) = Core.drop h (Core.free d h c) := by
  unfold Core.free Core.drop
  simp only
  split_ifs <;> rfl

theorem Core_free_bound (d : Driver) (h : Nat) (c : Core) :
    (Core.free d h c).bound h = false ∧ (Core.free d h c).live = c.live := by
  unfold Core.free
  split_ifs with h1 h2
  · exact ⟨h1, rfl⟩
  · simp
  · simp

/-- The member `FreeSound` on a sound of the sound list: one `FreeSource`, then the sound is
retired. -/
theorem FreeSound_path (d : Driver) (h : Nat) (a : AudioManager) (hl : h ∈ a.mSoundList) :
    Path d a (a.FreeSound d (some h)) := by
  have hb := Core_free_bound d h a.core
  rw [← core_FreeSource] at hb
  have s1 : CoreStep d a (a.FreeSource d (some h)) := CoreStep.free h rfl
  refine Relation.ReflTransGen.tail (Relation.ReflTransGen.single s1) ?_
  refine CoreStep.retire h ?_ hb.1 ?_
  · have := hb.2
    simp only [AudioManager.core] at this
    rw [this]; exact hl
  · rw [core_retire, core_FreeSource]
    unfold AudioManager.FreeSound
    simp only
    rw [core_clear, core_UnloadSound_unbound, core_FreeSource, core_drop, Core_free_drop]
    have := (Core_free_bound d h (Core.drop h a.core)).1
    rw [← core_drop, ← core_FreeSource] at this
    exact this

theorem pushSources_spec (d : Driver) (l : List Nat) (a : AudioManager) :
    (AudioManager.pushSources d l a).2
      = { a with mAvailable := a.mAvailable ++ l.takeWhile d.isSource } ∧
    ((AudioManager.pushSources d l a).1 = true → l.takeWhile d.isSource = l) := by
  induction l generalizing a with
  | nil => simp [AudioManager.pushSources]
  | cons s rest ih =>
    unfold AudioManager.pushSources
    by_cases hs : d.isSource s = false
    · simp [hs]
    · have hs' : d.isSource s = true := by simpa using hs
      rw [if_neg hs]
      refine ⟨?_, ?_⟩
      · rw [(ih _).1]; simp [List.takeWhile, hs']
      · intro hok
        simp [List.takeWhile, hs', (ih _).2 hok]

theorem core_ConfigEAX (d : Driver) (eax : Bool) (a : AudioManager) :
    (a.ConfigEAX d eax).2.core = a.core := by
  unfold AudioManager.ConfigEAX
  simp only
  repeat' split
  all_goals rfl

theorem ConfigSources_ok (d : Driver) (n : Nat) (a : AudioManager)
    (hok : (a.ConfigSources d n).1 = true) :
    n ≠ 0 ∧ d.errors a.al.checks = false ∧
    (d.genSources n).takeWhile d.isSource = d.genSources n := by
  unfold AudioManager.ConfigSources AudioManager.check at hok
  by_cases hn : n = 0
  · simp [hn] at hok
  · rw [if_neg hn] at hok
    by_cases he : d.errors a.al.checks = true
    · simp [he] at hok
    · simp only at hok
      rw [if_neg he] at hok
      exact ⟨hn, by simpa using he, (pushSources_spec d _ _).2 hok⟩

/-- On a manager without a source array, a `Config` whose `alGenSources` reports no error
records the generated array and appends its valid leading sources to the available queue. -/
theorem core_Config_generated (d : Driver) (data : AudioConfigData) (a : AudioManager)
    (hnone : a.mSource = none) (hn : data.numSources ≠ 0)
    (he : d.errors (a.setDistanceModel data).al.checks = false) :
    (a.Config d data).core = { a.core with
      array := some (d.genSources data.numSources)
      avail := a.mAvailable ++ (d.genSources data.numSources).takeWhile d.isSource } := by
  unfold AudioManager.Config
  have hc : ¬ a.mSource.isSome = true := by simp [hnone]
  rw [if_neg hc]
  unfold AudioManager.ConfigSources AudioManager.check
  simp only [hn, if_false]
  have he' : ¬ d.errors (a.setDistanceModel data).al.checks = true := by simp [he]
  rw [if_neg he']
  have hp := pushSources_spec d (d.genSources data.numSources)
    { a.setDistanceModel data with
      al := (OpenAL.CheckForError d (a.setDistanceModel data).al).2
      mNumSources := data.numSources
      mSource := some (d.genSources data.numSources) }
  generalize hres : AudioManager.pushSources d (d.genSources data.numSources) _ = res
    at hp ⊢
  obtain ⟨ok, st⟩ := res
  cases ok
  · simp only at hp ⊢
    rw [hp.1]; rfl
  · simp only at hp ⊢
    rw [core_ConfigEAX, hp.1]; rfl

/-- What `Config` does to the binding state: nothing, or (on a manager without a source
array) the valid leading sources the driver generated are appended to the available queue
and the array is recorded. -/
theorem core_Config (d : Driver) (data : AudioConfigData) (a : AudioManager) :
    (a.Config d data).core = a.core ∨
    (a.mSource = none ∧
      (a.Config d data).core = { a.core with
        array := some (d.genSources data.numSources)
        avail := a.mAvailable ++ (d.genSources data.numSources).takeWhile d.isSource }) := by
  by_cases hc : a.mSource.isSome = true
  · left; simp [AudioManager.Config, hc]
  · have hnone : a.mSource = none := by
      cases hm : a.mSource with
      | none => rfl
      | some v => simp [hm] at hc
    by_cases hn : data.numSources = 0
    · left
      unfold AudioManager.Config AudioManager.ConfigSources
      rw [if_neg hc]
      simp only [hn, if_true]
      rfl
    · by_cases he : d.errors (a.setDistanceModel data).al.checks = true
      · left
        unfold AudioManager.Config AudioManager.ConfigSources AudioManager.check
        rw [if_neg hc]
        simp only [hn, if_false, he, if_true]
        simp [AudioManager.core, hnone, AudioManager.setDistanceModel]
      · right
        exact ⟨hnone, core_Config_generated d data a hnone hn (by simpa using he)⟩

theorem Inv_Config (d : Driver) (hd : d.FreshNames) (data : AudioConfigData)
    (a : AudioManager) (inv : a.core.Inv d) : (a.Config d data).core.Inv d := by
  rcases core_Config d data a with e | ⟨hnone, e⟩
  · rw [e]; exact inv
  · rw [e]
    have hun := inv.unconfigured hnone
    have hav : a.mAvailable = [] := hun.1
    have hmap : ∀ s, a.mSourceMap s = none := hun.2
    constructor
    · simp only [hav, List.nil_append]
      exact List.Nodup.sublist (List.takeWhile_sublist _) (hd data.numSources).1
    · intro s hs
      simp only [hav, List.nil_append] at hs
      exact ⟨List.mem_takeWhile_imp hs, hmap s⟩
    · intro s h hs
      have : a.mSourceMap s = some h := hs
      simp [hmap s] at this
    · intro h hb
      have := inv.bound_map h hb
      simp only [AudioManager.core] at this
      simp [hmap] at this
    · exact inv.bound_live
    · exact inv.dead_idle
    · exact inv.recycle_dead
    · exact inv.live_lt
    · exact inv.recycle_lt
    · exact inv.live_nodup
    · exact inv.recycle_nodup
    · intro hc
      simp at hc

theorem Sound_SendMessage_path (d : Driver) (c : Command) (h : Nat) (a : AudioManager) :
    Path d a (Sound.SendMessage c h a) := by
  unfold Sound.SendMessage
  split
  · rename_i hh
    unfold AudioManager.OnMessage
    split
    · exact Relation.ReflTransGen.refl
    · exact Relation.ReflTransGen.single (CoreStep.enqueue h c hh rfl)
  · exact Relation.ReflTransGen.refl

theorem store_then_send_path (d : Driver) (c : Command) (h : Nat) (f : Sound → Sound)
    (hf : ∀ s : Sound, (f s).mIsInitialized = s.mIsInitialized ∧ (f s).mSource = s.mSource ∧
      (f s).mCommand = s.mCommand ∧ (f s).heardByManager = s.heardByManager)
    (a : AudioManager) : Path d a (Sound.SendMessage c h (a.setSound h f)) :=
  (Relation.ReflTransGen.single (CoreStep.same (core_setSound a h f hf))).trans
    (Sound_SendMessage_path d c h _)

/-- The command `PlaySound` either leaves the binding state alone or, for a sound without a
source, acts on it as `SetupSource`. -/
theorem core_PlaySound (d : Driver) (h : Nat) (a : AudioManager) :
    (a.PlaySound d h).core = a.core ∨
    ((a.sounds h).mIsInitialized = false ∧
      (a.PlaySound d h).core = (a.SetupSource h).2.core) := by
  unfold AudioManager.PlaySound
  split
  · exact Or.inl rfl
  · split
    · rename_i hu
      split
      · exact Or.inl rfl
      · rename_i st1 heq
        have e : st1 = (a.SetupSource h).2 := by rw [heq]
        right
        refine ⟨hu, ?_⟩
        rw [core_playBind, e]
    · left
      unfold AudioManager.check
      simp only
      split
      · rfl
      · split
        · rfl
        · rfl
        · rw [core_playBind]; rfl

theorem SetupSource_mSoundList (h : Nat) (a : AudioManager) :
    (a.SetupSource h).2.mSoundList = a.mSoundList := by
  unfold AudioManager.SetupSource
  split <;> rfl

theorem PlaySound_mSoundList (d : Driver) (h : Nat) (a : AudioManager) :
    (a.PlaySound d h).mSoundList = a.mSoundList := by
  rcases core_PlaySound d h a with e | ⟨_, e⟩
  · exact congrArg Core.live e
  · exact (congrArg Core.live e).trans (SetupSource_mSoundList h a)

theorem core_pauseStartOne (h : Nat) (a : AudioManager) :
    (AudioManager.pauseStartOne h a).core = a.core := by
  unfold AudioManager.pauseStartOne
  simp only
  rw [core_PauseSound]
  split <;> rfl

theorem pauseEndOne_path (d : Driver) (h : Nat) (a : AudioManager) (hl : h ∈ a.mSoundList) :
    Path d a (AudioManager.pauseEndOne d h a) ∧
    (AudioManager.pauseEndOne d h a).mSoundList = a.mSoundList := by
  unfold AudioManager.pauseEndOne
  simp only
  have key : ∀ x : AudioManager, x.core = a.core → x.mSoundList = a.mSoundList →
      Path d a (match x.mSoundStateMap h with
        | some .PAUSED => x.PauseSound h
        | some .PLAYING => x.PlaySound d h
        | some .STOPPED => x.StopSound d h
        | none => x) ∧
      (match x.mSoundStateMap h with
        | some .PAUSED => x.PauseSound h
        | some .PLAYING => x.PlaySound d h
        | some .STOPPED => x.StopSound d h
        | none => x).mSoundList = a.mSoundList := by
    intro x hx hxl
    have p0 : Path d a x := Relation.ReflTransGen.single (CoreStep.same hx)
    split
    · exact ⟨Relation.ReflTransGen.single (CoreStep.same ((core_PauseSound h x).trans hx)),
        (congrArg Core.live (core_PauseSound h x)).trans hxl⟩
    · exact ⟨p0.trans (PlaySound_path d h x (hxl ▸ hl)),
        (PlaySound_mSoundList d h x).trans hxl⟩
    · exact ⟨Relation.ReflTransGen.single (CoreStep.same ((core_StopSound d h x).trans hx)),
        (congrArg Core.live (core_StopSound d h x)).trans hxl⟩
    · exact ⟨p0, hxl⟩
  have hc : (a.touchState h).core = a.core := by
    unfold AudioManager.touchState; split <;> rfl
  exact key _ hc (congrArg Core.live hc)

theorem pauseEnd_fold_path (d : Driver) (l : List Nat) (a : AudioManager)
    (inv : a.core.Inv d) (hl : ∀ h ∈ l, h ∈ a.mSoundList) :
    Path d a (l.foldl (fun acc h => AudioManager.pauseEndOne d h acc) a) := by
  induction l generalizing a with
  | nil => exact Relation.ReflTransGen.refl
  | cons h rest ih =>
    rw [List.foldl_cons]
    have p1 := pauseEndOne_path d h a (hl h (List.mem_cons_self _ _))
    refine p1.1.trans (ih _ (Path_keeps_inv p1.1 inv) ?_)
    intro k hk
    rw [p1.2]
    exact hl k (List.mem_cons_of_mem _ hk)

theorem OnSystemMessage_path (d : Driver) (m : AudioManager.SystemMessage) (a : AudioManager)
    (inv : a.core.Inv d) : Path d a (a.OnSystemMessage d m) := by
  cases m with
  | PRE_FRAME => exact PreFrame_path d a inv
  | FRAME => exact Relation.ReflTransGen.single (CoreStep.same (core_Frame d a))
  | POST_FRAME => exact PostFrame_path d a inv
  | PAUSE =>
    have p1 := PreFrame_path d a inv
    have p2 : Path d (a.PreFrame d) ((a.PreFrame d).Frame d) :=
      Relation.ReflTransGen.single (CoreStep.same (core_Frame d _))
    have p3 := PostFrame_path d ((a.PreFrame d).Frame d) (Path_keeps_inv (p1.trans p2) inv)
    exact (p1.trans p2).trans p3
  | PAUSE_START =>
    refine Relation.ReflTransGen.single (CoreStep.same ?_)
    show (a.mSoundList.foldl (fun acc h => AudioManager.pauseStartOne h acc)
      { a with mSoundStateMap := fun _ => none }).core = a.core
    rw [core_foldl _ _ _ (fun x s => core_pauseStartOne s x)]
    rfl
  | PAUSE_END => exact pauseEnd_fold_path d _ a inv (fun _ hk => hk)

/-- Every action other than `Config` that keeps to the calling convention changes the binding
state along a path of elementary changes. -/
theorem step_path (d : Driver) (x : Action) (a : AudioManager) (inv : a.core.Inv d)
    (hx : ∀ data, x ≠ .config data) (hl : x.onLive a = true) : Path d a (step d x a) := by
  cases x with
  | config data => exact absurd rfl (hx data)
  | newSound => exact Relation.ReflTransGen.single (CoreStep.create rfl)
  | freeSound h => exact FreeSound_path d h a (of_decide_eq_true hl)
  | loadFile file => exact Relation.ReflTransGen.single (CoreStep.same (core_LoadFile d file a))
  | unloadFile file =>
    exact Relation.ReflTransGen.single (CoreStep.same (core_UnloadFile d file a))
  | system m => exact OnSystemMessage_path d m a inv
  | command h c => exact Sound_SendMessage_path d c h a
  | setGain h g =>
    refine store_then_send_path d _ h _ ?_ a
    intro s; exact ⟨rfl, rfl, rfl, rfl⟩
  | setPitch h p =>
    refine store_then_send_path d _ h _ ?_ a
    intro s; exact ⟨rfl, rfl, rfl, rfl⟩
  | soundLoadFile h f =>
    refine store_then_send_path d _ h _ ?_ a
    intro s; exact ⟨rfl, rfl, rfl, rfl⟩
  | setPosition h v =>
    refine store_then_send_path d _ h _ ?_ a
    intro s; exact ⟨rfl, rfl, rfl, rfl⟩
  | setDirection h v =>
    refine store_then_send_path d _ h _ ?_ a
    intro s; exact ⟨rfl, rfl, rfl, rfl⟩
  | setVelocity h v =>
    refine store_then_send_path d _ h _ ?_ a
    intro s; exact ⟨rfl, rfl, rfl, rfl⟩
  | finish src => exact Relation.ReflTransGen.single (CoreStep.same rfl)
  | playSound h => exact PlaySound_path d h a (of_decide_eq_true hl)
  | pauseSound h => exact Relation.ReflTransGen.single (CoreStep.same (core_PauseSound h a))
  | stopSound h => exact Relation.ReflTransGen.single (CoreStep.same (core_StopSound d h a))
  | rewindSound h =>
    exact Relation.ReflTransGen.single (CoreStep.same (core_RewindSound d h a))
  | loadSound h => exact Relation.ReflTransGen.single (CoreStep.same (core_LoadSound d h a))
  | unloadSound h => exact UnloadSound_path d h a
  | freeSource h => exact Relation.ReflTransGen.single (CoreStep.free h rfl)

/-- Every action that keeps to the calling convention keeps the binding invariant. -/
theorem step_inv (d : Driver) (hd : d.FreshNames) (x : Action) (a : AudioManager)
    (inv : a.core.Inv d) (hl : x.onLive a = true) : (step d x a).core.Inv d := by
  by_cases hx : ∃ data, x = .config data
  · obtain ⟨data, rfl⟩ := hx
    exact Inv_Config d hd data a inv
  · exact Path_keeps_inv (step_path d x a inv (fun data e => hx ⟨data, e⟩) hl) inv

theorem legal_cons (d : Driver) (x : Action) (rest : List Action) (a : AudioManager)
    (hl : legal d (x :: rest) a = true) :
    x.onLive a = true ∧ legal d rest (step d x a) = true := by
  have h : (x.onLive a && legal d rest (step d x a)) = true := hl
  exact Bool.and_eq_true_iff.mp h

/-- Every run that keeps to the calling convention keeps the binding invariant. -/
theorem run_inv (d : Driver) (hd : d.FreshNames) (acts : List Action) (a : AudioManager)
    (inv : a.core.Inv d) (hl : legal d acts a = true) : (run d acts a).core.Inv d := by
  induction acts generalizing a with
  | nil => exact inv
  | cons x rest ih =>
    unfold run
    rw [List.foldl_cons]
    have h := legal_cons d x rest a hl
    exact ih _ (step_inv d hd x a inv h.1) h.2


/-! ## The source pool -/

theorem Pool_setup (pool : List Nat) (a : AudioManager) (h : Nat)
    (hp : a.core.Pool pool) : (a.SetupSource h).2.core.Pool pool := by
  unfold AudioManager.SetupSource
  cases hav : a.mAvailable with
  | nil => simpa using hp
  | cons src rest =>
    refine ⟨hp.1, fun s => ?_⟩
    have old := hp.2 s
    simp only [AudioManager.core, hav] at old ⊢
    rw [old]
    by_cases hs : s = src
    · subst hs; simp
    · simp [hs, Function.update_noteq hs]

theorem Pool_free (d : Driver) (pool : List Nat) (a : AudioManager) (h : Nat)
    (inv : a.core.Inv d) (hp : a.core.Pool pool) :
    (a.FreeSource d (some h)).core.Pool pool := by
  rw [core_FreeSource]
  unfold Core.free
  by_cases hu : a.core.bound h = false
  · simpa [hu] using hp
  · have hb : a.core.bound h = true := by simpa using hu
    have hmap := inv.bound_map h hb
    have hval : d.isSource (a.core.source h) = true := (inv.map_bound _ _ hmap).2.2
    simp only [hu, if_false, hval]
    refine ⟨hp.1, fun s => ?_⟩
    have old := hp.2 s
    simp only [Bool.true_eq_false, if_false] at old ⊢
    rw [old]
    by_cases hs : s = a.core.source h
    · subst hs; simp [hmap]
    · simp [hs, Function.update_noteq hs]

theorem Pool_of_same (pool : List Nat) (c c' : Core) (hav : c'.avail = c.avail)
    (hmap : c'.map = c.map) (harr : c'.array = c.array) (hp : c.Pool pool) : c'.Pool pool := by
  unfold Core.Pool at hp ⊢
  rw [hav, hmap, harr]; exact hp

/-- Every elementary change keeps the pool: a source only moves between the available queue
and the source map. -/
theorem CoreStep_keeps_pool {d : Driver} {a b : AudioManager} (pool : List Nat)
    (hs : CoreStep d a b) (inv : a.core.Inv d) (hp : a.core.Pool pool) : b.core.Pool pool := by
  cases hs with
  | same e => rw [e]; exact hp
  | setup h hl hu e => rw [e]; exact Pool_setup pool a h hp
  | free h e => rw [e]; exact Pool_free d pool a h inv hp
  | enqueue h c hh e => rw [e]; exact Pool_of_same pool _ _ rfl rfl rfl hp
  | dequeue h e => rw [e]; exact Pool_of_same pool _ _ rfl rfl rfl hp
  | create e =>
    rw [e]
    refine Pool_of_same pool a.core _ ?_ ?_ ?_ hp
    all_goals (unfold AudioManager.NewSound; split <;> rfl)
  | retire h hl hu e => rw [e]; exact Pool_of_same pool _ _ rfl rfl rfl hp

theorem Path_keeps_pool {d : Driver} {a b : AudioManager} (pool : List Nat) (hpath : Path d a b)
    (inv : a.core.Inv d) (hp : a.core.Pool pool) : b.core.Pool pool := by
  induction hpath with
  | refl => exact hp
  | tail hab hs ih => exact CoreStep_keeps_pool pool hs (Path_keeps_inv hab inv) ih

theorem step_pool (d : Driver) (pool : List Nat) (x : Action) (a : AudioManager)
    (inv : a.core.Inv d) (hp : a.core.Pool pool) (hl : x.onLive a = true) :
    (step d x a).core.Pool pool := by
  by_cases hx : ∃ data, x = .config data
  · obtain ⟨data, rfl⟩ := hx
    have harr : a.mSource = some pool := hp.1
    have : step d (.config data) a = a := by
      simp [step, AudioManager.Config, harr]
    rw [this]; exact hp
  · exact Path_keeps_pool pool (step_path d x a inv (fun data e => hx ⟨data, e⟩) hl) inv hp

theorem run_pool (d : Driver) (hd : d.FreshNames) (pool : List Nat) (acts : List Action)
    (a : AudioManager) (inv : a.core.Inv d) (hp : a.core.Pool pool)
    (hl : legal d acts a = true) : (run d acts a).core.Pool pool := by
  induction acts generalizing a with
  | nil => exact hp
  | cons x rest ih =>
    unfold run
    rw [List.foldl_cons]
    have h := legal_cons d x rest a hl
    exact ih _ (step_inv d hd x a inv h.1) (step_pool d pool x a inv hp h.1) h.2

theorem countP_mem_of_subset (l avail : List Nat) (hl : l.Nodup) (ha : avail.Nodup)
    (hsub : ∀ s ∈ avail, s ∈ l) : l.countP (fun s => decide (s ∈ avail)) = avail.length := by
  rw [List.countP_eq_length_filter]
  apply List.Perm.length_eq
  rw [List.perm_ext_iff_of_nodup (hl.filter _) ha]
  intro s
  simp only [List.mem_filter, decide_eq_true_eq]
  exact ⟨fun h => h.2, fun h => ⟨hsub s h, h⟩⟩

/-- In a configured manager with duplicate-free source array, the available sources and the
bound sources together are as many as the array has entries. -/
theorem pool_count (d : Driver) (pool : List Nat) (c : Core) (inv : c.Inv d)
    (hp : c.Pool pool) (hnd : pool.Nodup) :
    c.avail.length + (pool.filter (fun s => (c.map s).isSome)).length = pool.length := by
  have h1 := countP_mem_of_subset pool c.avail hnd inv.avail_nodup
    (fun s hs => (hp.2 s).mpr (Or.inl hs))
  have h2 : (pool.filter (fun s => (c.map s).isSome)).length
      = pool.countP (fun s => ! decide (s ∈ c.avail)) := by
    rw [← List.countP_eq_length_filter]
    apply List.countP_congr
    intro s hs
    have hor := (hp.2 s).mp hs
    by_cases hin : s ∈ c.avail
    · have := (inv.avail_free s hin).2
      simp [hin, this]
    · rcases hor with h | h
      · exact absurd h hin
      · simp [hin, h]
  rw [h2, ← h1]
  have := List.length_eq_countP_add_countP (fun s => decide (s ∈ c.avail)) pool
  simp only [Bool.not_eq_true, Bool.decide_eq_false] at this
  rw [this]

/-- C4 (amended): let a run of the manager reach a state without a source array, let `Config`
succeed there for `N = data.numSources` sources (its `ConfigSources` returns true), and let
any further run follow, both runs keeping to the calling convention (`FreeSound` is only
given sounds of the sound list). Provided the driver hands out pairwise distinct source
names, in the state reached the number of sources in the available queue plus the number of
sources of the array that the source map binds to a sound is `N`. -/
theorem C4_pool_cardinality (d : Driver) (hd : d.FreshNames) (al : OpenAL)
    (pre post : List Action) (data : AudioConfigData)
    (hpre : legal d pre (AudioManager.init al) = true)
    (hun : (run d pre (AudioManager.init al)).mSource = none)
    (hok : (((run d pre (AudioManager.init al)).setDistanceModel data).ConfigSources d
      data.numSources).1 = true)
    (hpost : legal d post ((run d pre (AudioManager.init al)).Config d data) = true) :
    (run d post ((run d pre (AudioManager.init al)).Config d data)).mAvailable.length
      + (run d post ((run d pre (AudioManager.init al)).Config d data)).boundSources.length
      = data.numSources := by
  have inv0 := run_inv d hd pre _ (Inv_init d al) hpre
  have hcs := ConfigSources_ok d _ _ hok
  have hcore := core_Config_generated d data _ hun hcs.1 hcs.2.1
  rw [hcs.2.2] at hcore
  have hun0 := inv0.unconfigured hun
  have inv1 := Inv_Config d hd data _ inv0
  have hp1 : ((run d pre (AudioManager.init al)).Config d data).core.Pool
      (d.genSources data.numSources) := by
    rw [hcore]
    refine ⟨rfl, fun s => ?_⟩
    have hav : (run d pre (AudioManager.init al)).mAvailable = [] := hun0.1
    have hmap : (run d pre (AudioManager.init al)).core.map s = none := hun0.2 s
    simp [hav, hmap]
  have inv2 := run_inv d hd post _ inv1 hpost
  have hp2 := run_pool d hd _ post _ inv1 hp1 hpost
  have hcount := pool_count d _ _ inv2 hp2 (hd data.numSources).1
  have harr : (run d post ((run d pre (AudioManager.init al)).Config d data)).mSource
      = some (d.genSources data.numSources) := hp2.1
  unfold AudioManager.boundSources
  rw [harr]
  simp only [Option.getD_some]
  rw [(hd data.numSources).2] at hcount
  exact hcount

/-- C5 (amended): in every state that a run keeping to the calling convention (`FreeSound` is
only given sounds of the sound list) reaches from a new manager, provided the driver hands
out pairwise distinct source names: a sound has a source `s` (it is initialized and its source
is `s`) if and only if the source map maps `s` to that sound; a sound without a source is
the value of no entry of the source map; and two sounds that both have a source and have the
same one are the same sound. -/
theorem C5_binding_well_formed (d : Driver) (hd : d.FreshNames) (al : OpenAL)
    (acts : List Action) (hl : legal d acts (AudioManager.init al) = true) :
    (∀ h s, ((run d acts (AudioManager.init al)).sounds h).mIsInitialized = true ∧
        ((run d acts (AudioManager.init al)).sounds h).mSource = s ↔
      (run d acts (AudioManager.init al)).mSourceMap s = some h) ∧
    (∀ h, ((run d acts (AudioManager.init al)).sounds h).mIsInitialized = false →
      ∀ s, (run d acts (AudioManager.init al)).mSourceMap s ≠ some h) ∧
    (∀ h k, ((run d acts (AudioManager.init al)).sounds h).mIsInitialized = true →
      ((run d acts (AudioManager.init al)).sounds k).mIsInitialized = true →
      ((run d acts (AudioManager.init al)).sounds h).mSource
        = ((run d acts (AudioManager.init al)).sounds k).mSource → h = k) := by
  have inv := run_inv d hd acts _ (Inv_init d al) hl
  refine ⟨fun h s => ⟨fun hb => ?_, fun hm => ?_⟩, fun h hu s hm => ?_, fun h k hb hk e => ?_⟩
  · have := inv.bound_map h hb.1
    simp only [AudioManager.core] at this
    rw [hb.2] at this; exact this
  · have := inv.map_bound s h hm
    exact ⟨this.1, this.2.1⟩
  · have := (inv.map_bound s h hm).1
    simp only [AudioManager.core] at this
    rw [hu] at this; exact Bool.noConfusion this
  · have h1 := inv.bound_map h hb
    have h2 := inv.bound_map k hk
    simp only [AudioManager.core] at h1 h2
    rw [e, h2] at h1
    exact (Option.some.inj h1).symm


theorem quietDriver_fresh : quietDriver.FreshNames := by
  intro n
  refine ⟨?_, by simp [quietDriver]⟩
  exact List.Nodup.map (fun a b h => Nat.succ_injective h) (List.nodup_range n)

/-- C4, at a concrete input: one sound is created, a pool of two sources is configured, and
the session runs (its own `Config` is a rejected second one). -/
theorem C4_pool_cardinality_witness :
    quietDriver.FreshNames ∧
    legal quietDriver [.newSound] (AudioManager.init freshAL) = true ∧
    (run quietDriver [.newSound] (AudioManager.init freshAL)).mSource = none ∧
    (((run quietDriver [.newSound] (AudioManager.init freshAL)).setDistanceModel
      twoSources).ConfigSources quietDriver twoSources.numSources).1 = true ∧
    legal quietDriver session ((run quietDriver [.newSound]
      (AudioManager.init freshAL)).Config quietDriver twoSources) = true ∧
    (run quietDriver session ((run quietDriver [.newSound]
        (AudioManager.init freshAL)).Config quietDriver twoSources)).mAvailable.length
      + (run quietDriver session ((run quietDriver [.newSound]
        (AudioManager.init freshAL)).Config quietDriver twoSources)).boundSources.length
      = twoSources.numSources :=
  ⟨quietDriver_fresh, by decide, rfl, by decide, by decide!,
    C4_pool_cardinality quietDriver quietDriver_fresh freshAL [.newSound] session twoSources
      (by decide) rfl (by decide) (by decide!)⟩

/-- C5, at a concrete input: the state the session reaches from a new manager. -/
theorem C5_binding_well_formed_witness :
    quietDriver.FreshNames ∧
    legal quietDriver session (AudioManager.init freshAL) = true ∧
    ((∀ h s, ((run quietDriver session (AudioManager.init freshAL)).sounds h).mIsInitialized
          = true ∧
        ((run quietDriver session (AudioManager.init freshAL)).sounds h).mSource = s ↔
      (run quietDriver session (AudioManager.init freshAL)).mSourceMap s = some h) ∧
    (∀ h, ((run quietDriver session (AudioManager.init freshAL)).sounds h).mIsInitialized
        = false →
      ∀ s, (run quietDriver session (AudioManager.init freshAL)).mSourceMap s ≠ some h) ∧
    (∀ h k, ((run quietDriver session (AudioManager.init freshAL)).sounds h).mIsInitialized
        = true →
      ((run quietDriver session (AudioManager.init freshAL)).sounds k).mIsInitialized = true →
      ((run quietDriver session (AudioManager.init freshAL)).sounds h).mSource
        = ((run quietDriver session (AudioManager.init freshAL)).sounds k).mSource → h = k)) :=
  ⟨quietDriver_fresh, by decide!,
    C5_binding_well_formed quietDriver quietDriver_fresh freshAL session (by decide!)⟩

/-- The session really binds sources: after it the second sound holds source 2, the source
map says so, and source 1, released by the freed first sound, is available again. -/
theorem session_binds :
    ((run quietDriver session (AudioManager.init freshAL)).sounds 1).mIsInitialized = true ∧
    ((run quietDriver session (AudioManager.init freshAL)).sounds 1).mSource = 2 ∧
    (run quietDriver session (AudioManager.init freshAL)).mSourceMap 2 = some 1 ∧
    (run quietDriver session (AudioManager.init freshAL)).mAvailable = [1] ∧
    (run quietDriver session (AudioManager.init freshAL)).boundSources = [2] := by
  decide


/-! ## Playing sounds: the bounded pool in action -/

theorem Quiet_refl (h : Nat) (x : AudioManager) : Quiet h x x :=
  ⟨rfl, rfl, rfl, rfl, rfl, rfl, rfl, rfl, rfl, rfl, fun _ _ => rfl, rfl, rfl⟩

theorem Quiet_trans {h : Nat} {x y z : AudioManager} (a : Quiet h x y) (b : Quiet h y z) :
    Quiet h x z :=
  ⟨b.core.trans a.core, b.play.trans a.play, b.pause.trans a.pause, b.stop.trans a.stop,
    b.rewind.trans a.rewind, b.active.trans a.active, b.commands.trans a.commands,
    b.state.trans a.state, b.buffers.trans a.buffers, b.checks.trans a.checks,
    fun k hk => (b.others k hk).trans (a.others k hk), b.hears.trans a.hears,
    b.buffer.trans a.buffer⟩

theorem setLooping_quiet (d : Driver) (src : Nat) (f : Bool) (al : OpenAL) :
    (al.setLooping d src f).sourceState = al.sourceState ∧
    (al.setLooping d src f).buffers = al.buffers ∧
    (al.setLooping d src f).checks = al.checks := by
  unfold OpenAL.setLooping; split <;> exact ⟨rfl, rfl, rfl⟩

theorem setRelative_quiet (d : Driver) (src : Nat) (f : Bool) (al : OpenAL) :
    (al.setRelative d src f).sourceState = al.sourceState ∧
    (al.setRelative d src f).buffers = al.buffers ∧
    (al.setRelative d src f).checks = al.checks := by
  unfold OpenAL.setRelative; split <;> exact ⟨rfl, rfl, rfl⟩

theorem setParam_quiet (d : Driver) (src : Nat) (p : SourceParam) (v : ALfloat) (al : OpenAL) :
    (al.setParam d src p v).sourceState = al.sourceState ∧
    (al.setParam d src p v).buffers = al.buffers ∧
    (al.setParam d src p v).checks = al.checks := by
  unfold OpenAL.setParam; split <;> exact ⟨rfl, rfl, rfl⟩

theorem setVec_quiet (d : Driver) (src : Nat) (p : SourceVec) (v : Vec3) (al : OpenAL) :
    (al.setVec d src p v).sourceState = al.sourceState ∧
    (al.setVec d src p v).buffers = al.buffers ∧
    (al.setVec d src p v).checks = al.checks := by
  unfold OpenAL.setVec; split <;> exact ⟨rfl, rfl, rfl⟩

theorem writeAttributes_quiet (d : Driver) (src : Nat) (s : Sound) (al : OpenAL) :
    (AudioManager.writeAttributes d src s al).sourceState = al.sourceState ∧
    (AudioManager.writeAttributes d src s al).buffers = al.buffers ∧
    (AudioManager.writeAttributes d src s al).checks = al.checks := by
  unfold AudioManager.writeAttributes
  simp only
  have e1 := setLooping_quiet d src s.IsLooping al
  split
  · have e2 := setRelative_quiet d src true (OpenAL.setLooping d src s.IsLooping al)
    have e3 := setVec_quiet d src .POSITION s.mPos
      (OpenAL.setRelative d src true (OpenAL.setLooping d src s.IsLooping al))
    have e4 := setVec_quiet d src .DIRECTION s.mDir
      (OpenAL.setVec d src .POSITION s.mPos
        (OpenAL.setRelative d src true (OpenAL.setLooping d src s.IsLooping al)))
    have e5 := setParam_quiet d src .GAIN s.mGain
      (OpenAL.setVec d src .DIRECTION s.mDir
        (OpenAL.setVec d src .POSITION s.mPos
          (OpenAL.setRelative d src true (OpenAL.setLooping d src s.IsLooping al))))
    have e6 := setParam_quiet d src .PITCH s.mPitch
      (OpenAL.setParam d src .GAIN s.mGain
        (OpenAL.setVec d src .DIRECTION s.mDir
          (OpenAL.setVec d src .POSITION s.mPos
            (OpenAL.setRelative d src true (OpenAL.setLooping d src s.IsLooping al)))))
    exact ⟨by rw [e6.1, e5.1, e4.1, e3.1, e2.1, e1.1],
      by rw [e6.2.1, e5.2.1, e4.2.1, e3.2.1, e2.2.1, e1.2.1],
      by rw [e6.2.2, e5.2.2, e4.2.2, e3.2.2, e2.2.2, e1.2.2]⟩
  · have e2 := setRelative_quiet d src false (OpenAL.setLooping d src s.IsLooping al)
    have e5 := setParam_quiet d src .GAIN s.mGain
      (OpenAL.setRelative d src false (OpenAL.setLooping d src s.IsLooping al))
    have e6 := setParam_quiet d src .PITCH s.mPitch
      (OpenAL.setParam d src .GAIN s.mGain
        (OpenAL.setRelative d src false (OpenAL.setLooping d src s.IsLooping al)))
    exact ⟨by rw [e6.1, e5.1, e2.1, e1.1], by rw [e6.2.1, e5.2.1, e2.2.1, e1.2.1],
      by rw [e6.2.2, e5.2.2, e2.2.2, e1.2.2]⟩

theorem Quiet_al (h : Nat) (x : AudioManager) (al : OpenAL)
    (hal : al.sourceState = x.al.sourceState ∧ al.buffers = x.al.buffers ∧
      al.checks = x.al.checks) : Quiet h x { x with al := al } :=
  ⟨rfl, rfl, rfl, rfl, rfl, rfl, rfl, hal.1, hal.2.1, hal.2.2, fun _ _ => rfl, rfl, rfl⟩

theorem Quiet_setSound (h : Nat) (x : AudioManager) (f : Sound → Sound)
    (hf : ∀ s : Sound, (f s).mIsInitialized = s.mIsInitialized ∧ (f s).mSource = s.mSource ∧
      (f s).mCommand = s.mCommand ∧ (f s).heardByManager = s.heardByManager)
    (hh : ∀ s : Sound, (f s).hearsManager = s.hearsManager ∧ (f s).mBuffer = s.mBuffer) :
    Quiet h x (x.setSound h f) := by
  refine ⟨core_setSound x h f hf, rfl, rfl, rfl, rfl, rfl, rfl, rfl, rfl, rfl, ?_, ?_, ?_⟩
  · intro k hk; simp [AudioManager.setSound, Function.update_noteq hk]
  · simpa [AudioManager.setSound] using (hh (x.sounds h)).1
  · simpa [AudioManager.setSound] using (hh (x.sounds h)).2

theorem applyPending_quiet (d : Driver) (flag : Command) (p : SourceParam)
    (value : Sound → ALfloat) (h src : Nat) (isNew : Bool) (x : AudioManager) :
    Quiet h x (AudioManager.applyPending d flag p value h src isNew x) := by
  unfold AudioManager.applyPending
  split
  · exact Quiet_trans
      (Quiet_setSound h x (Sound.ResetState flag) (fun _ => ⟨rfl, rfl, rfl, rfl⟩)
        (fun _ => ⟨rfl, rfl⟩))
      (Quiet_al h _ _ (setParam_quiet _ _ _ _ _))
  · exact Quiet_refl h x

/-- The five pending-value blocks of `PlaySound` in a row. -/
theorem applyPendings_quiet (d : Driver) (h src : Nat) (isNew : Bool) (x : AudioManager) :
    Quiet h x
      (AudioManager.applyPending d .MAX_GAIN .MAX_GAIN Sound.mMaxGain h src isNew
        (AudioManager.applyPending d .MIN_GAIN .MIN_GAIN Sound.mMinGain h src isNew
          (AudioManager.applyPending d .ROL_FACT .ROLLOFF_FACTOR Sound.mRolloff h src isNew
            (AudioManager.applyPending d .MAX_DIST .MAX_DISTANCE Sound.mMaxDist h src isNew
              (AudioManager.applyPending d .MIN_DIST .REFERENCE_DISTANCE Sound.mMinDist
                h src isNew x))))) :=
  Quiet_trans (Quiet_trans (Quiet_trans (Quiet_trans
    (applyPending_quiet d .MIN_DIST .REFERENCE_DISTANCE Sound.mMinDist h src isNew x)
    (applyPending_quiet d .MAX_DIST .MAX_DISTANCE Sound.mMaxDist h src isNew _))
    (applyPending_quiet d .ROL_FACT .ROLLOFF_FACTOR Sound.mRolloff h src isNew _))
    (applyPending_quiet d .MIN_GAIN .MIN_GAIN Sound.mMinGain h src isNew _))
    (applyPending_quiet d .MAX_GAIN .MAX_GAIN Sound.mMaxGain h src isNew _)

/-- The state `playSettings` reaches before its last step, the subscription and the push on
the play queue of a new source. -/
theorem playSettings_eq (d : Driver) (h src : Nat) (isNew : Bool) (x : AudioManager) :
    ∃ y, Quiet h x y ∧
      AudioManager.playSettings d h src isNew x =
        if isNew then
          { y.setSound h (fun s => { s with hearsManager := true, hearsSystem := true }) with
            mPlayQueue := y.mPlayQueue ++ [(y.sounds h).mSource] }
        else y :=
  ⟨_, Quiet_trans (Quiet_al h x _ (writeAttributes_quiet d src (x.sounds h) x.al))
      (applyPendings_quiet d h src isNew _), rfl⟩

/-- The command `PlaySound` on a sound without a source that holds a valid buffer, when a
source is available and the driver reports no error while the buffer is bound. -/
theorem PlaySound_new (d : Driver) (h src : Nat) (rest : List Nat) (a : AudioManager)
    (hbuf : a.al.alIsBuffer (a.sounds h).mBuffer = true)
    (hu : (a.sounds h).mIsInitialized = false) (hav : a.mAvailable = src :: rest)
    (herr : d.errors a.al.checks = false) : Started h src a (a.PlaySound d h) := by
  unfold AudioManager.PlaySound
  have hb' : ¬ a.al.alIsBuffer (a.sounds h).mBuffer = false := by simp [hbuf]
  rw [if_neg hb', if_pos hu]
  unfold AudioManager.SetupSource
  rw [hav]
  simp only [Function.update_same]
  unfold AudioManager.playBind AudioManager.check
  simp only [herr, Bool.false_eq_true, if_false, Function.update_same]
  obtain ⟨y, q, e⟩ := playSettings_eq d h src true
    { al := OpenAL.setBuffer src (a.sounds h).mBuffer (OpenAL.CheckForError d a.al).2
      sounds := Function.update a.sounds h
        { a.sounds h with mSource := src, mIsInitialized := true }
      nextSound := a.nextSound, mEAXSet := a.mEAXSet, mEAXGet := a.mEAXGet
      mNumSources := a.mNumSources, mSource := a.mSource
      mSourceMap := Function.update a.mSourceMap src (some h)
      mAvailable := rest, mPlayQueue := a.mPlayQueue, mPauseQueue := a.mPauseQueue
      mStopQueue := a.mStopQueue, mRewindQueue := a.mRewindQueue
      mActiveList := a.mActiveList, mBufferMap := a.mBufferMap
      mSoundCommand := a.mSoundCommand, mSoundRecycle := a.mSoundRecycle
      mSoundList := a.mSoundList, mSoundStateMap := a.mSoundStateMap }
  simp only [if_true] at e
  have hsrc := congrArg (fun c => c.source h) q.core
  have hbnd := congrArg (fun c => c.bound h) q.core
  have hcmd := congrArg (fun c => c.pending h) q.core
  have hmap := congrArg Core.map q.core
  have havl := congrArg Core.avail q.core
  simp only [AudioManager.core, Function.update_same] at hsrc hbnd hcmd hmap havl
  have key : Started h src a
      { y.setSound h (fun s => { s with hearsManager := true, hearsSystem := true }) with
        mPlayQueue := y.mPlayQueue ++ [(y.sounds h).mSource] } := by
    constructor
    · show src :: y.mAvailable = a.mAvailable
      rw [havl, hav]
    · exact hmap
    · show y.mPlayQueue ++ [(y.sounds h).mSource] = a.mPlayQueue ++ [src]
      rw [q.play, hsrc]
    · exact q.pause
    · exact q.stop
    · exact q.rewind
    · exact q.active
    · exact q.commands
    · exact q.state
    · exact q.buffers
    · intro k hk
      simp only [AudioManager.setSound, Function.update_noteq hk]
      rw [q.others k hk]
      simp [Function.update_noteq hk]
    · simp only [AudioManager.setSound, Function.update_same]
      exact hbnd
    · simp only [AudioManager.setSound, Function.update_same]
      exact hsrc
    · simp only [AudioManager.setSound, Function.update_same]
    · simp only [AudioManager.setSound, Function.update_same]
      exact hcmd
  rw [← e] at key
  exact key

/-- The command `PlaySound` on a sound without a source is a no-op when no source is
available: the manager is left exactly as it was. -/
theorem PlaySound_exhausted (d : Driver) (h : Nat) (a : AudioManager)
    (hu : (a.sounds h).mIsInitialized = false) (hav : a.mAvailable = []) :
    a.PlaySound d h = a := by
  unfold AudioManager.PlaySound AudioManager.SetupSource
  rw [hav]
  split
  · rfl
  · simp [hu]


theorem dispatch_PLAY (d : Driver) (h : Nat) (a : AudioManager)
    (hc : (a.sounds h).mCommand = [.PLAY]) :
    AudioManager.dispatch d h a
      = (a.setSound h (fun s => { s with mCommand := [] })).PlaySound d h := by
  have h1 : (a.sounds h).DequeueCommand = (some .PLAY, { a.sounds h with mCommand := [] }) := by
    unfold Sound.DequeueCommand; rw [hc]
  have h2 : a.setSound h (fun s => s.DequeueCommand.2)
      = a.setSound h (fun s => { s with mCommand := [] }) := by
    simp only [AudioManager.setSound, h1]
  unfold AudioManager.dispatch
  simp only [h2, h1]

/-- PLAY commands for sounds without a source, dispatched in one `PreFrame` with a driver
that reports no error: the sources of the available queue go to the first sounds, in
order. -/
theorem preFrameLoop_plays (d : Driver) (hne : ∀ n, d.errors n = false) (hs : List Nat) :
    ∀ a : AudioManager, hs.Nodup → a.mAvailable.Nodup →
      (∀ h ∈ hs, (a.sounds h).mCommand = [.PLAY] ∧ (a.sounds h).mIsInitialized = false ∧
        a.al.alIsBuffer (a.sounds h).mBuffer = true) →
      Dealt hs a (AudioManager.preFrameLoop d hs a) := by
  induction hs with
  | nil =>
    intro a _ _ _
    exact ⟨by simp [AudioManager.preFrameLoop], by simp [AudioManager.preFrameLoop], rfl, rfl,
      rfl, rfl, rfl, rfl, by simp, by simp, fun _ _ => rfl, fun _ _ => rfl⟩
  | cons h rest ih =>
    intro a hnd hav hall
    have hh := hall h (List.mem_cons_self _ _)
    have hnotin : h ∉ rest := (List.nodup_cons.mp hnd).1
    have hrest : rest.Nodup := (List.nodup_cons.mp hnd).2
    unfold AudioManager.preFrameLoop
    rw [dispatch_PLAY d h { a with mSoundCommand := rest } hh.1]
    -- the state in which `PlaySound` runs
    generalize ha1 : AudioManager.setSound h (fun s => { s with mCommand := [] })
      { a with mSoundCommand := rest } = a1
    have e_sound : a1.sounds h = { a.sounds h with mCommand := [] } := by
      rw [← ha1]; simp [AudioManager.setSound]
    have e_others : ∀ k, k ≠ h → a1.sounds k = a.sounds k := by
      intro k hk; rw [← ha1]; simp [AudioManager.setSound, Function.update_noteq hk]
    have e_avail : a1.mAvailable = a.mAvailable := by rw [← ha1]; rfl
    have e_map : a1.mSourceMap = a.mSourceMap := by rw [← ha1]; rfl
    have e_play : a1.mPlayQueue = a.mPlayQueue := by rw [← ha1]; rfl
    have e_pause : a1.mPauseQueue = a.mPauseQueue := by rw [← ha1]; rfl
    have e_stop : a1.mStopQueue = a.mStopQueue := by rw [← ha1]; rfl
    have e_rewind : a1.mRewindQueue = a.mRewindQueue := by rw [← ha1]; rfl
    have e_active : a1.mActiveList = a.mActiveList := by rw [← ha1]; rfl
    have e_al : a1.al = a.al := by rw [← ha1]; rfl
    have hu1 : (a1.sounds h).mIsInitialized = false := by rw [e_sound]; exact hh.2.1
    have hb1 : a1.al.alIsBuffer (a1.sounds h).mBuffer = true := by
      rw [e_al, e_sound]; exact hh.2.2
    cases hq : a.mAvailable with
    | nil =>
      have hq1 : a1.mAvailable = [] := by rw [e_avail, hq]
      rw [PlaySound_exhausted d h a1 hu1 hq1]
      have hall1 : ∀ k ∈ rest, (a1.sounds k).mCommand = [.PLAY] ∧
          (a1.sounds k).mIsInitialized = false ∧
          a1.al.alIsBuffer (a1.sounds k).mBuffer = true := by
        intro k hk
        have hkh : k ≠ h := fun e => hnotin (e ▸ hk)
        rw [e_others k hkh, e_al]
        exact hall k (List.mem_cons_of_mem _ hk)
      have r := ih a1 hrest (by rw [hq1]; exact List.nodup_nil) hall1
      refine ⟨?_, ?_, r.pause.trans e_pause, r.stop.trans e_stop, r.rewind.trans e_rewind,
        r.active.trans e_active, ?_, ?_, ?_, ?_, ?_, ?_⟩
      · rw [r.avail, hq1, hq]; simp
      · rw [r.play, hq1, e_play, hq]; simp
      · rw [r.state, e_al]
      · rw [r.buffers, e_al]
      · intro i k s _ hs; rw [hq] at hs; simp at hs
      · intro i k hi _
        cases i with
        | zero =>
          have : k = h := by simpa using hi.symm
          subst this
          rw [r.others k hnotin, e_sound]
        | succ j =>
          have hj : rest[j]? = some k := by simpa using hi
          have hkin : k ∈ rest := List.getElem?_mem hj
          have hkh : k ≠ h := fun e => hnotin (e ▸ hkin)
          rw [r.refused j k hj (by rw [hq1]; exact Nat.zero_le _), e_others k hkh]
      · intro s _
        rw [r.map s (by rw [hq1]; simp), e_map]
      · intro k hk
        have hk' : k ≠ h ∧ k ∉ rest := by simpa [not_or] using hk
        rw [r.others k hk'.2, e_others k hk'.1]
    | cons src av =>
      have hq1 : a1.mAvailable = src :: av := by rw [e_avail, hq]
      have hnd2 : (src :: av).Nodup := by rw [← hq]; exact hav
      have st := PlaySound_new d h src av a1 hb1 hu1 hq1 (hne _)
      generalize a1.PlaySound d h = b at st
      have hbav : b.mAvailable = av := by
        have := st.avail; rw [hq1] at this; exact (List.cons.inj this).2
      have hall1 : ∀ k ∈ rest, (b.sounds k).mCommand = [.PLAY] ∧
          (b.sounds k).mIsInitialized = false ∧
          b.al.alIsBuffer (b.sounds k).mBuffer = true := by
        intro k hk
        have hkh : k ≠ h := fun e => hnotin (e ▸ hk)
        have := hall k (List.mem_cons_of_mem _ hk)
        rw [st.others k hkh, e_others k hkh]
        refine ⟨this.1, this.2.1, ?_⟩
        unfold OpenAL.alIsBuffer at this ⊢
        rw [st.buffers, e_al]; exact this.2.2
      have r := ih b hrest (by rw [hbav]; exact (List.nodup_cons.mp hnd2).2) hall1
      have hsrc_notin : src ∉ av := (List.nodup_cons.mp hnd2).1
      refine ⟨?_, ?_, ?_, ?_, ?_, ?_, ?_, ?_, ?_, ?_, ?_, ?_⟩
      · rw [r.avail, hbav, hq]; simp
      · rw [r.play, hbav, st.play, e_play, hq]; simp
      · rw [r.pause, st.pause, e_pause]
      · rw [r.stop, st.stop, e_stop]
      · rw [r.rewind, st.rewind, e_rewind]
      · rw [r.active, st.active, e_active]
      · rw [r.state, st.state, e_al]
      · rw [r.buffers, st.buffers, e_al]
      · intro i k s hi hs
        rw [hq] at hs
        cases i with
        | zero =>
          have hk : k = h := by simpa using hi.symm
          have hs' : s = src := by simpa using hs.symm
          subst hk; subst hs'
          rw [r.others k hnotin]
          refine ⟨st.bound, st.source, st.hears, ?_⟩
          rw [r.map s (by rw [hbav]; exact fun hin => hsrc_notin (List.mem_of_mem_take hin)),
            st.map]
          simp
        | succ j =>
          have hj : rest[j]? = some k := by simpa using hi
          have hsj : b.mAvailable[j]? = some s := by rw [hbav]; simpa using hs
          exact r.served j k s hj hsj
      · intro i k hi hlen
        rw [hq] at hlen
        cases i with
        | zero => simp at hlen
        | succ j =>
          have hj : rest[j]? = some k := by simpa using hi
          have hkin : k ∈ rest := List.getElem?_mem hj
          have hkh : k ≠ h := fun e => hnotin (e ▸ hkin)
          rw [r.refused j k hj (by rw [hbav]; simpa using hlen), st.others k hkh,
            e_others k hkh]
      · intro s hs
        rw [hq] at hs
        have hs' : s ≠ src ∧ s ∉ av.take rest.length := by
          simpa [not_or] using hs
        rw [r.map s (by rw [hbav]; exact hs'.2), st.map, Function.update_noteq hs'.1, e_map]
      · intro k hk
        have hk' : k ≠ h ∧ k ∉ rest := by simpa [not_or] using hk
        rw [r.others k hk'.2, st.others k hk'.1, e_others k hk'.1]


theorem IsPlaying_OnMessage_PLAY (s : Sound) : (Sound.OnMessage .PLAY s).IsPlaying = true := by
  simp only [Sound.OnMessage, Sound.IsPlaying, Sound.GetState, Sound.SetState,
    Sound.ResetState, BIT, Command.toNat, Nat.testBit_land, Nat.testBit_lor, Nat.testBit_xor,
    Nat.testBit_two_pow_sub_one, Nat.testBit_two_pow_self, Bool.and_eq_true, Bool.or_true]
  decide

theorem hearsManager_OnMessage (c : Command) (s : Sound) :
    (Sound.OnMessage c s).hearsManager = s.hearsManager := by
  cases c <;> rfl

/-- The scan of `Frame` over sources that are all valid, INITIAL and bound to a sound that
hears the manager, with a driver that reports no error: every one of them is started, its
sound is notified, and no position is saved for removal. -/
theorem frameScan_starts (d : Driver) (hne : ∀ n, d.errors n = false) (l : List Nat) :
    ∀ (i : Nat) (stk : List Nat) (x : AudioManager), l.Nodup →
      (∀ s ∈ l, d.isSource s = true ∧ x.al.sourceState s = .INITIAL ∧
        ∃ h, x.mSourceMap s = some h ∧ (x.sounds h).hearsManager = true) →
      (AudioManager.frameScan d l i stk x).1 = stk ∧
      Scanned l x (AudioManager.frameScan d l i stk x).2 := by
  induction l with
  | nil =>
    intro i stk x _ _
    exact ⟨rfl, by simp, fun _ _ => rfl, rfl, rfl, rfl, rfl, rfl, rfl, fun _ hp => hp,
      fun _ => rfl, fun _ _ => rfl⟩
  | cons src rest ih =>
    intro i stk x hnd hall
    obtain ⟨hval, hinit, h, hmap, hhears⟩ := hall src (List.mem_cons_self _ _)
    have hnotin : src ∉ rest := (List.nodup_cons.mp hnd).1
    unfold AudioManager.frameScan AudioManager.check
    simp only [hne, Bool.false_eq_true, if_false]
    have hst : (OpenAL.CheckForError d x.al).2.sourceState src = .INITIAL := hinit
    simp only [hst]
    -- the state after the source has been started and its sound notified
    generalize hx1 : AudioManager.notify .PLAY src
      { x with al := OpenAL.alSourcePlay d src (OpenAL.CheckForError d x.al).2 } = x1
    have e_state : x1.al.sourceState = Function.update x.al.sourceState src .PLAYING := by
      rw [← hx1, show (AudioManager.notify .PLAY src
        { x with al := OpenAL.alSourcePlay d src (OpenAL.CheckForError d x.al).2 }).al
        = OpenAL.alSourcePlay d src (OpenAL.CheckForError d x.al).2 from by
          unfold AudioManager.notify AudioManager.SendMessage AudioManager.setSound
          simp only [hmap, hhears, if_true]]
      unfold OpenAL.alSourcePlay OpenAL.CheckForError
      simp only [hval, if_true]
    have e_core : x1.core = x.core := by rw [← hx1, core_notify]; rfl
    have e_sounds : x1.sounds = Function.update x.sounds h (Sound.OnMessage .PLAY (x.sounds h)) := by
      rw [← hx1]
      unfold AudioManager.notify AudioManager.SendMessage AudioManager.setSound
      simp only [hmap, hhears, if_true]
    have e_map : x1.mSourceMap = x.mSourceMap := congrArg Core.map e_core
    have e_q : x1.mPlayQueue = x.mPlayQueue ∧ x1.mPauseQueue = x.mPauseQueue ∧
        x1.mStopQueue = x.mStopQueue ∧ x1.mRewindQueue = x.mRewindQueue ∧
        x1.mActiveList = x.mActiveList := by
      rw [← hx1]
      unfold AudioManager.notify AudioManager.SendMessage AudioManager.setSound
      simp only [hmap, hhears, if_true, and_self]
    have e_hears : ∀ k, (x1.sounds k).hearsManager = (x.sounds k).hearsManager := by
      intro k
      rw [e_sounds]
      by_cases hk : k = h
      · subst hk; simp [hearsManager_OnMessage]
      · simp [Function.update_noteq hk]
    have e_playing : ∀ k, (x.sounds k).IsPlaying = true → (x1.sounds k).IsPlaying = true := by
      intro k hp
      rw [e_sounds]
      by_cases hk : k = h
      · subst hk; simp [IsPlaying_OnMessage_PLAY]
      · simpa [Function.update_noteq hk] using hp
    have hall1 : ∀ s ∈ rest, d.isSource s = true ∧ x1.al.sourceState s = .INITIAL ∧
        ∃ k, x1.mSourceMap s = some k ∧ (x1.sounds k).hearsManager = true := by
      intro s hs
      have hne' : s ≠ src := fun e => hnotin (e ▸ hs)
      obtain ⟨h1, h2, k, h3, h4⟩ := hall s (List.mem_cons_of_mem _ hs)
      refine ⟨h1, ?_, k, ?_, ?_⟩
      · rw [e_state, Function.update_noteq hne']; exact h2
      · rw [e_map]; exact h3
      · rw [e_hears]; exact h4
    obtain ⟨r1, r⟩ := ih (i + 1) stk x1 (List.nodup_cons.mp hnd).2 hall1
    refine ⟨r1, ?_⟩
    constructor
    · intro s hs
      rcases List.mem_cons.mp hs with e | hs'
      · subst e
        refine ⟨?_, fun k hk => ?_⟩
        · rw [r.state s hnotin, e_state]; simp
        · have : k = h := by rw [hmap] at hk; exact (Option.some.inj hk).symm
          subst this
          apply r.playing
          rw [e_sounds]; simp [IsPlaying_OnMessage_PLAY]
      · refine ⟨(r.started s hs').1, fun k hk => ?_⟩
        exact (r.started s hs').2 k (by rw [e_map]; exact hk)
    · intro s hs
      have hs' : s ≠ src ∧ s ∉ rest := by simpa [not_or] using hs
      rw [r.state s hs'.2, e_state, Function.update_noteq hs'.1]
    · rw [r.core, e_core]
    · rw [r.play, e_q.1]
    · rw [r.pause, e_q.2.1]
    · rw [r.stop, e_q.2.2.1]
    · rw [r.rewind, e_q.2.2.2.1]
    · rw [r.active, e_q.2.2.2.2]
    · intro k hp; exact r.playing k (e_playing k hp)
    · intro k; rw [r.hears, e_hears]
    · intro k hk
      have hkh : k ≠ h := by
        intro e; subst e
        exact hk src (List.mem_cons_self _ _) hmap
      rw [r.others k (fun s hs => by
        rw [e_map]; exact hk s (List.mem_cons_of_mem _ hs)), e_sounds,
        Function.update_noteq hkh]


theorem framePauses_idle (d : Driver) (y : AudioManager) (h : y.mPauseQueue = []) :
    AudioManager.framePauses d y = y := by
  unfold AudioManager.framePauses
  rw [h, List.foldl_nil, ← h]

theorem frameRewinds_idle (d : Driver) (y : AudioManager) (h : y.mRewindQueue = []) :
    AudioManager.frameRewinds d y = y := by
  unfold AudioManager.frameRewinds
  rw [h, List.foldl_nil, ← h]

theorem mem_take_index (l : List Nat) (n s : Nat) (hs : s ∈ l.take n) :
    ∃ i, i < n ∧ l[i]? = some s := by
  obtain ⟨i, hi⟩ := List.mem_iff_getElem?.mp hs
  rw [List.getElem?_take] at hi
  by_cases hlt : i < n
  · exact ⟨i, hlt, by simpa [hlt] using hi⟩
  · simp [hlt] at hi

/-- The phase `Frame` on a manager whose only pending requests are play requests for valid,
INITIAL, pairwise distinct sources bound to sounds that hear the manager, with a driver that
reports no error: the sources become the active list and are started. -/
theorem Frame_starts (d : Driver) (hne : ∀ n, d.errors n = false) (x : AudioManager)
    (hnd : x.mPlayQueue.Nodup)
    (hall : ∀ s ∈ x.mPlayQueue, d.isSource s = true ∧ x.al.sourceState s = .INITIAL ∧
      ∃ h, x.mSourceMap s = some h ∧ (x.sounds h).hearsManager = true)
    (hpause : x.mPauseQueue = []) (hstop : x.mStopQueue = []) (hrewind : x.mRewindQueue = [])
    (hactive : x.mActiveList = []) :
    (x.Frame d).mActiveList = x.mPlayQueue ∧ (x.Frame d).mPlayQueue = [] ∧
    (∀ s ∈ x.mPlayQueue, (x.Frame d).al.sourceState s = .PLAYING ∧
      ∀ h, x.mSourceMap s = some h → ((x.Frame d).sounds h).IsPlaying = true) ∧
    (∀ h, (∀ s ∈ x.mPlayQueue, x.mSourceMap s ≠ some h) → (x.Frame d).sounds h = x.sounds h) := by
  have h0 : AudioManager.framePlays (AudioManager.frameStops d x)
      = { x with mActiveList := x.mPlayQueue, mPlayQueue := [] } := by
    unfold AudioManager.framePlays AudioManager.frameStops
    simp only [hstop, List.foldl_nil, hactive, List.nil_append]
  obtain ⟨r1, r⟩ := frameScan_starts d hne x.mPlayQueue 0 []
    { x with mActiveList := x.mPlayQueue, mPlayQueue := [] } hnd hall
  unfold AudioManager.Frame
  simp only
  rw [h0]
  generalize hres : AudioManager.frameScan d x.mPlayQueue 0 []
    { x with mActiveList := x.mPlayQueue, mPlayQueue := [] } = res at r1 r
  obtain ⟨stk, y⟩ := res
  simp only at r1 r ⊢
  subst r1
  rw [framePauses_idle d y (r.pause.trans hpause),
    frameRewinds_idle d y (r.rewind.trans hrewind)]
  unfold AudioManager.frameErase
  exact ⟨r.active, r.play, r.started, r.others⟩

/-- C3: let the driver report no error, and let the command queue of a manager hold `k`
pairwise distinct sounds, each without a source, with a valid buffer and with PLAY as its one
pending command, while the available queue holds `N` pairwise distinct valid sources in
their INITIAL state and no request queue or active list entry is pending. Then `PreFrame`
gives the `i`-th sound the `i`-th available source for every `i < min N k` and puts exactly
these sources on the play queue, in order; the `Frame` that follows starts each of them
(the source is PLAYING, the sound has had its PLAY notification); every sound from position
`N` on is left as it was (no source, only its command consumed), also after `Frame`, the
available queue, the source map outside the handed-out sources and the pause, stop and
rewind queues are unchanged, and a further `PlaySound` on such a sound changes nothing. -/
theorem C3_bounded_pool (d : Driver) (hne : ∀ n, d.errors n = false) (st : AudioManager)
    (hcmd : st.mSoundCommand.Nodup)
    (hsounds : ∀ h ∈ st.mSoundCommand, (st.sounds h).mCommand = [.PLAY] ∧
      (st.sounds h).mIsInitialized = false ∧ st.al.alIsBuffer (st.sounds h).mBuffer = true)
    (hpool : st.mAvailable.Nodup)
    (hsrc : ∀ s ∈ st.mAvailable, d.isSource s = true ∧ st.al.sourceState s = .INITIAL)
    (hplay : st.mPlayQueue = []) (hpause : st.mPauseQueue = []) (hstop : st.mStopQueue = [])
    (hrewind : st.mRewindQueue = []) (hactive : st.mActiveList = []) :
    (st.PreFrame d).mPlayQueue = st.mAvailable.take st.mSoundCommand.length ∧
    (st.PreFrame d).mPlayQueue.length = min st.mSoundCommand.length st.mAvailable.length ∧
    (st.PreFrame d).mAvailable = st.mAvailable.drop st.mSoundCommand.length ∧
    (∀ i h s : Nat, st.mSoundCommand[i]? = some h → st.mAvailable[i]? = some s →
      ((st.PreFrame d).sounds h).mIsInitialized = true ∧
      ((st.PreFrame d).sounds h).mSource = s ∧
      (st.PreFrame d).mSourceMap s = some h ∧
      ((st.PreFrame d).Frame d).al.sourceState s = .PLAYING ∧
      (((st.PreFrame d).Frame d).sounds h).IsPlaying = true) ∧
    (∀ i h : Nat, st.mSoundCommand[i]? = some h → st.mAvailable.length ≤ i →
      (st.PreFrame d).sounds h = { st.sounds h with mCommand := [] } ∧
      ((st.PreFrame d).Frame d).sounds h = { st.sounds h with mCommand := [] } ∧
      (st.PreFrame d).PlaySound d h = st.PreFrame d) ∧
    (∀ s, s ∉ st.mAvailable.take st.mSoundCommand.length →
      (st.PreFrame d).mSourceMap s = st.mSourceMap s) ∧
    (st.PreFrame d).mPauseQueue = [] ∧ (st.PreFrame d).mStopQueue = [] ∧
    (st.PreFrame d).mRewindQueue = [] ∧
    ((st.PreFrame d).Frame d).mActiveList = st.mAvailable.take st.mSoundCommand.length ∧
    ((st.PreFrame d).Frame d).mPlayQueue = [] := by
  have r := preFrameLoop_plays d hne st.mSoundCommand st hcmd hpool hsounds
  have hP : (st.PreFrame d).mPlayQueue = st.mAvailable.take st.mSoundCommand.length := by
    have := r.play; rw [hplay, List.nil_append] at this; exact this
  -- every source on the play queue is bound to the sound at the same position
  have hbound : ∀ s ∈ (st.PreFrame d).mPlayQueue, ∃ i h : Nat, st.mSoundCommand[i]? = some h ∧
      st.mAvailable[i]? = some s := by
    intro s hs
    rw [hP] at hs
    obtain ⟨i, hi, his⟩ := mem_take_index _ _ _ hs
    exact ⟨i, st.mSoundCommand[i], List.getElem?_eq_getElem hi, his⟩
  have hF := Frame_starts d hne (st.PreFrame d)
    (by rw [hP]; exact List.Nodup.sublist (List.take_sublist _ _) hpool)
    (by
      intro s hs
      obtain ⟨i, h, hi, his⟩ := hbound s hs
      have hv := hsrc s (List.getElem?_mem his)
      have sv := r.served i h s hi his
      refine ⟨hv.1, ?_, h, sv.2.2.2, sv.2.2.1⟩
      show (AudioManager.preFrameLoop d st.mSoundCommand st).al.sourceState s = .INITIAL
      rw [r.state]; exact hv.2)
    (r.pause.trans hpause) (r.stop.trans hstop) (r.rewind.trans hrewind)
    (r.active.trans hactive)
  refine ⟨hP, ?_, r.avail, ?_, ?_, r.map, r.pause.trans hpause, r.stop.trans hstop,
    r.rewind.trans hrewind, hF.1.trans hP, hF.2.1⟩
  · rw [hP, List.length_take]
  · intro i h s hi his
    have sv := r.served i h s hi his
    have hin : s ∈ (st.PreFrame d).mPlayQueue := by
      rw [hP]
      have hlt : i < st.mSoundCommand.length := by
        by_contra hge
        rw [List.getElem?_eq_none (Nat.le_of_not_lt hge)] at hi
        exact Option.noConfusion hi
      exact List.getElem?_mem (by rw [List.getElem?_take_of_lt hlt]; exact his)
    exact ⟨sv.1, sv.2.1, sv.2.2.2, (hF.2.2.1 s hin).1, (hF.2.2.1 s hin).2 h sv.2.2.2⟩
  · intro i h hi hlen
    have rf := r.refused i h hi hlen
    have hlt : i < st.mSoundCommand.length := by
      by_contra hge
      rw [List.getElem?_eq_none (Nat.le_of_not_lt hge)] at hi
      exact Option.noConfusion hi
    refine ⟨rf, ?_, ?_⟩
    · rw [hF.2.2.2 h ?_]
      · exact rf
      · intro s hs hmap
        obtain ⟨j, k, hj, hjs⟩ := hbound s hs
        have sv := r.served j k s hj hjs
        have hk : k = h := by
          have e : (st.PreFrame d).mSourceMap s = some k := sv.2.2.2
          rw [hmap] at e; exact (Option.some.inj e).symm
        subst hk
        have hjlt : j < st.mAvailable.length := by
          by_contra hge
          rw [List.getElem?_eq_none (Nat.le_of_not_lt hge)] at hjs
          exact Option.noConfusion hjs
        have : i = j := List.getElem?_inj hlt hcmd (hi.trans hj.symm)
        omega
    · apply PlaySound_exhausted
      · show ((AudioManager.preFrameLoop d st.mSoundCommand st).sounds h).mIsInitialized = false
        rw [rf]; exact (hsounds h (List.getElem?_mem hi)).2.1
      · show (AudioManager.preFrameLoop d st.mSoundCommand st).mAvailable = []
        rw [r.avail]
        exact List.drop_eq_nil_of_le (by omega)


/-- C3, at the concrete input `N = 2`, `k = 3`: the three play requests on a pool of two
sources. The sounds 0 and 1 get the sources 1 and 2, the sound 2 gets none. -/
theorem C3_bounded_pool_witness :
    (threePlayRequests.mSoundCommand = [0, 1, 2] ∧ threePlayRequests.mAvailable = [1, 2]) ∧
    ((threePlayRequests.PreFrame quietDriver).mPlayQueue
        = threePlayRequests.mAvailable.take threePlayRequests.mSoundCommand.length ∧
    (threePlayRequests.PreFrame quietDriver).mPlayQueue.length
        = min threePlayRequests.mSoundCommand.length threePlayRequests.mAvailable.length ∧
    (threePlayRequests.PreFrame quietDriver).mAvailable
        = threePlayRequests.mAvailable.drop threePlayRequests.mSoundCommand.length ∧
    (∀ i h s : Nat, threePlayRequests.mSoundCommand[i]? = some h →
      threePlayRequests.mAvailable[i]? = some s →
      ((threePlayRequests.PreFrame quietDriver).sounds h).mIsInitialized = true ∧
      ((threePlayRequests.PreFrame quietDriver).sounds h).mSource = s ∧
      (threePlayRequests.PreFrame quietDriver).mSourceMap s = some h ∧
      ((threePlayRequests.PreFrame quietDriver).Frame quietDriver).al.sourceState s
        = .PLAYING ∧
      (((threePlayRequests.PreFrame quietDriver).Frame quietDriver).sounds h).IsPlaying
        = true) ∧
    (∀ i h : Nat, threePlayRequests.mSoundCommand[i]? = some h →
      threePlayRequests.mAvailable.length ≤ i →
      (threePlayRequests.PreFrame quietDriver).sounds h
        = { threePlayRequests.sounds h with mCommand := [] } ∧
      ((threePlayRequests.PreFrame quietDriver).Frame quietDriver).sounds h
        = { threePlayRequests.sounds h with mCommand := [] } ∧
      (threePlayRequests.PreFrame quietDriver).PlaySound quietDriver h
        = threePlayRequests.PreFrame quietDriver) ∧
    (∀ s, s ∉ threePlayRequests.mAvailable.take threePlayRequests.mSoundCommand.length →
      (threePlayRequests.PreFrame quietDriver).mSourceMap s = threePlayRequests.mSourceMap s) ∧
    (threePlayRequests.PreFrame quietDriver).mPauseQueue = [] ∧
    (threePlayRequests.PreFrame quietDriver).mStopQueue = [] ∧
    (threePlayRequests.PreFrame quietDriver).mRewindQueue = [] ∧
    ((threePlayRequests.PreFrame quietDriver).Frame quietDriver).mActiveList
        = threePlayRequests.mAvailable.take threePlayRequests.mSoundCommand.length ∧
    ((threePlayRequests.PreFrame quietDriver).Frame quietDriver).mPlayQueue = []) :=
  ⟨by decide,
    C3_bounded_pool quietDriver (fun _ => rfl) threePlayRequests (by decide) (by decide)
      (by decide) (by decide) (by decide) (by decide) (by decide) (by decide) (by decide)⟩

/-- The scenario evaluated: after `PreFrame` and `Frame` the sounds 0 and 1 are bound to the
sources 1 and 2 and playing, the sound 2 has no source and is still stopped, and nothing is
left on the available queue. -/
theorem threePlayRequests_outcome :
    (((threePlayRequests.PreFrame quietDriver).Frame quietDriver).sounds 0).IsPlaying = true ∧
    (((threePlayRequests.PreFrame quietDriver).Frame quietDriver).sounds 1).IsPlaying = true ∧
    (((threePlayRequests.PreFrame quietDriver).Frame quietDriver).sounds 2).IsPlaying = false ∧
    (((threePlayRequests.PreFrame quietDriver).Frame quietDriver).sounds 2).IsStopped = true ∧
    (((threePlayRequests.PreFrame quietDriver).Frame quietDriver).sounds 2).mIsInitialized
      = false ∧
    ((threePlayRequests.PreFrame quietDriver).Frame quietDriver).mActiveList = [1, 2] ∧
    ((threePlayRequests.PreFrame quietDriver).Frame quietDriver).mAvailable = [] ∧
    ((threePlayRequests.PreFrame quietDriver).Frame quietDriver).al.sourceState 1 = .PLAYING ∧
    ((threePlayRequests.PreFrame quietDriver).Frame quietDriver).al.sourceState 2 = .PLAYING := by
  decide


/-! ## Handlers do not read or write the command queues -/

theorem withCommands_setSound (q : List Nat) (F : Nat → List Command) (h : Nat)
    (f : Sound → Sound) (hf : ∀ (s : Sound) (c : List Command),
      f { s with mCommand := c } = { f s with mCommand := c })
    (x : AudioManager) :
    (x.withCommands q F).setSound h f = (x.setSound h f).withCommands q F := by
  unfold AudioManager.withCommands AudioManager.setSound
  simp only [AudioManager.mk.injEq, true_and, and_true]
  funext k
  by_cases hk : k = h
  · subst hk; simp only [Function.update_same]; exact hf _ _
  · simp only [Function.update_noteq hk]

theorem OnMessage_mCommand (m : Command) (s : Sound) (c : List Command) :
    Sound.OnMessage m { s with mCommand := c } = { Sound.OnMessage m s with mCommand := c } := by
  cases m <;> rfl

theorem withCommands_SendMessage (q : List Nat) (F : Nat → List Command) (c : Command)
    (h : Nat) (x : AudioManager) :
    (x.withCommands q F).SendMessage c h = (x.SendMessage c h).withCommands q F := by
  unfold AudioManager.SendMessage
  have e : ((x.withCommands q F).sounds h).hearsManager = (x.sounds h).hearsManager := rfl
  rw [e]
  split
  · exact withCommands_setSound q F h _ (OnMessage_mCommand c) x
  · rfl

theorem withCommands_writeChecked (q : List Nat) (F : Nat → List Command) (d : Driver)
    (h : Nat) (w : OpenAL → OpenAL) (msg : Option Command) (x : AudioManager) :
    AudioManager.writeChecked d h w msg (x.withCommands q F)
      = (AudioManager.writeChecked d h w msg x).withCommands q F := by
  unfold AudioManager.writeChecked AudioManager.check
  simp only
  have e : (x.withCommands q F).al = x.al := rfl
  rw [e]
  split
  · rfl
  · cases msg with
    | none => rfl
    | some c =>
      exact withCommands_SendMessage q F c h
        { x with al := (OpenAL.CheckForError d (w x.al)).2 }

theorem withCommands_notPlaying (q : List Nat) (F : Nat → List Command) (d : Driver)
    (h : Nat) (x : AudioManager) :
    (x.withCommands q F).notPlaying d h = x.notPlaying d h := rfl

theorem withCommands_SetGain (q : List Nat) (F : Nat → List Command) (d : Driver)
    (h : Nat) (x : AudioManager) :
    (x.withCommands q F).SetGain d h = (x.SetGain d h).withCommands q F := by
  unfold AudioManager.SetGain
  rw [withCommands_notPlaying]
  split
  · rfl
  · exact withCommands_writeChecked q F d h _ _ x

theorem withCommands_SetPitch (q : List Nat) (F : Nat → List Command) (d : Driver)
    (h : Nat) (x : AudioManager) :
    (x.withCommands q F).SetPitch d h = (x.SetPitch d h).withCommands q F := by
  unfold AudioManager.SetPitch
  rw [withCommands_notPlaying]
  split
  · rfl
  · exact withCommands_writeChecked q F d h _ _ x

theorem withCommands_SetPosition (q : List Nat) (F : Nat → List Command) (d : Driver)
    (h : Nat) (x : AudioManager) :
    (x.withCommands q F).SetPosition d h = (x.SetPosition d h).withCommands q F := by
  unfold AudioManager.SetPosition
  rw [withCommands_notPlaying]
  split
  · rfl
  · exact withCommands_writeChecked q F d h _ _ x

theorem withCommands_SetDirection (q : List Nat) (F : Nat → List Command) (d : Driver)
    (h : Nat) (x : AudioManager) :
    (x.withCommands q F).SetDirection d h = (x.SetDirection d h).withCommands q F := by
  unfold AudioManager.SetDirection
  rw [withCommands_notPlaying]
  split
  · rfl
  · exact withCommands_writeChecked q F d h _ _ x

theorem withCommands_SetVelocity (q : List Nat) (F : Nat → List Command) (d : Driver)
    (h : Nat) (x : AudioManager) :
    (x.withCommands q F).SetVelocity d h = (x.SetVelocity d h).withCommands q F := by
  unfold AudioManager.SetVelocity
  rw [withCommands_notPlaying]
  split
  · rfl
  · exact withCommands_writeChecked q F d h _ _ x

theorem withCommands_SetLoop (q : List Nat) (F : Nat → List Command) (d : Driver)
    (h : Nat) (x : AudioManager) :
    (x.withCommands q F).SetLoop d h = (x.SetLoop d h).withCommands q F := by
  unfold AudioManager.SetLoop
  rw [withCommands_notPlaying]
  split
  · exact withCommands_setSound q F h _ (fun _ _ => rfl) x
  · exact withCommands_writeChecked q F d h _ _ x

theorem withCommands_ResetLoop (q : List Nat) (F : Nat → List Command) (d : Driver)
    (h : Nat) (x : AudioManager) :
    (x.withCommands q F).ResetLoop d h = (x.ResetLoop d h).withCommands q F := by
  unfold AudioManager.ResetLoop
  rw [withCommands_notPlaying]
  split
  · exact withCommands_setSound q F h _ (fun _ _ => rfl) x
  · exact withCommands_writeChecked q F d h _ _ x

theorem withCommands_SetAbsolute (q : List Nat) (F : Nat → List Command) (d : Driver)
    (h : Nat) (x : AudioManager) :
    (x.withCommands q F).SetAbsolute d h = (x.SetAbsolute d h).withCommands q F := by
  unfold AudioManager.SetAbsolute
  rw [withCommands_notPlaying]
  split
  · exact withCommands_setSound q F h _ (fun _ _ => rfl) x
  · exact withCommands_writeChecked q F d h _ _ x

theorem withCommands_SetRelative (q : List Nat) (F : Nat → List Command) (d : Driver)
    (h : Nat) (x : AudioManager) :
    (x.withCommands q F).SetRelative d h = (x.SetRelative d h).withCommands q F := by
  unfold AudioManager.SetRelative
  simp only
  rw [withCommands_notPlaying]
  have e1 : ((x.withCommands q F).sounds h).IsListenerRelative
      = (x.sounds h).IsListenerRelative := rfl
  have e2 : ((x.withCommands q F).sounds h).mBuffer = (x.sounds h).mBuffer := rfl
  have e3 : (x.withCommands q F).al = x.al := rfl
  rw [e1, e2, e3]
  have hs := withCommands_setSound q F h
    (fun s => (s.SetState .REL).ResetState .ABS) (fun _ _ => rfl) x
  split
  · rfl
  · split
    · exact hs
    · split
      · exact hs
      · split
        · exact hs
        · exact withCommands_writeChecked q F d h _ _ x

theorem withCommands_SetReferenceDistance (q : List Nat) (F : Nat → List Command) (d : Driver)
    (h : Nat) (x : AudioManager) :
    (x.withCommands q F).SetReferenceDistance d h
      = (x.SetReferenceDistance d h).withCommands q F := by
  unfold AudioManager.SetReferenceDistance
  rw [withCommands_notPlaying]
  split
  · exact withCommands_setSound q F h _ (fun _ _ => rfl) x
  · exact withCommands_writeChecked q F d h _ _ x

theorem withCommands_SetMaximumDistance (q : List Nat) (F : Nat → List Command) (d : Driver)
    (h : Nat) (x : AudioManager) :
    (x.withCommands q F).SetMaximumDistance d h
      = (x.SetMaximumDistance d h).withCommands q F := by
  unfold AudioManager.SetMaximumDistance
  rw [withCommands_notPlaying]
  split
  · exact withCommands_setSound q F h _ (fun _ _ => rfl) x
  · exact withCommands_writeChecked q F d h _ _ x

theorem withCommands_SetRolloff (q : List Nat) (F : Nat → List Command) (d : Driver)
    (h : Nat) (x : AudioManager) :
    (x.withCommands q F).SetRolloff d h = (x.SetRolloff d h).withCommands q F := by
  unfold AudioManager.SetRolloff
  rw [withCommands_notPlaying]
  split
  · exact withCommands_setSound q F h _ (fun _ _ => rfl) x
  · exact withCommands_writeChecked q F d h _ _ x

theorem withCommands_SetMinimumGain (q : List Nat) (F : Nat → List Command) (d : Driver)
    (h : Nat) (x : AudioManager) :
    (x.withCommands q F).SetMinimumGain d h = (x.SetMinimumGain d h).withCommands q F := by
  unfold AudioManager.SetMinimumGain
  rw [withCommands_notPlaying]
  have e1 : ((x.withCommands q F).sounds h).mMinGain = (x.sounds h).mMinGain := rfl
  have e2 : ((x.withCommands q F).sounds h).mMaxGain = (x.sounds h).mMaxGain := rfl
  rw [e1, e2]
  split
  · exact withCommands_setSound q F h _ (fun _ _ => rfl) x
  · split
    · exact withCommands_writeChecked q F d h _ _ x
    · rfl

theorem withCommands_SetMaximumGain (q : List Nat) (F : Nat → List Command) (d : Driver)
    (h : Nat) (x : AudioManager) :
    (x.withCommands q F).SetMaximumGain d h = (x.SetMaximumGain d h).withCommands q F := by
  unfold AudioManager.SetMaximumGain
  rw [withCommands_notPlaying]
  have e1 : ((x.withCommands q F).sounds h).mMinGain = (x.sounds h).mMinGain := rfl
  have e2 : ((x.withCommands q F).sounds h).mMaxGain = (x.sounds h).mMaxGain := rfl
  rw [e1, e2]
  split
  · exact withCommands_setSound q F h _ (fun _ _ => rfl) x
  · split
    · exact withCommands_writeChecked q F d h _ _ x
    · rfl

theorem withCommands_PauseSound (q : List Nat) (F : Nat → List Command)
    (h : Nat) (x : AudioManager) :
    (x.withCommands q F).PauseSound h = (x.PauseSound h).withCommands q F := by
  unfold AudioManager.PauseSound
  have e : ((x.withCommands q F).sounds h).mIsInitialized = (x.sounds h).mIsInitialized := rfl
  rw [e]
  split <;> rfl

theorem withCommands_StopSound (q : List Nat) (F : Nat → List Command) (d : Driver)
    (h : Nat) (x : AudioManager) :
    (x.withCommands q F).StopSound d h = (x.StopSound d h).withCommands q F := by
  unfold AudioManager.StopSound
  rw [withCommands_notPlaying]
  split <;> rfl

theorem withCommands_RewindSound (q : List Nat) (F : Nat → List Command) (d : Driver)
    (h : Nat) (x : AudioManager) :
    (x.withCommands q F).RewindSound d h = (x.RewindSound d h).withCommands q F := by
  unfold AudioManager.RewindSound
  rw [withCommands_notPlaying]
  split <;> rfl


theorem withCommands_touchBuffer (q : List Nat) (F : Nat → List Command) (file : String)
    (x : AudioManager) :
    (x.withCommands q F).touchBuffer file = (x.touchBuffer file).withCommands q F := by
  unfold AudioManager.touchBuffer
  have e : (x.withCommands q F).mBufferMap = x.mBufferMap := rfl
  rw [e]
  split <;> rfl

theorem withCommands_LoadFile (q : List Nat) (F : Nat → List Command) (d : Driver)
    (file : String) (x : AudioManager) :
    (x.withCommands q F).LoadFile d file
      = ((x.LoadFile d file).1, (x.LoadFile d file).2.withCommands q F) := by
  unfold AudioManager.LoadFile
  simp only
  rw [withCommands_touchBuffer]
  have e : ((x.touchBuffer file).withCommands q F).bufferAt file
      = (x.touchBuffer file).bufferAt file := rfl
  rw [e]
  unfold AudioManager.check
  have e_al : ∀ z : AudioManager, (z.withCommands q F).al = z.al := fun _ => rfl
  simp only [e_al]
  split
  · rfl
  · split
    · rfl
    · cases (x.touchBuffer file).bufferAt file with
      | some _ => rfl
      | none =>
        simp only
        split
        · rfl
        · split
          · rfl
          · split <;> rfl

theorem withCommands_UnloadFile (q : List Nat) (F : Nat → List Command) (d : Driver)
    (file : String) (x : AudioManager) :
    (x.withCommands q F).UnloadFile d file
      = ((x.UnloadFile d file).1, (x.UnloadFile d file).2.withCommands q F) := by
  unfold AudioManager.UnloadFile
  have e : (x.withCommands q F).mBufferMap = x.mBufferMap := rfl
  rw [e]
  repeat' split
  all_goals rfl

theorem withCommands_update (q : List Nat) (F : Nat → List Command) (h : Nat) (v : Sound)
    (x : AudioManager) :
    ({ x.withCommands q F with
        sounds := Function.update (x.withCommands q F).sounds h { v with mCommand := F h } }
      : AudioManager)
      = ({ x with sounds := Function.update x.sounds h v } : AudioManager).withCommands q F := by
  unfold AudioManager.withCommands
  simp only [AudioManager.mk.injEq, true_and, and_true]
  funext k
  by_cases hk : k = h
  · subst hk; simp only [Function.update_same]
  · simp only [Function.update_noteq hk]

theorem withCommands_LoadSound (q : List Nat) (F : Nat → List Command) (d : Driver)
    (h : Nat) (x : AudioManager) :
    (x.withCommands q F).LoadSound d h = (x.LoadSound d h).withCommands q F := by
  unfold AudioManager.LoadSound
  simp only
  have e0 : ((x.withCommands q F).sounds h).GetFilename = (x.sounds h).GetFilename := rfl
  rw [e0, withCommands_LoadFile]
  simp only
  rw [withCommands_touchBuffer]
  generalize ((x.LoadFile d (x.sounds h).GetFilename).2.touchBuffer (x.sounds h).GetFilename) = y
  have e : (y.withCommands q F).bufferAt (x.sounds h).GetFilename
      = y.bufferAt (x.sounds h).GetFilename := rfl
  rw [e]
  split
  · rfl
  · rename_i bd _
    exact withCommands_update q F h { y.sounds h with mBuffer := bd.buf }
      { y with
        mBufferMap := Function.update y.mBufferMap (x.sounds h).GetFilename
          (some (some { bd with use := (bd.use + 1) % 2 ^ 32 })) }

theorem withCommands_FreeSource (q : List Nat) (F : Nat → List Command) (d : Driver)
    (snd : Option Nat) (x : AudioManager) :
    (x.withCommands q F).FreeSource d snd = (x.FreeSource d snd).withCommands q F := by
  unfold AudioManager.FreeSource
  cases snd with
  | none => rfl
  | some h =>
    simp only
    have e1 : ((x.withCommands q F).sounds h).mIsInitialized
        = (x.sounds h).mIsInitialized := rfl
    have e2 : ((x.withCommands q F).sounds h).mSource = (x.sounds h).mSource := rfl
    rw [e1, e2, withCommands_setSound q F h _ (fun _ _ => rfl)]
    split
    · rfl
    · split <;> rfl

theorem withCommands_UnloadSound (q : List Nat) (F : Nat → List Command) (d : Driver)
    (h : Nat) (x : AudioManager) :
    (x.withCommands q F).UnloadSound d h = (x.UnloadSound d h).withCommands q F := by
  unfold AudioManager.UnloadSound
  simp only
  have e0 : ((x.withCommands q F).sounds h).GetFilename = (x.sounds h).GetFilename := rfl
  rw [e0, withCommands_setSound q F h _ (fun _ _ => rfl), withCommands_touchBuffer]
  generalize ((x.setSound h (fun s => { s with mBuffer := 0 })).touchBuffer
    (x.sounds h).GetFilename) = y
  have e : (y.withCommands q F).bufferAt (x.sounds h).GetFilename
      = y.bufferAt (x.sounds h).GetFilename := rfl
  rw [e]
  split
  · rfl
  · rename_i bd _
    have key : ∀ z : AudioManager,
        ((z.withCommands q F).UnloadFile d (x.sounds h).GetFilename).2
          = (z.UnloadFile d (x.sounds h).GetFilename).2.withCommands q F := by
      intro z; rw [withCommands_UnloadFile]
    have inner : ∀ (u : Nat) (z : AudioManager),
        (if u = 0 then
          if d.isSource (z.sounds h).mSource && (z.sounds h).mIsInitialized then
            (z.withCommands q F).FreeSource d (some h)
          else z.withCommands q F
        else z.withCommands q F)
        = (if u = 0 then
            if d.isSource (z.sounds h).mSource && (z.sounds h).mIsInitialized then
              z.FreeSource d (some h)
            else z
          else z).withCommands q F := by
      intro u z
      rw [withCommands_FreeSource]
      split
      · split <;> rfl
      · rfl
    exact (congrArg (fun s => (AudioManager.UnloadFile d (x.sounds h).GetFilename s).2)
      (inner ((bd.use + (2 ^ 32 - 1)) % 2 ^ 32)
        { y with
          mBufferMap := Function.update y.mBufferMap (x.sounds h).GetFilename
            (some (some { bd with use := (bd.use + (2 ^ 32 - 1)) % 2 ^ 32 })) })).trans (key _)


theorem withCommands_SetupSource (q : List Nat) (F : Nat → List Command) (h : Nat)
    (x : AudioManager) :
    (x.withCommands q F).SetupSource h
      = ((x.SetupSource h).1, (x.SetupSource h).2.withCommands q F) := by
  unfold AudioManager.SetupSource
  have e : (x.withCommands q F).mAvailable = x.mAvailable := rfl
  rw [e]
  cases hq : x.mAvailable with
  | nil => rfl
  | cons src rest =>
    simp only
    refine congrArg (Prod.mk true) ?_
    exact withCommands_update q F h { x.sounds h with mSource := src, mIsInitialized := true }
      { x with
        mAvailable := rest
        mSourceMap := Function.update x.mSourceMap src (some h) }

theorem withCommands_applyPending (q : List Nat) (F : Nat → List Command) (d : Driver)
    (flag : Command) (p : SourceParam) (value : Sound → ALfloat)
    (hv : ∀ (s : Sound) (c : List Command), value { s with mCommand := c } = value s)
    (h src : Nat) (isNew : Bool) (x : AudioManager) :
    AudioManager.applyPending d flag p value h src isNew (x.withCommands q F)
      = (AudioManager.applyPending d flag p value h src isNew x).withCommands q F := by
  unfold AudioManager.applyPending
  have e : ((x.withCommands q F).sounds h).GetState flag = (x.sounds h).GetState flag := rfl
  rw [e]
  split
  · simp only
    rw [withCommands_setSound q F h _ (fun _ _ => rfl)]
    have e2 : value (((x.setSound h (Sound.ResetState flag)).withCommands q F).sounds h)
        = value ((x.setSound h (Sound.ResetState flag)).sounds h) := hv _ _
    rw [e2]
    rfl
  · rfl

theorem withCommands_playSettings (q : List Nat) (F : Nat → List Command) (d : Driver)
    (h src : Nat) (isNew : Bool) (x : AudioManager) :
    AudioManager.playSettings d h src isNew (x.withCommands q F)
      = (AudioManager.playSettings d h src isNew x).withCommands q F := by
  unfold AudioManager.playSettings
  simp only
  have e0 : ({ x.withCommands q F with
      al := AudioManager.writeAttributes d src ((x.withCommands q F).sounds h)
        (x.withCommands q F).al } : AudioManager)
      = ({ x with al := AudioManager.writeAttributes d src (x.sounds h) x.al }
          : AudioManager).withCommands q F := rfl
  rw [e0]
  rw [withCommands_applyPending q F d .MIN_DIST .REFERENCE_DISTANCE Sound.mMinDist
      (fun _ _ => rfl),
    withCommands_applyPending q F d .MAX_DIST .MAX_DISTANCE Sound.mMaxDist (fun _ _ => rfl),
    withCommands_applyPending q F d .ROL_FACT .ROLLOFF_FACTOR Sound.mRolloff (fun _ _ => rfl),
    withCommands_applyPending q F d .MIN_GAIN .MIN_GAIN Sound.mMinGain (fun _ _ => rfl),
    withCommands_applyPending q F d .MAX_GAIN .MAX_GAIN Sound.mMaxGain (fun _ _ => rfl)]
  split
  · rw [withCommands_setSound q F h _ (fun _ _ => rfl)]
    rfl
  · rfl

theorem withCommands_playBind (q : List Nat) (F : Nat → List Command) (d : Driver)
    (h src : Nat) (isNew : Bool) (x : AudioManager) :
    AudioManager.playBind d h src isNew (x.withCommands q F)
      = (AudioManager.playBind d h src isNew x).withCommands q F := by
  unfold AudioManager.playBind AudioManager.check
  simp only
  have e : (x.withCommands q F).al = x.al := rfl
  rw [e]
  split
  · rfl
  · exact withCommands_playSettings q F d h src isNew
      { x with
        al := OpenAL.setBuffer src (x.sounds h).mBuffer (OpenAL.CheckForError d x.al).2 }

theorem withCommands_PlaySound (q : List Nat) (F : Nat → List Command) (d : Driver)
    (h : Nat) (x : AudioManager) :
    (x.withCommands q F).PlaySound d h = (x.PlaySound d h).withCommands q F := by
  unfold AudioManager.PlaySound
  have e1 : (x.withCommands q F).al = x.al := rfl
  have e2 : ((x.withCommands q F).sounds h).mBuffer = (x.sounds h).mBuffer := rfl
  have e3 : ((x.withCommands q F).sounds h).mIsInitialized
      = (x.sounds h).mIsInitialized := rfl
  have e4 : ((x.withCommands q F).sounds h).mSource = (x.sounds h).mSource := rfl
  rw [e1, e2, e3, e4, withCommands_SetupSource]
  split
  · rfl
  · split
    · cases hs : x.SetupSource h with
      | mk ok y =>
        cases ok with
        | false => rfl
        | true =>
          simp only
          exact withCommands_playBind q F d h (y.sounds h).mSource true y
    · unfold AudioManager.check
      simp only [e1]
      split
      · rfl
      · split
        · rfl
        · rfl
        · exact withCommands_playBind q F d h (x.sounds h).mSource false
            { x with al := (OpenAL.CheckForError d x.al).2 }

/-- No handler of `PreFrame` reads or writes the command queue or a command FIFO: it
commutes with any replacement of their contents. -/
theorem withCommands_handle (q : List Nat) (F : Nat → List Command) (d : Driver)
    (c : Command) (h : Nat) (x : AudioManager) :
    AudioManager.handle d c h (x.withCommands q F)
      = (AudioManager.handle d c h x).withCommands q F := by
  cases c
  case NONE => rfl
  case QUEUE => rfl
  case LOAD => exact withCommands_LoadSound q F d h x
  case UNLOAD => exact withCommands_UnloadSound q F d h x
  case PLAY => exact withCommands_PlaySound q F d h x
  case PAUSE => exact withCommands_PauseSound q F h x
  case STOP => exact withCommands_StopSound q F d h x
  case REWIND => exact withCommands_RewindSound q F d h x
  case LOOP => exact withCommands_SetLoop q F d h x
  case UNLOOP => exact withCommands_ResetLoop q F d h x
  case GAIN => exact withCommands_SetGain q F d h x
  case PITCH => exact withCommands_SetPitch q F d h x
  case POSITION => exact withCommands_SetPosition q F d h x
  case DIRECTION => exact withCommands_SetDirection q F d h x
  case VELOCITY => exact withCommands_SetVelocity q F d h x
  case ABS => exact withCommands_SetAbsolute q F d h x
  case REL => exact withCommands_SetRelative q F d h x
  case MIN_DIST => exact withCommands_SetReferenceDistance q F d h x
  case MAX_DIST => exact withCommands_SetMaximumDistance q F d h x
  case ROL_FACT => exact withCommands_SetRolloff q F d h x
  case MIN_GAIN => exact withCommands_SetMinimumGain q F d h x
  case MAX_GAIN => exact withCommands_SetMaximumGain q F d h x


theorem withCommands_self (x : AudioManager) :
    x.withCommands x.mSoundCommand (fun k => (x.sounds k).mCommand) = x := rfl

/-- A handler leaves the command queue and every command FIFO as they are. -/
theorem handle_queues (d : Driver) (c : Command) (h : Nat) (x : AudioManager) :
    (AudioManager.handle d c h x).mSoundCommand = x.mSoundCommand ∧
    ∀ k, ((AudioManager.handle d c h x).sounds k).mCommand = (x.sounds k).mCommand := by
  have e := withCommands_handle x.mSoundCommand (fun k => (x.sounds k).mCommand) d c h x
  rw [withCommands_self] at e
  constructor
  · rw [e]; rfl
  · intro k; rw [e]; rfl

/-- One turn of the loop of `PreFrame` on a sound whose FIFO starts with `c`: the command
is popped and its handler is called. -/
theorem dispatch_handle (d : Driver) (h : Nat) (c : Command) (r : List Command)
    (x : AudioManager) (hc : (x.sounds h).mCommand = c :: r) :
    AudioManager.dispatch d h x
      = AudioManager.handle d c h (x.setSound h (fun s => { s with mCommand := r })) := by
  have e1 : (x.sounds h).DequeueCommand.1 = some c := by
    unfold Sound.DequeueCommand; rw [hc]
  have e2 : x.setSound h (fun s => s.DequeueCommand.2)
      = x.setSound h (fun s => { s with mCommand := r }) := by
    simp only [AudioManager.setSound, Sound.DequeueCommand, hc]
  unfold AudioManager.dispatch
  simp only [e1, e2]
  cases c <;> rfl

/-- One turn of the loop of `PreFrame` on a sound whose FIFO is empty calls no handler. -/
theorem dispatch_idle (d : Driver) (h : Nat) (x : AudioManager)
    (hc : (x.sounds h).mCommand = []) : AudioManager.dispatch d h x = x := by
  have e1 : (x.sounds h).DequeueCommand.1 = none := by
    unfold Sound.DequeueCommand; rw [hc]
  have e2 : x.setSound h (fun s => s.DequeueCommand.2) = x := by
    simp only [AudioManager.setSound, Sound.DequeueCommand, hc, Function.update_eq_self]
  unfold AudioManager.dispatch
  simp only [e1, e2]

theorem setSound_mCommand_withCommands (q : List Nat) (F : Nat → List Command) (h : Nat)
    (r : List Command) (x : AudioManager) :
    (x.withCommands q F).setSound h (fun s => { s with mCommand := r })
      = x.withCommands q (Function.update F h r) := by
  unfold AudioManager.withCommands AudioManager.setSound
  simp only [AudioManager.mk.injEq, true_and, and_true]
  funext k
  by_cases hk : k = h
  · subst hk; simp only [Function.update_same]
  · simp only [Function.update_noteq hk]

/-- One turn of the loop of `PreFrame` changes the command queue not at all, the FIFO of its
sound by one pop, and no other FIFO. -/
theorem dispatch_queues (d : Driver) (h : Nat) (x : AudioManager) :
    (AudioManager.dispatch d h x).mSoundCommand = x.mSoundCommand ∧
    ((AudioManager.dispatch d h x).sounds h).mCommand = (x.sounds h).mCommand.tail ∧
    ∀ k, k ≠ h → ((AudioManager.dispatch d h x).sounds k).mCommand = (x.sounds k).mCommand := by
  cases hc : (x.sounds h).mCommand with
  | nil =>
    rw [dispatch_idle d h x hc]
    exact ⟨rfl, by rw [hc]; rfl, fun _ _ => rfl⟩
  | cons c r =>
    rw [dispatch_handle d h c r x hc]
    have hq := handle_queues d c h (x.setSound h (fun s => { s with mCommand := r }))
    refine ⟨hq.1, ?_, ?_⟩
    · rw [hq.2]; simp [AudioManager.setSound]
    · intro k hk
      rw [hq.2]; simp [AudioManager.setSound, Function.update_noteq hk]

theorem preFrameLoop_mSoundCommand (d : Driver) (q : List Nat) (x : AudioManager)
    (hx : x.mSoundCommand = q) : (AudioManager.preFrameLoop d q x).mSoundCommand = [] := by
  induction q generalizing x with
  | nil => exact hx
  | cons h rest ih =>
    unfold AudioManager.preFrameLoop
    exact ih _ (dispatch_queues d h _).1

/-- After `PreFrame` the command queue is empty. -/
theorem PreFrame_mSoundCommand (d : Driver) (x : AudioManager) :
    (x.PreFrame d).mSoundCommand = [] :=
  preFrameLoop_mSoundCommand d _ x rfl


/-! ## The command queue is drained in submission order -/

theorem OnMessage_withCommands (c : Command) (h : Nat) (x : AudioManager)
    (hc : ¬ (c = .NONE ∨ c = .QUEUE)) :
    x.OnMessage c h = x.withCommands (x.mSoundCommand ++ [h])
      (fun k => (x.sounds k).mCommand ++ commandsFor k [(h, c)]) := by
  unfold AudioManager.OnMessage AudioManager.withCommands AudioManager.setSound
  rw [if_neg hc]
  simp only [AudioManager.mk.injEq, true_and, and_true]
  funext k
  by_cases hk : k = h
  · subst hk
    simp [commandsFor, Sound.EnqueueCommand]
  · have hk' : ¬ h = k := fun e => hk e.symm
    simp [commandsFor, Function.update_noteq hk, hk']

/-- Messages received by `OnMessage` only append to the command queue and to the FIFOs of
their sounds. -/
theorem receive_withCommands (msgs : List (Nat × Command)) (x : AudioManager) :
    x.receive msgs = x.withCommands (x.mSoundCommand ++ (queued msgs).map Prod.fst)
      (fun k => (x.sounds k).mCommand ++ commandsFor k (queued msgs)) := by
  induction msgs generalizing x with
  | nil =>
    unfold AudioManager.receive AudioManager.withCommands
    simp [queued, commandsFor]
  | cons m rest ih =>
    have step : x.receive (m :: rest) = (x.OnMessage m.2 m.1).receive rest := rfl
    rw [step, ih]
    by_cases hc : m.2 = .NONE ∨ m.2 = .QUEUE
    · have e1 : x.OnMessage m.2 m.1 = x := by
        unfold AudioManager.OnMessage; rw [if_pos hc]
      have e2 : queued (m :: rest) = queued rest := by
        unfold queued; rw [List.filter_cons_of_neg]
        intro hd; exact (of_decide_eq_true hd) hc
      rw [e1, e2]
    · have e2 : queued (m :: rest) = m :: queued rest := by
        unfold queued; rw [List.filter_cons_of_pos]
        exact decide_eq_true hc
      rw [e2, OnMessage_withCommands m.2 m.1 x hc]
      unfold AudioManager.withCommands
      simp only [AudioManager.mk.injEq, true_and, and_true, List.map_cons, List.append_assoc,
        List.singleton_append]
      funext k
      by_cases hk : m.1 = k
      · simp [commandsFor, hk]
      · simp [commandsFor, hk]

theorem preFrameLoop_handles (d : Driver) (msgs : List (Nat × Command)) (x : AudioManager) :
    AudioManager.preFrameLoop d (msgs.map Prod.fst)
        (x.withCommands (msgs.map Prod.fst) (fun k => commandsFor k msgs))
      = (msgs.foldl (fun acc m => AudioManager.handle d m.2 m.1 acc) x).withCommands []
          (fun _ => []) := by
  induction msgs generalizing x with
  | nil => rfl
  | cons m rest ih =>
    rw [List.map_cons, List.foldl_cons]
    unfold AudioManager.preFrameLoop
    have e0 : ({ x.withCommands (m.1 :: rest.map Prod.fst) (fun k => commandsFor k (m :: rest))
          with mSoundCommand := rest.map Prod.fst } : AudioManager)
        = x.withCommands (rest.map Prod.fst) (fun k => commandsFor k (m :: rest)) := rfl
    rw [e0]
    have hc : ((x.withCommands (rest.map Prod.fst)
        (fun k => commandsFor k (m :: rest))).sounds m.1).mCommand
        = m.2 :: commandsFor m.1 rest := by
      simp [AudioManager.withCommands, commandsFor]
    rw [dispatch_handle d m.1 m.2 _ _ hc, setSound_mCommand_withCommands]
    have hF : Function.update (fun k => commandsFor k (m :: rest)) m.1 (commandsFor m.1 rest)
        = fun k => commandsFor k rest := by
      funext k
      by_cases hk : k = m.1
      · subst hk; simp
      · have hk' : ¬ m.1 = k := fun e => hk e.symm
        simp [Function.update_noteq hk, commandsFor, hk']
    rw [hF, withCommands_handle]
    exact ih _

theorem foldl_handle_queues (d : Driver) (msgs : List (Nat × Command)) (x : AudioManager) :
    (msgs.foldl (fun acc m => AudioManager.handle d m.2 m.1 acc) x).mSoundCommand
      = x.mSoundCommand ∧
    ∀ k, ((msgs.foldl (fun acc m => AudioManager.handle d m.2 m.1 acc) x).sounds k).mCommand
      = (x.sounds k).mCommand := by
  induction msgs generalizing x with
  | nil => exact ⟨rfl, fun _ => rfl⟩
  | cons m rest ih =>
    rw [List.foldl_cons]
    have h1 := ih (AudioManager.handle d m.2 m.1 x)
    have h2 := handle_queues d m.2 m.1 x
    exact ⟨h1.1.trans h2.1, fun k => (h1.2 k).trans (h2.2 k)⟩

theorem foldl_handle_queued (d : Driver) (msgs : List (Nat × Command)) (x : AudioManager) :
    (queued msgs).foldl (fun acc m => AudioManager.handle d m.2 m.1 acc) x
      = msgs.foldl (fun acc m => AudioManager.handle d m.2 m.1 acc) x := by
  induction msgs generalizing x with
  | nil => rfl
  | cons m rest ih =>
    by_cases hc : m.2 = .NONE ∨ m.2 = .QUEUE
    · have e2 : queued (m :: rest) = queued rest := by
        unfold queued; rw [List.filter_cons_of_neg]
        intro hd; exact (of_decide_eq_true hd) hc
      have e3 : AudioManager.handle d m.2 m.1 x = x := by
        rcases hc with hc | hc <;> rw [hc] <;> rfl
      rw [e2, List.foldl_cons, e3, ih]
    · have e2 : queued (m :: rest) = m :: queued rest := by
        unfold queued; rw [List.filter_cons_of_pos]
        exact decide_eq_true hc
      rw [e2, List.foldl_cons, List.foldl_cons, ih]

/-- C19: from empty command queues, any messages `(s1, c1), ..., (sn, cn)` received by
`OnMessage` make the next `PreFrame` call exactly the handlers of `c1` on `s1`, ..., `cn` on
`sn`, in this order (a sound may occur several times); afterwards the command queue and every
FIFO are empty, and `DequeueCommand` on an empty FIFO returns the null command and changes
nothing. -/
theorem C19_PreFrame_dispatches_in_order (d : Driver) (st : AudioManager)
    (msgs : List (Nat × Command))
    (hq : st.mSoundCommand = []) (hf : ∀ k, (st.sounds k).mCommand = []) :
    (st.receive msgs).PreFrame d
      = msgs.foldl (fun acc m => AudioManager.handle d m.2 m.1 acc) st ∧
    ((st.receive msgs).PreFrame d).mSoundCommand = [] ∧
    (∀ k, (((st.receive msgs).PreFrame d).sounds k).mCommand = []) ∧
    (∀ s : Sound, s.mCommand = [] → s.DequeueCommand = (none, s)) := by
  have key : (st.receive msgs).PreFrame d
      = msgs.foldl (fun acc m => AudioManager.handle d m.2 m.1 acc) st := by
    rw [receive_withCommands]
    have e : st.withCommands (st.mSoundCommand ++ (queued msgs).map Prod.fst)
          (fun k => (st.sounds k).mCommand ++ commandsFor k (queued msgs))
        = st.withCommands ((queued msgs).map Prod.fst)
            (fun k => commandsFor k (queued msgs)) := by
      rw [hq]
      simp only [hf, List.nil_append]
    rw [e]
    have e2 : (st.withCommands ((queued msgs).map Prod.fst)
          (fun k => commandsFor k (queued msgs))).PreFrame d
        = AudioManager.preFrameLoop d ((queued msgs).map Prod.fst)
            (st.withCommands ((queued msgs).map Prod.fst)
              (fun k => commandsFor k (queued msgs))) := rfl
    rw [e2, preFrameLoop_handles, foldl_handle_queued]
    have hp := foldl_handle_queues d msgs st
    have e3 : (fun _ => []) = fun k =>
        ((msgs.foldl (fun acc m => AudioManager.handle d m.2 m.1 acc) st).sounds k).mCommand := by
      funext k; rw [hp.2, hf]
    have e4 : ([] : List Nat)
        = (msgs.foldl (fun acc m => AudioManager.handle d m.2 m.1 acc) st).mSoundCommand := by
      rw [hp.1, hq]
    rw [e3]
    nth_rewrite 1 [e4]
    exact withCommands_self _
  have hp := foldl_handle_queues d msgs st
  refine ⟨key, ?_, ?_, ?_⟩
  · rw [key, hp.1, hq]
  · intro k; rw [key, hp.2, hf]
  · intro s hs
    unfold Sound.DequeueCommand
    rw [hs]


/-! ## Freeing a sound -/

theorem preFrameLoop_cons (d : Driver) (h : Nat) (rest : List Nat) (x : AudioManager) :
    AudioManager.preFrameLoop d (h :: rest) x
      = AudioManager.preFrameLoop d rest (AudioManager.dispatch d h (x.setCommands rest)) :=
  rfl

/-- The three sounds of `mixedSounds` are as described. -/
theorem mixedSounds_states :
    ((mixedSounds.sounds 0).IsPlaying = true ∧ (mixedSounds.sounds 0).mIsInitialized = true ∧
      (mixedSounds.sounds 0).mSource = 1 ∧ mixedSounds.al.sourceState 1 = .PLAYING) ∧
    ((mixedSounds.sounds 1).IsPaused = true ∧ (mixedSounds.sounds 1).mIsInitialized = true ∧
      (mixedSounds.sounds 1).mSource = 2 ∧ mixedSounds.al.sourceState 2 = .PAUSED) ∧
    ((mixedSounds.sounds 2).IsStopped = true ∧ (mixedSounds.sounds 2).mIsInitialized = false) ∧
    mixedSounds.mSoundList = [0, 1, 2] ∧ mixedSounds.mActiveList = [1, 2] ∧
    mixedSounds.mAvailable = [] ∧ mixedSounds.mPauseQueue = [] ∧
    mixedSounds.mStopQueue = [] ∧ mixedSounds.mPlayQueue = [] := by
  decide!

/-- The input of the example evaluated: the sound held source 1 and had two commands
pending; after `FreeSound` the source is available, the entries of the command queue are
still there, and the FIFO is empty. -/
theorem pendingSounds_freed :
    (pendingSounds.sounds 0).mIsInitialized = true ∧ (pendingSounds.sounds 0).mSource = 1 ∧
    (pendingSounds.sounds 0).mCommand = [.GAIN, .STOP] ∧
    pendingSounds.mSoundCommand = [0, 0] ∧
    (pendingSounds.FreeSound quietDriver (some 0)).mAvailable = [1] ∧
    (pendingSounds.FreeSound quietDriver (some 0)).mSoundCommand = [0, 0] ∧
    ((pendingSounds.FreeSound quietDriver (some 0)).sounds 0).mCommand = [] ∧
    (pendingSounds.FreeSound quietDriver (some 0)).mSoundList = [1, 2] ∧
    (pendingSounds.FreeSound quietDriver (some 0)).mSoundRecycle = [0] := by
  decide!

/-- C19, at a concrete input: a new manager receives three messages, two of them for the
same sound. -/
theorem C19_PreFrame_dispatches_in_order_witness :
    ((AudioManager.init freshAL).mSoundCommand = [] ∧
      ∀ k, ((AudioManager.init freshAL).sounds k).mCommand = []) ∧
    (((AudioManager.init freshAL).receive
        [(0, .LOOP), (1, .GAIN), (0, .UNLOOP)]).PreFrame quietDriver
      = [(0, Command.LOOP), (1, Command.GAIN), (0, Command.UNLOOP)].foldl
          (fun acc m => AudioManager.handle quietDriver m.2 m.1 acc)
          (AudioManager.init freshAL) ∧
    (((AudioManager.init freshAL).receive
        [(0, .LOOP), (1, .GAIN), (0, .UNLOOP)]).PreFrame quietDriver).mSoundCommand = [] ∧
    (∀ k, ((((AudioManager.init freshAL).receive
        [(0, .LOOP), (1, .GAIN), (0, .UNLOOP)]).PreFrame quietDriver).sounds k).mCommand
      = []) ∧
    (∀ s : Sound, s.mCommand = [] → s.DequeueCommand = (none, s))) :=
  ⟨⟨rfl, fun _ => rfl⟩,
    C19_PreFrame_dispatches_in_order quietDriver (AudioManager.init freshAL)
      [(0, .LOOP), (1, .GAIN), (0, .UNLOOP)] rfl (fun _ => rfl)⟩


/-! ## The phase `Frame`: which sources leave the active list -/

theorem marks_append (q : Nat → Bool) (l : List Nat) (i : Nat) (stk : List Nat) :
    marks q l i stk = marks q l i [] ++ stk := by
  induction l generalizing i stk with
  | nil => rfl
  | cons a r ih =>
    unfold marks
    rw [ih (i + 1) (if q i then i :: stk else stk), ih (i + 1) (if q i then [i] else [])]
    by_cases hq : q i = true
    · simp [hq]
    · simp [hq]

theorem frameErase_cons (i : Nat) (stk : List Nat) (x : AudioManager) :
    AudioManager.frameErase (i :: stk) x
      = AudioManager.frameErase stk { x with
          mStopQueue := x.mStopQueue ++ (x.mActiveList.get? i).toList
          mActiveList := x.mActiveList.eraseIdx i } := rfl

theorem get?_append_length (pre rest : List Nat) (a : Nat) :
    (pre ++ a :: rest).get? pre.length = some a := by
  rw [List.get?_eq_getElem?, List.getElem?_append_right (le_refl _)]
  simp

theorem frameErase_append (s1 s2 : List Nat) (x : AudioManager) :
    AudioManager.frameErase (s1 ++ s2) x
      = AudioManager.frameErase s2 (AudioManager.frameErase s1 x) := by
  induction s1 generalizing x with
  | nil => rfl
  | cons i r ih =>
    rw [List.cons_append, frameErase_cons, frameErase_cons]
    exact ih _

theorem frameErase_fields (stk : List Nat) (x : AudioManager) :
    AudioManager.frameErase stk x
      = { x with
          mStopQueue := (AudioManager.frameErase stk x).mStopQueue
          mActiveList := (AudioManager.frameErase stk x).mActiveList } := by
  induction stk generalizing x with
  | nil => rfl
  | cons i r ih =>
    rw [frameErase_cons, ih]

/-- The last loop of `Frame` on the stack the scan has built: the marked elements go to the
stop queue, last marked first, and leave the active list; the others keep their order. -/
theorem frameErase_marks (q : Nat → Bool) (l : List Nat) :
    ∀ (pre tail : List Nat) (x : AudioManager), x.mActiveList = pre ++ l ++ tail →
      (AudioManager.frameErase (marks q l pre.length []) x).mStopQueue
        = x.mStopQueue ++ (pick q l pre.length).reverse ∧
      (AudioManager.frameErase (marks q l pre.length []) x).mActiveList
        = pre ++ pick (fun i => !q i) l pre.length ++ tail := by
  induction l with
  | nil =>
    intro pre tail x hx
    simp [marks, pick, AudioManager.frameErase, hx]
  | cons a r ih =>
    intro pre tail x hx
    have hx' : x.mActiveList = (pre ++ [a]) ++ r ++ tail := by simp [hx]
    have h1 := ih (pre ++ [a]) tail x hx'
    have hlen : (pre ++ [a]).length = pre.length + 1 := by simp
    rw [hlen] at h1
    have hm : marks q (a :: r) pre.length []
        = marks q r (pre.length + 1) [] ++ (if q pre.length then [pre.length] else []) := by
      show marks q r (pre.length + 1) (if q pre.length then pre.length :: [] else []) = _
      rw [marks_append]
    rw [hm, frameErase_append]
    by_cases hq : q pre.length = true
    · simp only [hq, if_true, pick, Bool.not_true, Bool.false_eq_true, if_false]
      rw [frameErase_cons]
      unfold AudioManager.frameErase
      simp only [h1.1, h1.2]
      have e : pre ++ [a] ++ pick (fun i => !q i) r (pre.length + 1) ++ tail
          = pre ++ a :: (pick (fun i => !q i) r (pre.length + 1) ++ tail) := by simp
      rw [e, get?_append_length]
      constructor
      · simp
      · rw [List.eraseIdx_append_of_length_le (le_refl _)]
        simp
    · have hq' : q pre.length = false := by simpa using hq
      simp only [hq', Bool.false_eq_true, if_false, pick, Bool.not_false, if_true]
      unfold AudioManager.frameErase
      rw [h1.1, h1.2]
      simp


theorem notify_fields (c : Command) (src : Nat) (x : AudioManager) :
    AudioManager.notify c src x = { x with sounds := (AudioManager.notify c src x).sounds } := by
  unfold AudioManager.notify AudioManager.SendMessage AudioManager.setSound
  split
  · split <;> rfl
  · rfl

/-- The scan of `Frame` writes source states and sound objects only. -/
theorem frameScan_fields (d : Driver) (l : List Nat) (i : Nat) (stk : List Nat)
    (x : AudioManager) :
    (AudioManager.frameScan d l i stk x).2
      = { x with
          al := (AudioManager.frameScan d l i stk x).2.al
          sounds := (AudioManager.frameScan d l i stk x).2.sounds } := by
  induction l generalizing i stk x with
  | nil => rfl
  | cons src rest ih =>
    unfold AudioManager.frameScan AudioManager.check
    simp only
    split
    · rw [ih]
    · split
      · rw [ih, notify_fields]
      · rw [ih, notify_fields]
      · rw [ih]

theorem foldl_fields (f : AudioManager → Nat → AudioManager) (l : List Nat)
    (hf : ∀ y s, f y s = { y with al := (f y s).al, sounds := (f y s).sounds })
    (x : AudioManager) :
    l.foldl f x = { x with al := (l.foldl f x).al, sounds := (l.foldl f x).sounds } := by
  induction l generalizing x with
  | nil => rfl
  | cons s rest ih =>
    rw [List.foldl_cons, ih, hf]

theorem framePauseOne_fields (d : Driver) (src : Nat) (x : AudioManager) :
    AudioManager.framePauseOne d src x
      = { x with
          al := (AudioManager.framePauseOne d src x).al
          sounds := (AudioManager.framePauseOne d src x).sounds } := by
  unfold AudioManager.framePauseOne AudioManager.check
  simp only
  split
  · rfl
  · split
    · rw [notify_fields]
    · rw [notify_fields]
    · rfl

/-- The pause loop and the rewind loop of `Frame` write source states and sound objects and
empty their queues; nothing else. -/
theorem framePauses_fields (d : Driver) (x : AudioManager) :
    AudioManager.framePauses d x
      = { x with
          al := (AudioManager.framePauses d x).al
          sounds := (AudioManager.framePauses d x).sounds
          mPauseQueue := [] } := by
  unfold AudioManager.framePauses
  rw [foldl_fields _ _ (fun y s => framePauseOne_fields d s y)]

theorem frameRewinds_fields (d : Driver) (x : AudioManager) :
    AudioManager.frameRewinds d x
      = { x with
          al := (AudioManager.frameRewinds d x).al
          sounds := (AudioManager.frameRewinds d x).sounds
          mRewindQueue := [] } := by
  unfold AudioManager.frameRewinds
  rw [foldl_fields _ _ (fun y s => by rw [notify_fields])]

theorem notify_al (c : Command) (src : Nat) (x : AudioManager) :
    (AudioManager.notify c src x).al = x.al := by
  rw [notify_fields]

/-- The scan of `Frame` never makes a source stopped and never takes a source out of that
state: it starts sources it finds INITIAL and leaves the others alone. -/
theorem frameScan_stopped (d : Driver) (l : List Nat) (i : Nat) (stk : List Nat)
    (x : AudioManager) (s : Nat) :
    ((AudioManager.frameScan d l i stk x).2.al.sourceState s = .STOPPED
      ↔ x.al.sourceState s = .STOPPED) ∧
    (AudioManager.frameScan d l i stk x).2.al.checks = x.al.checks + l.length := by
  induction l generalizing i stk x with
  | nil => exact ⟨Iff.rfl, rfl⟩
  | cons src rest ih =>
    unfold AudioManager.frameScan AudioManager.check
    simp only
    split
    · have := ih (i + 1) stk { x with al := (OpenAL.CheckForError d x.al).2 }
      refine ⟨this.1, ?_⟩
      rw [this.2]; simp [OpenAL.CheckForError]; omega
    · split
      · rename_i hst
        have := ih (i + 1) stk (AudioManager.notify .PLAY src
          { x with al := OpenAL.alSourcePlay d src (OpenAL.CheckForError d x.al).2 })
        rw [notify_al] at this
        refine ⟨this.1.trans ?_, ?_⟩
        · unfold OpenAL.alSourcePlay
          have hst' : x.al.sourceState src = .INITIAL := hst
          split
          · by_cases hs : s = src
            · subst hs; simp [OpenAL.CheckForError, hst']
            · simp [OpenAL.CheckForError, Function.update_noteq hs]
          · exact Iff.rfl
        · rw [this.2]
          unfold OpenAL.alSourcePlay
          split <;> simp [OpenAL.CheckForError] <;> omega
      · have := ih (i + 1) (i :: stk) (AudioManager.notify .STOP src
          { x with al := (OpenAL.CheckForError d x.al).2 })
        rw [notify_al] at this
        refine ⟨this.1, ?_⟩
        rw [this.2]; simp [OpenAL.CheckForError]; omega
      · have := ih (i + 1) stk { x with al := (OpenAL.CheckForError d x.al).2 }
        refine ⟨this.1, ?_⟩
        rw [this.2]; simp [OpenAL.CheckForError]; omega

/-- The stack the scan of `Frame` builds: the positions at which the state query reports no
error and the source is found STOPPED. -/
theorem frameScan_marks (d : Driver) (q : Nat → Bool) (l : List Nat) :
    ∀ (i : Nat) (stk : List Nat) (x : AudioManager),
      (∀ (j : Nat) (s : Nat), l[j]? = some s →
        q (i + j) = (!d.errors (x.al.checks + j) && decide (x.al.sourceState s = .STOPPED))) →
      (AudioManager.frameScan d l i stk x).1 = marks q l i stk := by
  induction l with
  | nil => intro i stk x _; rfl
  | cons src rest ih =>
    intro i stk x hq
    have h0 := hq 0 src (by simp)
    simp only [Nat.add_zero] at h0
    have hrest : ∀ (y : AudioManager), y.al.checks = x.al.checks + 1 →
        (∀ s, y.al.sourceState s = .STOPPED ↔ x.al.sourceState s = .STOPPED) →
        ∀ (j : Nat) (s : Nat), rest[j]? = some s →
          q (i + 1 + j) = (!d.errors (y.al.checks + j) && decide (y.al.sourceState s = .STOPPED)) := by
      intro y hc hs j s hj
      have := hq (j + 1) s (by simpa using hj)
      rw [show i + 1 + j = i + (j + 1) by omega, this, hc,
        show x.al.checks + 1 + j = x.al.checks + (j + 1) by omega]
      congr 1
      exact (decide_eq_decide.mpr (hs s)).symm
    unfold AudioManager.frameScan AudioManager.check marks
    simp only
    split
    · rename_i herr
      have hqi : q i = false := by rw [h0]; simp [herr]
      rw [hqi]
      exact ih (i + 1) stk _ (hrest _ rfl (fun _ => Iff.rfl))
    · rename_i herr
      have herr' : d.errors x.al.checks = false := by simpa using herr
      split
      · rename_i hst
        have hst' : x.al.sourceState src = .INITIAL := hst
        have hqi : q i = false := by rw [h0]; simp [hst']
        rw [hqi]
        refine ih (i + 1) stk _ (hrest _ ?_ ?_)
        · rw [notify_al]
          unfold OpenAL.alSourcePlay
          split <;> rfl
        · intro s
          rw [notify_al]
          unfold OpenAL.alSourcePlay
          split
          · by_cases hs : s = src
            · subst hs; simp [OpenAL.CheckForError, hst']
            · simp [OpenAL.CheckForError, Function.update_noteq hs]
          · exact Iff.rfl
      · rename_i hst
        have hst' : x.al.sourceState src = .STOPPED := hst
        have hqi : q i = true := by rw [h0]; simp [hst', herr']
        rw [hqi]
        refine ih (i + 1) (i :: stk) _ (hrest _ ?_ ?_)
        · rw [notify_al]; rfl
        · intro s; rw [notify_al]; exact Iff.rfl
      · rename_i hn1 hn2
        have hqi : q i = false := by
          rw [h0]
          have : x.al.sourceState src ≠ .STOPPED := fun e => hn2 e
          simp [this]
        rw [hqi]
        exact ih (i + 1) stk _ (hrest _ rfl (fun _ => Iff.rfl))


theorem foldl_alSourceStop_checks (d : Driver) (l : List Nat) (al : OpenAL) :
    (l.foldl (fun a src => OpenAL.alSourceStop d src a) al).checks = al.checks := by
  induction l generalizing al with
  | nil => rfl
  | cons s rest ih =>
    rw [List.foldl_cons, ih]
    unfold OpenAL.alSourceStop
    split <;> rfl

theorem frameScan_mActiveList (d : Driver) (l : List Nat) (i : Nat) (stk : List Nat)
    (x : AudioManager) :
    (AudioManager.frameScan d l i stk x).2.mActiveList = x.mActiveList ∧
    (AudioManager.frameScan d l i stk x).2.mStopQueue = x.mStopQueue ∧
    (AudioManager.frameScan d l i stk x).2.mPlayQueue = x.mPlayQueue ∧
    (AudioManager.frameScan d l i stk x).2.mPauseQueue = x.mPauseQueue ∧
    (AudioManager.frameScan d l i stk x).2.mRewindQueue = x.mRewindQueue := by
  rw [frameScan_fields]
  exact ⟨rfl, rfl, rfl, rfl, rfl⟩

theorem frameLoops_queues (d : Driver) (x : AudioManager) :
    (AudioManager.frameRewinds d (AudioManager.framePauses d x)).mActiveList = x.mActiveList ∧
    (AudioManager.frameRewinds d (AudioManager.framePauses d x)).mStopQueue = x.mStopQueue ∧
    (AudioManager.frameRewinds d (AudioManager.framePauses d x)).mPlayQueue = x.mPlayQueue ∧
    (AudioManager.frameRewinds d (AudioManager.framePauses d x)).mPauseQueue = [] ∧
    (AudioManager.frameRewinds d (AudioManager.framePauses d x)).mRewindQueue = [] := by
  rw [frameRewinds_fields, framePauses_fields]
  exact ⟨rfl, rfl, rfl, rfl, rfl⟩

/-- The queues after `Frame`. Let `q` tell for the positions of the old active list followed
by the old play queue whether the state query of the scan reports no error and finds the
source STOPPED (after the stop requests have been carried out). The play, pause and rewind
queues are empty, the stop queue holds the sources at the positions `q` marks, last first,
and the active list holds the others in their order. -/
theorem Frame_queues (d : Driver) (st : AudioManager) (q : Nat → Bool)
    (hq : ∀ (j : Nat) (s : Nat), (st.mActiveList ++ st.mPlayQueue)[j]? = some s →
      q j = (!d.errors (st.al.checks + j)
        && decide ((AudioManager.frameStops d st).al.sourceState s = .STOPPED))) :
    (st.Frame d).mPlayQueue = [] ∧ (st.Frame d).mPauseQueue = [] ∧
    (st.Frame d).mRewindQueue = [] ∧
    (st.Frame d).mStopQueue = (pick q (st.mActiveList ++ st.mPlayQueue) 0).reverse ∧
    (st.Frame d).mActiveList = pick (fun i => !q i) (st.mActiveList ++ st.mPlayQueue) 0 := by
  have hchecks : (AudioManager.frameStops d st).al.checks = st.al.checks :=
    foldl_alSourceStop_checks d st.mStopQueue st.al
  have hstk := frameScan_marks d q (st.mActiveList ++ st.mPlayQueue) 0 []
    (AudioManager.framePlays (AudioManager.frameStops d st))
    (fun j s hj => by
      have := hq j s hj
      rw [Nat.zero_add, this]
      have e : (AudioManager.framePlays (AudioManager.frameStops d st)).al
          = (AudioManager.frameStops d st).al := rfl
      rw [e, hchecks])
  have hsc := frameScan_mActiveList d (st.mActiveList ++ st.mPlayQueue) 0 []
    (AudioManager.framePlays (AudioManager.frameStops d st))
  have hlp := frameLoops_queues d (AudioManager.frameScan d (st.mActiveList ++ st.mPlayQueue)
    0 [] (AudioManager.framePlays (AudioManager.frameStops d st))).2
  have hfr : st.Frame d = AudioManager.frameErase
      (AudioManager.frameScan d (st.mActiveList ++ st.mPlayQueue) 0 []
        (AudioManager.framePlays (AudioManager.frameStops d st))).1
      (AudioManager.frameRewinds d (AudioManager.framePauses d
        (AudioManager.frameScan d (st.mActiveList ++ st.mPlayQueue) 0 []
          (AudioManager.framePlays (AudioManager.frameStops d st))).2)) := rfl
  rw [hfr, hstk]
  generalize AudioManager.frameRewinds d (AudioManager.framePauses d
    (AudioManager.frameScan d (st.mActiveList ++ st.mPlayQueue) 0 []
      (AudioManager.framePlays (AudioManager.frameStops d st))).2) = y at hlp ⊢
  have hact : y.mActiveList = [] ++ (st.mActiveList ++ st.mPlayQueue) ++ [] := by
    rw [hlp.1, hsc.1]; simp [AudioManager.framePlays, AudioManager.frameStops]
  have hstop : y.mStopQueue = [] := by rw [hlp.2.1, hsc.2.1]; rfl
  have hplay : y.mPlayQueue = [] := by rw [hlp.2.2.1, hsc.2.2.1]; rfl
  have he := frameErase_marks q (st.mActiveList ++ st.mPlayQueue) [] [] y hact
  simp only [List.length_nil, List.nil_append, List.append_nil] at he
  refine ⟨?_, ?_, ?_, ?_, he.2⟩
  · rw [frameErase_fields]; exact hplay
  · rw [frameErase_fields]; exact hlp.2.2.2.1
  · rw [frameErase_fields]; exact hlp.2.2.2.2
  · rw [he.1, hstop]; rfl

theorem pick_filter (q : Nat → Bool) (p : Nat → Bool) (l : List Nat) :
    ∀ i, (∀ (j : Nat) (s : Nat), l[j]? = some s → q (i + j) = p s) →
      pick q l i = l.filter p := by
  induction l with
  | nil => intro i _; rfl
  | cons a r ih =>
    intro i hq
    have h0 := hq 0 a (by simp)
    simp only [Nat.add_zero] at h0
    have hr := ih (i + 1) (fun j s hj => by
      have := hq (j + 1) s (by simpa using hj)
      rw [show i + 1 + j = i + (j + 1) by omega]; exact this)
    unfold pick
    rw [hr, h0]
    by_cases hp : p a = true
    · simp [hp]
    · simp [hp]

theorem scanOne_fields (d : Driver) (src : Nat) (x : AudioManager) :
    AudioManager.scanOne d src x
      = { x with
          al := (AudioManager.scanOne d src x).al
          sounds := (AudioManager.scanOne d src x).sounds } := by
  unfold AudioManager.scanOne AudioManager.check
  simp only
  split
  · rw [notify_fields]
  · rw [notify_fields]
  · rfl

theorem scanOne_checks (d : Driver) (src : Nat) (x : AudioManager) :
    (AudioManager.scanOne d src x).al.checks = x.al.checks + 1 := by
  unfold AudioManager.scanOne AudioManager.check
  simp only
  split
  · rw [notify_al]
    unfold OpenAL.alSourcePlay
    split <;> rfl
  · rw [notify_al]; rfl
  · rfl

theorem frameScan_cons (d : Driver) (a : Nat) (r : List Nat) (i : Nat) (stk : List Nat)
    (x : AudioManager) :
    AudioManager.frameScan d (a :: r) i stk x
      = if d.errors x.al.checks then AudioManager.frameScan d r (i + 1) stk (x.check d).2
        else
          match (x.check d).2.al.sourceState a with
          | .INITIAL =>
            AudioManager.frameScan d r (i + 1) stk
              (AudioManager.notify .PLAY a
                { (x.check d).2 with al := (x.check d).2.al.alSourcePlay d a })
          | .STOPPED =>
            AudioManager.frameScan d r (i + 1) (i :: stk)
              (AudioManager.notify .STOP a (x.check d).2)
          | _ => AudioManager.frameScan d r (i + 1) stk (x.check d).2 := rfl

theorem frameScan_snd_indep (d : Driver) (l : List Nat) :
    ∀ (i : Nat) (stk : List Nat) (k : Nat) (stk2 : List Nat) (x : AudioManager),
      (AudioManager.frameScan d l i stk x).2 = (AudioManager.frameScan d l k stk2 x).2 := by
  induction l with
  | nil => intro i stk k stk2 x; rfl
  | cons a r ih =>
    intro i stk k stk2 x
    rw [frameScan_cons, frameScan_cons]
    split
    · exact ih _ _ _ _ _
    · split
      · exact ih _ _ _ _ _
      · exact ih _ _ _ _ _
      · exact ih _ _ _ _ _

theorem frameScan_snd_cons (d : Driver) (a : Nat) (r : List Nat) (i : Nat) (stk : List Nat)
    (x : AudioManager) (h0 : d.errors x.al.checks = false) :
    (AudioManager.frameScan d (a :: r) i stk x).2
      = (AudioManager.frameScan d r 0 [] (AudioManager.scanOne d a x)).2 := by
  rw [frameScan_cons, h0]
  simp only [Bool.false_eq_true, if_false]
  unfold AudioManager.scanOne
  simp only
  split
  · exact frameScan_snd_indep d r _ _ _ _ _
  · exact frameScan_snd_indep d r _ _ _ _ _
  · exact frameScan_snd_indep d r _ _ _ _ _

/-- With state queries that report no error, the scan of `Frame` is its turns one after the
other. -/
theorem frameScan_fold (d : Driver) (l : List Nat) :
    ∀ (i : Nat) (stk : List Nat) (x : AudioManager),
      (∀ j, j < l.length → d.errors (x.al.checks + j) = false) →
      (AudioManager.frameScan d l i stk x).2
        = l.foldl (fun acc a => AudioManager.scanOne d a acc) x := by
  induction l with
  | nil => intro i stk x _; rfl
  | cons a r ih =>
    intro i stk x hok
    have h0 : d.errors x.al.checks = false := by simpa using hok 0 (by simp)
    have hr : ∀ j, j < r.length →
        d.errors ((AudioManager.scanOne d a x).al.checks + j) = false := by
      intro j hj
      rw [scanOne_checks, show x.al.checks + 1 + j = x.al.checks + (j + 1) by omega]
      exact hok (j + 1) (by simpa using hj)
    rw [List.foldl_cons, ← ih 0 [] _ hr]
    exact frameScan_snd_cons d a r i stk x h0


theorem notify_sounds_other (c : Command) (a h : Nat) (x : AudioManager)
    (hm : x.mSourceMap a ≠ some h) : (AudioManager.notify c a x).sounds h = x.sounds h := by
  unfold AudioManager.notify
  cases hk : x.mSourceMap a with
  | none => rfl
  | some k =>
    have hne : h ≠ k := fun e => hm (by rw [hk, e])
    simp only
    unfold AudioManager.SendMessage AudioManager.setSound
    split
    · simp only [Function.update_noteq hne]
    · rfl

theorem notify_sounds_bound (c : Command) (a h : Nat) (x : AudioManager)
    (hm : x.mSourceMap a = some h) (hh : (x.sounds h).hearsManager = true) :
    (AudioManager.notify c a x).sounds h = Sound.OnMessage c (x.sounds h) := by
  unfold AudioManager.notify AudioManager.SendMessage AudioManager.setSound
  simp only [hm, hh, if_true, Function.update_same]

theorem notify_hears (c : Command) (a k : Nat) (x : AudioManager) :
    ((AudioManager.notify c a x).sounds k).hearsManager = (x.sounds k).hearsManager := by
  unfold AudioManager.notify
  cases hk : x.mSourceMap a with
  | none => rfl
  | some h =>
    simp only
    unfold AudioManager.SendMessage AudioManager.setSound
    split
    · by_cases e : k = h
      · subst e; simp only [Function.update_same, hearsManager_OnMessage]
      · simp only [Function.update_noteq e]
    · rfl

theorem scanOne_mSourceMap (d : Driver) (a : Nat) (x : AudioManager) :
    (AudioManager.scanOne d a x).mSourceMap = x.mSourceMap := by
  rw [scanOne_fields]

theorem scanOne_hears (d : Driver) (a k : Nat) (x : AudioManager) :
    ((AudioManager.scanOne d a x).sounds k).hearsManager = (x.sounds k).hearsManager := by
  unfold AudioManager.scanOne AudioManager.check
  simp only
  split
  · rw [notify_hears]
  · rw [notify_hears]
  · rfl

/-- A turn of the scan changes the state of no source that is not INITIAL. -/
theorem scanOne_state_keep (d : Driver) (a s : Nat) (x : AudioManager)
    (hs : x.al.sourceState s ≠ .INITIAL) :
    (AudioManager.scanOne d a x).al.sourceState s = x.al.sourceState s := by
  unfold AudioManager.scanOne AudioManager.check
  simp only
  split
  · rename_i hst
    have hst' : x.al.sourceState a = .INITIAL := hst
    have hne : s ≠ a := fun e => hs (e ▸ hst')
    rw [notify_al]
    unfold OpenAL.alSourcePlay
    split
    · simp [OpenAL.CheckForError, Function.update_noteq hne]
    · rfl
  · rw [notify_al]; rfl
  · rfl

theorem scanOne_state_other (d : Driver) (a s : Nat) (x : AudioManager) (hne : s ≠ a) :
    (AudioManager.scanOne d a x).al.sourceState s = x.al.sourceState s := by
  unfold AudioManager.scanOne AudioManager.check
  simp only
  split
  · rw [notify_al]
    unfold OpenAL.alSourcePlay
    split
    · simp [OpenAL.CheckForError, Function.update_noteq hne]
    · rfl
  · rw [notify_al]; rfl
  · rfl

theorem scanOne_state_start (d : Driver) (s : Nat) (x : AudioManager)
    (hs : x.al.sourceState s = .INITIAL) (hv : d.isSource s = true) :
    (AudioManager.scanOne d s x).al.sourceState s = .PLAYING := by
  unfold AudioManager.scanOne AudioManager.check
  have hs' : (OpenAL.CheckForError d x.al).2.sourceState s = .INITIAL := hs
  simp only [hs']
  rw [notify_al]
  unfold OpenAL.alSourcePlay
  simp [hv]

theorem scanOne_sounds_other (d : Driver) (a h : Nat) (x : AudioManager)
    (hm : x.mSourceMap a ≠ some h) : (AudioManager.scanOne d a x).sounds h = x.sounds h := by
  unfold AudioManager.scanOne AudioManager.check
  simp only
  split
  · exact notify_sounds_other _ _ _ _ hm
  · exact notify_sounds_other _ _ _ _ hm
  · rfl

theorem scanOne_sounds_initial (d : Driver) (s h : Nat) (x : AudioManager)
    (hs : x.al.sourceState s = .INITIAL) (hm : x.mSourceMap s = some h)
    (hh : (x.sounds h).hearsManager = true) :
    (AudioManager.scanOne d s x).sounds h = Sound.OnMessage .PLAY (x.sounds h) := by
  unfold AudioManager.scanOne AudioManager.check
  have hs' : (OpenAL.CheckForError d x.al).2.sourceState s = .INITIAL := hs
  simp only [hs']
  exact notify_sounds_bound _ _ _ _ hm hh

theorem scanOne_sounds_stopped (d : Driver) (s h : Nat) (x : AudioManager)
    (hs : x.al.sourceState s = .STOPPED) (hm : x.mSourceMap s = some h)
    (hh : (x.sounds h).hearsManager = true) :
    (AudioManager.scanOne d s x).sounds h = Sound.OnMessage .STOP (x.sounds h) := by
  unfold AudioManager.scanOne AudioManager.check
  have hs' : (OpenAL.CheckForError d x.al).2.sourceState s = .STOPPED := hs
  simp only [hs']
  exact notify_sounds_bound _ _ _ _ hm hh

theorem scanOne_sounds_stable (d : Driver) (s : Nat) (x : AudioManager)
    (h1 : x.al.sourceState s ≠ .INITIAL) (h2 : x.al.sourceState s ≠ .STOPPED) :
    (AudioManager.scanOne d s x).sounds = x.sounds := by
  unfold AudioManager.scanOne AudioManager.check
  simp only
  split
  · rename_i hst; exact absurd hst h1
  · rename_i hst; exact absurd hst h2
  · rfl

theorem scan_mSourceMap (d : Driver) (l : List Nat) (x : AudioManager) :
    (l.foldl (fun acc a => AudioManager.scanOne d a acc) x).mSourceMap = x.mSourceMap := by
  induction l generalizing x with
  | nil => rfl
  | cons a r ih => rw [List.foldl_cons, ih, scanOne_mSourceMap]

theorem scan_state_keep (d : Driver) (l : List Nat) (s : Nat) (x : AudioManager)
    (hs : x.al.sourceState s ≠ .INITIAL) :
    (l.foldl (fun acc a => AudioManager.scanOne d a acc) x).al.sourceState s
      = x.al.sourceState s := by
  induction l generalizing x with
  | nil => rfl
  | cons a r ih =>
    rw [List.foldl_cons, ih _ (by rw [scanOne_state_keep d a s x hs]; exact hs),
      scanOne_state_keep d a s x hs]

/-- The scan starts every valid source of its list that it finds INITIAL. -/
theorem scan_state_start (d : Driver) (l : List Nat) (s : Nat) (x : AudioManager)
    (hs : x.al.sourceState s = .INITIAL) (hv : d.isSource s = true) (hl : s ∈ l) :
    (l.foldl (fun acc a => AudioManager.scanOne d a acc) x).al.sourceState s = .PLAYING := by
  induction l generalizing x with
  | nil => simp at hl
  | cons a r ih =>
    rw [List.foldl_cons]
    by_cases e : s = a
    · subst e
      have h1 := scanOne_state_start d s x hs hv
      rw [scan_state_keep d r s _ (by rw [h1]; decide), h1]
    · have hr : s ∈ r := by
        rcases List.mem_cons.mp hl with e' | e'
        · exact absurd e' e
        · exact e'
      exact ih _ (by rw [scanOne_state_other d a s x e]; exact hs) hr

/-- The scan leaves a sound alone when none of its sources that the source map binds to this
sound is INITIAL or STOPPED. -/
theorem scan_sounds_keep (d : Driver) (l : List Nat) (h : Nat) (x : AudioManager)
    (hl : ∀ s ∈ l, x.mSourceMap s = some h →
      x.al.sourceState s ≠ .INITIAL ∧ x.al.sourceState s ≠ .STOPPED) :
    (l.foldl (fun acc a => AudioManager.scanOne d a acc) x).sounds h = x.sounds h := by
  induction l generalizing x with
  | nil => rfl
  | cons a r ih =>
    rw [List.foldl_cons]
    have h1 : (AudioManager.scanOne d a x).sounds h = x.sounds h := by
      by_cases hm : x.mSourceMap a = some h
      · have := hl a (List.mem_cons_self _ _) hm
        rw [scanOne_sounds_stable d a x this.1 this.2]
      · exact scanOne_sounds_other d a h x hm
    rw [ih _ (fun s hs hm => by
      rw [scanOne_mSourceMap] at hm
      have := hl s (List.mem_cons_of_mem _ hs) hm
      rw [scanOne_state_keep d a s x this.1]
      exact this), h1]

/-- The sound bound to a valid source that the scan finds INITIAL receives the PLAY message,
once, and no other message, provided no other source of the list is bound to it. -/
theorem scan_sounds_start (d : Driver) (l : List Nat) (s h : Nat) (x : AudioManager)
    (hs : x.al.sourceState s = .INITIAL) (hv : d.isSource s = true) (hl : s ∈ l)
    (hm : x.mSourceMap s = some h) (hh : (x.sounds h).hearsManager = true)
    (hu : ∀ k ∈ l, x.mSourceMap k = some h → k = s) :
    (l.foldl (fun acc a => AudioManager.scanOne d a acc) x).sounds h
      = Sound.OnMessage .PLAY (x.sounds h) := by
  induction l generalizing x with
  | nil => simp at hl
  | cons a r ih =>
    rw [List.foldl_cons]
    by_cases e : a = s
    · subst e
      have h1 := scanOne_state_start d a x hs hv
      rw [scan_sounds_keep d r h _ (fun k hk hkm => by
        rw [scanOne_mSourceMap] at hkm
        have := hu k (List.mem_cons_of_mem _ hk) hkm
        subst this
        rw [h1]
        exact ⟨by decide, by decide⟩), scanOne_sounds_initial d a h x hs hm hh]
    · have hr : s ∈ r := by
        rcases List.mem_cons.mp hl with e' | e'
        · exact absurd e'.symm e
        · exact e'
      have hma : x.mSourceMap a ≠ some h := fun hc => e (hu a (List.mem_cons_self _ _) hc)
      rw [ih _ (by rw [scanOne_state_other d a s x (fun e' => e e'.symm)]; exact hs) hr
        (by rw [scanOne_mSourceMap]; exact hm)
        (by rw [scanOne_hears]; exact hh)
        (fun k hk hkm => by
          rw [scanOne_mSourceMap] at hkm
          exact hu k (List.mem_cons_of_mem _ hk) hkm),
        scanOne_sounds_other d a h x hma]

/-- The sound bound to a source that the scan finds STOPPED receives the STOP message, once
for every entry of the source in the list, and no other message, provided no other source of
the list is bound to it. -/
theorem scan_sounds_stop (d : Driver) (l : List Nat) (s h : Nat) (x : AudioManager)
    (hs : x.al.sourceState s = .STOPPED)
    (hm : x.mSourceMap s = some h) (hh : (x.sounds h).hearsManager = true)
    (hu : ∀ k ∈ l, x.mSourceMap k = some h → k = s) :
    (l.foldl (fun acc a => AudioManager.scanOne d a acc) x).sounds h
      = (Sound.OnMessage .STOP)^[l.count s] (x.sounds h) := by
  induction l generalizing x with
  | nil => rfl
  | cons a r ih =>
    rw [List.foldl_cons]
    have hkeep : (AudioManager.scanOne d a x).al.sourceState s = .STOPPED := by
      rw [scanOne_state_keep d a s x (by rw [hs]; decide)]; exact hs
    have hstep := ih (AudioManager.scanOne d a x) hkeep
      (by rw [scanOne_mSourceMap]; exact hm) (by rw [scanOne_hears]; exact hh)
      (fun k hk hkm => by
        rw [scanOne_mSourceMap] at hkm
        exact hu k (List.mem_cons_of_mem _ hk) hkm)
    rw [hstep]
    by_cases e : a = s
    · subst e
      rw [scanOne_sounds_stopped d a h x hs hm hh, List.count_cons_self,
        Function.iterate_succ_apply]
    · have hma : x.mSourceMap a ≠ some h := fun hc => e (hu a (List.mem_cons_self _ _) hc)
      rw [scanOne_sounds_other d a h x hma, List.count_cons_of_ne (fun e' => e e'.symm)]


theorem OnMessage_PLAY_queries (s : Sound) :
    (Sound.OnMessage .PLAY s).IsPlaying = true ∧ (Sound.OnMessage .PLAY s).IsPaused = false ∧
    (Sound.OnMessage .PLAY s).IsStopped = false := by
  simp only [Sound.OnMessage, Sound.IsPlaying, Sound.IsPaused, Sound.IsStopped, Sound.GetState,
    Sound.SetState, Sound.ResetState, BIT, Command.toNat, Nat.testBit_land, Nat.testBit_lor,
    Nat.testBit_xor, Nat.testBit_two_pow_sub_one, Nat.testBit_two_pow_self]
  simp
  decide

theorem OnMessage_STOP_queries (s : Sound) :
    (Sound.OnMessage .STOP s).IsStopped = true ∧ (Sound.OnMessage .STOP s).IsPlaying = false ∧
    (Sound.OnMessage .STOP s).IsPaused = false := by
  simp only [Sound.OnMessage, Sound.IsPlaying, Sound.IsPaused, Sound.IsStopped, Sound.GetState,
    Sound.SetState, Sound.ResetState, BIT, Command.toNat, Nat.testBit_land, Nat.testBit_lor,
    Nat.testBit_xor, Nat.testBit_two_pow_sub_one, Nat.testBit_two_pow_self]
  simp
  decide

theorem frameScanned_fold (d : Driver) (st : AudioManager)
    (hok : ∀ i, i < (st.mActiveList ++ st.mPlayQueue).length →
      d.errors (st.al.checks + i) = false) :
    st.frameScanned d
      = (st.mActiveList ++ st.mPlayQueue).foldl (fun acc a => AudioManager.scanOne d a acc)
          (AudioManager.framePlays (AudioManager.frameStops d st)) := by
  unfold AudioManager.frameScanned
  refine frameScan_fold d _ 0 [] _ (fun j hj => ?_)
  have e : (AudioManager.framePlays (AudioManager.frameStops d st)).al.checks = st.al.checks :=
    foldl_alSourceStop_checks d st.mStopQueue st.al
  rw [e]
  exact hok j hj

/-- C20 (amended): `Frame` in a state in which the state queries of the scan report no error.
The play queue is empty afterwards; the active list is the old one followed by the old play
queue without the sources found STOPPED, the others in their order; the stop queue holds
the sources found STOPPED, one entry for each entry removed (a source that was in the list
twice is queued twice), in reverse order. When the scan
is done (`frameScanned`, from which the rest of `Frame` continues), every valid source found
INITIAL is PLAYING and the sound it is bound to has received PLAY, and every source found
STOPPED is still STOPPED and the sound it is bound to has received STOP once for each entry
of the source; "found" refers to the state after the stop requests have been carried out,
"received" to a sound that hears the manager and is bound to no other source of the list. -/
theorem C20_Frame_active_list (d : Driver) (st : AudioManager)
    (hok : ∀ i, i < (st.mActiveList ++ st.mPlayQueue).length →
      d.errors (st.al.checks + i) = false) :
    (st.Frame d).mPlayQueue = [] ∧
    (st.Frame d).mActiveList = (st.mActiveList ++ st.mPlayQueue).filter
      (fun s => !decide ((AudioManager.frameStops d st).al.sourceState s = .STOPPED)) ∧
    (st.Frame d).mStopQueue = ((st.mActiveList ++ st.mPlayQueue).filter
      (fun s => decide ((AudioManager.frameStops d st).al.sourceState s = .STOPPED))).reverse ∧
    st.Frame d = AudioManager.frameErase
      (AudioManager.frameScan d (st.mActiveList ++ st.mPlayQueue) 0 []
        (AudioManager.framePlays (AudioManager.frameStops d st))).1
      (AudioManager.frameRewinds d (AudioManager.framePauses d (st.frameScanned d))) ∧
    (∀ s ∈ st.mActiveList ++ st.mPlayQueue,
      (AudioManager.frameStops d st).al.sourceState s = .INITIAL → d.isSource s = true →
      (st.frameScanned d).al.sourceState s = .PLAYING ∧
      ∀ h, st.mSourceMap s = some h → (st.sounds h).hearsManager = true →
        (∀ k ∈ st.mActiveList ++ st.mPlayQueue, st.mSourceMap k = some h → k = s) →
        (st.frameScanned d).sounds h = Sound.OnMessage .PLAY (st.sounds h) ∧
        ((st.frameScanned d).sounds h).IsPlaying = true) ∧
    (∀ s ∈ st.mActiveList ++ st.mPlayQueue,
      (AudioManager.frameStops d st).al.sourceState s = .STOPPED →
      (st.frameScanned d).al.sourceState s = .STOPPED ∧
      ∀ h, st.mSourceMap s = some h → (st.sounds h).hearsManager = true →
        (∀ k ∈ st.mActiveList ++ st.mPlayQueue, st.mSourceMap k = some h → k = s) →
        (st.frameScanned d).sounds h
          = (Sound.OnMessage .STOP)^[(st.mActiveList ++ st.mPlayQueue).count s] (st.sounds h) ∧
        ((st.frameScanned d).sounds h).IsStopped = true) := by
  have hq := Frame_queues d st
    (fun j => decide ((AudioManager.frameStops d st).al.sourceState
        ((st.mActiveList ++ st.mPlayQueue).getD j 0) = .STOPPED))
    (fun j k hj => by
      have hlt : j < (st.mActiveList ++ st.mPlayQueue).length := by
        by_contra hge
        rw [List.getElem?_eq_none (by omega)] at hj
        exact Option.noConfusion hj
      simp only [List.getD_eq_getElem?_getD, hj, Option.getD_some, hok j hlt, Bool.not_false,
        Bool.true_and])
  have hfold := frameScanned_fold d st hok
  refine ⟨hq.1, ?_, ?_, rfl, ?_, ?_⟩
  · rw [hq.2.2.2.2]
    exact pick_filter _ _ _ 0 (fun j k hj => by
      simp only [Nat.zero_add, List.getD_eq_getElem?_getD, hj, Option.getD_some])
  · rw [hq.2.2.2.1]
    exact congrArg List.reverse (pick_filter _ _ _ 0 (fun j k hj => by
      simp only [Nat.zero_add, List.getD_eq_getElem?_getD, hj, Option.getD_some]))
  · intro s hs hinit hv
    rw [hfold]
    refine ⟨scan_state_start d _ s _ hinit hv hs, fun h hm hh hu => ?_⟩
    have e := scan_sounds_start d _ s h
      (AudioManager.framePlays (AudioManager.frameStops d st)) hinit hv hs hm hh hu
    rw [e]
    exact ⟨rfl, (OnMessage_PLAY_queries _).1⟩
  · intro s hs hstop
    rw [hfold]
    refine ⟨?_, fun h hm hh hu => ?_⟩
    · rw [scan_state_keep d _ s _ (by
        show (AudioManager.frameStops d st).al.sourceState s ≠ .INITIAL
        rw [hstop]; decide)]
      exact hstop
    · have e := scan_sounds_stop d _ s h
        (AudioManager.framePlays (AudioManager.frameStops d st)) hstop hm hh hu
      rw [e]
      refine ⟨rfl, ?_⟩
      obtain ⟨n, hn⟩ : ∃ n, (st.mActiveList ++ st.mPlayQueue).count s = n + 1 :=
        Nat.exists_eq_succ_of_ne_zero (by
          intro h0
          exact (List.count_eq_zero.mp h0) hs)
      rw [hn, Function.iterate_succ_apply']
      exact (OnMessage_STOP_queries _).1


/-- The manager `stoppedAndNew` is as described, and this is what one tick makes of it: the
scan of `Frame` starts source 2 and moves source 1 from the active list to the stop queue,
and `PostFrame` returns source 1 to the available queue. -/
theorem stoppedAndNew_tick :
    (stoppedAndNew.mActiveList = [1] ∧ stoppedAndNew.mPlayQueue = [2] ∧
      stoppedAndNew.mAvailable = [] ∧ stoppedAndNew.al.sourceState 1 = .STOPPED ∧
      stoppedAndNew.al.sourceState 2 = .INITIAL ∧ stoppedAndNew.mSourceMap 1 = some 0 ∧
      stoppedAndNew.mSourceMap 2 = some 1 ∧ (stoppedAndNew.sounds 0).IsPlaying = true) ∧
    ((stoppedAndNew.Frame quietDriver).mActiveList = [2] ∧
      (stoppedAndNew.Frame quietDriver).mStopQueue = [1] ∧
      (stoppedAndNew.Frame quietDriver).mAvailable = [] ∧
      (stoppedAndNew.Frame quietDriver).al.sourceState 2 = .PLAYING ∧
      ((stoppedAndNew.Frame quietDriver).sounds 1).IsPlaying = true ∧
      ((stoppedAndNew.Frame quietDriver).sounds 0).IsStopped = true ∧
      ((stoppedAndNew.Frame quietDriver).sounds 0).mIsInitialized = true) ∧
    (((stoppedAndNew.Frame quietDriver).PostFrame quietDriver).mAvailable = [1] ∧
      ((stoppedAndNew.Frame quietDriver).PostFrame quietDriver).mStopQueue = [] ∧
      (((stoppedAndNew.Frame quietDriver).PostFrame quietDriver).sounds 0).mIsInitialized
        = false) := by
  decide!

/-- C20, at a concrete input: the `Frame` of `stoppedAndNew`, whose scan finds source 1
STOPPED and source 2 INITIAL. -/
theorem C20_Frame_active_list_witness :
    (∀ i, i < (stoppedAndNew.mActiveList ++ stoppedAndNew.mPlayQueue).length →
      quietDriver.errors (stoppedAndNew.al.checks + i) = false) ∧
    (stoppedAndNew.Frame quietDriver).mPlayQueue = [] ∧
    (stoppedAndNew.Frame quietDriver).mActiveList
      = (stoppedAndNew.mActiveList ++ stoppedAndNew.mPlayQueue).filter
        (fun s => !decide ((AudioManager.frameStops quietDriver stoppedAndNew).al.sourceState s
          = .STOPPED)) ∧
    (stoppedAndNew.Frame quietDriver).mStopQueue
      = ((stoppedAndNew.mActiveList ++ stoppedAndNew.mPlayQueue).filter
        (fun s => decide ((AudioManager.frameStops quietDriver stoppedAndNew).al.sourceState s
          = .STOPPED))).reverse ∧
    ((stoppedAndNew.frameScanned quietDriver).al.sourceState 2 = .PLAYING ∧
      (stoppedAndNew.frameScanned quietDriver).sounds 1
        = Sound.OnMessage .PLAY (stoppedAndNew.sounds 1) ∧
      ((stoppedAndNew.frameScanned quietDriver).sounds 1).IsPlaying = true) ∧
    ((stoppedAndNew.frameScanned quietDriver).al.sourceState 1 = .STOPPED ∧
      ((stoppedAndNew.frameScanned quietDriver).sounds 0).IsStopped = true) :=
  ⟨fun _ _ => rfl,
    (C20_Frame_active_list quietDriver stoppedAndNew (fun _ _ => rfl)).1,
    (C20_Frame_active_list quietDriver stoppedAndNew (fun _ _ => rfl)).2.1,
    (C20_Frame_active_list quietDriver stoppedAndNew (fun _ _ => rfl)).2.2.1,
    ⟨((C20_Frame_active_list quietDriver stoppedAndNew (fun _ _ => rfl)).2.2.2.2.1 2
        (by decide!) (by decide!) (by decide)).1,
      ((C20_Frame_active_list quietDriver stoppedAndNew (fun _ _ => rfl)).2.2.2.2.1 2
        (by decide!) (by decide!) (by decide)).2 1 (by decide!) (by decide!) (by decide!)⟩,
    ⟨((C20_Frame_active_list quietDriver stoppedAndNew (fun _ _ => rfl)).2.2.2.2.2 1
        (by decide!) (by decide!)).1,
      (((C20_Frame_active_list quietDriver stoppedAndNew (fun _ _ => rfl)).2.2.2.2.2 1
        (by decide!) (by decide!)).2 0 (by decide!) (by decide!) (by decide!)).2⟩⟩


/-! ## The pause snapshot -/

/-- C14, the divergence. In `mixedSounds` the sound 0 plays on source 1, the sound 1 is
paused on source 2 and the sound 2 is stopped. When PAUSE_END follows PAUSE_START with no
`Frame` in between, the next `Frame` leaves the sound that played paused (its source is
PAUSED): the pause request of PAUSE_START is still queued, and `PlaySound` at PAUSE_END
finds the source PLAYING and returns. With one `Frame` in between the three states are
restored. -/
theorem C14_pause_end_without_frame_leaves_player_paused :
    ((mixedSounds.sounds 0).IsPlaying = true ∧ (mixedSounds.sounds 1).IsPaused = true ∧
      (mixedSounds.sounds 2).IsStopped = true) ∧
    (((run quietDriver [.system .PAUSE_START, .system .PAUSE_END, .system .FRAME]
        mixedSounds).sounds 0).IsPlaying = false ∧
      ((run quietDriver [.system .PAUSE_START, .system .PAUSE_END, .system .FRAME]
        mixedSounds).sounds 0).IsPaused = true ∧
      (run quietDriver [.system .PAUSE_START, .system .PAUSE_END, .system .FRAME]
        mixedSounds).al.sourceState 1 = .PAUSED ∧
      ((run quietDriver [.system .PAUSE_START, .system .PAUSE_END, .system .FRAME]
        mixedSounds).sounds 1).IsPaused = true ∧
      ((run quietDriver [.system .PAUSE_START, .system .PAUSE_END, .system .FRAME]
        mixedSounds).sounds 2).IsStopped = true) ∧
    (run quietDriver [.system .PAUSE_START, .system .PAUSE_END] mixedSounds).mPauseQueue
      = [1, 2, 2] ∧
    (((run quietDriver
        [.system .PAUSE_START, .system .FRAME, .system .PAUSE_END, .system .FRAME]
        mixedSounds).sounds 0).IsPlaying = true ∧
      (run quietDriver
        [.system .PAUSE_START, .system .FRAME, .system .PAUSE_END, .system .FRAME]
        mixedSounds).al.sourceState 1 = .PLAYING ∧
      ((run quietDriver
        [.system .PAUSE_START, .system .FRAME, .system .PAUSE_END, .system .FRAME]
        mixedSounds).sounds 1).IsPaused = true ∧
      (run quietDriver
        [.system .PAUSE_START, .system .FRAME, .system .PAUSE_END, .system .FRAME]
        mixedSounds).al.sourceState 2 = .PAUSED ∧
      ((run quietDriver
        [.system .PAUSE_START, .system .FRAME, .system .PAUSE_END, .system .FRAME]
        mixedSounds).sounds 2).IsStopped = true) := by
  decide!

/-- C15, the divergence. PAUSE_START on `mixedSounds` records the three states in the side
table and puts a pause request on the queue for every sound with a source, the paused one
included; a pause request toggles, so the `Frame` that follows pauses source 1 and resumes
source 2: the sound that was paused when the pause began is playing. -/
theorem C15_pause_start_resumes_paused_sound :
    ((mixedSounds.sounds 1).IsPaused = true ∧ mixedSounds.al.sourceState 2 = .PAUSED ∧
      1 ∈ mixedSounds.mSoundList ∧ (mixedSounds.sounds 1).mSource = 2) ∧
    ((run quietDriver [.system .PAUSE_START] mixedSounds).mSoundStateMap 0 = some .PLAYING ∧
      (run quietDriver [.system .PAUSE_START] mixedSounds).mSoundStateMap 1 = some .PAUSED ∧
      (run quietDriver [.system .PAUSE_START] mixedSounds).mSoundStateMap 2 = some .STOPPED ∧
      (run quietDriver [.system .PAUSE_START] mixedSounds).mPauseQueue = [1, 2]) ∧
    ((run quietDriver [.system .PAUSE_START, .system .FRAME] mixedSounds).al.sourceState 2
        = .PLAYING ∧
      ((run quietDriver [.system .PAUSE_START, .system .FRAME] mixedSounds).sounds 1).IsPlaying
        = true ∧
      ((run quietDriver [.system .PAUSE_START, .system .FRAME] mixedSounds).sounds 1).IsPaused
        = false ∧
      (run quietDriver [.system .PAUSE_START, .system .FRAME] mixedSounds).al.sourceState 1
        = .PAUSED) := by
  decide!

/-! ## Configuration -/

/-- C16: `Config` on a configured manager changes nothing, whatever the argument: the
state is the same, in particular the pool size, the source array, the available queue, the
distance model and the EAX function pointers. -/
theorem C16_Config_again_is_rejected (d : Driver) (data : AudioConfigData) (st : AudioManager)
    (hc : st.Configured = true) :
    st.Config d data = st ∧
    (st.Config d data).mNumSources = st.mNumSources ∧
    (st.Config d data).mSource = st.mSource ∧
    (st.Config d data).mAvailable = st.mAvailable ∧
    (st.Config d data).al.distanceModel = st.al.distanceModel ∧
    (st.Config d data).mEAXSet = st.mEAXSet ∧ (st.Config d data).mEAXGet = st.mEAXGet := by
  have e : st.Config d data = st := by
    have hc' : st.mSource.isSome = true := hc
    unfold AudioManager.Config
    rw [if_pos hc']
  rw [e]
  exact ⟨rfl, rfl, rfl, rfl, rfl, rfl, rfl⟩

/-- C16, at a concrete input: a manager configured for two sources is asked for five
sources, EAX and another distance model. -/
theorem C16_Config_again_is_rejected_witness :
    ((AudioManager.init freshAL).Config quietDriver twoSources).Configured = true ∧
    (((AudioManager.init freshAL).Config quietDriver twoSources).Config quietDriver fiveSources
        = (AudioManager.init freshAL).Config quietDriver twoSources ∧
      (((AudioManager.init freshAL).Config quietDriver twoSources).Config quietDriver
        fiveSources).mNumSources
        = ((AudioManager.init freshAL).Config quietDriver twoSources).mNumSources ∧
      (((AudioManager.init freshAL).Config quietDriver twoSources).Config quietDriver
        fiveSources).mSource
        = ((AudioManager.init freshAL).Config quietDriver twoSources).mSource ∧
      (((AudioManager.init freshAL).Config quietDriver twoSources).Config quietDriver
        fiveSources).mAvailable
        = ((AudioManager.init freshAL).Config quietDriver twoSources).mAvailable ∧
      (((AudioManager.init freshAL).Config quietDriver twoSources).Config quietDriver
        fiveSources).al.distanceModel
        = ((AudioManager.init freshAL).Config quietDriver twoSources).al.distanceModel ∧
      (((AudioManager.init freshAL).Config quietDriver twoSources).Config quietDriver
        fiveSources).mEAXSet
        = ((AudioManager.init freshAL).Config quietDriver twoSources).mEAXSet ∧
      (((AudioManager.init freshAL).Config quietDriver twoSources).Config quietDriver
        fiveSources).mEAXGet
        = ((AudioManager.init freshAL).Config quietDriver twoSources).mEAXGet) :=
  ⟨by decide,
    C16_Config_again_is_rejected quietDriver fiveSources
      ((AudioManager.init freshAL).Config quietDriver twoSources) (by decide)⟩

/-- A request for no source leaves an unconfigured manager unconfigured, its available queue
as it is. -/
theorem Config_zero_sources (d : Driver) (data : AudioConfigData) (st : AudioManager)
    (hun : st.Configured = false) (hn : data.numSources = 0) :
    (st.Config d data).Configured = false ∧ (st.Config d data).mAvailable = st.mAvailable := by
  unfold AudioManager.Config AudioManager.ConfigSources
  have hc : ¬ st.mSource.isSome = true := by
    unfold AudioManager.Configured at hun; simp [hun]
  rw [if_neg hc]
  simp only [hn, if_true]
  exact ⟨hun, rfl⟩

/-- An error of `alGenSources` leaves an unconfigured manager unconfigured, its available
queue as it is. -/
theorem Config_generation_error (d : Driver) (data : AudioConfigData) (st : AudioManager)
    (hun : st.Configured = false) (hn : data.numSources ≠ 0)
    (he : d.errors st.al.checks = true) :
    (st.Config d data).Configured = false ∧ (st.Config d data).mAvailable = st.mAvailable := by
  unfold AudioManager.Config AudioManager.ConfigSources AudioManager.check
  have hc : ¬ st.mSource.isSome = true := by
    unfold AudioManager.Configured at hun; simp [hun]
  have he' : d.errors (st.setDistanceModel data).al.checks = true := he
  rw [if_neg hc]
  simp only [hn, if_false, he', if_true]
  exact ⟨rfl, rfl⟩

/-- A generated name that is not a valid source makes `ConfigSources` return false with the
source array in place: the manager counts as configured, and the valid names generated
before the invalid one are in the available queue. -/
theorem Config_invalid_source (d : Driver) (data : AudioConfigData) (st : AudioManager)
    (hun : st.Configured = false) (hn : data.numSources ≠ 0)
    (he : d.errors st.al.checks = false) :
    (st.Config d data).Configured = true ∧
    (st.Config d data).mAvailable
      = st.mAvailable ++ (d.genSources data.numSources).takeWhile d.isSource := by
  have hnone : st.mSource = none := by
    unfold AudioManager.Configured at hun
    cases hm : st.mSource with
    | none => rfl
    | some v => rw [hm] at hun; exact Bool.noConfusion hun
  have hcore := core_Config_generated d data st hnone hn he
  have h1 : (st.Config d data).mSource = some (d.genSources data.numSources) :=
    congrArg Core.array hcore
  have h2 := congrArg Core.avail hcore
  refine ⟨?_, h2⟩
  unfold AudioManager.Configured
  rw [h1]; rfl

/-- C17, the divergence. The driver hands out the names 1 and 0 for a request of two
sources, 0 is not a valid source: `ConfigSources` returns false, but after `Config` the
manager is configured (`Configured` is true, a further `Config` with a good driver changes
nothing) and the available queue holds source 1. The other two failures, a request for no
source and an error of `alGenSources`, do leave the manager unconfigured. -/
theorem C17_invalid_source_leaves_manager_configured :
    (AudioManager.init freshAL).Configured = false ∧
    (((AudioManager.init freshAL).setDistanceModel twoSources).ConfigSources staleNameDriver
      twoSources.numSources).1 = false ∧
    ((AudioManager.init freshAL).Config staleNameDriver twoSources).Configured = true ∧
    ((AudioManager.init freshAL).Config staleNameDriver twoSources).mAvailable = [1] ∧
    ((AudioManager.init freshAL).Config staleNameDriver twoSources).mSource = some [1, 0] ∧
    (((AudioManager.init freshAL).Config staleNameDriver twoSources).Config quietDriver
      twoSources).mAvailable = [1] ∧
    ((AudioManager.init freshAL).Config quietDriver
      { twoSources with numSources := 0 }).Configured = false ∧
    ((AudioManager.init freshAL).Config failingDriver twoSources).Configured = false ∧
    ((AudioManager.init freshAL).Config failingDriver twoSources).mAvailable = [] := by
  decide

/-- C18: `Config` for `N >= 1` sources on an unconfigured manager (in a state that satisfies
the binding invariant), with a driver whose `alGenSources` reports no error and hands out
`N` pairwise distinct valid names. Afterwards the manager is configured, the pool size is
`N`, the available queue is the generated array (the `N` names in generation order, each
once), and no source is bound. The driver's answers to the EAX queries and the flag
`data.eax` are arbitrary: the outcome of `ConfigEAX` does not matter. -/
theorem C18_Config_creates_pool (d : Driver) (hd : d.FreshNames) (data : AudioConfigData)
    (st : AudioManager) (inv : st.core.Inv d) (hun : st.Configured = false)
    (hn : data.numSources ≠ 0) (he : d.errors st.al.checks = false)
    (hv : ∀ s ∈ d.genSources data.numSources, d.isSource s = true) :
    (st.Config d data).Configured = true ∧
    (st.Config d data).mSource = some (d.genSources data.numSources) ∧
    (st.Config d data).mAvailable = d.genSources data.numSources ∧
    (st.Config d data).mAvailable.length = data.numSources ∧
    (st.Config d data).mAvailable.Nodup ∧
    (∀ s, (st.Config d data).mSourceMap s = none) ∧
    (∀ h, ((st.Config d data).sounds h).mIsInitialized = false) := by
  have hnone : st.mSource = none := by
    unfold AudioManager.Configured at hun
    cases hm : st.mSource with
    | none => rfl
    | some v => rw [hm] at hun; exact Bool.noConfusion hun
  have hcore := core_Config_generated d data st hnone hn he
  have hu := inv.unconfigured hnone
  have hav0 : st.mAvailable = [] := hu.1
  have htw : (d.genSources data.numSources).takeWhile d.isSource
      = d.genSources data.numSources := List.takeWhile_eq_self_iff.mpr hv
  have h1 : (st.Config d data).mSource = some (d.genSources data.numSources) :=
    congrArg Core.array hcore
  have h2 : (st.Config d data).mAvailable = d.genSources data.numSources := by
    have := congrArg Core.avail hcore
    simp only [hav0, List.nil_append, htw] at this
    exact this
  have h3 : (st.Config d data).mSourceMap = st.mSourceMap := congrArg Core.map hcore
  have h4 : ∀ h, ((st.Config d data).sounds h).mIsInitialized = (st.sounds h).mIsInitialized :=
    fun h => congrArg (fun c => c.bound h) hcore
  refine ⟨?_, h1, h2, ?_, ?_, ?_, ?_⟩
  · unfold AudioManager.Configured; rw [h1]; rfl
  · rw [h2]; exact (hd data.numSources).2
  · rw [h2]; exact (hd data.numSources).1
  · intro s; rw [h3]; exact hu.2 s
  · intro h
    rw [h4]
    cases hb : (st.sounds h).mIsInitialized with
    | false => rfl
    | true =>
      have := inv.bound_map h hb
      rw [hu.2] at this
      exact Option.noConfusion this

/-- C18, at a concrete input: a new manager is configured for five sources with EAX
requested, which the driver does not have. -/
theorem C18_Config_creates_pool_witness :
    (quietDriver.FreshNames ∧ (AudioManager.init freshAL).core.Inv quietDriver ∧
      (AudioManager.init freshAL).Configured = false ∧ fiveSources.numSources ≠ 0 ∧
      quietDriver.errors (AudioManager.init freshAL).al.checks = false ∧
      (∀ s ∈ quietDriver.genSources fiveSources.numSources, quietDriver.isSource s = true) ∧
      (((AudioManager.init freshAL).setDistanceModel fiveSources).ConfigSources quietDriver
        fiveSources.numSources).2.ConfigEAX quietDriver fiveSources.eax
        = (false, ((AudioManager.init freshAL).setDistanceModel fiveSources).ConfigSources
            quietDriver fiveSources.numSources |>.2)) ∧
    (((AudioManager.init freshAL).Config quietDriver fiveSources).Configured = true ∧
    ((AudioManager.init freshAL).Config quietDriver fiveSources).mSource
      = some (quietDriver.genSources fiveSources.numSources) ∧
    ((AudioManager.init freshAL).Config quietDriver fiveSources).mAvailable
      = quietDriver.genSources fiveSources.numSources ∧
    ((AudioManager.init freshAL).Config quietDriver fiveSources).mAvailable.length
      = fiveSources.numSources ∧
    ((AudioManager.init freshAL).Config quietDriver fiveSources).mAvailable.Nodup ∧
    (∀ s, ((AudioManager.init freshAL).Config quietDriver fiveSources).mSourceMap s = none) ∧
    (∀ h, (((AudioManager.init freshAL).Config quietDriver fiveSources).sounds h).mIsInitialized
      = false)) :=
  ⟨⟨quietDriver_fresh, Inv_init quietDriver freshAL, rfl, by decide, rfl, by decide, rfl⟩,
    C18_Config_creates_pool quietDriver quietDriver_fresh fiveSources
      (AudioManager.init freshAL) (Inv_init quietDriver freshAL) rfl (by decide) rfl
      (by decide)⟩

/-! ## The playback state of a sound object -/

/-- The enumerators are numbered apart. -/
theorem Command.toNat_inj (f g : Command) : f.toNat = g.toNat ↔ f = g := by
  cases f <;> cases g <;> decide

/-- Every enumerator names a bit of the 32 bit state word. -/
theorem Command.toNat_lt (f : Command) : f.toNat < 32 := by
  cases f <;> decide

/-- Setting a flag raises that bit and leaves the others. -/
theorem GetState_SetState (f g : Command) (s : Sound) :
    (s.SetState f).GetState g = (s.GetState g || decide (f = g)) := by
  simp only [Sound.GetState, Sound.SetState, BIT, Nat.testBit_lor, Nat.testBit_two_pow,
    Command.toNat_inj]

/-- Resetting a flag clears that bit and leaves the others. -/
theorem GetState_ResetState (f g : Command) (s : Sound) :
    (s.ResetState f).GetState g = (s.GetState g && !decide (f = g)) := by
  simp only [Sound.GetState, Sound.ResetState, BIT, Nat.testBit_land, Nat.testBit_xor,
    Nat.testBit_two_pow_sub_one, Nat.testBit_two_pow, Command.toNat_inj, Command.toNat_lt,
    decide_True, Bool.true_xor]

/-- A notification keeps "exactly one playback query is true". -/
theorem OneState_OnMessage (c : Command) (s : Sound) (hs : s.OneState) :
    (Sound.OnMessage c s).OneState := by
  unfold Sound.OneState at hs ⊢
  cases c <;>
    simp only [Sound.OnMessage, Sound.IsPlaying, Sound.IsPaused, Sound.IsStopped,
      GetState_SetState, GetState_ResetState] at hs ⊢ <;>
    simp_all

/-- The flag notifications rewrite nothing but the state word. -/
theorem OnMessage_mState_only (c : Command) (s : Sound) :
    { Sound.OnMessage c s with mState := s.mState } = s := by
  cases c <;> rfl

/-- C30: a fresh sound object is stopped (and neither playing nor paused); after a PLAY, PAUSE
or STOP notification a sound is playing, paused or stopped respectively, and only that;
a LOOP or UNLOOP notification changes no state flag but LOOP, a REL or ABS notification none
but the listener-relative flag (the bit POSITION), and they set and clear these; no
notification writes any member but the state word; so after every sequence of notifications
delivered to a fresh sound, or to any sound of which exactly one of the three queries holds,
exactly one of `IsPlaying`, `IsPaused` and `IsStopped` is true. -/
theorem C30_exactly_one_playback_state :
    (Sound.new.IsStopped = true ∧ Sound.new.IsPlaying = false ∧ Sound.new.IsPaused = false) ∧
    (∀ s : Sound, (Sound.OnMessage .PLAY s).IsPlaying = true ∧
      (Sound.OnMessage .PLAY s).IsPaused = false ∧ (Sound.OnMessage .PLAY s).IsStopped = false) ∧
    (∀ s : Sound, (Sound.OnMessage .PAUSE s).IsPlaying = false ∧
      (Sound.OnMessage .PAUSE s).IsPaused = true ∧
      (Sound.OnMessage .PAUSE s).IsStopped = false) ∧
    (∀ s : Sound, (Sound.OnMessage .STOP s).IsPlaying = false ∧
      (Sound.OnMessage .STOP s).IsPaused = false ∧ (Sound.OnMessage .STOP s).IsStopped = true) ∧
    (∀ (s : Sound) (c flag : Command), c = .LOOP ∨ c = .UNLOOP → flag ≠ .LOOP →
      (Sound.OnMessage c s).GetState flag = s.GetState flag) ∧
    (∀ (s : Sound) (c flag : Command), c = .REL ∨ c = .ABS → flag ≠ .POSITION →
      (Sound.OnMessage c s).GetState flag = s.GetState flag) ∧
    (∀ s : Sound, (Sound.OnMessage .LOOP s).IsLooping = true ∧
      (Sound.OnMessage .UNLOOP s).IsLooping = false ∧
      (Sound.OnMessage .REL s).IsListenerRelative = true ∧
      (Sound.OnMessage .ABS s).IsListenerRelative = false) ∧
    (∀ (s : Sound) (c : Command), { Sound.OnMessage c s with mState := s.mState } = s) ∧
    (∀ msgs : List Command,
      (msgs.foldl (fun acc c => Sound.OnMessage c acc) Sound.new).OneState) ∧
    (∀ (s : Sound) (msgs : List Command), s.OneState →
      (msgs.foldl (fun acc c => Sound.OnMessage c acc) s).OneState) := by
  have hfold : ∀ (msgs : List Command) (s : Sound), s.OneState →
      (msgs.foldl (fun acc c => Sound.OnMessage c acc) s).OneState := by
    intro msgs
    induction msgs with
    | nil => intro s hs; exact hs
    | cons c rest ih => intro s hs; exact ih _ (OneState_OnMessage c s hs)
  have hnew : Sound.new.OneState := by
    unfold Sound.OneState; right; right; decide
  refine ⟨by decide, ?_, ?_, ?_, ?_, ?_, ?_, fun s c => OnMessage_mState_only c s, ?_, ?_⟩
  · intro s
    simp [Sound.OnMessage, Sound.IsPlaying, Sound.IsPaused, Sound.IsStopped,
      GetState_SetState, GetState_ResetState]
  · intro s
    simp [Sound.OnMessage, Sound.IsPlaying, Sound.IsPaused, Sound.IsStopped,
      GetState_SetState, GetState_ResetState]
  · intro s
    simp [Sound.OnMessage, Sound.IsPlaying, Sound.IsPaused, Sound.IsStopped,
      GetState_SetState, GetState_ResetState]
  · intro s c flag hc hf
    rcases hc with rfl | rfl <;>
      simp [Sound.OnMessage, GetState_SetState, GetState_ResetState, Ne.symm hf]
  · intro s c flag hc hf
    rcases hc with rfl | rfl <;>
      simp [Sound.OnMessage, GetState_SetState, GetState_ResetState, Ne.symm hf]
  · intro s
    simp [Sound.OnMessage, Sound.IsLooping, Sound.IsListenerRelative,
      GetState_SetState, GetState_ResetState]
  · intro msgs; exact hfold msgs _ hnew
  · intro s msgs hs; exact hfold msgs s hs

/-- A second `FreeSource` on the same sound finds it without a source and does nothing. -/
theorem FreeSource_idem (d : Driver) (snd : Option Nat) (st : AudioManager) :
    (st.FreeSource d snd).FreeSource d snd = st.FreeSource d snd := by
  cases snd with
  | none => rfl
  | some h =>
    have key : ((st.FreeSource d (some h)).sounds h).mIsInitialized = false := by
      unfold AudioManager.FreeSource
      by_cases hb : (st.sounds h).mIsInitialized = false
      · simp [hb]
      · by_cases hv : d.isSource (st.sounds h).mSource = false
        · simp [hb, hv, AudioManager.setSound]
        · simp [hb, hv, AudioManager.setSound]
    generalize st.FreeSource d (some h) = r at key
    unfold AudioManager.FreeSource
    simp [key]

/-- C23: `FreeSource` on a sound bound to a valid source `s` leaves the sound unbound (and
otherwise as it was, like every other sound), `s` in the INITIAL state the stop and the rewind
produce, with its loop flag cleared and buffer 0 attached, the source-map entry of `s` empty
(the other entries as they were), `s` appended at the back of the available queue, and the
request queues and the active list untouched; `FreeSource` on the null pointer or on an
unbound sound changes nothing; and a second `FreeSource` on the same argument changes nothing
any more. -/
theorem C23_FreeSource_releases_once (d : Driver) (st : AudioManager) :
    (∀ h, (st.sounds h).mIsInitialized = true → d.isSource (st.sounds h).mSource = true →
      ((st.FreeSource d (some h)).sounds h = { st.sounds h with mIsInitialized := false } ∧
       (∀ k, k ≠ h → (st.FreeSource d (some h)).sounds k = st.sounds k) ∧
       (st.FreeSource d (some h)).al.sourceState (st.sounds h).mSource = .INITIAL ∧
       (st.FreeSource d (some h)).al.sourceLooping (st.sounds h).mSource = false ∧
       (st.FreeSource d (some h)).al.sourceBuffer (st.sounds h).mSource = 0 ∧
       (st.FreeSource d (some h)).mSourceMap (st.sounds h).mSource = none ∧
       (∀ s, s ≠ (st.sounds h).mSource →
         (st.FreeSource d (some h)).mSourceMap s = st.mSourceMap s) ∧
       (st.FreeSource d (some h)).mAvailable = st.mAvailable ++ [(st.sounds h).mSource] ∧
       (st.FreeSource d (some h)).mPlayQueue = st.mPlayQueue ∧
       (st.FreeSource d (some h)).mPauseQueue = st.mPauseQueue ∧
       (st.FreeSource d (some h)).mStopQueue = st.mStopQueue ∧
       (st.FreeSource d (some h)).mRewindQueue = st.mRewindQueue ∧
       (st.FreeSource d (some h)).mActiveList = st.mActiveList)) ∧
    st.FreeSource d none = st ∧
    (∀ h, (st.sounds h).mIsInitialized = false → st.FreeSource d (some h) = st) ∧
    (∀ snd, (st.FreeSource d snd).FreeSource d snd = st.FreeSource d snd) := by
  refine ⟨fun h hb hv => ?_, rfl, fun h hb => ?_, fun snd => FreeSource_idem d snd st⟩
  · have e : st.FreeSource d (some h) =
        { st.setSound h (fun s => { s with mIsInitialized := false }) with
          al := OpenAL.setBuffer (st.sounds h).mSource 0
                  (OpenAL.setLooping d (st.sounds h).mSource false
                    (OpenAL.alSourceRewind d (st.sounds h).mSource
                      (OpenAL.alSourceStop d (st.sounds h).mSource st.al)))
          mSourceMap := Function.update st.mSourceMap (st.sounds h).mSource none
          mAvailable := st.mAvailable ++ [(st.sounds h).mSource] } := by
      unfold AudioManager.FreeSource
      simp [hb, hv, AudioManager.setSound]
    rw [e]
    refine ⟨?_, ?_, ?_, ?_, ?_, ?_, ?_, rfl, rfl, rfl, rfl, rfl, rfl⟩
    · simp [AudioManager.setSound]
    · intro k hk; simp [AudioManager.setSound, hk]
    · simp [OpenAL.setBuffer, OpenAL.setLooping, OpenAL.alSourceRewind, hv]
    · simp [OpenAL.setBuffer, OpenAL.setLooping, hv]
    · simp [OpenAL.setBuffer]
    · simp
    · intro s hs; simp [hs]
  · unfold AudioManager.FreeSource
    simp [hb]

/-- C23, at a concrete input: in `mixedSounds` the sound 0 plays on source 1, with source 2
bound as well and no source available; `FreeSource` on it leaves source 1 INITIAL, without
buffer, loop flag and source-map entry, and alone in the available queue. -/
theorem C23_FreeSource_releases_once_witness :
    ((mixedSounds.sounds 0).mIsInitialized = true ∧ (mixedSounds.sounds 0).mSource = 1 ∧
      quietDriver.isSource 1 = true ∧ mixedSounds.al.sourceState 1 = .PLAYING ∧
      mixedSounds.mSourceMap 1 = some 0 ∧ mixedSounds.mAvailable = []) ∧
    ((mixedSounds.FreeSource quietDriver (some 0)).sounds 0
        = { mixedSounds.sounds 0 with mIsInitialized := false } ∧
      (∀ k, k ≠ 0 → (mixedSounds.FreeSource quietDriver (some 0)).sounds k
        = mixedSounds.sounds k) ∧
      (mixedSounds.FreeSource quietDriver (some 0)).al.sourceState
        (mixedSounds.sounds 0).mSource = .INITIAL ∧
      (mixedSounds.FreeSource quietDriver (some 0)).al.sourceLooping
        (mixedSounds.sounds 0).mSource = false ∧
      (mixedSounds.FreeSource quietDriver (some 0)).al.sourceBuffer
        (mixedSounds.sounds 0).mSource = 0 ∧
      (mixedSounds.FreeSource quietDriver (some 0)).mSourceMap
        (mixedSounds.sounds 0).mSource = none ∧
      (∀ s, s ≠ (mixedSounds.sounds 0).mSource →
        (mixedSounds.FreeSource quietDriver (some 0)).mSourceMap s = mixedSounds.mSourceMap s) ∧
      (mixedSounds.FreeSource quietDriver (some 0)).mAvailable
        = mixedSounds.mAvailable ++ [(mixedSounds.sounds 0).mSource] ∧
      (mixedSounds.FreeSource quietDriver (some 0)).mPlayQueue = mixedSounds.mPlayQueue ∧
      (mixedSounds.FreeSource quietDriver (some 0)).mPauseQueue = mixedSounds.mPauseQueue ∧
      (mixedSounds.FreeSource quietDriver (some 0)).mStopQueue = mixedSounds.mStopQueue ∧
      (mixedSounds.FreeSource quietDriver (some 0)).mRewindQueue = mixedSounds.mRewindQueue ∧
      (mixedSounds.FreeSource quietDriver (some 0)).mActiveList = mixedSounds.mActiveList) :=
  ⟨by decide!,
    (C23_FreeSource_releases_once quietDriver mixedSounds).1 0 (by decide!) (by decide!)⟩

/-- A double `FreeSound` puts the handle on the recycle queue twice: the claim of C28 fails
for a sequence of calls that frees a handle which is no longer in the sound list. After
`NewSound`, `FreeSound(0)`, `FreeSound(0)` the recycle queue is `[0, 0]`; the next `NewSound`
returns 0 and leaves it both in the sound list and on the recycle queue, and the one after it
returns 0 again and puts it a second time on the sound list. -/
theorem C28_double_FreeSound_counterexample :
    (((AudioManager.init freshAL).NewSound.2.FreeSound quietDriver (some 0)).FreeSound
      quietDriver (some 0)).mSoundRecycle = [0, 0] ∧
    (((AudioManager.init freshAL).NewSound.2.FreeSound quietDriver (some 0)).FreeSound
      quietDriver (some 0)).NewSound.1 = 0 ∧
    (((AudioManager.init freshAL).NewSound.2.FreeSound quietDriver (some 0)).FreeSound
      quietDriver (some 0)).NewSound.2.mSoundList = [0] ∧
    (((AudioManager.init freshAL).NewSound.2.FreeSound quietDriver (some 0)).FreeSound
      quietDriver (some 0)).NewSound.2.mSoundRecycle = [0] ∧
    (((AudioManager.init freshAL).NewSound.2.FreeSound quietDriver (some 0)).FreeSound
      quietDriver (some 0)).NewSound.2.NewSound.1 = 0 ∧
    (((AudioManager.init freshAL).NewSound.2.FreeSound quietDriver (some 0)).FreeSound
      quietDriver (some 0)).NewSound.2.NewSound.2.mSoundList = [0, 0] := by
  decide

/-- C28 (amended): in every state that a run keeping to the calling convention (`FreeSound` is
only given sounds of the sound list) reaches from a new manager, the sound list and the recycle queue each hold no
handle twice and have no handle in common; with a non-empty recycle queue `NewSound` returns
its front handle, pops it and appends it to the sound list; with an empty one it returns the
allocation count, a handle that is neither in the sound list nor on the recycle queue, and
appends it to the sound list. -/
theorem C28_live_and_recycled_handles (d : Driver) (hd : d.FreshNames) (al : OpenAL)
    (acts : List Action) (hl : legal d acts (AudioManager.init al) = true) :
    (run d acts (AudioManager.init al)).mSoundList.Nodup ∧
    (run d acts (AudioManager.init al)).mSoundRecycle.Nodup ∧
    (∀ h ∈ (run d acts (AudioManager.init al)).mSoundRecycle,
      h ∉ (run d acts (AudioManager.init al)).mSoundList) ∧
    (∀ h rest, (run d acts (AudioManager.init al)).mSoundRecycle = h :: rest →
      (run d acts (AudioManager.init al)).NewSound.1 = h ∧
      (run d acts (AudioManager.init al)).NewSound.2.mSoundRecycle = rest ∧
      (run d acts (AudioManager.init al)).NewSound.2.mSoundList
        = (run d acts (AudioManager.init al)).mSoundList ++ [h]) ∧
    ((run d acts (AudioManager.init al)).mSoundRecycle = [] →
      (run d acts (AudioManager.init al)).NewSound.1
        = (run d acts (AudioManager.init al)).nextSound ∧
      (run d acts (AudioManager.init al)).nextSound
        ∉ (run d acts (AudioManager.init al)).mSoundList ∧
      (run d acts (AudioManager.init al)).NewSound.2.mSoundRecycle = [] ∧
      (run d acts (AudioManager.init al)).NewSound.2.mSoundList
        = (run d acts (AudioManager.init al)).mSoundList
          ++ [(run d acts (AudioManager.init al)).nextSound]) := by
  have inv := run_inv d hd acts _ (Inv_init d al) hl
  generalize run d acts (AudioManager.init al) = st at inv
  refine ⟨inv.live_nodup, inv.recycle_nodup, inv.recycle_dead, fun h rest e => ?_, fun e => ?_⟩
  · simp [AudioManager.NewSound, e]
  · refine ⟨by simp [AudioManager.NewSound, e], fun hin => ?_, by simp [AudioManager.NewSound, e],
      by simp [AudioManager.NewSound, e]⟩
    exact absurd (inv.live_lt _ hin) (Nat.lt_irrefl _)

/-- C28, at a concrete input: two sounds are created and the first is freed, so the recycle
queue holds one handle and the sound list the other. -/
theorem C28_live_and_recycled_handles_witness :
    quietDriver.FreshNames ∧
    legal quietDriver [.newSound, .newSound, .freeSound 0] (AudioManager.init freshAL) = true ∧
    (run quietDriver [.newSound, .newSound, .freeSound 0]
      (AudioManager.init freshAL)).mSoundList = [1] ∧
    (run quietDriver [.newSound, .newSound, .freeSound 0]
      (AudioManager.init freshAL)).mSoundRecycle = [0] ∧
    ((run quietDriver [.newSound, .newSound, .freeSound 0]
        (AudioManager.init freshAL)).mSoundList.Nodup ∧
    (run quietDriver [.newSound, .newSound, .freeSound 0]
        (AudioManager.init freshAL)).mSoundRecycle.Nodup ∧
    (∀ h ∈ (run quietDriver [.newSound, .newSound, .freeSound 0]
        (AudioManager.init freshAL)).mSoundRecycle,
      h ∉ (run quietDriver [.newSound, .newSound, .freeSound 0]
        (AudioManager.init freshAL)).mSoundList) ∧
    (∀ h rest, (run quietDriver [.newSound, .newSound, .freeSound 0]
        (AudioManager.init freshAL)).mSoundRecycle = h :: rest →
      (run quietDriver [.newSound, .newSound, .freeSound 0]
        (AudioManager.init freshAL)).NewSound.1 = h ∧
      (run quietDriver [.newSound, .newSound, .freeSound 0]
        (AudioManager.init freshAL)).NewSound.2.mSoundRecycle = rest ∧
      (run quietDriver [.newSound, .newSound, .freeSound 0]
        (AudioManager.init freshAL)).NewSound.2.mSoundList
        = (run quietDriver [.newSound, .newSound, .freeSound 0]
            (AudioManager.init freshAL)).mSoundList ++ [h]) ∧
    ((run quietDriver [.newSound, .newSound, .freeSound 0]
        (AudioManager.init freshAL)).mSoundRecycle = [] →
      (run quietDriver [.newSound, .newSound, .freeSound 0]
        (AudioManager.init freshAL)).NewSound.1
        = (run quietDriver [.newSound, .newSound, .freeSound 0]
            (AudioManager.init freshAL)).nextSound ∧
      (run quietDriver [.newSound, .newSound, .freeSound 0]
        (AudioManager.init freshAL)).nextSound
        ∉ (run quietDriver [.newSound, .newSound, .freeSound 0]
            (AudioManager.init freshAL)).mSoundList ∧
      (run quietDriver [.newSound, .newSound, .freeSound 0]
        (AudioManager.init freshAL)).NewSound.2.mSoundRecycle = [] ∧
      (run quietDriver [.newSound, .newSound, .freeSound 0]
        (AudioManager.init freshAL)).NewSound.2.mSoundList
        = (run quietDriver [.newSound, .newSound, .freeSound 0]
            (AudioManager.init freshAL)).mSoundList
          ++ [(run quietDriver [.newSound, .newSound, .freeSound 0]
            (AudioManager.init freshAL)).nextSound])) :=
  ⟨quietDriver_fresh, by decide, by decide, by decide,
    C28_live_and_recycled_handles quietDriver quietDriver_fresh freshAL
      [.newSound, .newSound, .freeSound 0] (by decide)⟩

/-- One pause request makes one state query. -/
theorem framePauseOne_checks (d : Driver) (a : Nat) (y : AudioManager) :
    (AudioManager.framePauseOne d a y).al.checks = y.al.checks + 1 := by
  unfold AudioManager.framePauseOne AudioManager.check OpenAL.CheckForError
  simp only
  split
  · rfl
  · split
    · rw [notify_al]; simp only [OpenAL.alSourcePause]; split <;> rfl
    · rw [notify_al]; simp only [OpenAL.alSourcePlay]; split <;> rfl
    · rfl

/-- A pause request for one source leaves the state of every other source. -/
theorem framePauseOne_state_other (d : Driver) (a s : Nat) (y : AudioManager) (hne : s ≠ a) :
    (AudioManager.framePauseOne d a y).al.sourceState s = y.al.sourceState s := by
  unfold AudioManager.framePauseOne AudioManager.check OpenAL.CheckForError
  simp only
  split
  · rfl
  · split
    · rw [notify_al]; simp only [OpenAL.alSourcePause]
      split
      · simp only [Function.update_noteq hne]
      · rfl
    · rw [notify_al]; simp only [OpenAL.alSourcePlay]
      split
      · simp only [Function.update_noteq hne]
      · rfl
    · rfl

/-- A pause request whose state query reports no error, on a PLAYING source. -/
theorem framePauseOne_playing (d : Driver) (a : Nat) (y : AudioManager)
    (herr : d.errors y.al.checks = false) (hp : y.al.sourceState a = .PLAYING) :
    AudioManager.framePauseOne d a y
      = AudioManager.notify .PAUSE a
          { y with al := OpenAL.alSourcePause d a (y.al.CheckForError d).2 } := by
  unfold AudioManager.framePauseOne AudioManager.check
  simp only [herr]
  have e : (y.al.CheckForError d).2.sourceState a = .PLAYING := hp
  simp [e]

/-- A pause request whose state query reports no error, on a PAUSED source. -/
theorem framePauseOne_paused (d : Driver) (a : Nat) (y : AudioManager)
    (herr : d.errors y.al.checks = false) (hp : y.al.sourceState a = .PAUSED) :
    AudioManager.framePauseOne d a y
      = AudioManager.notify .PLAY a
          { y with al := OpenAL.alSourcePlay d a (y.al.CheckForError d).2 } := by
  unfold AudioManager.framePauseOne AudioManager.check
  simp only [herr]
  have e : (y.al.CheckForError d).2.sourceState a = .PAUSED := hp
  simp [e]

/-- A pause request on a source that is neither PLAYING nor PAUSED only makes its state
query. -/
theorem framePauseOne_idle (d : Driver) (a : Nat) (y : AudioManager)
    (h1 : y.al.sourceState a ≠ .PLAYING) (h2 : y.al.sourceState a ≠ .PAUSED) :
    AudioManager.framePauseOne d a y = { y with al := (y.al.CheckForError d).2 } := by
  unfold AudioManager.framePauseOne AudioManager.check
  simp only
  split
  · rfl
  · have e : (y.al.CheckForError d).2.sourceState a = y.al.sourceState a := rfl
    split
    · rename_i hs; rw [e] at hs; exact absurd hs h1
    · rename_i hs; rw [e] at hs; exact absurd hs h2
    · rfl

/-- A pause request without error toggles a valid source between PLAYING and PAUSED. -/
theorem framePauseOne_toggle (d : Driver) (a : Nat) (y : AudioManager)
    (herr : d.errors y.al.checks = false) (hv : d.isSource a = true) :
    (y.al.sourceState a = .PLAYING →
      (AudioManager.framePauseOne d a y).al.sourceState a = .PAUSED) ∧
    (y.al.sourceState a = .PAUSED →
      (AudioManager.framePauseOne d a y).al.sourceState a = .PLAYING) := by
  refine ⟨fun hp => ?_, fun hp => ?_⟩
  · rw [framePauseOne_playing d a y herr hp, notify_al]
    have e : (y.al.CheckForError d).2.sourceState a = .PLAYING := hp
    simp [OpenAL.alSourcePause, hv, e]
  · rw [framePauseOne_paused d a y herr hp, notify_al]
    simp [OpenAL.alSourcePlay, hv]

/-- The pause requests of one `Frame`, without errors, for a valid source that is PLAYING or
PAUSED: the source is again PLAYING or PAUSED, and in its original state exactly when the
number of requests for it is even. -/
theorem framePause_fold_parity (d : Driver) (s : Nat) (hv : d.isSource s = true)
    (q : List Nat) :
    ∀ y : AudioManager, (∀ i, i < q.length → d.errors (y.al.checks + i) = false) →
      (y.al.sourceState s = .PLAYING ∨ y.al.sourceState s = .PAUSED) →
      ((q.foldl (fun acc src => AudioManager.framePauseOne d src acc) y).al.sourceState s
          = .PLAYING ∨
        (q.foldl (fun acc src => AudioManager.framePauseOne d src acc) y).al.sourceState s
          = .PAUSED) ∧
      ((q.foldl (fun acc src => AudioManager.framePauseOne d src acc) y).al.sourceState s
          = y.al.sourceState s ↔ Even (q.count s)) := by
  induction q with
  | nil => intro y _ hst; exact ⟨hst, by simp⟩
  | cons a r ih =>
    intro y herr hst
    rw [List.foldl_cons]
    have h0 : d.errors y.al.checks = false := by
      have := herr 0 (by simp)
      simpa using this
    have herr' : ∀ i, i < r.length →
        d.errors ((AudioManager.framePauseOne d a y).al.checks + i) = false := by
      intro i hi
      rw [framePauseOne_checks]
      have := herr (i + 1) (by simp; omega)
      rw [show y.al.checks + 1 + i = y.al.checks + (i + 1) by omega]
      exact this
    by_cases e : a = s
    · subst e
      have ht := framePauseOne_toggle d a y h0 hv
      have hst' : (AudioManager.framePauseOne d a y).al.sourceState a = .PLAYING ∨
          (AudioManager.framePauseOne d a y).al.sourceState a = .PAUSED := by
        rcases hst with h | h
        · exact Or.inr (ht.1 h)
        · exact Or.inl (ht.2 h)
      obtain ⟨i1, i2⟩ := ih _ herr' hst'
      refine ⟨i1, ?_⟩
      rw [List.count_cons_self, Nat.even_add_one, ← i2]
      rcases hst with h | h
      · rw [h, ht.1 h]
        rcases i1 with g | g <;> rw [g] <;> simp
      · rw [h, ht.2 h]
        rcases i1 with g | g <;> rw [g] <;> simp
    · have hne : s ≠ a := fun h => e h.symm
      have hsame := framePauseOne_state_other d a s y hne
      obtain ⟨i1, i2⟩ := ih _ herr' (by rw [hsame]; exact hst)
      refine ⟨i1, ?_⟩
      rw [List.count_cons_of_ne hne, ← i2, hsame]

/-- The pause queue is empty when `Frame` returns. -/
theorem Frame_mPauseQueue (d : Driver) (st : AudioManager) : (st.Frame d).mPauseQueue = [] := by
  have hfr : st.Frame d = AudioManager.frameErase
      (AudioManager.frameScan d (AudioManager.framePlays (AudioManager.frameStops d st)).mActiveList
        0 [] (AudioManager.framePlays (AudioManager.frameStops d st))).1
      (AudioManager.frameRewinds d (AudioManager.framePauses d
        (AudioManager.frameScan d
          (AudioManager.framePlays (AudioManager.frameStops d st)).mActiveList 0 []
          (AudioManager.framePlays (AudioManager.frameStops d st))).2)) := rfl
  rw [hfr, frameErase_fields]
  exact (frameLoops_queues d _).2.2.2.1

/-- C21: one request of the pause queue in `Frame` whose state query reports no error. A
valid source found PLAYING is paused, and the sound it is bound to (when it hears the
manager) receives PAUSE; a valid source found PAUSED is resumed (it is PLAYING), and its
sound receives PLAY; for a source in any other state the request only makes its state query:
no source state, no sound and no queue changes. Consequently, when the state queries report
no error, two requests for the same valid source in the pause queue leave a PLAYING or PAUSED
source in its original state. The pause queue is empty after the pause loop and after
`Frame`. -/
theorem C21_pause_requests_toggle (d : Driver) (st : AudioManager) :
    (∀ src, d.errors st.al.checks = false → d.isSource src = true →
      st.al.sourceState src = .PLAYING →
      (AudioManager.framePauseOne d src st).al.sourceState src = .PAUSED ∧
      ∀ h, st.mSourceMap src = some h → (st.sounds h).hearsManager = true →
        (AudioManager.framePauseOne d src st).sounds h = Sound.OnMessage .PAUSE (st.sounds h)) ∧
    (∀ src, d.errors st.al.checks = false → d.isSource src = true →
      st.al.sourceState src = .PAUSED →
      (AudioManager.framePauseOne d src st).al.sourceState src = .PLAYING ∧
      ∀ h, st.mSourceMap src = some h → (st.sounds h).hearsManager = true →
        (AudioManager.framePauseOne d src st).sounds h = Sound.OnMessage .PLAY (st.sounds h)) ∧
    (∀ src, st.al.sourceState src ≠ .PLAYING → st.al.sourceState src ≠ .PAUSED →
      AudioManager.framePauseOne d src st = { st with al := (st.al.CheckForError d).2 }) ∧
    (∀ s, d.isSource s = true → st.mPauseQueue.count s = 2 →
      (∀ i, i < st.mPauseQueue.length → d.errors (st.al.checks + i) = false) →
      (st.al.sourceState s = .PLAYING ∨ st.al.sourceState s = .PAUSED) →
      (AudioManager.framePauses d st).al.sourceState s = st.al.sourceState s) ∧
    (AudioManager.framePauses d st).mPauseQueue = [] ∧
    (st.Frame d).mPauseQueue = [] := by
  refine ⟨fun src herr hv hp => ⟨(framePauseOne_toggle d src st herr hv).1 hp, fun h hm hh => ?_⟩,
    fun src herr hv hp => ⟨(framePauseOne_toggle d src st herr hv).2 hp, fun h hm hh => ?_⟩,
    fun src h1 h2 => framePauseOne_idle d src st h1 h2,
    fun s hv hc herr hst => ?_, ?_, Frame_mPauseQueue d st⟩
  · rw [framePauseOne_playing d src st herr hp]
    exact notify_sounds_bound .PAUSE src h _ hm hh
  · rw [framePauseOne_paused d src st herr hp]
    exact notify_sounds_bound .PLAY src h _ hm hh
  · have := framePause_fold_parity d s hv st.mPauseQueue { st with mPauseQueue := [] } herr hst
    exact this.2.mpr (by rw [hc]; decide)
  · rw [framePauses_fields]

/-- C21, at a concrete input: in `mixedSounds` source 1 is PLAYING and source 2 PAUSED; and
after two PAUSE commands for the sound on source 1 have been dispatched, the pause queue is
`[1, 1]` and the pause loop leaves source 1 PLAYING. -/
theorem C21_pause_requests_toggle_witness :
    (mixedSounds.al.sourceState 1 = .PLAYING ∧ mixedSounds.al.sourceState 2 = .PAUSED ∧
      mixedSounds.mSourceMap 1 = some 0 ∧ mixedSounds.mSourceMap 2 = some 1) ∧
    ((AudioManager.framePauseOne quietDriver 1 mixedSounds).al.sourceState 1 = .PAUSED ∧
      ∀ h, mixedSounds.mSourceMap 1 = some h → (mixedSounds.sounds h).hearsManager = true →
        (AudioManager.framePauseOne quietDriver 1 mixedSounds).sounds h
          = Sound.OnMessage .PAUSE (mixedSounds.sounds h)) ∧
    ((AudioManager.framePauseOne quietDriver 2 mixedSounds).al.sourceState 2 = .PLAYING ∧
      ∀ h, mixedSounds.mSourceMap 2 = some h → (mixedSounds.sounds h).hearsManager = true →
        (AudioManager.framePauseOne quietDriver 2 mixedSounds).sounds h
          = Sound.OnMessage .PLAY (mixedSounds.sounds h)) ∧
    (run quietDriver [.command 0 .PAUSE, .command 0 .PAUSE, .system .PRE_FRAME]
      mixedSounds).mPauseQueue = [1, 1] ∧
    (AudioManager.framePauses quietDriver
      (run quietDriver [.command 0 .PAUSE, .command 0 .PAUSE, .system .PRE_FRAME]
        mixedSounds)).al.sourceState 1
      = (run quietDriver [.command 0 .PAUSE, .command 0 .PAUSE, .system .PRE_FRAME]
        mixedSounds).al.sourceState 1 :=
  ⟨by decide!,
    (C21_pause_requests_toggle quietDriver mixedSounds).1 1 rfl rfl (by decide!),
    (C21_pause_requests_toggle quietDriver mixedSounds).2.1 2 rfl rfl (by decide!),
    by decide!,
    (C21_pause_requests_toggle quietDriver
      (run quietDriver [.command 0 .PAUSE, .command 0 .PAUSE, .system .PRE_FRAME]
        mixedSounds)).2.2.2.1 1 rfl (by decide!) (fun _ _ => rfl) (Or.inl (by decide!))⟩

/-! ## Use counts of cached buffers -/

/-- The function `LoadSound` on a sound whose file is cached: the count goes up by one and the
sound gets the buffer. -/
theorem LoadSound_cached (d : Driver) (h : Nat) (st : AudioManager) (bd : BufferData)
    (hbd : st.bufferAt (st.sounds h).mFilename = some bd) :
    st.LoadSound d h = { st with
      mBufferMap := Function.update st.mBufferMap (st.sounds h).mFilename
        (some (some { bd with use := (bd.use + 1) % 2 ^ 32 }))
      sounds := Function.update st.sounds h { st.sounds h with mBuffer := bd.buf } } := by
  unfold AudioManager.LoadSound
  simp only [Sound.GetFilename, LoadFile_cached d _ st bd hbd,
    touchBuffer_of_bufferAt_some _ st bd hbd, hbd]

/-- `FreeSource` does not touch the buffer cache. -/
theorem FreeSource_mBufferMap (d : Driver) (snd : Option Nat) (st : AudioManager) :
    (st.FreeSource d snd).mBufferMap = st.mBufferMap := by
  unfold AudioManager.FreeSource
  cases snd with
  | none => rfl
  | some h =>
    simp only
    split
    · rfl
    · split <;> rfl

/-- `FreeSource` does not touch the buffer member of a sound. -/
theorem FreeSource_mBuffer (d : Driver) (snd : Option Nat) (st : AudioManager) (k : Nat) :
    ((st.FreeSource d snd).sounds k).mBuffer = (st.sounds k).mBuffer := by
  unfold AudioManager.FreeSource
  cases snd with
  | none => rfl
  | some h =>
    simp only
    split
    · rfl
    · have e : ((st.setSound h (fun s => { s with mIsInitialized := false })).sounds k).mBuffer
          = (st.sounds k).mBuffer := by
        unfold AudioManager.setSound
        by_cases hk : k = h
        · subst hk; simp
        · simp [Function.update_noteq hk]
      split
      · exact e
      · exact e

/-- `UnloadFile` does not touch the sound objects. -/
theorem UnloadFile_sounds (d : Driver) (file : String) (st : AudioManager) :
    (st.UnloadFile d file).2.sounds = st.sounds := by
  unfold AudioManager.UnloadFile
  split
  · rfl
  · split
    · rfl
    · rfl
    · split <;> rfl

/-- The function `UnloadSound` on a sound whose file is cached with a count of at least one:
the sound loses its buffer, and the cache entry is removed when the count was one and holds
the count lowered by one otherwise. -/
theorem UnloadSound_cached (d : Driver) (h : Nat) (st : AudioManager) (bd : BufferData)
    (hp : (st.sounds h).mFilename ≠ "")
    (hbd : st.bufferAt (st.sounds h).mFilename = some bd)
    (h1 : 1 ≤ bd.use) (h2 : bd.use < 2 ^ 32) :
    ((st.UnloadSound d h).sounds h).mBuffer = 0 ∧
    (bd.use = 1 → (st.UnloadSound d h).mBufferMap (st.sounds h).mFilename = none) ∧
    (bd.use ≠ 1 → (st.UnloadSound d h).bufferAt (st.sounds h).mFilename
      = some { bd with use := bd.use - 1 }) := by
  have hfile : ((st.setSound h (fun s => { s with mBuffer := 0 })).sounds h).GetFilename
      = (st.sounds h).mFilename := by
    simp [AudioManager.setSound, Sound.GetFilename]
  have hbd1 : (st.setSound h (fun s => { s with mBuffer := 0 })).bufferAt (st.sounds h).mFilename
      = some bd := hbd
  have huse : (bd.use + (2 ^ 32 - 1)) % 2 ^ 32 = bd.use - 1 := by
    have : bd.use + (2 ^ 32 - 1) = (bd.use - 1) + 2 ^ 32 := by omega
    rw [this, Nat.add_mod_right, Nat.mod_eq_of_lt (by omega)]
  have key : st.UnloadSound d h =
      ((if bd.use - 1 = 0 then
          if d.isSource (st.sounds h).mSource && (st.sounds h).mIsInitialized then
            AudioManager.FreeSource d (some h)
              { st.setSound h (fun s => { s with mBuffer := 0 }) with
                mBufferMap := Function.update st.mBufferMap (st.sounds h).mFilename
                  (some (some { bd with use := bd.use - 1 })) }
          else
            { st.setSound h (fun s => { s with mBuffer := 0 }) with
              mBufferMap := Function.update st.mBufferMap (st.sounds h).mFilename
                (some (some { bd with use := bd.use - 1 })) }
        else
          { st.setSound h (fun s => { s with mBuffer := 0 }) with
            mBufferMap := Function.update st.mBufferMap (st.sounds h).mFilename
              (some (some { bd with use := bd.use - 1 })) }).UnloadFile d
        (st.sounds h).mFilename).2 := by
    unfold AudioManager.UnloadSound
    simp only [Sound.GetFilename, touchBuffer_of_bufferAt_some _ _ bd hbd1, hbd1, huse]
    simp [AudioManager.setSound]
  rw [key]
  generalize hX : (if bd.use - 1 = 0 then
          if d.isSource (st.sounds h).mSource && (st.sounds h).mIsInitialized then
            AudioManager.FreeSource d (some h)
              { st.setSound h (fun s => { s with mBuffer := 0 }) with
                mBufferMap := Function.update st.mBufferMap (st.sounds h).mFilename
                  (some (some { bd with use := bd.use - 1 })) }
          else
            { st.setSound h (fun s => { s with mBuffer := 0 }) with
              mBufferMap := Function.update st.mBufferMap (st.sounds h).mFilename
                (some (some { bd with use := bd.use - 1 })) }
        else
          { st.setSound h (fun s => { s with mBuffer := 0 }) with
            mBufferMap := Function.update st.mBufferMap (st.sounds h).mFilename
              (some (some { bd with use := bd.use - 1 })) }) = X
  have hXmap : X.mBufferMap = Function.update st.mBufferMap (st.sounds h).mFilename
      (some (some { bd with use := bd.use - 1 })) := by
    rw [← hX]
    split
    · split
      · rw [FreeSource_mBufferMap]
      · rfl
    · rfl
  have hXbuf : (X.sounds h).mBuffer = 0 := by
    rw [← hX]
    split
    · split
      · rw [FreeSource_mBuffer]; simp [AudioManager.setSound]
      · simp [AudioManager.setSound]
    · simp [AudioManager.setSound]
  have hXp : X.mBufferMap (st.sounds h).mFilename = some (some { bd with use := bd.use - 1 }) := by
    rw [hXmap]; simp
  refine ⟨by rw [UnloadFile_sounds]; exact hXbuf, fun hu => ?_, fun hu => ?_⟩
  · unfold AudioManager.UnloadFile
    simp [hp, hXp, hu]
  · have hne : bd.use - 1 ≠ 0 := by omega
    unfold AudioManager.UnloadFile
    simp [hp, hXp, hne, AudioManager.bufferAt]

/-- `LoadFile` of a non-empty path that resolves and decodes, without driver error, on a
cache that holds no buffer for it: the buffer is generated and cached with count 0. -/
theorem LoadFile_fresh (d : Driver) (p : String) (st : AudioManager)
    (hp : p ≠ "") (hfind : d.find p ≠ "") (hloads : d.loads (d.find p) = true)
    (hgen : d.errors st.al.checks = false) (hup : d.errors (st.al.checks + 1) = false)
    (hfree : st.bufferAt p = none) :
    (st.LoadFile d p).1 = true ∧
    (st.LoadFile d p).2.bufferAt p
      = some { buf := st.al.nextBuffer, file := p, loop := false, use := 0 } ∧
    (st.LoadFile d p).2.sounds = st.sounds := by
  have hfree' : (st.touchBuffer p).bufferAt p = none := by
    rw [bufferAt_touchBuffer]; exact hfree
  have hal : (st.touchBuffer p).al = st.al := by
    unfold AudioManager.touchBuffer; split <;> rfl
  have hsn : (st.touchBuffer p).sounds = st.sounds := by
    unfold AudioManager.touchBuffer; split <;> rfl
  have key : st.LoadFile d p = (true,
      { st.touchBuffer p with
        al := OpenAL.alBufferData st.al.nextBuffer (d.channels (d.find p))
          { (OpenAL.alGenBuffers { st.al with checks := st.al.checks + 1 }).2 with
            checks := st.al.checks + 2 }
        mBufferMap := Function.update (st.touchBuffer p).mBufferMap p
          (some (some { buf := st.al.nextBuffer, file := p, loop := false, use := 0 })) }) := by
    unfold AudioManager.LoadFile
    simp [hp, hfind, hloads, hfree', AudioManager.check, OpenAL.CheckForError, hal, hgen, hup,
      OpenAL.alGenBuffers]
  rw [key]
  exact ⟨rfl, by simp [AudioManager.bufferAt], hsn⟩

/-- `LoadSound` starts with `LoadFile`, so doing that `LoadFile` beforehand changes nothing
when it leaves the file cached. -/
theorem LoadSound_after_LoadFile (d : Driver) (h : Nat) (st : AudioManager) (bd : BufferData)
    (hs : (st.LoadFile d (st.sounds h).mFilename).2.sounds = st.sounds)
    (hbd : (st.LoadFile d (st.sounds h).mFilename).2.bufferAt (st.sounds h).mFilename = some bd) :
    st.LoadSound d h = (st.LoadFile d (st.sounds h).mFilename).2.LoadSound d h := by
  have e : ((st.LoadFile d (st.sounds h).mFilename).2.sounds h).mFilename
      = (st.sounds h).mFilename := by rw [hs]
  unfold AudioManager.LoadSound
  simp only [Sound.GetFilename, e, LoadFile_cached d _ _ bd hbd]

/-- C29: let the sound `h` have the non-empty file name `p`. When `p` is cached, `LoadSound`
raises its use count by one and gives the sound its buffer; when `p` is not cached but
resolves and decodes and the driver reports no error, `LoadSound` loads it and leaves it
cached with use count 1, the sound holding the new buffer. `UnloadSound` on a cached `p` with
a use count of at least one clears the buffer of the sound and lowers the count by one, and
when the count was one, so that it reaches 0, the entry of `p` is removed from the cache. In
particular `LoadFile(p)` on a cache without `p` leaves it cached with count 0, and after the
following `LoadSound` and `UnloadSound` of the sound the cache has no entry for `p`. -/
theorem C29_use_count_follows_sounds (d : Driver) (h : Nat) (p : String) (st : AudioManager)
    (hfile : (st.sounds h).mFilename = p) (hp : p ≠ "") :
    (∀ bd, st.bufferAt p = some bd → bd.use + 1 < 2 ^ 32 →
      (st.LoadSound d h).bufferAt p = some { bd with use := bd.use + 1 } ∧
      ((st.LoadSound d h).sounds h).mBuffer = bd.buf) ∧
    (d.find p ≠ "" → d.loads (d.find p) = true → d.errors st.al.checks = false →
      d.errors (st.al.checks + 1) = false → st.bufferAt p = none →
      (st.LoadSound d h).bufferAt p
        = some { buf := st.al.nextBuffer, file := p, loop := false, use := 1 } ∧
      ((st.LoadSound d h).sounds h).mBuffer = st.al.nextBuffer) ∧
    (∀ bd, st.bufferAt p = some bd → 1 ≤ bd.use → bd.use < 2 ^ 32 →
      ((st.UnloadSound d h).sounds h).mBuffer = 0 ∧
      (bd.use = 1 → (st.UnloadSound d h).mBufferMap p = none) ∧
      (bd.use ≠ 1 → (st.UnloadSound d h).bufferAt p = some { bd with use := bd.use - 1 })) ∧
    (d.find p ≠ "" → d.loads (d.find p) = true → d.errors st.al.checks = false →
      d.errors (st.al.checks + 1) = false → st.bufferAt p = none →
      (st.LoadFile d p).1 = true ∧
      (st.LoadFile d p).2.bufferAt p
        = some { buf := st.al.nextBuffer, file := p, loop := false, use := 0 } ∧
      (((st.LoadFile d p).2.LoadSound d h).UnloadSound d h).mBufferMap p = none) := by
  subst hfile
  have hcached : ∀ (x : AudioManager) (bd : BufferData),
      (x.sounds h).mFilename = (st.sounds h).mFilename →
      x.bufferAt (st.sounds h).mFilename = some bd → bd.use + 1 < 2 ^ 32 →
      (x.LoadSound d h).bufferAt (st.sounds h).mFilename = some { bd with use := bd.use + 1 } ∧
      ((x.LoadSound d h).sounds h).mBuffer = bd.buf ∧
      ((x.LoadSound d h).sounds h).mFilename = (st.sounds h).mFilename := by
    intro x bd hx hbd hlt
    rw [← hx] at hbd
    rw [LoadSound_cached d h x bd hbd, ← hx]
    have hm : (bd.use + 1) % 2 ^ 32 = bd.use + 1 := Nat.mod_eq_of_lt hlt
    simp only [hm]
    simp [AudioManager.bufferAt]
  refine ⟨fun bd hbd hlt => ?_, fun hfind hloads hgen hup hfree => ?_,
    fun bd hbd h1 h2 => UnloadSound_cached d h st bd hp hbd h1 h2,
    fun hfind hloads hgen hup hfree => ?_⟩
  · have := hcached st bd rfl hbd hlt
    exact ⟨this.1, this.2.1⟩
  · have hl := LoadFile_fresh d _ st hp hfind hloads hgen hup hfree
    rw [LoadSound_after_LoadFile d h st _ hl.2.2 hl.2.1]
    have := hcached (st.LoadFile d (st.sounds h).mFilename).2 _ (by rw [hl.2.2]) hl.2.1
      (by show 0 + 1 < 2 ^ 32; norm_num)
    exact ⟨this.1, this.2.1⟩
  · have hl := LoadFile_fresh d _ st hp hfind hloads hgen hup hfree
    refine ⟨hl.1, hl.2.1, ?_⟩
    have h2 := hcached (st.LoadFile d (st.sounds h).mFilename).2 _ (by rw [hl.2.2]) hl.2.1
      (by show 0 + 1 < 2 ^ 32; norm_num)
    have h3 := UnloadSound_cached d h ((st.LoadFile d (st.sounds h).mFilename).2.LoadSound d h)
      _ (by rw [h2.2.2]; exact hp) (by rw [h2.2.2]; exact h2.1) (by simp) (by simp)
    rw [h2.2.2] at h3
    exact h3.2.1 rfl

/-- C29, at a concrete input: a new sound is given the file name `a.wav`, which the cache of
the new manager does not hold. -/
theorem C29_use_count_follows_sounds_witness :
    ((run quietDriver [.newSound, .soundLoadFile 0 "a.wav"]
      (AudioManager.init freshAL)).sounds 0).mFilename = "a.wav" ∧
    (run quietDriver [.newSound, .soundLoadFile 0 "a.wav"]
      (AudioManager.init freshAL)).bufferAt "a.wav" = none ∧
    ((run quietDriver [.newSound, .soundLoadFile 0 "a.wav"]
        (AudioManager.init freshAL)).LoadSound quietDriver 0).bufferAt "a.wav"
      = some { buf := 1, file := "a.wav", loop := false, use := 1 } ∧
    ((((run quietDriver [.newSound, .soundLoadFile 0 "a.wav"]
        (AudioManager.init freshAL)).LoadFile quietDriver "a.wav").2.LoadSound
          quietDriver 0).UnloadSound quietDriver 0).mBufferMap "a.wav" = none :=
  ⟨by decide, by decide,
    ((C29_use_count_follows_sounds quietDriver 0 "a.wav"
      (run quietDriver [.newSound, .soundLoadFile 0 "a.wav"] (AudioManager.init freshAL))
      (by decide) (by decide)).2.1 (by decide) rfl rfl rfl (by decide)).1,
    ((C29_use_count_follows_sounds quietDriver 0 "a.wav"
      (run quietDriver [.newSound, .soundLoadFile 0 "a.wav"] (AudioManager.init freshAL))
      (by decide) (by decide)).2.2.2 (by decide) rfl rfl rfl (by decide)).2.2⟩

/-! ## Commands dispatched for a sound without a source -/

/-- A sound without a source is "not playing" for the per-sound operations. -/
theorem notPlaying_of_unbound (d : Driver) (h : Nat) (x : AudioManager)
    (hu : (x.sounds h).mIsInitialized = false) : x.notPlaying d h = true := by
  unfold AudioManager.notPlaying
  simp [hu]

/-- C25: a sound without a source (`IsInitialized` false) whose oldest command is `c`. The
turn of `PreFrame` takes the command from the FIFO and then changes nothing but the state
word of that sound, so no hardware source and no queue of the manager is touched: LOOP sets
and UNLOOP clears the flag LOOP, and MIN_DIST, ROL_FACT, MIN_GAIN and MAX_GAIN set their own
flag. MAX_DIST does not: `SetMaximumDistance` sets the flag MIN_DIST, and the flag MAX_DIST
of the sound stays as it was. -/
theorem C25_MAX_DIST_records_MIN_DIST (d : Driver) (h : Nat) (st : AudioManager)
    (c : Command) (r : List Command)
    (hu : (st.sounds h).mIsInitialized = false) (hc : (st.sounds h).mCommand = c :: r) :
    (c = .LOOP → st.dispatch d h
      = (st.setSound h (fun s => { s with mCommand := r })).setSound h (Sound.SetState .LOOP)) ∧
    (c = .UNLOOP → st.dispatch d h
      = (st.setSound h (fun s => { s with mCommand := r })).setSound h
          (Sound.ResetState .LOOP)) ∧
    (c = .MIN_DIST → st.dispatch d h
      = (st.setSound h (fun s => { s with mCommand := r })).setSound h
          (Sound.SetState .MIN_DIST)) ∧
    (c = .ROL_FACT → st.dispatch d h
      = (st.setSound h (fun s => { s with mCommand := r })).setSound h
          (Sound.SetState .ROL_FACT)) ∧
    (c = .MIN_GAIN → st.dispatch d h
      = (st.setSound h (fun s => { s with mCommand := r })).setSound h
          (Sound.SetState .MIN_GAIN)) ∧
    (c = .MAX_GAIN → st.dispatch d h
      = (st.setSound h (fun s => { s with mCommand := r })).setSound h
          (Sound.SetState .MAX_GAIN)) ∧
    (c = .MAX_DIST →
      st.dispatch d h
        = (st.setSound h (fun s => { s with mCommand := r })).setSound h
            (Sound.SetState .MIN_DIST) ∧
      ((st.dispatch d h).sounds h).GetState .MIN_DIST = true ∧
      ((st.dispatch d h).sounds h).GetState .MAX_DIST = (st.sounds h).GetState .MAX_DIST) := by
  have hu' : ((st.setSound h (fun s => { s with mCommand := r })).sounds h).mIsInitialized
      = false := by
    simp [AudioManager.setSound, hu]
  have hn := notPlaying_of_unbound d h _ hu'
  have hd := dispatch_handle d h c r st hc
  refine ⟨?_, ?_, ?_, ?_, ?_, ?_, ?_⟩
  · intro e; subst e; rw [hd]
    simp only [AudioManager.handle, AudioManager.SetLoop, hn, if_true]
  · intro e; subst e; rw [hd]
    simp only [AudioManager.handle, AudioManager.ResetLoop, hn, if_true]
  · intro e; subst e; rw [hd]
    simp only [AudioManager.handle, AudioManager.SetReferenceDistance, hn, if_true]
  · intro e; subst e; rw [hd]
    simp only [AudioManager.handle, AudioManager.SetRolloff, hn, if_true]
  · intro e; subst e; rw [hd]
    simp only [AudioManager.handle, AudioManager.SetMinimumGain, hn, if_true]
  · intro e; subst e; rw [hd]
    simp only [AudioManager.handle, AudioManager.SetMaximumGain, hn, if_true]
  · intro e; subst e
    have e1 : st.dispatch d h
        = (st.setSound h (fun s => { s with mCommand := r })).setSound h
            (Sound.SetState .MIN_DIST) := by
      rw [hd]
      simp only [AudioManager.handle, AudioManager.SetMaximumDistance, hn, if_true]
    refine ⟨e1, ?_, ?_⟩
    · rw [e1]
      simp only [AudioManager.setSound, Function.update_same, GetState_SetState]
      simp
    · rw [e1]
      simp only [AudioManager.setSound, Function.update_same, GetState_SetState]
      simp [Sound.GetState]

/-- C25, at the failing input: a new sound is sent the command MAX_DIST, and `PreFrame`
dispatches it. Before, neither flag is set; afterwards the flag MIN_DIST is set and the flag
MAX_DIST is not. -/
theorem C25_MAX_DIST_records_MIN_DIST_witness :
    (((run quietDriver [.newSound, .command 0 .MAX_DIST]
        (AudioManager.init freshAL)).sounds 0).mIsInitialized = false ∧
      ((run quietDriver [.newSound, .command 0 .MAX_DIST]
        (AudioManager.init freshAL)).sounds 0).mCommand = [.MAX_DIST] ∧
      ((run quietDriver [.newSound, .command 0 .MAX_DIST]
        (AudioManager.init freshAL)).sounds 0).GetState .MIN_DIST = false ∧
      ((run quietDriver [.newSound, .command 0 .MAX_DIST]
        (AudioManager.init freshAL)).sounds 0).GetState .MAX_DIST = false) ∧
    (((run quietDriver [.newSound, .command 0 .MAX_DIST, .system .PRE_FRAME]
        (AudioManager.init freshAL)).sounds 0).GetState .MIN_DIST = true ∧
      ((run quietDriver [.newSound, .command 0 .MAX_DIST, .system .PRE_FRAME]
        (AudioManager.init freshAL)).sounds 0).GetState .MAX_DIST = false) ∧
    (((run quietDriver [.newSound, .command 0 .MAX_DIST]
          (AudioManager.init freshAL)).dispatch quietDriver 0).sounds 0).GetState .MIN_DIST
      = true :=
  ⟨by decide, by decide,
    ((C25_MAX_DIST_records_MIN_DIST quietDriver 0
      (run quietDriver [.newSound, .command 0 .MAX_DIST] (AudioManager.init freshAL))
      .MAX_DIST [] (by decide) (by decide)).2.2.2.2.2.2 rfl).2.1⟩

/-! ## Pending commands and their entries in the manager's queue -/

theorem Backed_of_queues (x y : AudioManager) (e : y.queues = x.queues) (hb : x.Backed) :
    y.Backed := by
  intro s
  have e1 : y.mSoundCommand = x.mSoundCommand := congrArg Prod.fst e
  have e2 : (y.sounds s).mCommand = (x.sounds s).mCommand := congrFun (congrArg Prod.snd e) s
  rw [e1, e2]; exact hb s

theorem queues_of_core (x y : AudioManager) (hc : y.core = x.core)
    (hq : y.mSoundCommand = x.mSoundCommand) : y.queues = x.queues := by
  unfold AudioManager.queues
  rw [hq]
  exact congrArg (Prod.mk _) (congrArg Core.pending hc)

theorem queues_handle (d : Driver) (c : Command) (h : Nat) (x : AudioManager) :
    (AudioManager.handle d c h x).queues = x.queues := by
  have hq := handle_queues d c h x
  unfold AudioManager.queues
  rw [hq.1]
  exact congrArg (Prod.mk _) (funext hq.2)

theorem queues_FreeSource (d : Driver) (snd : Option Nat) (x : AudioManager) :
    (x.FreeSource d snd).queues = x.queues := by
  have e := withCommands_FreeSource x.mSoundCommand (fun k => (x.sounds k).mCommand) d snd x
  rw [withCommands_self] at e
  rw [e]; rfl

theorem queues_LoadFile (d : Driver) (file : String) (x : AudioManager) :
    (x.LoadFile d file).2.queues = x.queues := by
  have e := withCommands_LoadFile x.mSoundCommand (fun k => (x.sounds k).mCommand) d file x
  rw [withCommands_self] at e
  have e2 := congrArg Prod.snd e
  simp only at e2
  rw [e2]; rfl

theorem queues_UnloadFile (d : Driver) (file : String) (x : AudioManager) :
    (x.UnloadFile d file).2.queues = x.queues := by
  have e := withCommands_UnloadFile x.mSoundCommand (fun k => (x.sounds k).mCommand) d file x
  rw [withCommands_self] at e
  have e2 := congrArg Prod.snd e
  simp only at e2
  rw [e2]; rfl

theorem queues_setSound (h : Nat) (f : Sound → Sound) (x : AudioManager)
    (hf : ∀ s, (f s).mCommand = s.mCommand) : (x.setSound h f).queues = x.queues := by
  unfold AudioManager.queues AudioManager.setSound
  refine congrArg (Prod.mk _) (funext fun k => ?_)
  by_cases hk : k = h
  · subst hk; simp [hf]
  · simp [Function.update_noteq hk]

theorem Config_mSoundCommand (d : Driver) (data : AudioConfigData) (x : AudioManager) :
    (x.Config d data).mSoundCommand = x.mSoundCommand := by
  unfold AudioManager.Config
  split
  · rfl
  · have hcs : ∀ y : AudioManager, (y.ConfigSources d data.numSources).2.mSoundCommand
        = y.mSoundCommand := by
      intro y
      unfold AudioManager.ConfigSources AudioManager.check
      simp only
      split
      · rfl
      · split
        · rfl
        · rw [(pushSources_spec d _ _).1]
    have hce : ∀ y : AudioManager, (y.ConfigEAX d data.eax).2.mSoundCommand
        = y.mSoundCommand := by
      intro y
      unfold AudioManager.ConfigEAX
      simp only
      repeat' split
      all_goals rfl
    have h0 := hcs (x.setDistanceModel data)
    split
    · rename_i st2 heq
      rw [heq] at h0; exact h0
    · rename_i st2 heq
      rw [heq] at h0
      rw [hce]; exact h0

theorem queues_Config (d : Driver) (data : AudioConfigData) (x : AudioManager) :
    (x.Config d data).queues = x.queues := by
  unfold AudioManager.queues
  rw [Config_mSoundCommand]
  refine congrArg (Prod.mk _) ?_
  rcases core_Config d data x with h | h
  · exact congrArg Core.pending h
  · exact congrArg Core.pending h.2

theorem queues_Frame (d : Driver) (x : AudioManager) : (x.Frame d).queues = x.queues := by
  refine queues_of_core _ _ (core_Frame d x) ?_
  have hfr : x.Frame d = AudioManager.frameErase
      (AudioManager.frameScan d (AudioManager.framePlays (AudioManager.frameStops d x)).mActiveList
        0 [] (AudioManager.framePlays (AudioManager.frameStops d x))).1
      (AudioManager.frameRewinds d (AudioManager.framePauses d
        (AudioManager.frameScan d
          (AudioManager.framePlays (AudioManager.frameStops d x)).mActiveList 0 []
          (AudioManager.framePlays (AudioManager.frameStops d x))).2)) := rfl
  rw [hfr, frameErase_fields, frameRewinds_fields, framePauses_fields, frameScan_fields]
  rfl

theorem queues_postFrameOne (d : Driver) (src : Nat) (x : AudioManager) :
    (AudioManager.postFrameOne d src x).queues = x.queues := by
  unfold AudioManager.postFrameOne
  cases x.mSourceMap src with
  | none => rfl
  | some h =>
    simp only
    rw [queues_FreeSource]
    exact queues_setSound h _ x (fun _ => rfl)

theorem queues_foldl (f : AudioManager → Nat → AudioManager) (l : List Nat)
    (hf : ∀ y s, (f y s).queues = y.queues) (x : AudioManager) :
    (l.foldl f x).queues = x.queues := by
  induction l generalizing x with
  | nil => rfl
  | cons s rest ih => rw [List.foldl_cons, ih, hf]

theorem queues_PostFrame (d : Driver) (x : AudioManager) :
    (x.PostFrame d).queues = x.queues := by
  unfold AudioManager.PostFrame
  rw [queues_foldl _ _ (fun y s => queues_postFrameOne d s y)]
  rfl

theorem queues_pauseStartOne (h : Nat) (x : AudioManager) :
    (AudioManager.pauseStartOne h x).queues = x.queues := by
  unfold AudioManager.pauseStartOne
  simp only
  have e := queues_handle quietDriver .PAUSE h
  simp only [AudioManager.handle] at e
  rw [e]
  split <;> rfl

theorem queues_pauseEndOne (d : Driver) (h : Nat) (x : AudioManager) :
    (AudioManager.pauseEndOne d h x).queues = x.queues := by
  have ht : (x.touchState h).queues = x.queues := by
    unfold AudioManager.touchState
    split <;> rfl
  unfold AudioManager.pauseEndOne
  simp only
  split
  · exact (queues_handle d .PAUSE h _).trans ht
  · exact (queues_handle d .PLAY h _).trans ht
  · exact (queues_handle d .STOP h _).trans ht
  · exact ht

/-- A sound command received by the manager gets an entry in the FIFO of the sound and one in
the queue of the manager. -/
theorem Backed_OnMessage (c : Command) (h : Nat) (x : AudioManager) (hb : x.Backed) :
    (x.OnMessage c h).Backed := by
  unfold AudioManager.OnMessage
  split
  · exact hb
  · intro s
    have := hb s
    by_cases hs : s = h
    · subst hs
      simp [AudioManager.setSound, Sound.EnqueueCommand]
      exact this
    · have hz : List.count s [h] = 0 :=
        List.count_eq_zero.mpr (fun hin => hs (List.mem_singleton.mp hin))
      simp only [AudioManager.setSound, Function.update_noteq hs, List.count_append, hz]
      exact this

theorem Backed_SendMessage (c : Command) (h : Nat) (x : AudioManager) (hb : x.Backed) :
    (Sound.SendMessage c h x).Backed := by
  unfold Sound.SendMessage
  split
  · exact Backed_OnMessage c h x hb
  · exact hb

/-- The loop of `PreFrame` keeps every FIFO backed: each turn takes one entry of the queue
and at most one command of the FIFO of the same sound. -/
theorem Backed_preFrameLoop (d : Driver) (q : List Nat) :
    ∀ x : AudioManager, x.mSoundCommand = q → x.Backed →
      (AudioManager.preFrameLoop d q x).Backed := by
  induction q with
  | nil => intro x _ hb; exact hb
  | cons h rest ih =>
    intro x hx hb
    rw [preFrameLoop_cons]
    have hq := dispatch_queues d h (AudioManager.setCommands rest x)
    refine ih _ hq.1 ?_
    intro s
    rw [hq.1]
    have := hb s
    rw [hx] at this
    by_cases hs : s = h
    · subst hs
      rw [hq.2.1]
      simp only [List.count_cons_self] at this
      simp only [List.length_tail]
      show (x.sounds s).mCommand.length - 1 ≤ List.count s rest
      omega
    · rw [hq.2.2 s hs]
      rw [List.count_cons_of_ne hs] at this
      exact this

theorem Backed_PreFrame (d : Driver) (x : AudioManager) (hb : x.Backed) :
    (x.PreFrame d).Backed :=
  Backed_preFrameLoop d _ x rfl hb

theorem Backed_NewSound (x : AudioManager) (hb : x.Backed) : x.NewSound.2.Backed := by
  unfold AudioManager.NewSound
  split
  · rename_i h rest _
    intro s
    by_cases hs : s = h
    · subst hs; simp [Sound.Clear]
    · simp only [Function.update_noteq hs]; exact hb s
  · intro s
    by_cases hs : s = x.nextSound
    · subst hs; simp [Sound.new]
    · simp only [Function.update_noteq hs]; exact hb s

/-- `FreeSound` empties the FIFO of the sound and leaves the queue of the manager alone. -/
theorem FreeSound_queues (d : Driver) (h : Nat) (x : AudioManager) :
    (x.FreeSound d (some h)).mSoundCommand = x.mSoundCommand ∧
    ((x.FreeSound d (some h)).sounds h).mCommand = [] ∧
    ∀ k, k ≠ h → ((x.FreeSound d (some h)).sounds k).mCommand = (x.sounds k).mCommand := by
  have e3 : (AudioManager.UnloadSound d h (AudioManager.FreeSource d (some h)
      (AudioManager.setSound h
        (fun s =>
          { s with hearsManager := false, hearsSystem := false, heardByManager := false })
        { x with mSoundList := x.mSoundList.erase h }))).queues = x.queues := by
    have e := queues_handle d .UNLOAD h
    simp only [AudioManager.handle] at e
    rw [e, queues_FreeSource]
    exact queues_setSound h _ { x with mSoundList := x.mSoundList.erase h } (fun _ => rfl)
  have e1 := congrArg Prod.fst e3
  have e2 := fun k => congrFun (congrArg Prod.snd e3) k
  simp only [AudioManager.queues] at e1 e2
  unfold AudioManager.FreeSound
  simp only
  refine ⟨e1, by simp [AudioManager.setSound, Sound.Clear], fun k hk => ?_⟩
  simp only [AudioManager.setSound, Function.update_noteq hk]
  exact e2 k

theorem Backed_FreeSound (d : Driver) (h : Nat) (x : AudioManager) (hb : x.Backed) :
    (x.FreeSound d (some h)).Backed := by
  have hq := FreeSound_queues d h x
  intro s
  rw [hq.1]
  by_cases hs : s = h
  · subst hs; rw [hq.2.1]; simp
  · rw [hq.2.2 s hs]; exact hb s

theorem Backed_OnSystemMessage (d : Driver) (m : AudioManager.SystemMessage)
    (x : AudioManager) (hb : x.Backed) : (x.OnSystemMessage d m).Backed := by
  cases m with
  | PRE_FRAME => exact Backed_PreFrame d x hb
  | FRAME => exact Backed_of_queues _ _ (queues_Frame d x) hb
  | POST_FRAME => exact Backed_of_queues _ _ (queues_PostFrame d x) hb
  | PAUSE =>
    exact Backed_of_queues _ _ (queues_PostFrame d _)
      (Backed_of_queues _ _ (queues_Frame d _) (Backed_PreFrame d x hb))
  | PAUSE_START =>
    refine Backed_of_queues x _ ?_ hb
    unfold AudioManager.OnSystemMessage
    simp only
    rw [queues_foldl _ _ (fun y s => queues_pauseStartOne s y)]
    rfl
  | PAUSE_END =>
    refine Backed_of_queues x _ ?_ hb
    unfold AudioManager.OnSystemMessage
    simp only
    rw [queues_foldl _ _ (fun y s => queues_pauseEndOne d s y)]

/-- Every action keeps every FIFO backed. -/
theorem step_backed (d : Driver) (a : Action) (x : AudioManager) (hb : x.Backed) :
    (step d a x).Backed := by
  have hset : ∀ (h : Nat) (f : Sound → Sound), (∀ s, (f s).mCommand = s.mCommand) →
      (x.setSound h f).Backed :=
    fun h f hf => Backed_of_queues _ _ (queues_setSound h f x hf) hb
  have hh : ∀ (c : Command) (h : Nat), (AudioManager.handle d c h x).Backed :=
    fun c h => Backed_of_queues _ _ (queues_handle d c h x) hb
  cases a with
  | config data => exact Backed_of_queues _ _ (queues_Config d data x) hb
  | newSound => exact Backed_NewSound x hb
  | freeSound h => exact Backed_FreeSound d h x hb
  | loadFile file => exact Backed_of_queues _ _ (queues_LoadFile d file x) hb
  | unloadFile file => exact Backed_of_queues _ _ (queues_UnloadFile d file x) hb
  | system m => exact Backed_OnSystemMessage d m x hb
  | command h c => exact Backed_SendMessage c h x hb
  | setGain h gain => exact Backed_SendMessage _ h _ (hset h _ (fun _ => rfl))
  | setPitch h pitch => exact Backed_SendMessage _ h _ (hset h _ (fun _ => rfl))
  | soundLoadFile h file => exact Backed_SendMessage _ h _ (hset h _ (fun _ => rfl))
  | setPosition h v => exact Backed_SendMessage _ h _ (hset h _ (fun _ => rfl))
  | setDirection h v => exact Backed_SendMessage _ h _ (hset h _ (fun _ => rfl))
  | setVelocity h v => exact Backed_SendMessage _ h _ (hset h _ (fun _ => rfl))
  | finish src => exact hb
  | playSound h => exact hh .PLAY h
  | pauseSound h => exact hh .PAUSE h
  | stopSound h => exact hh .STOP h
  | rewindSound h => exact hh .REWIND h
  | loadSound h => exact hh .LOAD h
  | unloadSound h => exact hh .UNLOAD h
  | freeSource h => exact Backed_of_queues _ _ (queues_FreeSource d (some h) x) hb

/-- Every run keeps every FIFO backed. -/
theorem run_backed (d : Driver) (acts : List Action) (x : AudioManager) (hb : x.Backed) :
    (run d acts x).Backed := by
  induction acts generalizing x with
  | nil => exact hb
  | cons a rest ih =>
    unfold run
    rw [List.foldl_cons]
    exact ih _ (step_backed d a x hb)

theorem Backed_init (al : OpenAL) : (AudioManager.init al).Backed := by
  intro s
  simp [AudioManager.init, Sound.new]

/-- C26 as stated fails: a new sound is sent PLAY and freed before the next `PreFrame`.
`FreeSound` empties the FIFO of the sound and leaves its entry in the queue of the manager:
the sound occurs once in the queue while its FIFO has length 0, and the entry `PreFrame`
takes from the queue finds no command (`DequeueCommand` returns null). -/
theorem C26_FreeSound_counterexample :
    (run quietDriver [.newSound, .command 0 .PLAY]
      (AudioManager.init freshAL)).mSoundCommand = [0] ∧
    ((run quietDriver [.newSound, .command 0 .PLAY]
      (AudioManager.init freshAL)).sounds 0).mCommand = [.PLAY] ∧
    (run quietDriver [.newSound, .command 0 .PLAY, .freeSound 0]
      (AudioManager.init freshAL)).mSoundCommand = [0] ∧
    ((run quietDriver [.newSound, .command 0 .PLAY, .freeSound 0]
      (AudioManager.init freshAL)).sounds 0).mCommand = [] ∧
    (run quietDriver [.newSound, .command 0 .PLAY, .freeSound 0]
        (AudioManager.init freshAL)).mSoundCommand.count 0
      ≠ ((run quietDriver [.newSound, .command 0 .PLAY, .freeSound 0]
        (AudioManager.init freshAL)).sounds 0).mCommand.length ∧
    ((run quietDriver [.newSound, .command 0 .PLAY, .freeSound 0]
      (AudioManager.init freshAL)).sounds 0).DequeueCommand.1 = none := by
  decide

/-- C26 (amended): in every state a run reaches from a new manager, every sound occurs in
the manager's queue of pending commands at least as often as its own command FIFO is long;
and after a `PreFrame` in such a state the queue and every FIFO are empty. -/
theorem C26_commands_are_backed (d : Driver) (al : OpenAL) (acts : List Action) :
    (∀ s, ((run d acts (AudioManager.init al)).sounds s).mCommand.length
      ≤ (run d acts (AudioManager.init al)).mSoundCommand.count s) ∧
    ((run d acts (AudioManager.init al)).PreFrame d).mSoundCommand = [] ∧
    (∀ s, (((run d acts (AudioManager.init al)).PreFrame d).sounds s).mCommand = []) := by
  have hb := run_backed d acts _ (Backed_init al)
  refine ⟨hb, PreFrame_mSoundCommand d _, fun s => ?_⟩
  have hp := Backed_PreFrame d _ hb s
  rw [PreFrame_mSoundCommand] at hp
  exact List.length_eq_zero.mp (Nat.le_zero.mp hp)

/-! ## The roles of a source -/

/-- C24 as stated fails: in `mixedSounds` source 1 plays and is in the active list; a PAUSE
command for its sound, dispatched by `PreFrame`, puts it on the pause queue as well, where
it waits for `Frame` while it stays in the active list; two PAUSE commands put it on the
pause queue twice. -/
theorem C24_active_and_requested_counterexample :
    (mixedSounds.mActiveList = [1, 2] ∧ mixedSounds.mPauseQueue = [] ∧
      mixedSounds.mSource = some [1, 2]) ∧
    ((run quietDriver [.command 0 .PAUSE, .system .PRE_FRAME] mixedSounds).mActiveList = [1, 2] ∧
      (run quietDriver [.command 0 .PAUSE, .system .PRE_FRAME] mixedSounds).mPauseQueue = [1]) ∧
    ((run quietDriver [.command 0 .PAUSE, .command 0 .PAUSE, .system .PRE_FRAME]
        mixedSounds).mActiveList = [1, 2] ∧
      (run quietDriver [.command 0 .PAUSE, .command 0 .PAUSE, .system .PRE_FRAME]
        mixedSounds).mPauseQueue = [1, 1]) := by
  decide!

/-- C24 (amended): let a run of the manager reach a state without a source array, let
`Config` succeed there, and let any further run follow, both runs keeping to the calling
convention (`FreeSound` is only given sounds of the sound list); the driver hands out
pairwise distinct source names. In the state reached every source of the pool is in exactly one of
two roles: either it is in the available queue, exactly once, and the source map has no
entry for it, or it is not in the available queue and the source map binds it to a sound,
which has this source. -/
theorem C24_available_or_bound (d : Driver) (hd : d.FreshNames) (al : OpenAL)
    (pre post : List Action) (data : AudioConfigData)
    (hpre : legal d pre (AudioManager.init al) = true)
    (hun : (run d pre (AudioManager.init al)).mSource = none)
    (hok : (((run d pre (AudioManager.init al)).setDistanceModel data).ConfigSources d
      data.numSources).1 = true)
    (hpost : legal d post ((run d pre (AudioManager.init al)).Config d data) = true) :
    ∀ s ∈ d.genSources data.numSources,
      ((run d post ((run d pre (AudioManager.init al)).Config d data)).mAvailable.count s = 1 ∧
        (run d post ((run d pre (AudioManager.init al)).Config d data)).mSourceMap s = none) ∨
      ((run d post ((run d pre (AudioManager.init al)).Config d data)).mAvailable.count s = 0 ∧
        ∃ h, (run d post ((run d pre (AudioManager.init al)).Config d data)).mSourceMap s
            = some h ∧
          ((run d post ((run d pre (AudioManager.init al)).Config d data)).sounds
            h).mIsInitialized = true ∧
          ((run d post ((run d pre (AudioManager.init al)).Config d data)).sounds
            h).mSource = s) := by
  have inv0 := run_inv d hd pre _ (Inv_init d al) hpre
  have hcs := ConfigSources_ok d _ _ hok
  have hcore := core_Config_generated d data _ hun hcs.1 hcs.2.1
  rw [hcs.2.2] at hcore
  have hun0 := inv0.unconfigured hun
  have inv1 := Inv_Config d hd data _ inv0
  have hp1 : ((run d pre (AudioManager.init al)).Config d data).core.Pool
      (d.genSources data.numSources) := by
    rw [hcore]
    refine ⟨rfl, fun s => ?_⟩
    have hav : (run d pre (AudioManager.init al)).mAvailable = [] := hun0.1
    have hmap : (run d pre (AudioManager.init al)).core.map s = none := hun0.2 s
    simp [hav, hmap]
  have inv2 := run_inv d hd post _ inv1 hpost
  have hp2 := run_pool d hd _ post _ inv1 hp1 hpost
  generalize run d post ((run d pre (AudioManager.init al)).Config d data) = st at inv2 hp2
  intro s hs
  rcases (hp2.2 s).mp hs with ha | hm
  · left
    exact ⟨List.count_eq_one_of_mem inv2.avail_nodup ha, (inv2.avail_free s ha).2⟩
  · right
    have hm' : (st.mSourceMap s).isSome = true := hm
    obtain ⟨h, hh⟩ := Option.isSome_iff_exists.mp hm'
    have hb := inv2.map_bound s h hh
    refine ⟨?_, h, hh, hb.1, hb.2.1⟩
    rw [List.count_eq_zero]
    intro ha
    have := (inv2.avail_free s ha).2
    rw [show st.core.map s = st.mSourceMap s from rfl, hh] at this
    exact Option.noConfusion this

/-- C24 (amended), at a concrete input: a pool of two sources is configured in a new
manager, and the session runs; afterwards source 1 is available and source 2 is bound. -/
theorem C24_available_or_bound_witness :
    quietDriver.FreshNames ∧
    legal quietDriver [.newSound] (AudioManager.init freshAL) = true ∧
    (run quietDriver [.newSound] (AudioManager.init freshAL)).mSource = none ∧
    (((run quietDriver [.newSound] (AudioManager.init freshAL)).setDistanceModel
      twoSources).ConfigSources quietDriver twoSources.numSources).1 = true ∧
    legal quietDriver session ((run quietDriver [.newSound]
      (AudioManager.init freshAL)).Config quietDriver twoSources) = true ∧
    (∀ s ∈ quietDriver.genSources twoSources.numSources,
      ((run quietDriver session ((run quietDriver [.newSound]
          (AudioManager.init freshAL)).Config quietDriver twoSources)).mAvailable.count s = 1 ∧
        (run quietDriver session ((run quietDriver [.newSound]
          (AudioManager.init freshAL)).Config quietDriver twoSources)).mSourceMap s = none) ∨
      ((run quietDriver session ((run quietDriver [.newSound]
          (AudioManager.init freshAL)).Config quietDriver twoSources)).mAvailable.count s = 0 ∧
        ∃ h, (run quietDriver session ((run quietDriver [.newSound]
            (AudioManager.init freshAL)).Config quietDriver twoSources)).mSourceMap s
            = some h ∧
          ((run quietDriver session ((run quietDriver [.newSound]
            (AudioManager.init freshAL)).Config quietDriver twoSources)).sounds
            h).mIsInitialized = true ∧
          ((run quietDriver session ((run quietDriver [.newSound]
            (AudioManager.init freshAL)).Config quietDriver twoSources)).sounds
            h).mSource = s)) :=
  ⟨quietDriver_fresh, by decide, rfl, by decide, by decide!,
    C24_available_or_bound quietDriver quietDriver_fresh freshAL [.newSound] session twoSources
      (by decide) rfl (by decide) (by decide!)⟩

/-! ## A source released while it is tracked -/

/-- C27, evaluated at the failing input: a sound plays on source 1, which is in the active
list, and is freed. `FreeSource` appends the source to the available queue and clears its
entry of the source map, and nothing takes it from the active list: afterwards source 1
is in the available queue and in the active list at once, bound to no sound. The next
`Frame` finds it INITIAL there and starts it. When two sounds are then created and played,
they are given sources 2 and 1, and after the next `PreFrame` and `Frame` the active list
holds source 1 twice. -/
theorem C27_freed_source_stays_tracked :
    ((run quietDriver
        [.config twoSources, .newSound, .soundLoadFile 0 "a.wav", .command 0 .PLAY,
         .system .PRE_FRAME, .system .FRAME, .system .POST_FRAME]
        (AudioManager.init freshAL)).mActiveList = [1] ∧
      (run quietDriver
        [.config twoSources, .newSound, .soundLoadFile 0 "a.wav", .command 0 .PLAY,
         .system .PRE_FRAME, .system .FRAME, .system .POST_FRAME]
        (AudioManager.init freshAL)).mAvailable = [2] ∧
      (run quietDriver
        [.config twoSources, .newSound, .soundLoadFile 0 "a.wav", .command 0 .PLAY,
         .system .PRE_FRAME, .system .FRAME, .system .POST_FRAME]
        (AudioManager.init freshAL)).mSourceMap 1 = some 0) ∧
    (freedWhilePlaying.mAvailable = [2, 1] ∧ freedWhilePlaying.mActiveList = [1] ∧
      freedWhilePlaying.mSourceMap 1 = none ∧
      freedWhilePlaying.al.sourceState 1 = .INITIAL) ∧
    ((freedWhilePlaying.Frame quietDriver).mAvailable = [2, 1] ∧
      (freedWhilePlaying.Frame quietDriver).mActiveList = [1] ∧
      (freedWhilePlaying.Frame quietDriver).al.sourceState 1 = .PLAYING) ∧
    ((run quietDriver
        [.newSound, .newSound, .soundLoadFile 0 "a.wav", .soundLoadFile 1 "a.wav",
         .command 0 .PLAY, .command 1 .PLAY, .system .PRE_FRAME]
        freedWhilePlaying).mPlayQueue = [2, 1] ∧
      (run quietDriver
        [.newSound, .newSound, .soundLoadFile 0 "a.wav", .soundLoadFile 1 "a.wav",
         .command 0 .PLAY, .command 1 .PLAY, .system .PRE_FRAME, .system .FRAME]
        freedWhilePlaying).mActiveList = [1, 2, 1]) := by
  decide!

/-! ## Claims that need the calling convention or the exact constants -/

/-- C2 as stated fails by the rounding of the constant: `SetPitch(0.0)` stores the lower
bound of the clamp, the single precision literal `0.000001f`, and `GetPitch` returns it; its
value `8796093 * 2^-43` is below `0.000001`, so the pitch is not in `[0.000001, 2.0]`. -/
theorem C2_SetPitch_below_decimal_counterexample :
    ((Sound.SetPitch 0 (.fin 0) (AudioManager.init freshAL)).sounds 0).GetPitch
      = .fin (8796093 / 8796093022208) ∧
    (8796093 / 8796093022208 : ℚ) < 1 / 1000000 ∧
    ¬ ∃ q : ℚ, ((Sound.SetPitch 0 (.fin 0) (AudioManager.init freshAL)).sounds 0).GetPitch
        = .fin q ∧ 1 / 1000000 ≤ q ∧ q ≤ 2 := by
  have e : ((Sound.SetPitch 0 (.fin 0) (AudioManager.init freshAL)).sounds 0).GetPitch
      = .fin (8796093 / 8796093022208) := by
    rw [GetPitch_SetPitch, CLAMP_fin 0 pitchFloor 2 (by norm_num [pitchFloor])]
    congr 1
    norm_num [pitchFloor]
  refine ⟨e, by norm_num, ?_⟩
  rintro ⟨q, hq, h1, _⟩
  rw [e] at hq
  have hq' : (8796093 / 8796093022208 : ℚ) = q := ALfloat.fin.inj hq
  rw [← hq'] at h1
  norm_num at h1

/-- C4 as stated fails when `FreeSound` is given a sound that is not in the sound list. With
a driver whose source names start at 0 and a pool of two sources, the session `twiceFreedZero`
(which does not keep to the calling convention) ends with source 0 twice in the available
queue and source 1 still bound by the source map: three instead of two. With source names
starting at 1 the session `twiceFreed`, followed by `FreeSound` of the sound, ends with one
available source, while the sound has no source any more and the other source stays in the
source map. -/
theorem C4_double_FreeSound_counterexample :
    (zeroNameDriver.FreshNames ∧
      legal zeroNameDriver twiceFreedZero (AudioManager.init freshAL) = false ∧
      (run zeroNameDriver twiceFreedZero (AudioManager.init freshAL)).mSource = some [0, 1] ∧
      (run zeroNameDriver twiceFreedZero (AudioManager.init freshAL)).mAvailable = [0, 0] ∧
      (run zeroNameDriver twiceFreedZero (AudioManager.init freshAL)).boundSources = [1] ∧
      (run zeroNameDriver twiceFreedZero (AudioManager.init freshAL)).mAvailable.length
        + (run zeroNameDriver twiceFreedZero (AudioManager.init freshAL)).boundSources.length
        ≠ twoSources.numSources) ∧
    ((run quietDriver (twiceFreed ++ [.freeSound 0]) (AudioManager.init freshAL)).mSource
        = some [1, 2] ∧
      (run quietDriver (twiceFreed ++ [.freeSound 0]) (AudioManager.init freshAL)).mAvailable
        = [2] ∧
      ((run quietDriver (twiceFreed ++ [.freeSound 0])
        (AudioManager.init freshAL)).sounds 0).mIsInitialized = false ∧
      (run quietDriver (twiceFreed ++ [.freeSound 0]) (AudioManager.init freshAL)).mSourceMap 1
        = some 0 ∧
      (run quietDriver (twiceFreed ++ [.freeSound 0]) (AudioManager.init freshAL)).mSoundList
        = [0]) := by
  refine ⟨⟨fun n => ⟨List.nodup_range n, List.length_range n⟩, ?_⟩, ?_⟩
  · decide!
  · decide!

/-- C5 as stated fails when `FreeSound` is given a sound that is not in the sound list. After
the session `twiceFreed` (which does not keep to the calling convention) the source map maps
source 1 to the sound 0, while the sound 0, cleared by the second `NewSound` that returned
it, is initialized with source 0; and after a `FreeSound` of the sound it is not initialized
and still the value of the source-map entry of source 1. -/
theorem C5_double_FreeSound_counterexample :
    legal quietDriver twiceFreed (AudioManager.init freshAL) = false ∧
    ((run quietDriver twiceFreed (AudioManager.init freshAL)).mSourceMap 1 = some 0 ∧
      ((run quietDriver twiceFreed (AudioManager.init freshAL)).sounds 0).mIsInitialized
        = true ∧
      ((run quietDriver twiceFreed (AudioManager.init freshAL)).sounds 0).mSource = 0 ∧
      ¬ (((run quietDriver twiceFreed (AudioManager.init freshAL)).sounds 0).mIsInitialized
            = true ∧
          ((run quietDriver twiceFreed (AudioManager.init freshAL)).sounds 0).mSource = 1 ↔
        (run quietDriver twiceFreed (AudioManager.init freshAL)).mSourceMap 1 = some 0)) ∧
    (((run quietDriver (twiceFreed ++ [.freeSound 0])
        (AudioManager.init freshAL)).sounds 0).mIsInitialized = false ∧
      (run quietDriver (twiceFreed ++ [.freeSound 0]) (AudioManager.init freshAL)).mSourceMap 1
        = some 0) := by
  decide!

/-- C20 as stated fails for a source that is in the active list twice: in `trackedTwice` the
active list is `[1, 2, 1]` and source 1 has stopped; `Frame` removes both entries and puts the
source on the stop queue once for each: the stop queue holds it twice, not once. The state is
reached by runs that keep to the calling convention. -/
theorem C20_source_queued_twice_counterexample :
    (legal quietDriver
        [.config twoSources, .newSound, .soundLoadFile 0 "a.wav", .command 0 .PLAY,
         .system .PRE_FRAME, .system .FRAME, .system .POST_FRAME, .freeSound 0]
        (AudioManager.init freshAL) = true ∧
      legal quietDriver
        [.newSound, .newSound, .soundLoadFile 0 "a.wav", .soundLoadFile 1 "a.wav",
         .command 0 .PLAY, .command 1 .PLAY, .system .PRE_FRAME, .system .FRAME, .finish 1]
        freedWhilePlaying = true) ∧
    (trackedTwice.mActiveList = [1, 2, 1] ∧ trackedTwice.mPlayQueue = [] ∧
      trackedTwice.mStopQueue = [] ∧ trackedTwice.al.sourceState 1 = .STOPPED ∧
      trackedTwice.al.sourceState 2 = .PLAYING) ∧
    (trackedTwice.Frame quietDriver).mActiveList = [2] ∧
    (trackedTwice.Frame quietDriver).mStopQueue = [1, 1] ∧
    (trackedTwice.Frame quietDriver).mStopQueue.count 1 ≠ 1 := by
  decide!

end Delta3D
